import Mathlib

/-!
# SuperTux sector collision core: a shallow embedding

The definitions below transcribe the collision family of
`src/supertux/sector.cpp` (`check_collisions`, `get_hit_normal`,
`collision_object`, `collision_tilemap`, `collision_static`,
`collision_static_constrains`, `handle_collisions`) into pure functions.

Conventions of the embedding:

* C++ `float`/`double` values are exact rationals (`ℚ`); rounding is not modelled.
* A bound of a constraint set that is still at its initial infinity is `none`.
* The virtual callbacks of a body (`collides`, `collision`, `collision_solid`,
  `collision_tile`) are oracles stored in the body; every invocation is recorded
  in an event list, in program order.  Callbacks do not touch rectangles.
* An `assert` that fails makes the enclosing function return `none`.
-/

namespace SuperTux

/-! ## Geometry primitives -/

/-- Modelled from the spec: the 2D vector of `math/vector.hpp` (header not
among the sources); default construction gives `(0, 0)`. -/
structure Vector where
  x : ℚ
  y : ℚ
deriving DecidableEq

namespace Vector

/-- The default-constructed vector `Vector()` and `Vector(0, 0)`. -/
def zero : Vector := ⟨0, 0⟩

/-- The sum of two vectors, `operator+`. -/
def add (a b : Vector) : Vector := ⟨a.x + b.x, a.y + b.y⟩

/-- The unary minus, `operator-`. -/
def neg (a : Vector) : Vector := ⟨-a.x, -a.y⟩

/-- Scaling by a scalar, `operator*=`. -/
def scale (a : Vector) (s : ℚ) : Vector := ⟨a.x * s, a.y * s⟩

end Vector

/-- Modelled from the spec: the axis-aligned rectangle of `math/rectf.hpp`
(header not among the sources): upper-left corner `p1`, lower-right corner `p2`. -/
structure Rectf where
  p1 : Vector
  p2 : Vector
deriving DecidableEq

namespace Rectf

/-- The X coordinate of the left edge. -/
def get_left (r : Rectf) : ℚ := r.p1.x
/-- The X coordinate of the right edge. -/
def get_right (r : Rectf) : ℚ := r.p2.x
/-- The Y coordinate of the top edge (Y grows downwards). -/
def get_top (r : Rectf) : ℚ := r.p1.y
/-- The Y coordinate of the bottom edge. -/
def get_bottom (r : Rectf) : ℚ := r.p2.y
/-- The horizontal extent. -/
def get_width (r : Rectf) : ℚ := r.p2.x - r.p1.x
/-- The vertical extent. -/
def get_height (r : Rectf) : ℚ := r.p2.y - r.p1.y

/-- Translation of both corners, `Rectf::move`. -/
def move (r : Rectf) (v : Vector) : Rectf := ⟨r.p1.add v, r.p2.add v⟩

end Rectf

/-- Modelled from the spec: the hit-side flags of `supertux/collision_hit.hpp`
(header not among the sources): which sides were hit, and the crush flag.
A default-constructed value has every flag cleared. -/
structure CollisionHit where
  left : Bool := false
  right : Bool := false
  top : Bool := false
  bottom : Bool := false
  crush : Bool := false
deriving DecidableEq

/-- The two `std::swap` calls of `collision_object`: left/right and top/bottom exchanged. -/
def CollisionHit.swapped (h : CollisionHit) : CollisionHit :=
  { h with left := h.right, right := h.left, top := h.bottom, bottom := h.top }

/-- Modelled from the spec: the three outcomes of a pairwise collision callback
(abort, ordinary, force-move). -/
inductive HitResponse where
  | ABORT_MOVE
  | CONTINUE
  | FORCE_MOVE
deriving DecidableEq

/-- Modelled from the spec: the collision group tag of a body (static, moving,
moving-static, moving-only-static, touchable, disabled). -/
inductive CollisionGroup where
  | COLGROUP_DISABLED
  | COLGROUP_MOVING
  | COLGROUP_MOVING_ONLY_STATIC
  | COLGROUP_MOVING_STATIC
  | COLGROUP_STATIC
  | COLGROUP_TOUCHABLE
deriving DecidableEq

open CollisionGroup HitResponse

/-- Modelled from the spec: `collision::intersects` of `supertux/collision.hpp`
(header not among the sources): the two closed rectangles overlap, i.e. neither
lies strictly to one side of the other on either axis. -/
def intersects (r1 r2 : Rectf) : Bool :=
  if r1.p2.x < r2.p1.x ∨ r1.p1.x > r2.p2.x then false
  else if r1.p2.y < r2.p1.y ∨ r1.p1.y > r2.p2.y then false
  else true

/-! ## Constraint accumulator -/

/-- Modelled from the spec: `collision::Constraints` of `supertux/collision.hpp`
(header not among the sources): four scalar bounds, the hit-side flags and the
accumulated ground movement.  A bound that is still at its initial infinity
(`-infinity` for `left`/`top`, `+infinity` for `right`/`bottom`) is `none`. -/
structure Constraints where
  left : Option ℚ := none
  right : Option ℚ := none
  top : Option ℚ := none
  bottom : Option ℚ := none
  ground_movement : Vector := Vector.zero
  hit : CollisionHit := {}

namespace Constraints

/-- A bound differs from its initial infinity. -/
def has_constraints (c : Constraints) : Bool :=
  c.left.isSome || c.right.isSome || c.top.isSome || c.bottom.isSome

/-- Raise a lower bound: `max(bound, v)` with `none` as `-infinity`. -/
def raise (bound : Option ℚ) (v : ℚ) : Option ℚ :=
  match bound with
  | none => some v
  | some b => some (max b v)

/-- Lower an upper bound: `min(bound, v)` with `none` as `+infinity`. -/
def lower (bound : Option ℚ) (v : ℚ) : Option ℚ :=
  match bound with
  | none => some v
  | some b => some (min b v)

/-- The method `max_left`: the left bound becomes `max(left, v)`. -/
def max_left (c : Constraints) (v : ℚ) : Constraints := { c with left := raise c.left v }
/-- The method `min_right`: the right bound becomes `min(right, v)`. -/
def min_right (c : Constraints) (v : ℚ) : Constraints := { c with right := lower c.right v }
/-- The method `max_top`: the top bound becomes `max(top, v)`. -/
def max_top (c : Constraints) (v : ℚ) : Constraints := { c with top := raise c.top v }
/-- The method `min_bottom`: the bottom bound becomes `min(bottom, v)`. -/
def min_bottom (c : Constraints) (v : ℚ) : Constraints := { c with bottom := lower c.bottom v }

end Constraints

/-! ## Bodies and callbacks -/

/-- A moving simulation body (`MovingObject`): bounding box, pending movement,
collision group, destination scratch rectangle and validity flag, together with
its pairwise callbacks as oracles.  `uid` stands for the object's address (the
code compares pointers); the callbacks receive the other body's `uid`. -/
structure MovingObject where
  uid : Nat
  bbox : Rectf
  movement : Vector
  group : CollisionGroup
  dest : Rectf
  valid : Bool
  collides : Nat → CollisionHit → Bool
  collision : Nat → CollisionHit → HitResponse

namespace MovingObject

/-- The accessor `get_bbox`. -/
def get_bbox (o : MovingObject) : Rectf := o.bbox
/-- The accessor `get_movement`. -/
def get_movement (o : MovingObject) : Vector := o.movement
/-- The accessor `get_group`. -/
def get_group (o : MovingObject) : CollisionGroup := o.group
/-- The accessor `is_valid` of `GameObject` (game_object.hpp 84). -/
def is_valid (o : MovingObject) : Bool := o.valid

end MovingObject

/-- One callback invocation: receiver, the other body (if any) and the argument. -/
inductive Event where
  | collides (self other : Nat) (hit : CollisionHit)
  | collision (self other : Nat) (hit : CollisionHit)
  | collision_solid (self : Nat) (hit : CollisionHit)
  | collision_tile (self : Nat) (attributes : Nat)
deriving DecidableEq

/-! ## Tiles and tile layers -/

/-- Modelled from the spec: a tile of `supertux/tile.hpp` (header not among the
sources): an attribute bitmask and, for slope tiles, the slope code in `data`. -/
structure Tile where
  attributes : Nat
  data : Nat
deriving DecidableEq

namespace Tile

/-- Modelled from the spec: attribute bit of blocking tiles, `Tile::SOLID` of
`supertux/tile.hpp` (header not among the sources). -/
def SOLID : Nat := 0x0001
/-- Modelled from the spec: attribute bit of one-way tiles (`Tile::UNISOLID`). -/
def UNISOLID : Nat := 0x0002
/-- Modelled from the spec: attribute bit of slope tiles (`Tile::SLOPE`). -/
def SLOPE : Nat := 0x0010
/-- Modelled from the spec: attribute bit of ice tiles (`Tile::ICE`). -/
def ICE : Nat := 0x0100
/-- Modelled from the spec: the lowest non-blocking interesting attribute
(`Tile::FIRST_INTERESTING_FLAG`). -/
def FIRST_INTERESTING_FLAG : Nat := 0x0100

/-- The accessor `getAttributes`. -/
def getAttributes (t : Tile) : Nat := t.attributes
/-- The accessor `getData`. -/
def getData (t : Tile) : Nat := t.data

end Tile

/-- Modelled from the spec: the axis-aligned right triangle of
`math/aatriangle.hpp` (header not among the sources): the tile cell and the
direction+deformation code, one of 4 directions x 5 deformations. -/
structure AATriangle where
  bbox : Rectf
  dir : Nat
deriving DecidableEq

namespace AATriangle

/-- Modelled from the spec: the direction code `AATriangle::SOUTHWEST`. -/
def SOUTHWEST : Nat := 0
/-- Modelled from the spec: the direction code `AATriangle::NORTHEAST`. -/
def NORTHEAST : Nat := 1
/-- Modelled from the spec: the direction code `AATriangle::SOUTHEAST`. -/
def SOUTHEAST : Nat := 2
/-- Modelled from the spec: the direction code `AATriangle::NORTHWEST`. -/
def NORTHWEST : Nat := 3
/-- Modelled from the spec: the mask of the four direction codes. -/
def DIRECTION_MASK : Nat := 0x0003
/-- Modelled from the spec: the first deformation code (bottom half). -/
def DEFORM1 : Nat := 0x0010
/-- Modelled from the spec: the second deformation code (top half). -/
def DEFORM2 : Nat := 0x0020
/-- Modelled from the spec: the third deformation code (left half). -/
def DEFORM3 : Nat := 0x0030
/-- Modelled from the spec: the fourth deformation code (right half). -/
def DEFORM4 : Nat := 0x0040
/-- Modelled from the spec: the mask of the deformation codes. -/
def DEFORM_MASK : Nat := 0x0070

end AATriangle

/-- The macro `DEFORM_BOTTOM` (sector.cpp 63). -/
def DEFORM_BOTTOM : Nat := AATriangle.DEFORM1
/-- The macro `DEFORM_TOP` (sector.cpp 64). -/
def DEFORM_TOP : Nat := AATriangle.DEFORM2
/-- The macro `DEFORM_LEFT` (sector.cpp 65). -/
def DEFORM_LEFT : Nat := AATriangle.DEFORM3
/-- The macro `DEFORM_RIGHT` (sector.cpp 66). -/
def DEFORM_RIGHT : Nat := AATriangle.DEFORM4

/-- Modelled from the spec: the integer rectangle `Rect` of tile indices,
inclusive-exclusive. -/
structure Rect where
  left : Int
  top : Int
  right : Int
  bottom : Int
deriving DecidableEq

/-- Modelled from the spec: a tile layer (`TileMap` of `object/tilemap.hpp`,
header not among the sources), given by its query surface: the tile-index range
overlapping a rectangle, the tile of a cell (NULL is `none`), the box of a cell,
the layer's movement and whether its drawing effect is `VERTICAL_FLIP`. -/
structure TileMap where
  get_tiles_overlapping : Rectf → Rect
  get_tile : Int → Int → Option Tile
  get_tile_bbox : Int → Int → Rectf
  get_movement : Vector
  is_vertical_flip : Bool

/-- The constants of `supertux/constants.hpp` (header not among the sources)
and the helpers of math and collision code that are not among the sources,
taken as parameters. -/
structure Config where
  /-- The small separation `DELTA`. -/
  DELTA : ℚ
  /-- The shift-out threshold `SHIFT_DELTA`. -/
  SHIFT_DELTA : ℚ
  /-- The normalisation `Vector::unit` (it needs a square root). -/
  unit : Vector → Vector
  /-- The slope-code flip `AATriangle::vertical_flip`. -/
  vertical_flip : Nat → Nat
  /-- The triangle test `collision::rectangle_aatriangle` applied to the
  constraint set, the rectangle, the triangle and the additional ground
  movement; it returns its result and the constraint set afterwards. -/
  rectangle_aatriangle : Constraints → Rectf → AATriangle → Vector → Bool × Constraints

/-! ## Rectangle-vs-rectangle test -/

/-- The tail of `check_collisions` (sector.cpp 939-957): tighten the bound on the
axis of the smaller penetration and set the matching flag. -/
def tighten_smaller (constraints : Constraints) (r2 : Rectf)
    (itop ibottom ileft iright : ℚ) : Constraints :=
  let vert_penetration := min itop ibottom
  let horiz_penetration := min ileft iright
  if vert_penetration < horiz_penetration then
    if itop < ibottom then
      { constraints.min_bottom r2.get_top with hit := { constraints.hit with bottom := true } }
    else
      { constraints.max_top r2.get_bottom with hit := { constraints.hit with top := true } }
  else
    if ileft < iright then
      { constraints.min_right r2.get_left with hit := { constraints.hit with right := true } }
    else
      { constraints.max_left r2.get_right with hit := { constraints.hit with left := true } }

/-- The function `check_collisions` (sector.cpp 888-958); `r1` is the moving
rectangle, `r2` the solid one.  `objs` is `some (object, other)` for the call
with both bodies given and `none` for the tile call, where both pointers are
NULL.  Returns the constraint set and the callbacks invoked. -/
def check_collisions (cfg : Config) (constraints : Constraints) (movement : Vector)
    (r1 r2 : Rectf) (objs : Option (MovingObject × MovingObject))
    (addl_ground_movement : Vector) : Constraints × List Event :=
  if !intersects r1 r2 then (constraints, [])
  else
    let dummy : CollisionHit := {}
    -- other != NULL && !other->collides(*object, dummy)
    let ev1 : List Event := match objs with
      | some (object, other) => [Event.collides other.uid object.uid dummy]
      | none => []
    let veto1 : Bool := match objs with
      | some (object, other) => !other.collides object.uid dummy
      | none => false
    if veto1 then (constraints, ev1)
    else
      -- moving_object != NULL && !moving_object->collides(*other, dummy)
      let ev2 : List Event := match objs with
        | some (object, other) => ev1 ++ [Event.collides object.uid other.uid dummy]
        | none => ev1
      let veto2 : Bool := match objs with
        | some (object, other) => !object.collides other.uid dummy
        | none => false
      if veto2 then (constraints, ev2)
      else
        let itop := r1.get_bottom - r2.get_top
        let ibottom := r2.get_bottom - r1.get_top
        let ileft := r1.get_right - r2.get_left
        let iright := r2.get_right - r1.get_left
        let rest : Constraints × List Event :=
          let c1 : Constraints :=
            { constraints with
              ground_movement := constraints.ground_movement.add addl_ground_movement }
          match objs with
          | none => (tighten_smaller c1 r2 itop ibottom ileft iright, ev2)
          | some (object, other) =>
            let response := other.collision object.uid dummy
            let ev3 := ev2 ++ [Event.collision other.uid object.uid dummy]
            if response = ABORT_MOVE then (c1, ev3)
            else
              let c2 : Constraints :=
                if other.get_movement ≠ Vector.zero then
                  { c1 with ground_movement := other.get_movement }
                else c1
              (tighten_smaller c2 r2 itop ibottom ileft iright, ev3)
        if |movement.y| > |movement.x| then
          if ileft < cfg.SHIFT_DELTA then (constraints.min_right r2.get_left, ev2)
          else if iright < cfg.SHIFT_DELTA then (constraints.max_left r2.get_right, ev2)
          else rest
        else
          -- shiftout bottom/top
          if itop < cfg.SHIFT_DELTA then (constraints.min_bottom r2.get_top, ev2)
          else if ibottom < cfg.SHIFT_DELTA then (constraints.max_top r2.get_bottom, ev2)
          else rest

/-! ## Body-vs-body resolver -/

/-- The function `get_hit_normal` (sector.cpp 1351-1378): fills the hit flags and
the normal of two intersecting rectangles, starting from the values passed in. -/
def get_hit_normal (r1 r2 : Rectf) (hit : CollisionHit) (normal : Vector) :
    CollisionHit × Vector :=
  let itop := r1.get_bottom - r2.get_top
  let ibottom := r2.get_bottom - r1.get_top
  let ileft := r1.get_right - r2.get_left
  let iright := r2.get_right - r1.get_left
  let vert_penetration := min itop ibottom
  let horiz_penetration := min ileft iright
  if vert_penetration < horiz_penetration then
    if itop < ibottom then
      ({ hit with bottom := true }, { normal with y := vert_penetration })
    else
      ({ hit with top := true }, { normal with y := -vert_penetration })
  else
    if ileft < iright then
      ({ hit with right := true }, { normal with x := horiz_penetration })
    else
      ({ hit with left := true }, { normal with x := -horiz_penetration })

/-- The method `Sector::collision_object` (sector.cpp 1380-1418): returns the two
bodies after the call and the callbacks invoked. -/
def collision_object (cfg : Config) (object1 object2 : MovingObject) :
    MovingObject × MovingObject × List Event :=
  let r1 := object1.dest
  let r2 := object2.dest
  let hit0 : CollisionHit := {}
  if intersects object1.dest object2.dest then
    let hn := get_hit_normal r1 r2 hit0 Vector.zero
    let hit := hn.1
    let normal := hn.2
    let ev1 := [Event.collides object1.uid object2.uid hit]
    if !object1.collides object2.uid hit then (object1, object2, ev1)
    else
      let hit := hit.swapped
      let ev2 := ev1 ++ [Event.collides object2.uid object1.uid hit]
      if !object2.collides object1.uid hit then (object1, object2, ev2)
      else
        let hit := hit.swapped
        let response1 := object1.collision object2.uid hit
        let ev3 := ev2 ++ [Event.collision object1.uid object2.uid hit]
        let hit := hit.swapped
        let response2 := object2.collision object1.uid hit
        let ev4 := ev3 ++ [Event.collision object2.uid object1.uid hit]
        if response1 = CONTINUE ∧ response2 = CONTINUE then
          let normal := normal.scale (1 / 2 + cfg.DELTA)
          ({ object1 with dest := object1.dest.move normal.neg },
           { object2 with dest := object2.dest.move normal }, ev4)
        else if response1 = CONTINUE ∧ response2 = FORCE_MOVE then
          let normal := normal.scale (1 + cfg.DELTA)
          ({ object1 with dest := object1.dest.move normal.neg }, object2, ev4)
        else if response1 = FORCE_MOVE ∧ response2 = CONTINUE then
          let normal := normal.scale (1 + cfg.DELTA)
          (object1, { object2 with dest := object2.dest.move normal }, ev4)
        else (object1, object2, ev4)
  else (object1, object2, [])

/-! ## Unisolid tiles -/

/-- The macro `MV_NON_SOLID` (sector.cpp 970). -/
def MV_NON_SOLID : Int := 0
/-- The macro `MV_SOLID` (sector.cpp 971). -/
def MV_SOLID : Int := 1

/-- The function `check_movement_unisolid` (sector.cpp 962-1062): zero if a
unisolid tile is non-solid due to the movement direction, non-zero if it is
solid.  A failing `assert` is `none`. -/
def check_movement_unisolid (movement : Vector) (tile : Tile) : Option Int :=
  /- If the tile is not a slope, this is very easy. -/
  if tile.getAttributes &&& Tile.SLOPE = 0 then
    if movement.y ≥ 0 then some MV_SOLID else some MV_NON_SOLID
  else
    let slope_info := tile.getData
    let d := slope_info &&& AATriangle.DIRECTION_MASK
    let mv : ℚ × ℚ :=
      if d = AATriangle.SOUTHEAST then (movement.x, movement.y)
      else if d = AATriangle.SOUTHWEST then (movement.x * (-1), movement.y)
      else if d = AATriangle.NORTHEAST then (movement.x, movement.y * (-1))
      else if d = AATriangle.NORTHWEST then (movement.x * (-1), movement.y * (-1))
      else (movement.x, movement.y)
    let mv_x := mv.1
    let mv_y := mv.2
    if mv_x ≥ 0 ∧ mv_y ≥ 0 then some MV_SOLID
    else if mv_x ≤ 0 ∧ mv_y ≤ 0 then some MV_NON_SOLID
    else if ¬ (mv_x ≠ 0) then none
    else if ¬ (mv_y ≠ 0) then none
    else
      let mv_tan := (-1) * mv_y / mv_x
      let f := slope_info &&& AATriangle.DEFORM_MASK
      let slope_tan : ℚ :=
        if f = DEFORM_BOTTOM ∨ f = DEFORM_TOP then 1 / 2
        else if f = DEFORM_LEFT ∨ f = DEFORM_RIGHT then 2
        else 1
      if mv_x > 0 then
        if ¬ (mv_y < 0) then none
        else if mv_tan ≤ slope_tan then some MV_SOLID else some MV_NON_SOLID
      else if mv_x < 0 then
        if ¬ (mv_y > 0) then none
        else if mv_tan ≥ slope_tan then some MV_SOLID else some MV_NON_SOLID
      else none

/-- The function `is_above_line` (sector.cpp 1064-1074). -/
def is_above_line (l_x l_y m p_x p_y : ℚ) : Int :=
  let interp_y := l_y + (m * (p_x - l_x))
  if interp_y = p_y then 1
  else if interp_y > p_y then 1
  else 0

/-- The function `is_below_line` (sector.cpp 1076-1083). -/
def is_below_line (l_x l_y m p_x p_y : ℚ) : Int :=
  if is_above_line l_x l_y m p_x p_y ≠ 0 then 0 else 1

/-- The macro `POS_NON_SOLID` (sector.cpp 1098). -/
def POS_NON_SOLID : Int := 0
/-- The macro `POS_SOLID` (sector.cpp 1099). -/
def POS_SOLID : Int := 1

/-- The first switch of `check_position_unisolid` (sector.cpp 1114-1159): anchor
point and gradient of the line describing the slope surface, for each of the 20
cases; the default branch is a failing `assert`. -/
def slope_line (tile_bbox : Rectf) (slope_info : Nat) : Option (ℚ × ℚ × ℚ) :=
  let c := slope_info &&& (AATriangle.DIRECTION_MASK ||| AATriangle.DEFORM_MASK)
  if c = AATriangle.SOUTHWEST ∨ c = (AATriangle.SOUTHWEST ||| DEFORM_TOP)
      ∨ c = (AATriangle.SOUTHWEST ||| DEFORM_LEFT)
      ∨ c = AATriangle.NORTHEAST ∨ c = (AATriangle.NORTHEAST ||| DEFORM_TOP)
      ∨ c = (AATriangle.NORTHEAST ||| DEFORM_LEFT) then
    some (tile_bbox.get_left, tile_bbox.get_top, 1)
  else if c = AATriangle.SOUTHEAST ∨ c = (AATriangle.SOUTHEAST ||| DEFORM_TOP)
      ∨ c = (AATriangle.SOUTHEAST ||| DEFORM_RIGHT)
      ∨ c = AATriangle.NORTHWEST ∨ c = (AATriangle.NORTHWEST ||| DEFORM_TOP)
      ∨ c = (AATriangle.NORTHWEST ||| DEFORM_RIGHT) then
    some (tile_bbox.get_right, tile_bbox.get_top, -1)
  else if c = (AATriangle.SOUTHEAST ||| DEFORM_BOTTOM)
      ∨ c = (AATriangle.SOUTHEAST ||| DEFORM_LEFT)
      ∨ c = (AATriangle.NORTHWEST ||| DEFORM_BOTTOM)
      ∨ c = (AATriangle.NORTHWEST ||| DEFORM_LEFT) then
    some (tile_bbox.get_left, tile_bbox.get_bottom, -1)
  else if c = (AATriangle.SOUTHWEST ||| DEFORM_BOTTOM)
      ∨ c = (AATriangle.SOUTHWEST ||| DEFORM_RIGHT)
      ∨ c = (AATriangle.NORTHEAST ||| DEFORM_BOTTOM)
      ∨ c = (AATriangle.NORTHEAST ||| DEFORM_RIGHT) then
    some (tile_bbox.get_right, tile_bbox.get_bottom, 1)
  else none

/-- The second switch of `check_position_unisolid` (sector.cpp 1164-1195): the
signs of `delta_x`, `delta_y` and the interesting corner of the object box.
The switch has no default; the direction mask leaves only the four cases. -/
def slope_corner (cfg : Config) (obj_bbox : Rectf) (slope_info : Nat) : ℚ × ℚ × ℚ × ℚ :=
  let delta_x : ℚ := 1 * cfg.SHIFT_DELTA
  let delta_y : ℚ := 1 * cfg.SHIFT_DELTA
  let d := slope_info &&& AATriangle.DIRECTION_MASK
  if d = AATriangle.SOUTHWEST then
    (delta_x * 1, delta_y * (-1), obj_bbox.get_left, obj_bbox.get_bottom)
  else if d = AATriangle.SOUTHEAST then
    (delta_x * (-1), delta_y * (-1), obj_bbox.get_right, obj_bbox.get_bottom)
  else if d = AATriangle.NORTHWEST then
    (delta_x * 1, delta_y * 1, obj_bbox.get_left, obj_bbox.get_top)
  else
    (delta_x * (-1), delta_y * 1, obj_bbox.get_right, obj_bbox.get_top)

/-- The literal `.70710678118654752440` (sector.cpp 1202), 1/sqrt(2). -/
def ONE_OVER_SQRT2 : ℚ := 70710678118654752440 / 100000000000000000000
/-- The literal `.44721359549995793928` (sector.cpp 1208), 1/sqrt(5). -/
def ONE_OVER_SQRT5 : ℚ := 44721359549995793928 / 100000000000000000000
/-- The literal `.89442719099991587856` (sector.cpp 1209), 2/sqrt(5). -/
def TWO_OVER_SQRT5 : ℚ := 89442719099991587856 / 100000000000000000000

/-- The function `check_position_unisolid` (sector.cpp 1085-1244).  A failing
`assert` is `none`. -/
def check_position_unisolid (cfg : Config) (obj_bbox tile_bbox : Rectf) (tile : Tile) :
    Option Int :=
  /- If this is not a slope, this is - again - easy -/
  if tile.getAttributes &&& Tile.SLOPE = 0 then
    if obj_bbox.get_bottom ≤ tile_bbox.get_top then some POS_SOLID else some POS_NON_SOLID
  else
    let slope_info := tile.getData
    match slope_line tile_bbox slope_info with
    | none => none
    | some (tile_x, tile_y, gradient0) =>
      let sc := slope_corner cfg obj_bbox slope_info
      let obj_x := sc.2.2.1
      let obj_y := sc.2.2.2
      let f := slope_info &&& AATriangle.DEFORM_MASK
      /- Adapt the delta_x, delta_y and the gradient for the 26.6 deg and 63.4 deg cases. -/
      let adj : ℚ × ℚ × ℚ :=
        if f = 0 then
          (sc.1 * ONE_OVER_SQRT2, sc.2.1 * ONE_OVER_SQRT2, gradient0)
        else if f = DEFORM_BOTTOM ∨ f = DEFORM_TOP then
          (sc.1 * ONE_OVER_SQRT5, sc.2.1 * TWO_OVER_SQRT5, gradient0 * (1 / 2))
        else if f = DEFORM_LEFT ∨ f = DEFORM_RIGHT then
          (sc.1 * TWO_OVER_SQRT5, sc.2.1 * ONE_OVER_SQRT5, gradient0 * 2)
        else (sc.1, sc.2.1, gradient0)
      let delta_x := adj.1
      let delta_y := adj.2.1
      let gradient := adj.2.2
      let d := slope_info &&& AATriangle.DIRECTION_MASK
      if d = AATriangle.SOUTHWEST ∨ d = AATriangle.SOUTHEAST then
        if is_below_line tile_x tile_y gradient (obj_x + delta_x) (obj_y + delta_y) ≠ 0 then
          some POS_NON_SOLID
        else some POS_SOLID
      else
        if is_above_line tile_x tile_y gradient (obj_x + delta_x) (obj_y + delta_y) ≠ 0 then
          some POS_NON_SOLID
        else some POS_SOLID

/-! ## Tile-overlap resolution -/

/-- The integers `a, a+1, ..., b-1` of a loop `for (int i = a; i < b; ++i)`. -/
def intRange (a b : Int) : List Int :=
  (List.range (b - a).toNat).map (fun (i : Nat) => a + (i : Int))

/-- The end of the loop body of `Sector::collision_tilemap` (sector.cpp
1297-1307): the triangle test for a slope tile, `check_collisions` for a normal
rectangular tile. -/
def collision_tilemap_resolve (cfg : Config) (movement : Vector) (dest : Rectf)
    (solids : TileMap) (constraints : Constraints) (tile : Tile) (tile_bbox : Rectf) :
    Constraints :=
  if tile.getAttributes &&& Tile.SLOPE ≠ 0 then
    let slope_data := tile.getData
    let slope_data :=
      if solids.is_vertical_flip then cfg.vertical_flip slope_data else slope_data
    let triangle : AATriangle := ⟨tile_bbox, slope_data⟩
    (cfg.rectangle_aatriangle constraints dest triangle solids.get_movement).2
  else
    (check_collisions cfg constraints movement dest tile_bbox none solids.get_movement).1

/-- The body of the two nested loops of `Sector::collision_tilemap`
(sector.cpp 1265-1307) for the cell `(x, y)` of the layer `solids`. -/
def collision_tilemap_cell (cfg : Config) (movement : Vector) (dest : Rectf)
    (object : MovingObject) (solids : TileMap) (constraints : Constraints)
    (x y : Int) : Option Constraints :=
  match solids.get_tile x y with
  | none => some constraints
  | some tile =>
    -- skip non-solid tiles
    if tile.getAttributes &&& Tile.SOLID = 0 then some constraints
    else
      let tile_bbox := solids.get_tile_bbox x y
      if tile.getAttributes &&& Tile.UNISOLID ≠ 0 then
        match check_movement_unisolid movement tile with
        | none => none
        | some status =>
          if status = 0 then some constraints
          else
            match check_position_unisolid cfg object.get_bbox tile_bbox tile with
            | none => none
            | some status =>
              if status = 0 then some constraints
              else some (collision_tilemap_resolve cfg movement dest solids constraints
                tile tile_bbox)
      else some (collision_tilemap_resolve cfg movement dest solids constraints tile tile_bbox)

/-- The method `Sector::collision_tilemap` (sector.cpp 1246-1311). -/
def collision_tilemap (cfg : Config) (solid_tilemaps : List TileMap)
    (constraints : Constraints) (movement : Vector) (dest : Rectf)
    (object : MovingObject) : Option Constraints :=
  let x1 := dest.get_left
  let x2 := dest.get_right
  let y1 := dest.get_top
  let y2 := dest.get_bottom
  solid_tilemaps.foldlM
    (fun c solids =>
      let test_tiles := solids.get_tiles_overlapping ⟨⟨x1, y1⟩, ⟨x2, y2⟩⟩
      (intRange test_tiles.left test_tiles.right).foldlM
        (fun c x =>
          (intRange test_tiles.top test_tiles.bottom).foldlM
            (fun c y => collision_tilemap_cell cfg movement dest object solids c x y) c) c)
    constraints

/-- The method `Sector::collision_tile_attributes` (sector.cpp 1313-1348). -/
def collision_tile_attributes (cfg : Config) (solid_tilemaps : List TileMap)
    (dest : Rectf) : Nat :=
  let x1 := dest.p1.x
  let y1 := dest.p1.y
  let x2 := dest.p2.x
  let y2 := dest.p2.y
  solid_tilemaps.foldl
    (fun result solids =>
      let test_tiles := solids.get_tiles_overlapping ⟨⟨x1, y1⟩, ⟨x2, y2⟩⟩
      let test_tiles_ice :=
        solids.get_tiles_overlapping ⟨⟨x1, y1⟩, ⟨x2, y2 + cfg.SHIFT_DELTA⟩⟩
      (intRange test_tiles.left test_tiles.right).foldl
        (fun result x =>
          let result := (intRange test_tiles.top test_tiles.bottom).foldl
            (fun result y =>
              match solids.get_tile x y with
              | none => result
              | some tile => result ||| tile.getAttributes) result
          -- the second loop continues from the row where the first one stopped
          (intRange (max test_tiles.top test_tiles.bottom) test_tiles_ice.bottom).foldl
            (fun result y =>
              match solids.get_tile x y with
              | none => result
              | some tile => result ||| (tile.getAttributes &&& Tile.ICE)) result)
        result)
    0

/-! ## Static resolver -/

/-- The collision-relevant part of a `Sector`: the moving-object index, in
insertion order, and the solid tile layers. -/
structure Sector where
  moving_objects : List MovingObject
  solid_tilemaps : List TileMap

/-- The loop body of `Sector::collision_static` (sector.cpp 1430-1439) for the
body `moving_object` of the index: constraint set and callbacks so far, afterwards. -/
def collision_static_object (cfg : Config) (movement : Vector) (dest : Rectf)
    (object : MovingObject) (acc : Constraints × List Event) (moving_object : MovingObject) :
    Constraints × List Event :=
  if moving_object.get_group ≠ COLGROUP_STATIC
      ∧ moving_object.get_group ≠ COLGROUP_MOVING_STATIC then acc
  else if !moving_object.is_valid then acc
  else if moving_object.uid ≠ object.uid then
    let r := check_collisions cfg acc.1 movement dest moving_object.bbox
      (some (object, moving_object)) Vector.zero
    (r.1, acc.2 ++ r.2)
  else acc

/-- The method `Sector::collision_static` (sector.cpp 1420-1441). -/
def collision_static (cfg : Config) (sector : Sector) (constraints : Constraints)
    (movement : Vector) (dest : Rectf) (object : MovingObject) :
    Option (Constraints × List Event) :=
  match collision_tilemap cfg sector.solid_tilemaps constraints movement dest object with
  | none => none
  | some c =>
    -- collision with other (static) objects
    some (sector.moving_objects.foldl (collision_static_object cfg movement dest object) (c, []))

/-- The vertical clamp of `collision_static_constrains` (sector.cpp 1461-1473). -/
def apply_vertical (cfg : Config) (constraints : Constraints) (dest : Rectf)
    (oheight : ℚ) : Rectf :=
  match constraints.bottom with
  | some bottom =>
    let p2y := bottom - cfg.DELTA
    ⟨⟨dest.p1.x, p2y - oheight⟩, ⟨dest.p2.x, p2y⟩⟩
  | none =>
    match constraints.top with
    | some top =>
      let p1y := top + cfg.DELTA
      ⟨⟨dest.p1.x, p1y⟩, ⟨dest.p2.x, p1y + oheight⟩⟩
    | none => dest

/-- The first loop of `collision_static_constrains` (sector.cpp 1455-1474), with
`n` iterations left: constraints, destination and callbacks afterwards. -/
def vertical_loop (cfg : Config) (sector : Sector) (movement : Vector)
    (object : MovingObject) (oheight : ℚ) :
    Nat → Constraints → Rectf → Option (Constraints × Rectf × List Event)
  | 0, constraints, dest => some (constraints, dest, [])
  | n + 1, constraints, dest =>
    match collision_static cfg sector constraints ⟨0, movement.y⟩ dest object with
    | none => none
    | some (c1, ev1) =>
      if !c1.has_constraints then some (c1, dest, ev1)
      else
        match vertical_loop cfg sector movement object oheight n c1
            (apply_vertical cfg c1 dest oheight) with
        | none => none
        | some (c2, dest2, ev2) => some (c2, dest2, ev1 ++ ev2)

/-- The horizontal clamp of `collision_static_constrains` (sector.cpp 1493-1516):
the destination afterwards and the crush callback, if invoked. -/
def apply_horizontal (cfg : Config) (constraints : Constraints) (dest : Rectf)
    (owidth : ℚ) (uid : Nat) : Rectf × List Event :=
  match constraints.left, constraints.right with
  | some left, some right =>
    -- width < infinity
    let width := right - left
    if width + cfg.SHIFT_DELTA < owidth then
      let h : CollisionHit := { left := true, right := true, crush := true }
      (dest, [Event.collision_solid uid h])
    else
      let xmid := (left + right) / 2
      (⟨⟨xmid - owidth / 2, dest.p1.y⟩, ⟨xmid + owidth / 2, dest.p2.y⟩⟩, [])
  | none, some right =>
    let p2x := right - cfg.DELTA
    (⟨⟨p2x - owidth, dest.p1.y⟩, ⟨p2x, dest.p2.y⟩⟩, [])
  | some left, none =>
    let p1x := left + cfg.DELTA
    (⟨⟨p1x, dest.p1.y⟩, ⟨p1x + owidth, dest.p2.y⟩⟩, [])
  | none, none => (dest, [])

/-- The second loop of `collision_static_constrains` (sector.cpp 1487-1517), with
`n` iterations left. -/
def horizontal_loop (cfg : Config) (sector : Sector) (movement : Vector)
    (object : MovingObject) (owidth : ℚ) :
    Nat → Constraints → Rectf → Option (Constraints × Rectf × List Event)
  | 0, constraints, dest => some (constraints, dest, [])
  | n + 1, constraints, dest =>
    match collision_static cfg sector constraints movement dest object with
    | none => none
    | some (c1, ev1) =>
      if !c1.has_constraints then some (c1, dest, ev1)
      else
        let r := apply_horizontal cfg c1 dest owidth object.uid
        match horizontal_loop cfg sector movement object owidth n c1 r.1 with
        | none => none
        | some (c2, dest2, ev2) => some (c2, dest2, ev1 ++ r.2 ++ ev2)

/-- The final crush check of `collision_static_constrains` (sector.cpp
1529-1541): the callback invoked, if any. -/
def final_crush (cfg : Config) (constraints : Constraints) (oheight : ℚ) (uid : Nat) :
    List Event :=
  match constraints.bottom with
  | some bottom =>
    match constraints.top with
    | some top =>
      let height := bottom - top
      if height + cfg.SHIFT_DELTA < oheight then
        let h : CollisionHit := { top := true, bottom := true, crush := true }
        [Event.collision_solid uid h]
      else []
    | none => []
  | none => []

/-- The method `Sector::collision_static_constrains` (sector.cpp 1443-1542): the
body afterwards (only its `dest` is assigned) and the callbacks invoked. -/
def collision_static_constrains (cfg : Config) (sector : Sector) (object : MovingObject) :
    Option (MovingObject × List Event) :=
  let movement := object.get_movement
  let owidth := object.get_bbox.get_width
  let oheight := object.get_bbox.get_height
  match vertical_loop cfg sector movement object oheight 2 {} object.dest with
  | none => none
  | some (cv, dest1, ev1) =>
    let dest2 : Rectf :=
      if cv.has_constraints ∧ cv.hit.bottom then dest1.move cv.ground_movement else dest1
    let ev2 : List Event :=
      if cv.has_constraints ∧ (cv.hit.top ∨ cv.hit.bottom) then
        [Event.collision_solid object.uid { cv.hit with left := false, right := false }]
      else []
    match horizontal_loop cfg sector movement object owidth 2 {} dest2 with
    | none => none
    | some (ch, dest3, ev3) =>
      let ev4 : List Event :=
        if ch.has_constraints ∧
            (ch.hit.left ∨ ch.hit.right ∨ ch.hit.top ∨ ch.hit.bottom ∨ ch.hit.crush) then
          [Event.collision_solid object.uid ch.hit]
        else []
      -- an extra pass to make sure we are not crushed
      match collision_static cfg sector {} movement dest3 object with
      | none => none
      | some (cf, ev5) =>
        some ({ object with dest := dest3 },
          ev1 ++ ev2 ++ ev3 ++ ev4 ++ ev5 ++ final_crush cfg cf oheight object.uid)

/-! ## Frame driver -/

/-- The constant `MAX_SPEED` (sector.cpp 1545). -/
def MAX_SPEED : ℚ := 16

/-- The comparison `v > MAX_SPEED * M_SQRT1_2` (sector.cpp 1560), stated without
the square root: `v` is positive and `2 * v^2 > MAX_SPEED^2`.  The component is
compared as it is, with its sign. -/
def above_sqrt1_2_max (v : ℚ) : Prop := 0 < v ∧ 2 * v ^ 2 > MAX_SPEED ^ 2

instance (v : ℚ) : Decidable (above_sqrt1_2_max v) := by
  unfold above_sqrt1_2_max; infer_instance

/-- The comparison `mov.norm() > MAX_SPEED` (sector.cpp 1560), stated without the
square root: `x^2 + y^2 > MAX_SPEED^2`. -/
def norm_above_max (mov : Vector) : Prop := mov.x ^ 2 + mov.y ^ 2 > MAX_SPEED ^ 2

instance (mov : Vector) : Decidable (norm_above_max mov) := by
  unfold norm_above_max; infer_instance

/-- The speed clamp of `handle_collisions` (sector.cpp 1557-1563): the movement
vector of the body afterwards. -/
def clamp_movement (cfg : Config) (mov : Vector) : Vector :=
  if (above_sqrt1_2_max mov.x ∨ above_sqrt1_2_max mov.y) ∧ norm_above_max mov then
    (cfg.unit mov).scale MAX_SPEED
  else mov

/-- The first loop body of `handle_collisions` (sector.cpp 1556-1566): speed
clamp, then the destination is the bounding box moved by the movement. -/
def compute_dest (cfg : Config) (moving_object : MovingObject) : MovingObject :=
  let o1 := { moving_object with movement := clamp_movement cfg moving_object.get_movement }
  { o1 with dest := o1.get_bbox.move o1.get_movement }

/-- The group and validity filter of parts 1 and 2 (sector.cpp 1573-1577). -/
def static_eligible (o : MovingObject) : Bool :=
  !((o.get_group ≠ COLGROUP_MOVING ∧ o.get_group ≠ COLGROUP_MOVING_STATIC
      ∧ o.get_group ≠ COLGROUP_MOVING_ONLY_STATIC) ∨ !o.is_valid)

/-- The group and validity filter of parts 2.5 and 3 (sector.cpp 1602-1605). -/
def moving_eligible (o : MovingObject) : Bool :=
  !((o.get_group ≠ COLGROUP_MOVING ∧ o.get_group ≠ COLGROUP_MOVING_STATIC) ∨ !o.is_valid)

/-- Part 1 of `handle_collisions` (sector.cpp 1569-1580): the bodies already
visited are `done`, the ones still to visit `todo`; the index is their
concatenation. -/
def part1 (cfg : Config) (solid_tilemaps : List TileMap) :
    List MovingObject → List MovingObject → Option (List MovingObject × List Event)
  | done, [] => some (done, [])
  | done, moving_object :: rest =>
    if !static_eligible moving_object then
      part1 cfg solid_tilemaps (done ++ [moving_object]) rest
    else
      match collision_static_constrains cfg
          ⟨done ++ moving_object :: rest, solid_tilemaps⟩ moving_object with
      | none => none
      | some (o1, ev1) =>
        match part1 cfg solid_tilemaps (done ++ [o1]) rest with
        | none => none
        | some (l, ev2) => some (l, ev1 ++ ev2)

/-- Part 2 of `handle_collisions` (sector.cpp 1582-1596): the tile-attribute
callbacks. -/
def part2 (cfg : Config) (solid_tilemaps : List TileMap)
    (moving_objects : List MovingObject) : List Event :=
  moving_objects.foldl
    (fun ev moving_object =>
      if !static_eligible moving_object then ev
      else
        let tile_attributes := collision_tile_attributes cfg solid_tilemaps moving_object.dest
        if tile_attributes ≥ Tile.FIRST_INTERESTING_FLAG then
          ev ++ [Event.collision_tile moving_object.uid tile_attributes]
        else ev)
    []

/-- The inner loop body of part 2.5 of `handle_collisions` (sector.cpp
1609-1626): both bodies afterwards and the callbacks invoked. -/
def touch_pair (moving_object moving_object_2 : MovingObject) :
    MovingObject × MovingObject × List Event :=
  if moving_object_2.get_group ≠ COLGROUP_TOUCHABLE ∨ !moving_object_2.is_valid then
    (moving_object, moving_object_2, [])
  else if intersects moving_object.dest moving_object_2.dest then
    let hn := get_hit_normal moving_object.dest moving_object_2.dest {} Vector.zero
    let hit := hn.1
    let ev1 := [Event.collides moving_object.uid moving_object_2.uid hit]
    if !moving_object.collides moving_object_2.uid hit then
      (moving_object, moving_object_2, ev1)
    else
      let ev2 := ev1 ++ [Event.collides moving_object_2.uid moving_object.uid hit]
      if !moving_object_2.collides moving_object.uid hit then
        (moving_object, moving_object_2, ev2)
      else
        let _r1 := moving_object.collision moving_object_2.uid hit
        let _r2 := moving_object_2.collision moving_object.uid hit
        (moving_object, moving_object_2,
          ev2 ++ [Event.collision moving_object.uid moving_object_2.uid hit,
                  Event.collision moving_object_2.uid moving_object.uid hit])
  else (moving_object, moving_object_2, [])

/-- One step of an inner pair loop over the moving-object index: the bodies at
positions `i` and `i2` are handed to `f` and written back in place; the
callbacks are appended. -/
def pair_step (f : MovingObject → MovingObject → MovingObject × MovingObject × List Event)
    (i i2 : Nat) (st : List MovingObject × List Event) : List MovingObject × List Event :=
  match st.1[i]?, st.1[i2]? with
  | some a, some b =>
    let r := f a b
    ((st.1.set i r.1).set i2 r.2.1, st.2 ++ r.2.2)
  | _, _ => st

/-- Part 2.5 of `handle_collisions` (sector.cpp 1598-1628): every eligible body
against every body of the index. -/
def part2_5 (moving_objects : List MovingObject) : List MovingObject × List Event :=
  (List.range moving_objects.length).foldl
    (fun st i =>
      match st.1[i]? with
      | none => st
      | some moving_object =>
        if !moving_eligible moving_object then st
        else
          (List.range moving_objects.length).foldl
            (fun st i2 => pair_step touch_pair i i2 st) st)
    (moving_objects, [])

/-- The inner loop body of part 3 of `handle_collisions` (sector.cpp 1642-1648). -/
def moving_pair (cfg : Config) (moving_object moving_object_2 : MovingObject) :
    MovingObject × MovingObject × List Event :=
  if !moving_eligible moving_object_2 then (moving_object, moving_object_2, [])
  else collision_object cfg moving_object moving_object_2

/-- Part 3 of `handle_collisions` (sector.cpp 1630-1650): every eligible body
against every later body of the index. -/
def part3 (cfg : Config) (moving_objects : List MovingObject) :
    List MovingObject × List Event :=
  (List.range moving_objects.length).foldl
    (fun st i =>
      match st.1[i]? with
      | none => st
      | some moving_object =>
        if !moving_eligible moving_object then st
        else
          (List.range' (i + 1) (moving_objects.length - (i + 1))).foldl
            (fun st i2 => pair_step (moving_pair cfg) i i2 st) st)
    (moving_objects, [])

/-- The last loop body of `handle_collisions` (sector.cpp 1655-1658). -/
def apply_movement (moving_object : MovingObject) : MovingObject :=
  { moving_object with bbox := moving_object.dest, movement := Vector.zero }

/-- The method `Sector::handle_collisions` (sector.cpp 1548-1660): the sector
afterwards and the callbacks invoked, in order. -/
def handle_collisions (cfg : Config) (sector : Sector) : Option (Sector × List Event) :=
  -- calculate destination positions of the objects
  let l0 := sector.moving_objects.map (compute_dest cfg)
  -- part1: COLGROUP_MOVING vs COLGROUP_STATIC and tilemap
  match part1 cfg sector.solid_tilemaps [] l0 with
  | none => none
  | some (l1, ev1) =>
    -- part2: COLGROUP_MOVING vs tile attributes
    let ev2 := part2 cfg sector.solid_tilemaps l1
    -- part2.5: COLGROUP_MOVING vs COLGROUP_TOUCHABLE
    let r25 := part2_5 l1
    -- part3: COLGROUP_MOVING vs COLGROUP_MOVING
    let r3 := part3 cfg r25.1
    -- apply object movement
    some ({ sector with moving_objects := r3.1.map apply_movement },
      ev1 ++ ev2 ++ r25.2 ++ r3.2)

/-! ## Derived quantities and worked-example data -/

/-- The hit flags that `collision_object` and part 2.5 compute for a pair of
destinations: `get_hit_normal` on a default-constructed hit and normal. -/
def pair_hit (o1 o2 : MovingObject) : CollisionHit :=
  (get_hit_normal o1.dest o2.dest {} Vector.zero).1

/-- The hit normal that `collision_object` computes for a pair of destinations. -/
def pair_normal (o1 o2 : MovingObject) : Vector :=
  (get_hit_normal o1.dest o2.dest {} Vector.zero).2

/-- The smaller vertical penetration of two rectangles. -/
def vert_penetration (r1 r2 : Rectf) : ℚ :=
  min (r1.get_bottom - r2.get_top) (r2.get_bottom - r1.get_top)

/-- The smaller horizontal penetration of two rectangles. -/
def horiz_penetration (r1 r2 : Rectf) : ℚ :=
  min (r1.get_right - r2.get_left) (r2.get_right - r1.get_left)

/-- A configuration for the worked examples: `DELTA = 0.002`, `SHIFT_DELTA = 7`,
`unit` exact on axis-parallel vectors; the examples contain no slope tile. -/
def exampleConfig : Config :=
  { DELTA := 2 / 1000
    SHIFT_DELTA := 7
    unit := fun v =>
      if v.x = 0 then ⟨0, SignType.sign v.y⟩
      else if v.y = 0 then ⟨SignType.sign v.x, 0⟩ else v
    vertical_flip := id
    rectangle_aatriangle := fun c _ _ _ => (false, c) }

/-- A body of the worked examples: box at `(x, y)` of size `w x h`, destination
equal to the box, callbacks that accept every pairing and answer `r`. -/
def exampleBody (uid : Nat) (g : CollisionGroup) (x y w h : ℚ) (mov : Vector)
    (r : HitResponse) : MovingObject :=
  { uid := uid
    bbox := ⟨⟨x, y⟩, ⟨x + w, y + h⟩⟩
    movement := mov
    group := g
    dest := ⟨⟨x, y⟩, ⟨x + w, y + h⟩⟩
    valid := true
    collides := fun _ _ => true
    collision := fun _ _ => r }

/-- The penetration on the side that `get_hit_normal` reports as hit: of the
bottom of `r1` into the top of `r2` for `bottom`, and so on. -/
def side_penetration (hit : CollisionHit) (r1 r2 : Rectf) : ℚ :=
  if hit.bottom then r1.get_bottom - r2.get_top
  else if hit.top then r2.get_bottom - r1.get_top
  else if hit.right then r1.get_right - r2.get_left
  else r2.get_right - r1.get_left

/-- Two equal-size bodies of the worked examples that overlap by 10 units along
X; the second answers `r2`. -/
def overlapA (r1 : HitResponse) : MovingObject :=
  exampleBody 1 COLGROUP_MOVING 0 0 32 32 Vector.zero r1

/-- The second body of the overlapping pair. -/
def overlapB (r2 : HitResponse) : MovingObject :=
  exampleBody 2 COLGROUP_MOVING 22 0 32 32 Vector.zero r2

/-- The event is an invocation of one of the pairwise callbacks `collides` or
`collision`. -/
def Event.is_pairwise : Event → Bool
  | Event.collides _ _ _ => true
  | Event.collision _ _ _ => true
  | Event.collision_solid _ _ => false
  | Event.collision_tile _ _ => false

/-- A tile layer of the worked examples: one solid, non-slope 32x32 tile in the
cell at the grid origin, no other tile; the layer does not move.  The index
range of a rectangle is taken by rounding its edges outwards to the grid. -/
def exampleTileMap : TileMap :=
  { get_tiles_overlapping := fun r =>
      ⟨max 0 ⌊r.get_left / 32⌋, max 0 ⌊r.get_top / 32⌋,
       min 1 ⌈r.get_right / 32⌉, min 1 ⌈r.get_bottom / 32⌉⟩
    get_tile := fun x y => if x = 0 ∧ y = 0 then some ⟨Tile.SOLID, 0⟩ else none
    get_tile_bbox := fun x y => ⟨⟨32 * x, 32 * y⟩, ⟨32 * x + 32, 32 * y + 32⟩⟩
    get_movement := Vector.zero
    is_vertical_flip := false }

/-- The falling body of the worked examples: 16x16 at `(8, -20)` with movement
`(0, 50)`. -/
def fallingBody : MovingObject :=
  exampleBody 1 COLGROUP_MOVING 8 (-20) 16 16 ⟨0, 50⟩ CONTINUE

/-- The sector of the worked examples: the falling body over the single tile. -/
def exampleSector : Sector := ⟨[fallingBody], [exampleTileMap]⟩

/-- The cell `(tx, ty)` lies in the tile-index range that `collision_tilemap`
enumerates for the rectangle `dest` in the layer `solids`. -/
def tile_in_range (solids : TileMap) (dest : Rectf) (tx ty : Int) : Prop :=
  (solids.get_tiles_overlapping dest).left ≤ tx
    ∧ tx < (solids.get_tiles_overlapping dest).right
    ∧ (solids.get_tiles_overlapping dest).top ≤ ty
    ∧ ty < (solids.get_tiles_overlapping dest).bottom

instance (solids : TileMap) (dest : Rectf) (tx ty : Int) :
    Decidable (tile_in_range solids dest tx ty) := by
  unfold tile_in_range; infer_instance

/-- The body `object` of `sector` meets a single solid tile: the sector has the
one tile layer `solids`, whose cell `(tx, ty)` holds the tile `tile`, solid and
neither slope nor unisolid; no other cell of the layer holds a solid tile; and
no valid body other than `object` is static or moving-static. -/
structure SingleSolidTile (sector : Sector) (object : MovingObject) (solids : TileMap)
    (tx ty : Int) (tile : Tile) : Prop where
  layers : sector.solid_tilemaps = [solids]
  tile_at : solids.get_tile tx ty = some tile
  solid : tile.getAttributes &&& Tile.SOLID ≠ 0
  not_slope : tile.getAttributes &&& Tile.SLOPE = 0
  not_unisolid : tile.getAttributes &&& Tile.UNISOLID = 0
  only : ∀ x y t, solids.get_tile x y = some t → t.getAttributes &&& Tile.SOLID ≠ 0 →
    x = tx ∧ y = ty
  no_static : ∀ m ∈ sector.moving_objects,
    (m.get_group = COLGROUP_STATIC ∨ m.get_group = COLGROUP_MOVING_STATIC) →
    m.is_valid = true → m.uid = object.uid

/-- The sector of the worked examples with the single body `o` over the single tile. -/
def tileSector (o : MovingObject) : Sector := ⟨[o], [exampleTileMap]⟩

/-- The falling body after the first loop of `handle_collisions`: movement clamped
to `(0, 16)`, destination `(8, -4)-(24, 12)`, 12 units into the tile from above. -/
def fallingBodyDest : MovingObject := compute_dest exampleConfig fallingBody

/-- A body of the worked examples falling past the left edge of the tile: 16x16
at `(-12, -20)` with movement `(0, 10)`; its destination `(-12, -10)-(4, 6)`
reaches 4 units into the tile horizontally and 6 units vertically. -/
def grazingBodyDest : MovingObject :=
  compute_dest exampleConfig (exampleBody 1 COLGROUP_MOVING (-12) (-20) 16 16 ⟨0, 10⟩ CONTINUE)

/-- A second body falling past the left edge of the tile: 16x16 at `(-13, -21)`
with movement `(0, 12)`; destination `(-13, -9)-(3, 7)`. -/
def grazingBodyDest2 : MovingObject :=
  compute_dest exampleConfig (exampleBody 1 COLGROUP_MOVING (-13) (-21) 16 16 ⟨0, 12⟩ CONTINUE)

/-- A body of the worked examples walking into the tile from the left: 16x16 at
`(-20, 8)` with movement `(10, 0)`; destination `(-10, 8)-(6, 24)`. -/
def walkingBodyDest : MovingObject :=
  compute_dest exampleConfig (exampleBody 1 COLGROUP_MOVING (-20) 8 16 16 ⟨10, 0⟩ CONTINUE)

/-- The slope code `data` selects one of the 20 shapes handled by the first
switch of `check_position_unisolid` (4 directions x 5 deformations), listed in
the four groups of that switch. -/
def slope_code_valid (data : Nat) : Prop :=
  (data &&& (AATriangle.DIRECTION_MASK ||| AATriangle.DEFORM_MASK) = AATriangle.SOUTHWEST
    ∨ data &&& (AATriangle.DIRECTION_MASK ||| AATriangle.DEFORM_MASK)
        = (AATriangle.SOUTHWEST ||| DEFORM_TOP)
    ∨ data &&& (AATriangle.DIRECTION_MASK ||| AATriangle.DEFORM_MASK)
        = (AATriangle.SOUTHWEST ||| DEFORM_LEFT)
    ∨ data &&& (AATriangle.DIRECTION_MASK ||| AATriangle.DEFORM_MASK) = AATriangle.NORTHEAST
    ∨ data &&& (AATriangle.DIRECTION_MASK ||| AATriangle.DEFORM_MASK)
        = (AATriangle.NORTHEAST ||| DEFORM_TOP)
    ∨ data &&& (AATriangle.DIRECTION_MASK ||| AATriangle.DEFORM_MASK)
        = (AATriangle.NORTHEAST ||| DEFORM_LEFT))
  ∨ (data &&& (AATriangle.DIRECTION_MASK ||| AATriangle.DEFORM_MASK) = AATriangle.SOUTHEAST
    ∨ data &&& (AATriangle.DIRECTION_MASK ||| AATriangle.DEFORM_MASK)
        = (AATriangle.SOUTHEAST ||| DEFORM_TOP)
    ∨ data &&& (AATriangle.DIRECTION_MASK ||| AATriangle.DEFORM_MASK)
        = (AATriangle.SOUTHEAST ||| DEFORM_RIGHT)
    ∨ data &&& (AATriangle.DIRECTION_MASK ||| AATriangle.DEFORM_MASK) = AATriangle.NORTHWEST
    ∨ data &&& (AATriangle.DIRECTION_MASK ||| AATriangle.DEFORM_MASK)
        = (AATriangle.NORTHWEST ||| DEFORM_TOP)
    ∨ data &&& (AATriangle.DIRECTION_MASK ||| AATriangle.DEFORM_MASK)
        = (AATriangle.NORTHWEST ||| DEFORM_RIGHT))
  ∨ (data &&& (AATriangle.DIRECTION_MASK ||| AATriangle.DEFORM_MASK)
        = (AATriangle.SOUTHEAST ||| DEFORM_BOTTOM)
    ∨ data &&& (AATriangle.DIRECTION_MASK ||| AATriangle.DEFORM_MASK)
        = (AATriangle.SOUTHEAST ||| DEFORM_LEFT)
    ∨ data &&& (AATriangle.DIRECTION_MASK ||| AATriangle.DEFORM_MASK)
        = (AATriangle.NORTHWEST ||| DEFORM_BOTTOM)
    ∨ data &&& (AATriangle.DIRECTION_MASK ||| AATriangle.DEFORM_MASK)
        = (AATriangle.NORTHWEST ||| DEFORM_LEFT))
  ∨ (data &&& (AATriangle.DIRECTION_MASK ||| AATriangle.DEFORM_MASK)
        = (AATriangle.SOUTHWEST ||| DEFORM_BOTTOM)
    ∨ data &&& (AATriangle.DIRECTION_MASK ||| AATriangle.DEFORM_MASK)
        = (AATriangle.SOUTHWEST ||| DEFORM_RIGHT)
    ∨ data &&& (AATriangle.DIRECTION_MASK ||| AATriangle.DEFORM_MASK)
        = (AATriangle.NORTHEAST ||| DEFORM_BOTTOM)
    ∨ data &&& (AATriangle.DIRECTION_MASK ||| AATriangle.DEFORM_MASK)
        = (AATriangle.NORTHEAST ||| DEFORM_RIGHT))

instance (data : Nat) : Decidable (slope_code_valid data) := by
  unfold slope_code_valid; infer_instance

/-- None of the tile layers holds a solid unisolid slope tile whose slope code is
malformed; these are the tiles on which `check_position_unisolid` asserts. -/
def slopes_well_formed (solid_tilemaps : List TileMap) : Prop :=
  ∀ solids ∈ solid_tilemaps, ∀ x y t, solids.get_tile x y = some t →
    t.getAttributes &&& Tile.SOLID ≠ 0 → t.getAttributes &&& Tile.UNISOLID ≠ 0 →
    t.getAttributes &&& Tile.SLOPE ≠ 0 → slope_code_valid t.getData

/-- The rectangle overlaps no solid tile of the layer: every solid tile in the
enumerated index range is either a rectangular tile whose box does not
intersect the rectangle, or a well-formed slope tile on which the triangle test
finds no overlap, i.e. leaves every constraint set as it is. -/
def free_of_solid_tiles (cfg : Config) (solids : TileMap) (rect : Rectf) : Prop :=
  ∀ x y t, tile_in_range solids rect x y → solids.get_tile x y = some t →
    t.getAttributes &&& Tile.SOLID ≠ 0 →
    (t.getAttributes &&& Tile.SLOPE = 0
        ∧ intersects rect (solids.get_tile_bbox x y) = false)
      ∨ (t.getAttributes &&& Tile.SLOPE ≠ 0 ∧ slope_code_valid t.getData
        ∧ ∀ c sd mv,
          (cfg.rectangle_aatriangle c rect ⟨solids.get_tile_bbox x y, sd⟩ mv).2 = c)

/-- The rectangle `rect` of the body `uid` overlaps no static body: it intersects
the box of no valid static or moving-static body other than itself. -/
def free_of_static_bodies (moving_objects : List MovingObject) (uid : Nat) (rect : Rectf) :
    Prop :=
  ∀ m ∈ moving_objects,
    (m.get_group = COLGROUP_STATIC ∨ m.get_group = COLGROUP_MOVING_STATIC) →
    m.is_valid = true → m.uid ≠ uid → intersects rect m.bbox = false

/-- Two states of a body that differ at most in the destination rectangle. -/
def same_but_dest (a b : MovingObject) : Prop := b = { a with dest := b.dest }

/-- A sector of the worked examples without tile layers, holding the two
overlapping bodies, both at rest and both answering CONTINUE. -/
def overlapSector : Sector := ⟨[overlapA CONTINUE, overlapB CONTINUE], []⟩

/-! ## A body squeezed between two walls -/

/-- A sector without tile layers: a body 32 wide between two static walls that
leave a gap of 10. -/
def squeezeSector : Sector :=
  { moving_objects :=
      [ exampleBody 1 COLGROUP_MOVING (-1) 40 32 16 Vector.zero CONTINUE,
        exampleBody 2 COLGROUP_STATIC 0 0 10 100 Vector.zero CONTINUE,
        exampleBody 3 COLGROUP_STATIC 20 0 10 100 Vector.zero CONTINUE ]
    solid_tilemaps := [] }

/-- The body of `squeezeSector` between the walls. -/
def squeezedBody : MovingObject :=
  exampleBody 1 COLGROUP_MOVING (-1) 40 32 16 Vector.zero CONTINUE


/-! ## A body between a ceiling and a sinking platform -/

/-- A body 16 high that falls by 2 onto a platform. -/
def pressedBody : MovingObject :=
  { exampleBody 1 COLGROUP_MOVING 0 (-1) 16 16 ⟨0, 2⟩ CONTINUE with
    dest := ⟨⟨0, 1⟩, ⟨16, 17⟩⟩ }

/-- A sector without tile layers: `pressedBody`, a static ceiling whose lower edge
is at `ceiling` and a platform whose upper edge is at 16 and that sinks by 1 a
frame. -/
def pressSector (ceiling : ℚ) : Sector :=
  { moving_objects :=
      [ pressedBody,
        exampleBody 2 COLGROUP_STATIC (-50) (-100) 100 (ceiling + 100) Vector.zero CONTINUE,
        exampleBody 3 COLGROUP_MOVING_STATIC (-50) 16 100 100 ⟨0, 1⟩ CONTINUE ]
    solid_tilemaps := [] }

/-- The callbacks of one test of `pressedBody` against the ceiling and the
platform of `pressSector`. -/
def pressTouches : List Event :=
  [Event.collides 2 1 {}, Event.collides 1 2 {}, Event.collision 2 1 {},
   Event.collides 3 1 {}, Event.collides 1 3 {}, Event.collision 3 1 {}]

/-- The callbacks of the static phase of `pressedBody` before the final pass:
both iterations of the vertical loop, the vertical `collision_solid`, both
iterations of the horizontal loop and the horizontal `collision_solid`. -/
def pressEvents : List Event :=
  pressTouches
    ++ [Event.collides 2 1 {}, Event.collides 1 2 {}, Event.collision 2 1 {}]
    ++ [Event.collision_solid 1 { top := true, bottom := true }]
    ++ pressTouches ++ pressTouches
    ++ [Event.collision_solid 1 { top := true, bottom := true }]

/-- The body `pressedBody` with the destination that the static phase writes back
in `pressSector`. -/
def pressedBodyResolved : MovingObject :=
  { pressedBody with dest := ⟨⟨0, 998 / 1000⟩, ⟨16, 16998 / 1000⟩⟩ }


/-! ## A moving body over a touchable one -/

/-- A moving body whose right edge reaches 2 into `touchedBody`. -/
def touchingBody : MovingObject :=
  exampleBody 1 COLGROUP_MOVING 0 0 10 10 Vector.zero CONTINUE

/-- A touchable body to the right of `touchingBody`. -/
def touchedBody : MovingObject :=
  exampleBody 2 COLGROUP_TOUCHABLE 8 0 10 10 Vector.zero CONTINUE


/-- A tile layer like `exampleTileMap` whose one tile, in the cell at the grid
origin, is `tile`. -/
def singleTileMap (tile : Tile) : TileMap :=
  { exampleTileMap with
    get_tile := fun x y => if x = 0 ∧ y = 0 then some tile else none }

/-- A flat one-way tile: solid and unisolid, no slope. -/
def flatUnisolidTile : Tile := ⟨Tile.SOLID ||| Tile.UNISOLID, 0⟩


/-- A one-way slope tile with a deformation code outside the five variants:
direction `SOUTHEAST`, deformation bits `0x50`. -/
def malformedSlopeTile : Tile :=
  ⟨Tile.SOLID ||| Tile.UNISOLID ||| Tile.SLOPE, AATriangle.SOUTHEAST ||| 0x50⟩

/-- A body 32x32 over the cell at the grid origin, with movement `mov`. -/
def coveringBody (mov : Vector) : MovingObject :=
  exampleBody 1 COLGROUP_MOVING 0 0 32 32 mov CONTINUE


/-! ## The probe of the slope position test -/

/-- The point that `check_position_unisolid` tests against the surface line
(sector.cpp 1164-1219): the interesting corner of the object box, displaced by
the gradient-aware `SHIFT_DELTA`. -/
def slope_probe (cfg : Config) (obj_bbox : Rectf) (slope_info : Nat) : Vector :=
  let sc := slope_corner cfg obj_bbox slope_info
  let f := slope_info &&& AATriangle.DEFORM_MASK
  if f = 0 then
    ⟨sc.2.2.1 + sc.1 * ONE_OVER_SQRT2, sc.2.2.2 + sc.2.1 * ONE_OVER_SQRT2⟩
  else if f = DEFORM_BOTTOM ∨ f = DEFORM_TOP then
    ⟨sc.2.2.1 + sc.1 * ONE_OVER_SQRT5, sc.2.2.2 + sc.2.1 * TWO_OVER_SQRT5⟩
  else if f = DEFORM_LEFT ∨ f = DEFORM_RIGHT then
    ⟨sc.2.2.1 + sc.1 * TWO_OVER_SQRT5, sc.2.2.2 + sc.2.1 * ONE_OVER_SQRT5⟩
  else ⟨sc.2.2.1 + sc.1, sc.2.2.2 + sc.2.1⟩

/-- The gradient of the surface line after the adaptation to the deformation
(sector.cpp 1199-1219). -/
def slope_gradient (slope_info : Nat) (gradient0 : ℚ) : ℚ :=
  let f := slope_info &&& AATriangle.DEFORM_MASK
  if f = 0 then gradient0
  else if f = DEFORM_BOTTOM ∨ f = DEFORM_TOP then gradient0 * (1 / 2)
  else if f = DEFORM_LEFT ∨ f = DEFORM_RIGHT then gradient0 * 2
  else gradient0

/-- The point `p` is on or above the line through `(l_x, l_y)` with gradient `m`;
the y axis points down, so above is the smaller `y`. -/
def on_or_above (l_x l_y m : ℚ) (p : Vector) : Prop := p.y ≤ l_y + m * (p.x - l_x)

instance (l_x l_y m : ℚ) (p : Vector) : Decidable (on_or_above l_x l_y m p) := by
  unfold on_or_above; infer_instance

/-- All four corners of the box `r` are on or above the line. -/
def bbox_above (l_x l_y m : ℚ) (r : Rectf) : Prop :=
  on_or_above l_x l_y m r.p1 ∧ on_or_above l_x l_y m ⟨r.p2.x, r.p1.y⟩
    ∧ on_or_above l_x l_y m ⟨r.p1.x, r.p2.y⟩ ∧ on_or_above l_x l_y m r.p2

/-- All four corners of the box `r` are strictly below the line. -/
def bbox_below (l_x l_y m : ℚ) (r : Rectf) : Prop :=
  ¬ on_or_above l_x l_y m r.p1 ∧ ¬ on_or_above l_x l_y m ⟨r.p2.x, r.p1.y⟩
    ∧ ¬ on_or_above l_x l_y m ⟨r.p1.x, r.p2.y⟩ ∧ ¬ on_or_above l_x l_y m r.p2

/-- A one-way slope tile: direction `SOUTHEAST`, no deformation. -/
def southeastSlopeTile : Tile :=
  ⟨Tile.SOLID ||| Tile.UNISOLID ||| Tile.SLOPE, AATriangle.SOUTHEAST⟩

/-- The box of the cell at the grid origin: `(0, 0)-(32, 32)`. -/
def originTileBox : Rectf := ⟨⟨0, 0⟩, ⟨32, 32⟩⟩


/-! ## The masks behind the tile-attribute value -/

/-- The masks that the column `x` of the layer `solids` contributes for the
rectangle `dest`, as the description of the tile-attribute value lists them: the
attribute mask of every tile in the rows that `dest` overlaps, then the `ICE`
bit alone of every tile in the further rows that `dest` extended downward by
`SHIFT_DELTA` overlaps. -/
def column_contributions (cfg : Config) (solids : TileMap) (dest : Rectf) (x : Int) :
    List Nat :=
  let test_tiles := solids.get_tiles_overlapping dest
  let test_tiles_ice :=
    solids.get_tiles_overlapping ⟨dest.p1, ⟨dest.p2.x, dest.p2.y + cfg.SHIFT_DELTA⟩⟩
  (intRange test_tiles.top test_tiles.bottom).filterMap
      (fun y => (solids.get_tile x y).map Tile.getAttributes)
    ++ (intRange (max test_tiles.top test_tiles.bottom) test_tiles_ice.bottom).filterMap
      (fun y => (solids.get_tile x y).map (fun tile => tile.getAttributes &&& Tile.ICE))

/-- The masks that all solid layers contribute for the rectangle `dest`, layer by
layer and column by column. -/
def tile_contributions (cfg : Config) (solid_tilemaps : List TileMap) (dest : Rectf) :
    List Nat :=
  solid_tilemaps.flatMap (fun solids =>
    (intRange (solids.get_tiles_overlapping dest).left
        (solids.get_tiles_overlapping dest).right).flatMap
      (column_contributions cfg solids dest))

/-- A tile layer like `exampleTileMap` with an ice tile, not solid, in the cell at
the grid origin. -/
def iceTile : Tile := ⟨Tile.ICE, 0⟩


/-! ## Free-rectangle queries -/

/-- Modelled from the spec: the header `sector.hpp` with the default arguments of
the queries is not among the sources; the unisolid-ignore flag is optional and
`is_free_of_movingstatics` calls `is_free_of_tiles(rect)` without it.  The
default is `false`. -/
def ignoreUnisolid_default : Bool := false

/-- The loop body of `Sector::is_free_of_tiles` (sector.cpp 1675-1690) for the
cell `(x, y)` of the layer `solids`: `true` if the cell makes the method return
`false`.  The triangle test runs on a fresh constraint set with the default
additional movement `(0, 0)`. -/
def tile_blocks (cfg : Config) (solids : TileMap) (rect : Rectf) (ignoreUnisolid : Bool)
    (x y : Int) : Bool :=
  match solids.get_tile x y with
  | none => false
  | some tile =>
    if tile.getAttributes &&& Tile.SOLID = 0 then false
    else if tile.getAttributes &&& Tile.UNISOLID ≠ 0 ∧ ignoreUnisolid = true then false
    else if tile.getAttributes &&& Tile.SLOPE ≠ 0 then
      let tbbox := solids.get_tile_bbox x y
      let triangle : AATriangle := ⟨tbbox, tile.getData⟩
      let constraints : Constraints := {}
      if !(cfg.rectangle_aatriangle constraints rect triangle Vector.zero).1 then false
      else
        -- We have a solid tile that overlaps the given rectangle.
        true
    else true

/-- The method `Sector::is_free_of_tiles` (sector.cpp 1662-1696): the loops
return `false` at the first blocking cell and `true` at the end. -/
def is_free_of_tiles (cfg : Config) (sector : Sector) (rect : Rectf)
    (ignoreUnisolid : Bool) : Bool :=
  sector.solid_tilemaps.all (fun solids =>
    -- test with all tiles in this rectangle
    let test_tiles := solids.get_tiles_overlapping rect
    (intRange test_tiles.left test_tiles.right).all (fun x =>
      (intRange test_tiles.top test_tiles.bottom).all (fun y =>
        !tile_blocks cfg solids rect ignoreUnisolid x y)))

/-- The method `Sector::is_free_of_statics` (sector.cpp 1698-1716);
`ignore_object` is `none` for the NULL pointer, bodies are compared by identity. -/
def is_free_of_statics (cfg : Config) (sector : Sector) (rect : Rectf)
    (ignore_object : Option Nat) (ignoreUnisolid : Bool) : Bool :=
  if !is_free_of_tiles cfg sector rect ignoreUnisolid then false
  else
    sector.moving_objects.all (fun moving_object =>
      if some moving_object.uid = ignore_object then true
      else if !moving_object.is_valid then true
      else if moving_object.get_group = COLGROUP_STATIC then
        !intersects rect moving_object.get_bbox
      else true)

/-- The method `Sector::is_free_of_movingstatics` (sector.cpp 1718-1738). -/
def is_free_of_movingstatics (cfg : Config) (sector : Sector) (rect : Rectf)
    (ignore_object : Option Nat) : Bool :=
  if !is_free_of_tiles cfg sector rect ignoreUnisolid_default then false
  else
    sector.moving_objects.all (fun moving_object =>
      if some moving_object.uid = ignore_object then true
      else if !moving_object.is_valid then true
      else if moving_object.get_group = COLGROUP_MOVING
          ∨ moving_object.get_group = COLGROUP_MOVING_STATIC
          ∨ moving_object.get_group = COLGROUP_STATIC then
        !intersects rect moving_object.get_bbox
      else true)

/-- The sector without the ignored body and without its invalid bodies. -/
def drop_ignored (sector : Sector) (ignore_object : Option Nat) : Sector :=
  { sector with
    moving_objects :=
      sector.moving_objects.filter (fun o => o.is_valid && decide (some o.uid ≠ ignore_object)) }


/-! ## Object registry -/

/-- The part of a `GameObject` that the registry reads or writes
(game_object.hpp): the UID, where 0 is the invalid UID, the flag
`m_wants_to_die` and the name; and the results of the dynamic casts that the
registry performs on the object. -/
structure GameObject where
  m_uid : Nat
  m_wants_to_die : Bool
  m_name : String
  -- the cast `dynamic_cast<Bullet*>` succeeds
  is_bullet : Bool
  -- the cast `dynamic_cast<MovingObject*>` succeeds
  is_moving_object : Bool
  -- the cast `dynamic_cast<Portable*>` succeeds
  is_portable : Bool
  -- the cast `dynamic_cast<TileMap*>` succeeds and `is_solid()` holds
  is_solid_tilemap : Bool
  -- the cast `dynamic_cast<Camera*>` succeeds
  is_camera : Bool
  -- the cast `dynamic_cast<Player*>` succeeds
  is_player : Bool
  -- the cast `dynamic_cast<DisplayEffect*>` succeeds
  is_display_effect : Bool

namespace GameObject

/-- The method `GameObject::is_valid` (game_object.hpp 84): true if the object
is not scheduled to be removed yet. -/
def is_valid (o : GameObject) : Bool := !o.m_wants_to_die

/-- The method `GameObject::remove_me` (game_object.hpp 87): schedules the object
to be removed. -/
def remove_me (o : GameObject) : GameObject := { o with m_wants_to_die := true }

end GameObject

/-- The objects behind the pointers: a pointer `GameObject*` is a number, the
store gives the object it points to. -/
def ObjectStore : Type := Nat → GameObject

/-- The store after `object->remove_me()`. -/
def ObjectStore.remove_me (objects : ObjectStore) (object : Nat) : ObjectStore :=
  fun p => if p = object then (objects p).remove_me else objects p

/-- The store after `object->set_uid(uid)`. -/
def ObjectStore.set_uid (objects : ObjectStore) (object : Nat) (uid : Nat) : ObjectStore :=
  fun p => if p = object then { objects p with m_uid := uid } else objects p

/-- The registry part of the class `Sector` of sector.cpp: the active list
`gameobjects`, the pending list `gameobjects_new`, the typed indices and the
three singleton slots. -/
structure SectorObjects where
  objects : ObjectStore
  gameobjects : List Nat
  gameobjects_new : List Nat
  bullets : List Nat
  moving_objects : List Nat
  portables : List Nat
  solid_tilemaps : List Nat
  camera : Option Nat
  player : Option Nat
  effect : Option Nat

namespace SectorObjects

/-- The method `Sector::add_object` (sector.cpp 510-531), in a build with
assertions: `none` if the object is already in one of the two lists. -/
def add_object (s : SectorObjects) (object : Nat) : Option SectorObjects :=
  -- make sure the object isn't already in the list
  if object ∈ s.gameobjects then none
  else if object ∈ s.gameobjects_new then none
  else some { s with gameobjects_new := s.gameobjects_new ++ [object] }

/-- The registries `a` and `b` have the same store and the same two object
lists. -/
def same_lists (a b : SectorObjects) : Prop :=
  a.objects = b.objects ∧ a.gameobjects = b.gameobjects
    ∧ a.gameobjects_new = b.gameobjects_new

/-- The statement `object->remove_me()` on an object of the sector. -/
def remove_me (s : SectorObjects) (object : Nat) : SectorObjects :=
  { s with objects := s.objects.remove_me object }

/-- The statement `bullets.push_back(bullet)`. -/
def push_bullet (s : SectorObjects) (object : Nat) : SectorObjects :=
  { s with bullets := s.bullets ++ [object] }

/-- The statement `moving_objects.push_back(movingobject)`. -/
def push_moving_object (s : SectorObjects) (object : Nat) : SectorObjects :=
  { s with moving_objects := s.moving_objects ++ [object] }

/-- The statement `portables.push_back(portable)`. -/
def push_portable (s : SectorObjects) (object : Nat) : SectorObjects :=
  { s with portables := s.portables ++ [object] }

/-- The statement `solid_tilemaps.push_back(tilemap)`. -/
def push_solid_tilemap (s : SectorObjects) (object : Nat) : SectorObjects :=
  { s with solid_tilemaps := s.solid_tilemaps ++ [object] }

/-- The first part of `Sector::before_object_add` (sector.cpp 719-737): the
object enters the typed indices that its casts select. -/
def index_object (s : SectorObjects) (object : Nat) : SectorObjects :=
  let o := s.objects object
  let s1 := if o.is_bullet then s.push_bullet object else s
  let s2 := if o.is_moving_object then s1.push_moving_object object else s1
  let s3 := if o.is_portable then s2.push_portable object else s2
  if o.is_solid_tilemap then s3.push_solid_tilemap object else s3

/-- The statement `this->camera = camera`. -/
def set_camera (s : SectorObjects) (object : Nat) : SectorObjects :=
  { s with camera := some object }

/-- The statement `this->player = player`. -/
def set_player (s : SectorObjects) (object : Nat) : SectorObjects :=
  { s with player := some object }

/-- The statement `this->effect = effect`. -/
def set_effect (s : SectorObjects) (object : Nat) : SectorObjects :=
  { s with effect := some object }

/-- The second part of `Sector::before_object_add` (sector.cpp 739-767) without
the scripting exposure: the singleton slots; a second camera, player or display
effect is refused with `false`. -/
def claim_slots (s : SectorObjects) (object : Nat) : SectorObjects × Bool :=
  let o := s.objects object
  if o.is_camera ∧ s.camera ≠ none then (s, false)
  else
    let s1 := if o.is_camera then s.set_camera object else s
    if o.is_player ∧ s1.player ≠ none then (s1, false)
    else
      let s2 := if o.is_player then s1.set_player object else s1
      if o.is_display_effect ∧ s2.effect ≠ none then (s2, false)
      else
        let s3 := if o.is_display_effect then s2.set_effect object else s2
        (s3, true)

/-- The method `Sector::before_object_add` (sector.cpp 716-768): the registry
afterwards and the value returned. -/
def before_object_add (s : SectorObjects) (object : Nat) : SectorObjects × Bool :=
  (s.index_object object).claim_slots object

/-- The statement `portables.erase(std::find(...))`. -/
def erase_portable (s : SectorObjects) (object : Nat) : SectorObjects :=
  { s with portables := s.portables.erase object }

/-- The statement `bullets.erase(std::find(...))`. -/
def erase_bullet (s : SectorObjects) (object : Nat) : SectorObjects :=
  { s with bullets := s.bullets.erase object }

/-- The statement `moving_objects.erase(std::find(...))`. -/
def erase_moving_object (s : SectorObjects) (object : Nat) : SectorObjects :=
  { s with moving_objects := s.moving_objects.erase object }

/-- The method `Sector::before_object_remove` (sector.cpp 795-813) without the
scripting exposure. -/
def before_object_remove (s : SectorObjects) (object : Nat) : SectorObjects :=
  let o := s.objects object
  let s1 := if o.is_portable then s.erase_portable object else s
  let s2 := if o.is_bullet then s1.erase_bullet object else s1
  if o.is_moving_object then s2.erase_moving_object object else s2

/-- The first loop of `Sector::update_game_objects` (sector.cpp 675-689) over the
rest of the active list: the registry afterwards and the objects kept. -/
def cleanup (s : SectorObjects) : List Nat → SectorObjects × List Nat
  | [] => (s, [])
  | object :: rest =>
    if (s.objects object).is_valid then
      let r := cleanup s rest
      (r.1, object :: r.2)
    else cleanup (s.before_object_remove object) rest

/-- The method `Sector::update_game_objects` (sector.cpp 672-714). -/
def update_game_objects (s : SectorObjects) : SectorObjects :=
  /- cleanup marked objects -/
  let r := s.cleanup s.gameobjects
  let s : SectorObjects := { r.1 with gameobjects := r.2 }
  /- add newly created objects -/
  let s := s.gameobjects_new.foldl
    (fun (s : SectorObjects) object =>
      let s := (s.before_object_add object).1
      { s with gameobjects := s.gameobjects ++ [object] }) s
  let s : SectorObjects := { s with gameobjects_new := [] }
  /- update solid_tilemaps list -/
  { s with solid_tilemaps := s.gameobjects.filter (fun p => (s.objects p).is_solid_tilemap) }

end SectorObjects

/-- The virtual hooks `before_object_add` and `before_object_remove` of
`GameObjectManager`: the derived class implements them and its code is not among
the sources, so they are parameters.  They read and change the state `σ` of the
derived class and see the object; `before_object_add` also answers whether the
object is accepted. -/
structure ManagerHooks (σ : Type) where
  before_object_add : σ → Nat → GameObject → σ × Bool
  before_object_remove : σ → Nat → GameObject → σ

/-- Modelled from the spec: the header `util/uid_generator.hpp` is not among the
sources; `next()` hands out a fresh identifier at every call, never the invalid
UID 0.  The generator is a counter; `next` returns the generator afterwards and
the identifier. -/
def UIDGenerator.next (generator : Nat) : Nat × Nat := (generator + 1, generator + 1)

/-- The class `GameObjectManager` (game_object_manager.cpp): the active list, the
pending list, the list of solid tile layers and the two lookup maps, with the
store of the objects and the state of the derived class. -/
structure GameObjectManager (σ : Type) where
  derived : σ
  objects : ObjectStore
  m_uid_generator : Nat
  m_gameobjects : List Nat
  m_gameobjects_new : List Nat
  m_solid_tilemaps : List Nat
  m_objects_by_name : String → Option Nat
  m_objects_by_uid : Nat → Option Nat

namespace GameObjectManager

/-- The method `GameObjectManager::add_object` (game_object_manager.cpp 75-96), in
a build with assertions; a failing `assert` is `none`.  A pointer of the model is
never null. -/
def add_object {σ : Type} (m : GameObjectManager σ) (object : Nat) : Option (GameObjectManager σ) :=
  if (m.objects object).m_uid ≠ 0 then none
  else
    let g := UIDGenerator.next m.m_uid_generator
    let objects := m.objects.set_uid object g.2
    -- make sure the object isn't already in the list
    if object ∈ m.m_gameobjects then none
    else if object ∈ m.m_gameobjects_new then none
    else
      some { m with
        objects := objects
        m_uid_generator := g.1
        m_gameobjects_new := m.m_gameobjects_new ++ [object] }

/-- The statement `object->remove_me()` on an object of the manager. -/
def remove_me {σ : Type} (m : GameObjectManager σ) (object : Nat) : GameObjectManager σ :=
  { m with objects := m.objects.remove_me object }

/-- The method `GameObjectManager::this_before_object_add`
(game_object_manager.cpp 182-197); a failing `assert` is `none`. -/
def this_before_object_add {σ : Type} (m : GameObjectManager σ) (object : Nat) :
    Option (GameObjectManager σ) :=
  let o := m.objects object
  -- by_name
  let m : GameObjectManager σ :=
    if o.m_name ≠ "" then
      { m with m_objects_by_name := fun n => if n = o.m_name then some object
          else m.m_objects_by_name n }
    else m
  -- by_id
  if o.m_uid = 0 then none
  else
    some { m with m_objects_by_uid := fun u => if u = o.m_uid then some object
      else m.m_objects_by_uid u }

/-- The method `GameObjectManager::this_before_object_remove`
(game_object_manager.cpp 199-213). -/
def this_before_object_remove {σ : Type} (m : GameObjectManager σ) (object : Nat) :
    GameObjectManager σ :=
  let o := m.objects object
  -- by_name
  let m : GameObjectManager σ :=
    if o.m_name ≠ "" then
      { m with m_objects_by_name := fun n => if n = o.m_name then none
          else m.m_objects_by_name n }
    else m
  -- by_id
  { m with m_objects_by_uid := fun u => if u = o.m_uid then none else m.m_objects_by_uid u }

/-- The `remove_if` of `GameObjectManager::update_game_objects`
(game_object_manager.cpp 143-157) over the rest of the active list: the manager
afterwards and the objects kept. -/
def cleanup {σ : Type} (hooks : ManagerHooks σ) (m : GameObjectManager σ) :
    List Nat → GameObjectManager σ × List Nat
  | [] => (m, [])
  | obj :: rest =>
    if !(m.objects obj).is_valid then
      let m := m.this_before_object_remove obj
      let m : GameObjectManager σ :=
        { m with derived := hooks.before_object_remove m.derived obj (m.objects obj) }
      cleanup hooks m rest
    else
      let r := cleanup hooks m rest
      (r.1, obj :: r.2)

/-- The loop body of the second block of `GameObjectManager::update_game_objects`
(game_object_manager.cpp 160-167). -/
def add_pending {σ : Type} (hooks : ManagerHooks σ) (m : GameObjectManager σ) (object : Nat) :
    Option (GameObjectManager σ) :=
  let r := hooks.before_object_add m.derived object (m.objects object)
  let m : GameObjectManager σ := { m with derived := r.1 }
  if r.2 then
    match m.this_before_object_add object with
    | none => none
    | some m => some { m with m_gameobjects := m.m_gameobjects ++ [object] }
  else some m

/-- The method `GameObjectManager::update_game_objects`
(game_object_manager.cpp 140-180). -/
def update_game_objects {σ : Type} (hooks : ManagerHooks σ) (m : GameObjectManager σ) :
    Option (GameObjectManager σ) :=
  -- cleanup marked objects
  let r := cleanup hooks m m.m_gameobjects
  let m : GameObjectManager σ := { r.1 with m_gameobjects := r.2 }
  -- add newly created objects
  match m.m_gameobjects_new.foldlM (add_pending hooks) m with
  | none => none
  | some m =>
    let m : GameObjectManager σ := { m with m_gameobjects_new := [] }
    -- update solid_tilemaps list
    some { m with
      m_solid_tilemaps := m.m_gameobjects.filter (fun p => (m.objects p).is_solid_tilemap) }

/-- The method `GameObjectManager::clear_objects` (game_object_manager.cpp
98-107). -/
def clear_objects {σ : Type} (hooks : ManagerHooks σ) (m : GameObjectManager σ) :
    Option (GameObjectManager σ) :=
  match update_game_objects hooks m with
  | none => none
  | some m =>
    let derived := m.m_gameobjects.foldl
      (fun d obj => hooks.before_object_remove d obj (m.objects obj)) m.derived
    some { m with derived := derived, m_gameobjects := [] }

end GameObjectManager

/-- The pending objects that the hook `before_object_add` accepts, in order, each
call of the hook starting from the state that the call before left. -/
def accepted {σ : Type} (hooks : ManagerHooks σ) (objects : ObjectStore) :
    σ → List Nat → List Nat
  | _, [] => []
  | d, object :: rest =>
    let r := hooks.before_object_add d object (objects object)
    if r.2 then object :: accepted hooks objects r.1 rest
    else accepted hooks objects r.1 rest

/-- An object of the worked examples: a moving object without UID and name. -/
def plainObject : GameObject :=
  { m_uid := 0, m_wants_to_die := false, m_name := "", is_bullet := false,
    is_moving_object := true, is_portable := false, is_solid_tilemap := false,
    is_camera := false, is_player := false, is_display_effect := false }

/-- A store in which every pointer leads to a fresh `plainObject`. -/
def freshStore : ObjectStore := fun _ => plainObject

/-- Hooks that accept every object and keep no state. -/
def acceptAll : ManagerHooks Unit :=
  { before_object_add := fun d _ _ => (d, true)
    before_object_remove := fun d _ _ => d }

/-- Hooks in the manner of `Sector::before_object_add` (sector.cpp 748-755): the
state is the player slot, a second player is refused. -/
def singlePlayer : ManagerHooks (Option Nat) :=
  { before_object_add := fun d object o =>
      if o.is_player then
        if d ≠ none then (d, false) else (some object, true)
      else (d, true)
    before_object_remove := fun d _ _ => d }

/-- A manager without objects over the store `objects`. -/
def emptyManager {σ : Type} (d : σ) (objects : ObjectStore) : GameObjectManager σ :=
  { derived := d, objects := objects, m_uid_generator := 0, m_gameobjects := [],
    m_gameobjects_new := [], m_solid_tilemaps := [],
    m_objects_by_name := fun _ => none, m_objects_by_uid := fun _ => none }

/-- The manager after `add_object` of the objects 1, 2 and 3 to `emptyManager`:
the three objects are pending with the UIDs 1, 2, 3. -/
def threeAdded {σ : Type} (d : σ) (objects : ObjectStore) : GameObjectManager σ :=
  { derived := d
    objects := ((objects.set_uid 1 1).set_uid 2 2).set_uid 3 3
    m_uid_generator := 3
    m_gameobjects := []
    m_gameobjects_new := [1, 2, 3]
    m_solid_tilemaps := []
    m_objects_by_name := fun _ => none
    m_objects_by_uid := fun _ => none }

/-- A store in which every pointer leads to a fresh player. -/
def playerStore : ObjectStore := fun _ => { plainObject with is_player := true }

/-- A sector registry without objects over the store `objects`. -/
def emptySectorObjects (objects : ObjectStore) : SectorObjects :=
  { objects := objects, gameobjects := [], gameobjects_new := [], bullets := [],
    moving_objects := [], portables := [], solid_tilemaps := [], camera := none,
    player := none, effect := none }


/-- The sector registry after `add_object` of the objects 1, 2 and 3 to
`emptySectorObjects`: the three objects are pending. -/
def sectorThreeAdded (objects : ObjectStore) : SectorObjects :=
  { emptySectorObjects objects with gameobjects_new := [1, 2, 3] }

/-- The manager with three players pending and an empty player slot. -/
def playersPending : GameObjectManager (Option Nat) := threeAdded none playerStore


/-- A manager with the one valid object 1 active and nothing pending. -/
def oneActive : GameObjectManager Unit :=
  { derived := ()
    objects := freshStore.set_uid 1 1
    m_uid_generator := 1
    m_gameobjects := [1]
    m_gameobjects_new := []
    m_solid_tilemaps := []
    m_objects_by_name := fun _ => none
    m_objects_by_uid := fun u => if u = 1 then some 1 else none }


/-! ## Conditions on a call of `check_collisions` -/

/-- Both bodies of the call, if they are given, accept the pairing in `collides`
(sector.cpp 896-900). -/
def pair_accepts (objs : Option (MovingObject × MovingObject)) : Prop :=
  match objs with
  | none => True
  | some (object, other) =>
    other.collides object.uid {} = true ∧ object.collides other.uid {} = true

/-- The other body of the call, if it is given, does not answer `ABORT_MOVE` in
`collision` (sector.cpp 929-931). -/
def other_continues (objs : Option (MovingObject × MovingObject)) : Prop :=
  match objs with
  | none => True
  | some (object, other) => other.collision object.uid {} ≠ ABORT_MOVE

/-- One of the four shift-out tests of `check_collisions` (sector.cpp 908-925)
succeeds. -/
def shift_out_applies (cfg : Config) (movement : Vector) (r1 r2 : Rectf) : Prop :=
  if |movement.y| > |movement.x| then
    r1.get_right - r2.get_left < cfg.SHIFT_DELTA ∨ r2.get_right - r1.get_left < cfg.SHIFT_DELTA
  else
    r1.get_bottom - r2.get_top < cfg.SHIFT_DELTA ∨ r2.get_bottom - r1.get_top < cfg.SHIFT_DELTA

/-- The constraint set after the ground-movement lines of `check_collisions`
(sector.cpp 927-937), for a call that is not aborted. -/
def with_ground_movement (constraints : Constraints)
    (objs : Option (MovingObject × MovingObject)) (addl_ground_movement : Vector) :
    Constraints :=
  match objs with
  | none =>
    { constraints with
      ground_movement := constraints.ground_movement.add addl_ground_movement }
  | some (_, other) =>
    if other.get_movement ≠ Vector.zero then
      { constraints with ground_movement := other.get_movement }
    else
      { constraints with
        ground_movement := constraints.ground_movement.add addl_ground_movement }

/-- The new lower bound `new` is not below the old one, `none` being `-infinity`. -/
def lower_bound_le (old new : Option ℚ) : Prop :=
  match old, new with
  | none, _ => True
  | some _, none => False
  | some a, some b => a ≤ b

/-- The new upper bound `new` is not above the old one, `none` being `+infinity`. -/
def upper_bound_ge (old new : Option ℚ) : Prop :=
  match old, new with
  | none, _ => True
  | some _, none => False
  | some a, some b => b ≤ a

/-- Every flag set in `old` is set in `new`. -/
def flags_kept (old new : CollisionHit) : Prop :=
  (old.left = true → new.left = true) ∧ (old.right = true → new.right = true)
    ∧ (old.top = true → new.top = true) ∧ (old.bottom = true → new.bottom = true)
    ∧ (old.crush = true → new.crush = true)

/-- The constraint set `new` is `old` tightened: no bound is relaxed and no flag is
cleared. -/
def tightened (old new : Constraints) : Prop :=
  lower_bound_le old.left new.left ∧ lower_bound_le old.top new.top
    ∧ upper_bound_ge old.right new.right ∧ upper_bound_ge old.bottom new.bottom
    ∧ flags_kept old.hit new.hit

/-- The callbacks of `check_collisions` before its shift-out tests (sector.cpp
896-900), for a call that both bodies accept: the two `collides` queries. -/
def collides_events (objs : Option (MovingObject × MovingObject)) : List Event :=
  match objs with
  | none => []
  | some (object, other) =>
    [Event.collides other.uid object.uid {}, Event.collides object.uid other.uid {}]

/-- The rectangle of the falling body of the examples at its destination:
`(8, -4)-(24, 12)`, 12 units into the tile at the origin. -/
def landingRect : Rectf := ⟨⟨8, -4⟩, ⟨24, 12⟩⟩

/-- A falling body and a platform under it that moves by `(3, 0)`, both accepting
the pairing. -/
def carrierPair : Option (MovingObject × MovingObject) :=
  some (exampleBody 1 COLGROUP_MOVING 8 (-4) 16 16 ⟨0, 16⟩ CONTINUE,
        exampleBody 2 COLGROUP_MOVING_STATIC 0 0 32 32 ⟨3, 0⟩ CONTINUE)

/-- The rectangle of a body falling past the left edge of the tile at the origin:
`(-12, -10)-(4, 6)`, 4 units into the tile horizontally. -/
def grazingRect : Rectf := ⟨⟨-12, -10⟩, ⟨4, 6⟩⟩


/-! ## The half-plane reading of the movement test -/

/-- The tangent of a slope as the half-plane test names it: 0.5 for the bottom and
top deformations, 2 for the left and right deformations, 1 otherwise. -/
def slope_tangent (slope_info : Nat) : ℚ :=
  if slope_info &&& AATriangle.DEFORM_MASK = DEFORM_BOTTOM
      ∨ slope_info &&& AATriangle.DEFORM_MASK = DEFORM_TOP then 1 / 2
  else if slope_info &&& AATriangle.DEFORM_MASK = DEFORM_LEFT
      ∨ slope_info &&& AATriangle.DEFORM_MASK = DEFORM_RIGHT then 2
  else 1

/-- The movement seen from the `SOUTHEAST` case, as the half-plane test names it:
`x` negated for `SOUTHWEST` and `NORTHWEST`, `y` negated for `NORTHEAST` and
`NORTHWEST`. -/
def mirrored_movement (movement : Vector) (slope_info : Nat) : Vector :=
  ⟨if slope_info &&& AATriangle.DIRECTION_MASK = AATriangle.SOUTHWEST
        ∨ slope_info &&& AATriangle.DIRECTION_MASK = AATriangle.NORTHWEST
      then -movement.x else movement.x,
   if slope_info &&& AATriangle.DIRECTION_MASK = AATriangle.NORTHEAST
        ∨ slope_info &&& AATriangle.DIRECTION_MASK = AATriangle.NORTHWEST
      then -movement.y else movement.y⟩

/-- The single half-plane test: solid exactly when `t * mx' + my' >= 0`. -/
def movement_half_plane (movement : Vector) (tile : Tile) : Int :=
  if slope_tangent tile.getData * (mirrored_movement movement tile.getData).x
      + (mirrored_movement movement tile.getData).y ≥ 0 then MV_SOLID
  else MV_NON_SOLID


/-! ## Sizes of rectangles -/

/-- The rectangle `r` has width `w` and height `h`. -/
def has_size (r : Rectf) (w h : ℚ) : Prop := r.get_width = w ∧ r.get_height = h

/-- The body `b` has the bounding box of `a` and a destination of the size of the
destination of `a`. -/
def translated (a b : MovingObject) : Prop :=
  b.bbox = a.bbox ∧ has_size b.dest a.dest.get_width a.dest.get_height


/-! ## The pairs of the moving-vs-moving pass -/

/-- The body at position `i` of the index is a valid body of the group moving or
moving-static. -/
def eligible_at (l : List MovingObject) (i : Nat) : Bool :=
  match l[i]? with
  | some o => moving_eligible o
  | none => false

/-- The pairs of positions that the moving-vs-moving pass is described to test:
every pair `(i, i2)` with `i` before `i2` whose bodies are both valid bodies of
the groups moving or moving-static, ordered by `i` and then by `i2`. -/
def moving_pairs (l : List MovingObject) : List (Nat × Nat) :=
  (List.range l.length).flatMap (fun i =>
    if eligible_at l i then
      ((List.range' (i + 1) (l.length - (i + 1))).filter (eligible_at l)).map
        (fun i2 => (i, i2))
    else [])

/-- One call `collision_object(moving_object, moving_object_2)` on the bodies at
the positions `p.1` and `p.2` of the index, the first as the first argument. -/
def call_collision_object (cfg : Config) (st : List MovingObject × List Event)
    (p : Nat × Nat) : List MovingObject × List Event :=
  pair_step (collision_object cfg) p.1 p.2 st



/-! ## Sequences of calls on the registry -/

/-- The four calls on a `GameObjectManager` that change its registry. -/
inductive ManagerCall where
  | add_object (object : Nat)
  | remove_me (object : Nat)
  | update_game_objects
  | clear_objects

/-- One call on the manager; a failing `assert` is `none`. -/
def GameObjectManager.call {σ : Type} (hooks : ManagerHooks σ) (m : GameObjectManager σ) :
    ManagerCall → Option (GameObjectManager σ)
  | ManagerCall.add_object object => m.add_object object
  | ManagerCall.remove_me object => some (m.remove_me object)
  | ManagerCall.update_game_objects => m.update_game_objects hooks
  | ManagerCall.clear_objects => m.clear_objects hooks

/-- A sequence of calls on the manager, one after the other. -/
def GameObjectManager.calls {σ : Type} (hooks : ManagerHooks σ) (m : GameObjectManager σ)
    (l : List ManagerCall) : Option (GameObjectManager σ) :=
  l.foldlM (GameObjectManager.call hooks) m

/-- The map `m_objects_by_uid` holds exactly the UIDs of the objects of the
active list, each mapped to its object. -/
def by_uid_agrees {σ : Type} (m : GameObjectManager σ) : Prop :=
  ∀ u p, m.m_objects_by_uid u = some p ↔ p ∈ m.m_gameobjects ∧ (m.objects p).m_uid = u

/-- The map `m_objects_by_name` has an entry for a name exactly when an object of
the active list has that non-empty name, and the entry is such an object. -/
def by_name_agrees {σ : Type} (m : GameObjectManager σ) : Prop :=
  ∀ n, ((m.m_objects_by_name n).isSome
      ↔ n ≠ "" ∧ ∃ p ∈ m.m_gameobjects, (m.objects p).m_name = n)
    ∧ ∀ p, m.m_objects_by_name n = some p →
        p ∈ m.m_gameobjects ∧ (m.objects p).m_name = n

/-- A store in which every pointer leads to a fresh object of the name `tux`. -/
def namedStore : ObjectStore := fun _ => { plainObject with m_name := "tux" }

/-- The calls that register the object 1 and then clear the registry. -/
def registerAndClear : List ManagerCall :=
  [ManagerCall.add_object 1, ManagerCall.update_game_objects, ManagerCall.clear_objects]

/-- The calls that register the object 1 and then remove it through `remove_me`. -/
def registerAndRemove : List ManagerCall :=
  [ManagerCall.add_object 1, ManagerCall.update_game_objects, ManagerCall.remove_me 1,
    ManagerCall.update_game_objects]

/-- The calls that register the objects 1 and 2 and then remove the object 1. -/
def registerTwoRemoveOne : List ManagerCall :=
  [ManagerCall.add_object 1, ManagerCall.add_object 2, ManagerCall.update_game_objects,
    ManagerCall.remove_me 1, ManagerCall.update_game_objects]


/-- No two objects of the store share a non-empty name. -/
def distinct_names (objects : ObjectStore) : Prop :=
  ∀ p q, (objects p).m_name = (objects q).m_name → (objects p).m_name ≠ "" → p = q

/-- The objects of the two lists have UIDs: none is 0, none is above the last UID
of the generator, and no two objects share one. -/
def uids_assigned {σ : Type} (m : GameObjectManager σ) : Prop :=
  (∀ p ∈ m.m_gameobjects ++ m.m_gameobjects_new,
      (m.objects p).m_uid ≠ 0 ∧ (m.objects p).m_uid ≤ m.m_uid_generator)
  ∧ ∀ p ∈ m.m_gameobjects ++ m.m_gameobjects_new,
      ∀ q ∈ m.m_gameobjects ++ m.m_gameobjects_new,
        (m.objects p).m_uid = (m.objects q).m_uid → p = q

/-- The two lookup maps agree with the active list, the listed objects have
UIDs, and names are not shared. -/
def registry_consistent {σ : Type} (m : GameObjectManager σ) : Prop :=
  by_uid_agrees m ∧ by_name_agrees m ∧ uids_assigned m ∧ distinct_names m.objects


/-- A falling body of the worked examples that refuses every pairing in
`collides`. -/
def vetoingBody : MovingObject :=
  { exampleBody 1 COLGROUP_MOVING 8 (-4) 16 16 ⟨0, 16⟩ CONTINUE with
    collides := fun _ _ => false }

/-- A platform that moves by `(3, 0)`, accepts every pairing and answers
`CONTINUE`. -/
def carrierBody : MovingObject :=
  exampleBody 2 COLGROUP_MOVING_STATIC 0 0 32 32 ⟨3, 0⟩ CONTINUE

/-- The call with the refusing body on the platform. -/
def vetoingPair : Option (MovingObject × MovingObject) := some (vetoingBody, carrierBody)

/-- A sector registry with the one valid object 1 active and nothing pending. -/
def sectorOneActive : SectorObjects :=
  { emptySectorObjects freshStore with gameobjects := [1], moving_objects := [1] }



/-! ## Bodies met in the moving-vs-moving pass -/

/-- The destinations of the two bodies of the pair `p` intersect in the state
`st` of the pass: the first test of `collision_object` (sector.cpp 1389). -/
def pair_meets (st : List MovingObject × List Event) (p : Nat × Nat) : Bool :=
  match st.1[p.1]?, st.1[p.2]? with
  | some a, some b => intersects a.dest b.dest
  | _, _ => false

/-- One call of the pass together with a flag: the flag is raised when the call
has the body at position `k` as one of its two arguments and finds the two
destinations intersecting. -/
def met_step (cfg : Config) (k : Nat) (acc : (List MovingObject × List Event) × Bool)
    (p : Nat × Nat) : (List MovingObject × List Event) × Bool :=
  (call_collision_object cfg acc.1 p,
    acc.2 || ((decide (p.1 = k) || decide (p.2 = k)) && pair_meets acc.1 p))

/-- Whether some call of `collision_object` in the moving-vs-moving pass over
the index `l` finds the destination of the body at position `k` intersecting the
destination of the other body of the pair; every call is looked at in the state
that the calls before it left. -/
def met_in_pass (cfg : Config) (k : Nat) (l : List MovingObject) : Bool :=
  ((moving_pairs l).foldl (met_step cfg k) ((l, []), false)).2

/-- The same for a frame of `handle_collisions`: the pass runs on the index that
the static phase and part 2.5 return. -/
def met_in_frame (cfg : Config) (sector : Sector) (k : Nat) : Bool :=
  match part1 cfg sector.solid_tilemaps [] (sector.moving_objects.map (compute_dest cfg)) with
  | none => false
  | some r => met_in_pass cfg k (part2_5 r.1).1

/-- A second body of the worked examples at rest, far from the first: 16x16 at
`(100, 100)`. -/
def farBody : MovingObject :=
  exampleBody 2 COLGROUP_MOVING 100 100 16 16 Vector.zero CONTINUE

/-- A sector of the worked examples without tile layers, holding two valid moving
bodies at rest that are far apart. -/
def apartSector : Sector := ⟨[overlapA CONTINUE, farBody], []⟩


/-- A third body of the worked examples at rest, 2 units to the left of the
first: 32x32 at `(-34, 0)`. -/
def neighbourBody : MovingObject :=
  exampleBody 3 COLGROUP_MOVING (-34) 0 32 32 Vector.zero CONTINUE

/-- A sector of the worked examples without tile layers: the two overlapping
bodies and, 2 units to the left of the first, a third body that overlaps
neither. -/
def chainSector : Sector :=
  ⟨[overlapA CONTINUE, overlapB CONTINUE, neighbourBody], []⟩

/-! ## Theorems -/

/-- Exchanging the sides twice gives the flags back. -/
theorem swapped_swapped (h : CollisionHit) : h.swapped.swapped = h := by
  cases h; rfl

/-- Two rectangles intersect exactly when they overlap or touch on both axes. -/
theorem intersects_iff (r1 r2 : Rectf) :
    intersects r1 r2 = true ↔
      r2.p1.x ≤ r1.p2.x ∧ r1.p1.x ≤ r2.p2.x ∧ r2.p1.y ≤ r1.p2.y ∧ r1.p1.y ≤ r2.p2.y := by
  unfold intersects
  split_ifs with h1 h2
  · simp only [Bool.false_eq_true, false_iff]; rcases h1 with h | h <;> intro ⟨a, b, c, d⟩ <;> linarith
  · simp only [Bool.false_eq_true, false_iff]; rcases h2 with h | h <;> intro ⟨a, b, c, d⟩ <;> linarith
  · push_neg at h1 h2; simp only [true_iff]; exact ⟨h1.1, h1.2, h2.1, h2.2⟩

/-- The first test of `check_collisions`: rectangles that do not intersect leave
the constraint set as it is, without a callback. -/
theorem check_collisions_no_overlap (cfg : Config) (c : Constraints) (mv : Vector)
    (r1 r2 : Rectf) (objs : Option (MovingObject × MovingObject)) (addl : Vector)
    (h : intersects r1 r2 = false) :
    check_collisions cfg c mv r1 r2 objs addl = (c, []) := by
  simp [check_collisions, h]

/-- C3: for rectangles that do not intersect, and every movement vector, constraint
set and pair of bodies, `check_collisions` returns the constraint set unchanged
(all four bounds, all hit flags, the ground movement) and invokes no callback. -/
theorem check_collisions_disjoint (cfg : Config) (c : Constraints) (mv : Vector) (r1 r2 : Rectf)
    (objs : Option (MovingObject × MovingObject)) (addl : Vector)
    (h : intersects r1 r2 = false) :
    check_collisions cfg c mv r1 r2 objs addl = (c, []) :=
  check_collisions_no_overlap cfg c mv r1 r2 objs addl h

/-- C3, at a concrete input: two boxes 10 apart on the X axis. -/
theorem check_collisions_disjoint_witness :
    check_collisions exampleConfig {} ⟨3, 4⟩ ⟨⟨0, 0⟩, ⟨10, 10⟩⟩ ⟨⟨20, 0⟩, ⟨30, 10⟩⟩
      (some (exampleBody 1 COLGROUP_MOVING 0 0 10 10 ⟨3, 4⟩ CONTINUE,
             exampleBody 2 COLGROUP_STATIC 20 0 10 10 ⟨0, 0⟩ CONTINUE)) Vector.zero
      = ({}, []) :=
  check_collisions_disjoint _ _ _ _ _ _ _ (by decide)

/-- The correction of `collision_object` for the answers (CONTINUE, CONTINUE): the
penetration is split between the two bodies. -/
theorem collision_object_continue_both (cfg : Config) (o1 o2 : MovingObject)
    (hi : intersects o1.dest o2.dest = true)
    (hc1 : o1.collides o2.uid (pair_hit o1 o2) = true)
    (hc2 : o2.collides o1.uid (pair_hit o1 o2).swapped = true)
    (hr1 : o1.collision o2.uid (pair_hit o1 o2) = CONTINUE)
    (hr2 : o2.collision o1.uid (pair_hit o1 o2).swapped = CONTINUE) :
    (collision_object cfg o1 o2).1
        = { o1 with dest := o1.dest.move ((pair_normal o1 o2).scale (1 / 2 + cfg.DELTA)).neg }
    ∧ (collision_object cfg o1 o2).2.1
        = { o2 with dest := o2.dest.move ((pair_normal o1 o2).scale (1 / 2 + cfg.DELTA)) } := by
  unfold pair_hit at hc1 hc2 hr1 hr2
  simp [collision_object, hi, hc1, hc2, hr1, hr2, swapped_swapped, pair_normal]

/-- C4: when the destinations intersect, both bodies accept the pairing and both
answer CONTINUE, `collision_object` translates the first destination by
`-(0.5 + DELTA) * n` and the second by `+(0.5 + DELTA) * n`, where the hit
normal `n` is non-zero only on the axis of the smaller penetration, with that
penetration as magnitude; the coordinates on the other axis are unchanged. -/
theorem collision_object_continue_continue (cfg : Config) (o1 o2 : MovingObject)
    (hi : intersects o1.dest o2.dest = true)
    (hc1 : o1.collides o2.uid (pair_hit o1 o2) = true)
    (hc2 : o2.collides o1.uid (pair_hit o1 o2).swapped = true)
    (hr1 : o1.collision o2.uid (pair_hit o1 o2) = CONTINUE)
    (hr2 : o2.collision o1.uid (pair_hit o1 o2).swapped = CONTINUE) :
    (collision_object cfg o1 o2).1.dest
        = o1.dest.move ((pair_normal o1 o2).scale (1 / 2 + cfg.DELTA)).neg
    ∧ (collision_object cfg o1 o2).2.1.dest
        = o2.dest.move ((pair_normal o1 o2).scale (1 / 2 + cfg.DELTA))
    ∧ (vert_penetration o1.dest o2.dest < horiz_penetration o1.dest o2.dest →
        (pair_normal o1 o2).x = 0
        ∧ |(pair_normal o1 o2).y| = vert_penetration o1.dest o2.dest
        ∧ (collision_object cfg o1 o2).1.dest.p1.x = o1.dest.p1.x
        ∧ (collision_object cfg o1 o2).1.dest.p2.x = o1.dest.p2.x
        ∧ (collision_object cfg o1 o2).2.1.dest.p1.x = o2.dest.p1.x
        ∧ (collision_object cfg o1 o2).2.1.dest.p2.x = o2.dest.p2.x)
    ∧ (¬ vert_penetration o1.dest o2.dest < horiz_penetration o1.dest o2.dest →
        (pair_normal o1 o2).y = 0
        ∧ |(pair_normal o1 o2).x| = horiz_penetration o1.dest o2.dest
        ∧ (collision_object cfg o1 o2).1.dest.p1.y = o1.dest.p1.y
        ∧ (collision_object cfg o1 o2).1.dest.p2.y = o1.dest.p2.y
        ∧ (collision_object cfg o1 o2).2.1.dest.p1.y = o2.dest.p1.y
        ∧ (collision_object cfg o1 o2).2.1.dest.p2.y = o2.dest.p2.y) := by
  have e1 : (collision_object cfg o1 o2).1.dest
        = o1.dest.move ((pair_normal o1 o2).scale (1 / 2 + cfg.DELTA)).neg := by
    rw [(collision_object_continue_both cfg o1 o2 hi hc1 hc2 hr1 hr2).1]
  have e2 : (collision_object cfg o1 o2).2.1.dest
        = o2.dest.move ((pair_normal o1 o2).scale (1 / 2 + cfg.DELTA)) := by
    rw [(collision_object_continue_both cfg o1 o2 hi hc1 hc2 hr1 hr2).2]
  rw [e1, e2]
  obtain ⟨g1, g2, g3, g4⟩ := (intersects_iff _ _).1 hi
  refine ⟨rfl, rfl, ?_, ?_⟩
  · intro hv
    have hv' := hv
    unfold vert_penetration horiz_penetration at hv'
    have hn : (pair_normal o1 o2).x = 0 := by
      unfold pair_normal get_hit_normal
      simp only [hv', if_true]
      split_ifs <;> rfl
    have ha : |(pair_normal o1 o2).y| = vert_penetration o1.dest o2.dest := by
      unfold pair_normal get_hit_normal vert_penetration
      simp only [hv', if_true]
      have hnn : 0 ≤ min (o1.dest.get_bottom - o2.dest.get_top) (o2.dest.get_bottom - o1.dest.get_top) := by
        simp only [Rectf.get_bottom, Rectf.get_top]
        exact le_min (by linarith) (by linarith)
      split_ifs
      · simpa using hnn
      · simpa using hnn
    refine ⟨hn, ha, ?_, ?_, ?_, ?_⟩ <;> simp [Rectf.move, Vector.add, Vector.scale, Vector.neg, hn]
  · intro hv
    have hv' := hv
    unfold vert_penetration horiz_penetration at hv'
    have hn : (pair_normal o1 o2).y = 0 := by
      unfold pair_normal get_hit_normal
      simp only [hv', if_false]
      split_ifs <;> rfl
    have ha : |(pair_normal o1 o2).x| = horiz_penetration o1.dest o2.dest := by
      unfold pair_normal get_hit_normal horiz_penetration
      simp only [hv', if_false]
      have hnn : 0 ≤ min (o1.dest.get_right - o2.dest.get_left) (o2.dest.get_right - o1.dest.get_left) := by
        simp only [Rectf.get_right, Rectf.get_left]
        exact le_min (by linarith) (by linarith)
      split_ifs
      · simpa using hnn
      · simpa using hnn
    refine ⟨hn, ha, ?_, ?_, ?_, ?_⟩ <;> simp [Rectf.move, Vector.add, Vector.scale, Vector.neg, hn]


/-- C4, at a concrete input: two 32x32 bodies overlapping by 10 units along X,
both answering CONTINUE, move 5.02 units apart each, along X only. -/
theorem collision_object_continue_continue_witness :
    (collision_object exampleConfig (overlapA CONTINUE) (overlapB CONTINUE)).1.dest
        = ⟨⟨-(251 / 50), 0⟩, ⟨32 - 251 / 50, 32⟩⟩
    ∧ (collision_object exampleConfig (overlapA CONTINUE) (overlapB CONTINUE)).2.1.dest
        = ⟨⟨22 + 251 / 50, 0⟩, ⟨54 + 251 / 50, 32⟩⟩ := by
  have h := collision_object_continue_continue exampleConfig (overlapA CONTINUE)
    (overlapB CONTINUE)
    (by norm_num [intersects, overlapA, overlapB, exampleBody]) rfl rfl rfl rfl
  have hn : pair_normal (overlapA CONTINUE) (overlapB CONTINUE) = ⟨10, 0⟩ := by
    norm_num [pair_normal, get_hit_normal, overlapA, overlapB, exampleBody, Rectf.get_bottom,
      Rectf.get_top, Rectf.get_left, Rectf.get_right, Vector.zero]
  rw [hn] at h
  refine ⟨h.1.trans ?_, h.2.1.trans ?_⟩ <;>
    norm_num [overlapA, overlapB, exampleBody, exampleConfig, Rectf.move, Vector.add,
      Vector.scale, Vector.neg]

/-- The correction of `collision_object` for the answers (CONTINUE, FORCE_MOVE):
the first body absorbs the whole correction. -/
theorem collision_object_continue_force (cfg : Config) (o1 o2 : MovingObject)
    (hi : intersects o1.dest o2.dest = true)
    (hc1 : o1.collides o2.uid (pair_hit o1 o2) = true)
    (hc2 : o2.collides o1.uid (pair_hit o1 o2).swapped = true)
    (hr1 : o1.collision o2.uid (pair_hit o1 o2) = CONTINUE)
    (hr2 : o2.collision o1.uid (pair_hit o1 o2).swapped = FORCE_MOVE) :
    (collision_object cfg o1 o2).1.dest
        = o1.dest.move ((pair_normal o1 o2).scale (1 + cfg.DELTA)).neg
    ∧ (collision_object cfg o1 o2).2.1.dest = o2.dest := by
  unfold pair_hit at hc1 hc2 hr1 hr2
  simp [collision_object, hi, hc1, hc2, hr1, hr2, swapped_swapped, pair_normal]

/-- The correction of `collision_object` for the answers (FORCE_MOVE, CONTINUE):
the second body absorbs the whole correction. -/
theorem collision_object_force_continue (cfg : Config) (o1 o2 : MovingObject)
    (hi : intersects o1.dest o2.dest = true)
    (hc1 : o1.collides o2.uid (pair_hit o1 o2) = true)
    (hc2 : o2.collides o1.uid (pair_hit o1 o2).swapped = true)
    (hr1 : o1.collision o2.uid (pair_hit o1 o2) = FORCE_MOVE)
    (hr2 : o2.collision o1.uid (pair_hit o1 o2).swapped = CONTINUE) :
    (collision_object cfg o1 o2).1.dest = o1.dest
    ∧ (collision_object cfg o1 o2).2.1.dest
        = o2.dest.move ((pair_normal o1 o2).scale (1 + cfg.DELTA)) := by
  unfold pair_hit at hc1 hc2 hr1 hr2
  simp [collision_object, hi, hc1, hc2, hr1, hr2, swapped_swapped, pair_normal]

/-- The four outcomes of `get_hit_normal` on a default hit and normal. -/
theorem get_hit_normal_cases (r1 r2 : Rectf) :
    (get_hit_normal r1 r2 {} Vector.zero
        = ({ bottom := true }, ⟨0, r1.get_bottom - r2.get_top⟩)
      ∧ vert_penetration r1 r2 < horiz_penetration r1 r2
      ∧ r1.get_bottom - r2.get_top < r2.get_bottom - r1.get_top)
    ∨ (get_hit_normal r1 r2 {} Vector.zero
        = ({ top := true }, ⟨0, -(r2.get_bottom - r1.get_top)⟩)
      ∧ vert_penetration r1 r2 < horiz_penetration r1 r2
      ∧ ¬ r1.get_bottom - r2.get_top < r2.get_bottom - r1.get_top)
    ∨ (get_hit_normal r1 r2 {} Vector.zero
        = ({ right := true }, ⟨r1.get_right - r2.get_left, 0⟩)
      ∧ ¬ vert_penetration r1 r2 < horiz_penetration r1 r2
      ∧ r1.get_right - r2.get_left < r2.get_right - r1.get_left)
    ∨ (get_hit_normal r1 r2 {} Vector.zero
        = ({ left := true }, ⟨-(r2.get_right - r1.get_left), 0⟩)
      ∧ ¬ vert_penetration r1 r2 < horiz_penetration r1 r2
      ∧ ¬ r1.get_right - r2.get_left < r2.get_right - r1.get_left) := by
  by_cases hv : vert_penetration r1 r2 < horiz_penetration r1 r2
  · have hv' := hv
    unfold vert_penetration horiz_penetration at hv'
    by_cases ht : r1.get_bottom - r2.get_top < r2.get_bottom - r1.get_top
    · left
      refine ⟨?_, hv, ht⟩
      simp only [get_hit_normal, hv', ht, if_true]
      rw [min_eq_left ht.le]; rfl
    · right; left
      refine ⟨?_, hv, ht⟩
      simp only [get_hit_normal, hv', ht, if_true, if_false]
      rw [min_eq_right (not_lt.1 ht)]; rfl
  · have hv' := hv
    unfold vert_penetration horiz_penetration at hv'
    by_cases ht : r1.get_right - r2.get_left < r2.get_right - r1.get_left
    · right; right; left
      refine ⟨?_, hv, ht⟩
      simp only [get_hit_normal, hv', ht, if_true, if_false]
      rw [min_eq_left ht.le]; rfl
    · right; right; right
      refine ⟨?_, hv, ht⟩
      simp only [get_hit_normal, hv', ht, if_false]
      rw [min_eq_right (not_lt.1 ht)]; rfl

/-- Moving the first rectangle by `-(1 + d) * n` leaves, on the side that was hit,
the penetration `-d * p`. -/
theorem side_penetration_move_first (d : ℚ) (r1 r2 : Rectf) :
    side_penetration (get_hit_normal r1 r2 {} Vector.zero).1
        (r1.move (((get_hit_normal r1 r2 {} Vector.zero).2).scale (1 + d)).neg) r2
      = -d * side_penetration (get_hit_normal r1 r2 {} Vector.zero).1 r1 r2 := by
  rcases get_hit_normal_cases r1 r2 with ⟨h, -, -⟩ | ⟨h, -, -⟩ | ⟨h, -, -⟩ | ⟨h, -, -⟩ <;>
    rw [h] <;>
    simp [side_penetration, Rectf.move, Vector.add, Vector.scale, Vector.neg,
      Rectf.get_bottom, Rectf.get_top, Rectf.get_left, Rectf.get_right] <;> ring

/-- Moving the second rectangle by `(1 + d) * n` leaves, on the side that was hit,
the penetration `-d * p`. -/
theorem side_penetration_move_second (d : ℚ) (r1 r2 : Rectf) :
    side_penetration (get_hit_normal r1 r2 {} Vector.zero).1
        r1 (r2.move (((get_hit_normal r1 r2 {} Vector.zero).2).scale (1 + d)))
      = -d * side_penetration (get_hit_normal r1 r2 {} Vector.zero).1 r1 r2 := by
  rcases get_hit_normal_cases r1 r2 with ⟨h, -, -⟩ | ⟨h, -, -⟩ | ⟨h, -, -⟩ | ⟨h, -, -⟩ <;>
    rw [h] <;>
    simp [side_penetration, Rectf.move, Vector.add, Vector.scale, Vector.neg,
      Rectf.get_bottom, Rectf.get_top, Rectf.get_left, Rectf.get_right] <;> ring

/-- C5: when exactly one collision callback answers FORCE_MOVE and the other
CONTINUE, the force-moving body's destination is unchanged and the other body's
destination is translated by `(1 + DELTA)` times the hit normal (the first body
by `-(1 + DELTA) * n`, the second by `+(1 + DELTA) * n`); on the side that was
hit the penetration `p` becomes `-DELTA * p`, so the body is moved away by
`(1 + DELTA) * p`. -/
theorem collision_object_one_force_move (cfg : Config) (o1 o2 : MovingObject)
    (hi : intersects o1.dest o2.dest = true)
    (hc1 : o1.collides o2.uid (pair_hit o1 o2) = true)
    (hc2 : o2.collides o1.uid (pair_hit o1 o2).swapped = true)
    (hr : (o1.collision o2.uid (pair_hit o1 o2) = CONTINUE
            ∧ o2.collision o1.uid (pair_hit o1 o2).swapped = FORCE_MOVE)
        ∨ (o1.collision o2.uid (pair_hit o1 o2) = FORCE_MOVE
            ∧ o2.collision o1.uid (pair_hit o1 o2).swapped = CONTINUE)) :
    (o2.collision o1.uid (pair_hit o1 o2).swapped = FORCE_MOVE →
        (collision_object cfg o1 o2).2.1.dest = o2.dest
        ∧ (collision_object cfg o1 o2).1.dest
            = o1.dest.move ((pair_normal o1 o2).scale (1 + cfg.DELTA)).neg)
    ∧ (o1.collision o2.uid (pair_hit o1 o2) = FORCE_MOVE →
        (collision_object cfg o1 o2).1.dest = o1.dest
        ∧ (collision_object cfg o1 o2).2.1.dest
            = o2.dest.move ((pair_normal o1 o2).scale (1 + cfg.DELTA)))
    ∧ side_penetration (pair_hit o1 o2) (collision_object cfg o1 o2).1.dest
          (collision_object cfg o1 o2).2.1.dest
        = -cfg.DELTA * side_penetration (pair_hit o1 o2) o1.dest o2.dest := by
  rcases hr with ⟨hr1, hr2⟩ | ⟨hr1, hr2⟩
  · obtain ⟨e1, e2⟩ := collision_object_continue_force cfg o1 o2 hi hc1 hc2 hr1 hr2
    refine ⟨fun _ => ⟨e2, e1⟩, fun h => ?_, ?_⟩
    · rw [hr1] at h; cases h
    · rw [e1, e2]; exact side_penetration_move_first cfg.DELTA o1.dest o2.dest
  · obtain ⟨e1, e2⟩ := collision_object_force_continue cfg o1 o2 hi hc1 hc2 hr1 hr2
    refine ⟨fun h => ?_, fun _ => ⟨e1, e2⟩, ?_⟩
    · rw [hr2] at h; cases h
    · rw [e1, e2]; exact side_penetration_move_second cfg.DELTA o1.dest o2.dest

/-- C5, at a concrete input: of two 32x32 bodies overlapping by 10 units along X
the second force-moves; the first is moved 10.02 units to the left and the
second stays. -/
theorem collision_object_one_force_move_witness :
    (collision_object exampleConfig (overlapA CONTINUE) (overlapB FORCE_MOVE)).2.1.dest
        = (overlapB FORCE_MOVE).dest
    ∧ (collision_object exampleConfig (overlapA CONTINUE) (overlapB FORCE_MOVE)).1.dest
        = ⟨⟨-(501 / 50), 0⟩, ⟨32 - 501 / 50, 32⟩⟩ := by
  have h := collision_object_one_force_move exampleConfig (overlapA CONTINUE)
    (overlapB FORCE_MOVE)
    (by norm_num [intersects, overlapA, overlapB, exampleBody]) rfl rfl (Or.inl ⟨rfl, rfl⟩)
  have hn : pair_normal (overlapA CONTINUE) (overlapB FORCE_MOVE) = ⟨10, 0⟩ := by
    norm_num [pair_normal, get_hit_normal, overlapA, overlapB, exampleBody, Rectf.get_bottom,
      Rectf.get_top, Rectf.get_left, Rectf.get_right, Vector.zero]
  rw [hn] at h
  refine ⟨(h.1 rfl).1, (h.1 rfl).2.trans ?_⟩
  norm_num [overlapA, overlapB, exampleBody, exampleConfig, Rectf.move, Vector.add,
    Vector.scale, Vector.neg]

/-- C6: `collision_object` leaves both destinations unchanged whenever a
`collides` predicate vetoes the pairing, a collision callback answers
ABORT_MOVE, or both answer FORCE_MOVE; a destination changes only when the
destinations intersect, both bodies accept and the answers are
(CONTINUE, CONTINUE), (CONTINUE, FORCE_MOVE) or (FORCE_MOVE, CONTINUE). -/
theorem collision_object_no_correction (cfg : Config) (o1 o2 : MovingObject) :
    ((o1.collides o2.uid (pair_hit o1 o2) = false
        ∨ o2.collides o1.uid (pair_hit o1 o2).swapped = false
        ∨ o1.collision o2.uid (pair_hit o1 o2) = ABORT_MOVE
        ∨ o2.collision o1.uid (pair_hit o1 o2).swapped = ABORT_MOVE
        ∨ (o1.collision o2.uid (pair_hit o1 o2) = FORCE_MOVE
            ∧ o2.collision o1.uid (pair_hit o1 o2).swapped = FORCE_MOVE)) →
      (collision_object cfg o1 o2).1.dest = o1.dest
      ∧ (collision_object cfg o1 o2).2.1.dest = o2.dest)
    ∧ (((collision_object cfg o1 o2).1.dest ≠ o1.dest
        ∨ (collision_object cfg o1 o2).2.1.dest ≠ o2.dest) →
      intersects o1.dest o2.dest = true
      ∧ o1.collides o2.uid (pair_hit o1 o2) = true
      ∧ o2.collides o1.uid (pair_hit o1 o2).swapped = true
      ∧ ((o1.collision o2.uid (pair_hit o1 o2) = CONTINUE
            ∧ o2.collision o1.uid (pair_hit o1 o2).swapped = CONTINUE)
        ∨ (o1.collision o2.uid (pair_hit o1 o2) = CONTINUE
            ∧ o2.collision o1.uid (pair_hit o1 o2).swapped = FORCE_MOVE)
        ∨ (o1.collision o2.uid (pair_hit o1 o2) = FORCE_MOVE
            ∧ o2.collision o1.uid (pair_hit o1 o2).swapped = CONTINUE))) := by
  unfold pair_hit
  cases hi : intersects o1.dest o2.dest <;>
  cases hc1 : o1.collides o2.uid (get_hit_normal o1.dest o2.dest {} Vector.zero).1 <;>
  cases hc2 : o2.collides o1.uid (get_hit_normal o1.dest o2.dest {} Vector.zero).1.swapped <;>
  cases hr1 : o1.collision o2.uid (get_hit_normal o1.dest o2.dest {} Vector.zero).1 <;>
  cases hr2 : o2.collision o1.uid (get_hit_normal o1.dest o2.dest {} Vector.zero).1.swapped <;>
  simp [collision_object, hi, hc1, hc2, hr1, hr2, swapped_swapped]

/-- C6, at a concrete input: of two overlapping bodies the first answers
ABORT_MOVE; neither destination moves. -/
theorem collision_object_no_correction_witness :
    (collision_object exampleConfig (overlapA ABORT_MOVE) (overlapB CONTINUE)).1.dest
        = (overlapA ABORT_MOVE).dest
    ∧ (collision_object exampleConfig (overlapA ABORT_MOVE) (overlapB CONTINUE)).2.1.dest
        = (overlapB CONTINUE).dest :=
  (collision_object_no_correction exampleConfig (overlapA ABORT_MOVE) (overlapB CONTINUE)).1
    (Or.inr (Or.inr (Or.inl rfl)))

/-- An invariant of the loop state is kept by a whole `foldl`. -/
theorem foldl_invariant {α β : Type} (P : β → Prop) (f : β → α → β) (l : List α) (b : β)
    (h0 : P b) (hs : ∀ b a, P b → P (f b a)) : P (l.foldl f b) := by
  induction l generalizing b with
  | nil => exact h0
  | cons a l ih => exact ih (f b a) (hs b a h0)

/-- Writing back the element that is already there changes nothing. -/
theorem set_getElem?_self {α : Type} (l : List α) (i : Nat) (a : α) (h : l[i]? = some a) :
    l.set i a = l := by
  apply List.ext_getElem?
  intro n
  rw [List.getElem?_set]
  split_ifs with h1 h2
  · subst h1; exact h.symm
  · subst h1; rw [List.getElem?_eq_none (by omega)]
  · rfl

/-- The inner loop body of part 2.5 returns both bodies as they were. -/
theorem touch_pair_unchanged (a b : MovingObject) :
    (touch_pair a b).1 = a ∧ (touch_pair a b).2.1 = b := by
  simp only [touch_pair]
  split_ifs <;> exact ⟨rfl, rfl⟩

/-- The inner loop body of part 2.5 invokes only pairwise callbacks. -/
theorem touch_pair_events (a b : MovingObject) :
    ∀ e ∈ (touch_pair a b).2.2, e.is_pairwise = true := by
  simp only [touch_pair]
  split_ifs <;> simp [Event.is_pairwise]

/-- One step of part 2.5 keeps the index and adds only pairwise callbacks. -/
theorem pair_step_touch (l : List MovingObject) (i i2 : Nat)
    (st : List MovingObject × List Event)
    (h : st.1 = l ∧ ∀ e ∈ st.2, e.is_pairwise = true) :
    (pair_step touch_pair i i2 st).1 = l
      ∧ ∀ e ∈ (pair_step touch_pair i i2 st).2, e.is_pairwise = true := by
  unfold pair_step
  cases ha : st.1[i]? with
  | none => simpa using h
  | some a =>
    cases hb : st.1[i2]? with
    | none => simpa using h
    | some b =>
      obtain ⟨e1, e2⟩ := touch_pair_unchanged a b
      simp only [e1, e2]
      rw [set_getElem?_self _ _ _ ha, set_getElem?_self _ _ _ hb]
      refine ⟨h.1, ?_⟩
      intro e he
      rcases List.mem_append.1 he with he | he
      · exact h.2 e he
      · exact touch_pair_events a b e he

/-- Part 2.5 of `handle_collisions` returns the index as it was and invokes only
pairwise callbacks. -/
theorem part2_5_spec (moving_objects : List MovingObject) :
    (part2_5 moving_objects).1 = moving_objects
      ∧ ∀ e ∈ (part2_5 moving_objects).2, e.is_pairwise = true := by
  unfold part2_5
  apply foldl_invariant
    (fun st : List MovingObject × List Event =>
      st.1 = moving_objects ∧ ∀ e ∈ st.2, e.is_pairwise = true)
  · simp
  · intro st i hst
    cases ho : st.1[i]? with
    | none => simpa using hst
    | some o =>
      simp only
      split_ifs
      · exact hst
      · apply foldl_invariant
          (fun st : List MovingObject × List Event =>
            st.1 = moving_objects ∧ ∀ e ∈ st.2, e.is_pairwise = true)
        · exact hst
        · intro st2 i2 hst2
          exact pair_step_touch moving_objects i i2 st2 hst2

/-- C7: the moving-vs-touchable pass (part 2.5 of `handle_collisions`) returns the
moving-object index exactly as it was, so every destination rectangle (and
every other field) of every body is the same before and after the pass,
whatever the callbacks answer; the only callbacks it invokes are `collides` and
`collision`. -/
theorem part2_5_unchanged (moving_objects : List MovingObject) :
    (part2_5 moving_objects).1 = moving_objects
      ∧ (part2_5 moving_objects).1.map MovingObject.dest
          = moving_objects.map MovingObject.dest
      ∧ ∀ e ∈ (part2_5 moving_objects).2, e.is_pairwise = true :=
  ⟨(part2_5_spec moving_objects).1, by rw [(part2_5_spec moving_objects).1],
    (part2_5_spec moving_objects).2⟩

/-- A monadic fold whose steps all return the state unchanged returns it unchanged. -/
theorem foldlM_unchanged {α β : Type} (f : β → α → Option β) (l : List α)
    (h : ∀ c, ∀ a ∈ l, f c a = some c) (c : β) : l.foldlM f c = some c := by
  induction l generalizing c with
  | nil => rfl
  | cons a l ih =>
    rw [List.foldlM_cons, h c a (List.mem_cons_self _ _)]
    exact ih (fun c b hb => h c b (List.mem_cons_of_mem _ hb)) c

/-- A monadic fold over a duplicate-free list whose steps return the state
unchanged except at the element `t`, where the step is `g`. -/
theorem foldlM_single {α β : Type} [DecidableEq α] (f : β → α → Option β) (g : β → β)
    (t : α) (l : List α) (hnd : l.Nodup)
    (hne : ∀ c a, a ≠ t → f c a = some c) (ht : ∀ c, f c t = some (g c)) (c : β) :
    l.foldlM f c = some (if t ∈ l then g c else c) := by
  induction l generalizing c with
  | nil => rfl
  | cons a l ih =>
    rw [List.foldlM_cons]
    rw [List.nodup_cons] at hnd
    by_cases hat : a = t
    · subst hat
      rw [ht c]
      have : l.foldlM f (g c) = some (g c) :=
        foldlM_unchanged f l (fun c b hb => hne c b (fun e => hnd.1 (e ▸ hb))) (g c)
      simpa using this
    · rw [hne c a hat]
      have := ih hnd.2 c
      simp only [Option.some_bind, Option.bind_eq_bind] at *
      rw [this]
      have hm : (t ∈ a :: l) ↔ t ∈ l := by
        simp [List.mem_cons, Ne.symm hat]
      simp only [hm]

/-- A loop range visits no index twice. -/
theorem intRange_nodup (a b : Int) : (intRange a b).Nodup := by
  unfold intRange
  refine List.Nodup.map ?_ (List.nodup_range _)
  intro i j h
  simpa using h

/-- The indices visited by a loop `for (i = a; i < b; ++i)`. -/
theorem mem_intRange (a b t : Int) : t ∈ intRange a b ↔ a ≤ t ∧ t < b := by
  unfold intRange
  simp only [List.mem_map, List.mem_range]
  constructor
  · rintro ⟨i, hi, rfl⟩
    omega
  · rintro ⟨h1, h2⟩
    refine ⟨(t - a).toNat, ?_, ?_⟩ <;> omega

/-- Away from the cell of the single solid tile, the loop body of
`collision_tilemap` leaves the constraint set unchanged. -/
theorem cell_other (cfg : Config) (sector : Sector) (object : MovingObject)
    (solids : TileMap) (tx ty : Int) (tile : Tile)
    (hS : SingleSolidTile sector object solids tx ty tile)
    (movement : Vector) (dest : Rectf) (obj : MovingObject) (c : Constraints) (x y : Int)
    (hxy : ¬ (x = tx ∧ y = ty)) :
    collision_tilemap_cell cfg movement dest obj solids c x y = some c := by
  unfold collision_tilemap_cell
  cases ht : solids.get_tile x y with
  | none => rfl
  | some t =>
    simp only
    by_cases hs : t.getAttributes &&& Tile.SOLID = 0
    · simp [hs]
    · exact absurd (hS.only x y t ht hs) hxy

/-- At the cell of the single solid tile, the loop body of `collision_tilemap` is
`check_collisions` against the box of the tile. -/
theorem cell_tile (cfg : Config) (sector : Sector) (object : MovingObject)
    (solids : TileMap) (tx ty : Int) (tile : Tile)
    (hS : SingleSolidTile sector object solids tx ty tile)
    (movement : Vector) (dest : Rectf) (obj : MovingObject) (c : Constraints) :
    collision_tilemap_cell cfg movement dest obj solids c tx ty
      = some (check_collisions cfg c movement dest (solids.get_tile_bbox tx ty) none
          solids.get_movement).1 := by
  unfold collision_tilemap_cell
  rw [hS.tile_at]
  simp [hS.solid, hS.not_unisolid, hS.not_slope, collision_tilemap_resolve]

/-- Against a single solid tile, `collision_tilemap` is one call of
`check_collisions` if the cell of the tile is enumerated, and nothing otherwise. -/
theorem collision_tilemap_single (cfg : Config) (sector : Sector) (object : MovingObject)
    (solids : TileMap) (tx ty : Int) (tile : Tile)
    (hS : SingleSolidTile sector object solids tx ty tile)
    (movement : Vector) (dest : Rectf) (obj : MovingObject) (c : Constraints) :
    collision_tilemap cfg sector.solid_tilemaps c movement dest obj
      = some (if tile_in_range solids dest tx ty then
          (check_collisions cfg c movement dest (solids.get_tile_bbox tx ty) none
            solids.get_movement).1
        else c) := by
  unfold collision_tilemap
  rw [hS.layers]
  simp only [List.foldlM_cons, List.foldlM_nil, Rectf.get_left, Rectf.get_right,
    Rectf.get_top, Rectf.get_bottom]
  have hd : (⟨⟨dest.p1.x, dest.p1.y⟩, ⟨dest.p2.x, dest.p2.y⟩⟩ : Rectf) = dest := rfl
  rw [hd]
  -- the inner loop, for a column `x`
  have inner : ∀ (x : Int) (c : Constraints),
      (intRange (solids.get_tiles_overlapping dest).top
          (solids.get_tiles_overlapping dest).bottom).foldlM
        (fun c y => collision_tilemap_cell cfg movement dest obj solids c x y) c
      = some (if x = tx ∧ ty ∈ intRange (solids.get_tiles_overlapping dest).top
            (solids.get_tiles_overlapping dest).bottom then
          (check_collisions cfg c movement dest (solids.get_tile_bbox tx ty) none
            solids.get_movement).1
        else c) := by
    intro x c
    by_cases hx : x = tx
    · subst hx
      rw [foldlM_single _
        (fun c => (check_collisions cfg c movement dest (solids.get_tile_bbox x ty) none
            solids.get_movement).1) ty _ (intRange_nodup _ _)
        (fun c y hy => cell_other cfg sector object solids x ty tile hS movement dest obj c x y
          (fun h => hy h.2))
        (fun c => cell_tile cfg sector object solids x ty tile hS movement dest obj c)]
      simp
    · rw [foldlM_unchanged _ _
        (fun c y _ => cell_other cfg sector object solids tx ty tile hS movement dest obj c x y
          (fun h => hx h.1))]
      simp [hx]
  have outer := foldlM_single
    (fun c x => (intRange (solids.get_tiles_overlapping dest).top
          (solids.get_tiles_overlapping dest).bottom).foldlM
        (fun c y => collision_tilemap_cell cfg movement dest obj solids c x y) c)
    (fun c => if ty ∈ intRange (solids.get_tiles_overlapping dest).top
            (solids.get_tiles_overlapping dest).bottom then
          (check_collisions cfg c movement dest (solids.get_tile_bbox tx ty) none
            solids.get_movement).1
        else c) tx
    (intRange (solids.get_tiles_overlapping dest).left (solids.get_tiles_overlapping dest).right)
    (intRange_nodup _ _)
    (fun c x hx => by beta_reduce; rw [inner x c]; simp [hx])
    (fun c => by beta_reduce; rw [inner tx c]; simp) c
  simp only [Option.bind_eq_bind, Option.some_bind, Option.bind_some] at outer ⊢
  rw [outer]
  simp only [mem_intRange, tile_in_range]
  by_cases h1 : (solids.get_tiles_overlapping dest).left ≤ tx
      ∧ tx < (solids.get_tiles_overlapping dest).right
  · by_cases h2 : (solids.get_tiles_overlapping dest).top ≤ ty
        ∧ ty < (solids.get_tiles_overlapping dest).bottom
    · simp [h1, h2]
    · have : ¬ ((solids.get_tiles_overlapping dest).left ≤ tx
          ∧ tx < (solids.get_tiles_overlapping dest).right
          ∧ (solids.get_tiles_overlapping dest).top ≤ ty
          ∧ ty < (solids.get_tiles_overlapping dest).bottom) := fun h => h2 ⟨h.2.2.1, h.2.2.2⟩
      simp [h1, h2, this]
  · have : ¬ ((solids.get_tiles_overlapping dest).left ≤ tx
          ∧ tx < (solids.get_tiles_overlapping dest).right
          ∧ (solids.get_tiles_overlapping dest).top ≤ ty
          ∧ ty < (solids.get_tiles_overlapping dest).bottom) := fun h => h1 ⟨h.1, h.2.1⟩
    simp [h1, this]

/-- With no other static body, the object loop of `collision_static` changes nothing. -/
theorem static_loop_none (cfg : Config) (object : MovingObject) (movement : Vector)
    (dest : Rectf) (l : List MovingObject)
    (h : ∀ m ∈ l, (m.get_group = COLGROUP_STATIC ∨ m.get_group = COLGROUP_MOVING_STATIC) →
      m.is_valid = true → m.uid = object.uid)
    (acc : Constraints × List Event) :
    l.foldl (collision_static_object cfg movement dest object) acc = acc := by
  induction l generalizing acc with
  | nil => rfl
  | cons m l ih =>
    rw [List.foldl_cons]
    have hm := h m (List.mem_cons_self _ _)
    have hstep : collision_static_object cfg movement dest object acc m = acc := by
      unfold collision_static_object
      split_ifs with h1 h2 h3
      · rfl
      · rfl
      · exfalso
        apply h3
        apply hm
        · by_contra hc; push_neg at hc; exact h1 ⟨hc.1, hc.2⟩
        · simpa using h2
      · rfl
    rw [hstep]
    exact ih (fun m hm => h m (List.mem_cons_of_mem _ hm)) acc

/-- Against a single solid tile and no other static body, `collision_static` is
one call of `check_collisions` if the cell of the tile is enumerated, and
nothing otherwise; it invokes no callback. -/
theorem collision_static_single (cfg : Config) (sector : Sector) (object : MovingObject)
    (solids : TileMap) (tx ty : Int) (tile : Tile)
    (hS : SingleSolidTile sector object solids tx ty tile)
    (movement : Vector) (dest : Rectf) (c : Constraints) :
    collision_static cfg sector c movement dest object
      = some (if tile_in_range solids dest tx ty then
          (check_collisions cfg c movement dest (solids.get_tile_bbox tx ty) none
            solids.get_movement).1
        else c, []) := by
  unfold collision_static
  rw [collision_tilemap_single cfg sector object solids tx ty tile hS]
  simp only
  rw [static_loop_none cfg object movement dest sector.moving_objects hS.no_static]

/-- Against a single solid tile that the rectangle does not intersect,
`collision_static` changes nothing. -/
theorem collision_static_single_disjoint (cfg : Config) (sector : Sector)
    (object : MovingObject) (solids : TileMap) (tx ty : Int) (tile : Tile)
    (hS : SingleSolidTile sector object solids tx ty tile)
    (movement : Vector) (dest : Rectf) (c : Constraints)
    (hi : intersects dest (solids.get_tile_bbox tx ty) = false) :
    collision_static cfg sector c movement dest object = some (c, []) := by
  rw [collision_static_single cfg sector object solids tx ty tile hS,
    check_collisions_no_overlap _ _ _ _ _ _ _ hi]
  simp

/-- Against a single solid tile whose cell is enumerated, `collision_static` is
`check_collisions` against the box of the tile. -/
theorem collision_static_single_hit (cfg : Config) (sector : Sector)
    (object : MovingObject) (solids : TileMap) (tx ty : Int) (tile : Tile)
    (hS : SingleSolidTile sector object solids tx ty tile)
    (movement : Vector) (dest : Rectf) (c : Constraints)
    (hR : tile_in_range solids dest tx ty) :
    collision_static cfg sector c movement dest object
      = some ((check_collisions cfg c movement dest (solids.get_tile_bbox tx ty) none
          solids.get_movement).1, []) := by
  rw [collision_static_single cfg sector object solids tx ty tile hS]
  simp [hR]

/-- The tile call of `check_collisions` when the rectangles intersect and no
shift-out applies. -/
theorem check_collisions_tile_rest (cfg : Config) (c : Constraints) (mv : Vector)
    (r1 r2 : Rectf) (g : Vector) (hi : intersects r1 r2 = true)
    (hv : |mv.y| > |mv.x| →
      cfg.SHIFT_DELTA ≤ r1.get_right - r2.get_left
        ∧ cfg.SHIFT_DELTA ≤ r2.get_right - r1.get_left)
    (hh : ¬ |mv.y| > |mv.x| →
      cfg.SHIFT_DELTA ≤ r1.get_bottom - r2.get_top
        ∧ cfg.SHIFT_DELTA ≤ r2.get_bottom - r1.get_top) :
    (check_collisions cfg c mv r1 r2 none g).1
      = tighten_smaller { c with ground_movement := c.ground_movement.add g } r2
          (r1.get_bottom - r2.get_top) (r2.get_bottom - r1.get_top)
          (r1.get_right - r2.get_left) (r2.get_right - r1.get_left) := by
  simp only [check_collisions, hi, Bool.not_true, Bool.false_eq_true, if_false]
  by_cases hm : |mv.y| > |mv.x|
  · obtain ⟨h1, h2⟩ := hv hm
    simp only [hm, if_true, not_lt.2 h1, not_lt.2 h2, if_false]
  · obtain ⟨h1, h2⟩ := hh hm
    simp only [hm, if_false, not_lt.2 h1, not_lt.2 h2]

/-- Two iterations of the vertical loop that both find constraints and invoke no
callback. -/
theorem vertical_loop_two (cfg : Config) (sector : Sector) (movement : Vector)
    (object : MovingObject) (oheight : ℚ) (c0 c1 c2 : Constraints) (dest : Rectf)
    (h1 : collision_static cfg sector c0 ⟨0, movement.y⟩ dest object = some (c1, []))
    (hc1 : c1.has_constraints = true)
    (h2 : collision_static cfg sector c1 ⟨0, movement.y⟩
      (apply_vertical cfg c1 dest oheight) object = some (c2, []))
    (hc2 : c2.has_constraints = true) :
    vertical_loop cfg sector movement object oheight 2 c0 dest
      = some (c2, apply_vertical cfg c2 (apply_vertical cfg c1 dest oheight) oheight, []) := by
  simp [vertical_loop, h1, hc1, h2, hc2]

/-- An iteration of the vertical loop that finds no constraint ends the loop. -/
theorem vertical_loop_none (cfg : Config) (sector : Sector) (movement : Vector)
    (object : MovingObject) (oheight : ℚ) (n : Nat) (c0 c1 : Constraints) (dest : Rectf)
    (h1 : collision_static cfg sector c0 ⟨0, movement.y⟩ dest object = some (c1, []))
    (hc1 : c1.has_constraints = false) :
    vertical_loop cfg sector movement object oheight (n + 1) c0 dest
      = some (c1, dest, []) := by
  simp [vertical_loop, h1, hc1]

/-- Two iterations of the horizontal loop that both find constraints, the tests
invoking no callback. -/
theorem horizontal_loop_two (cfg : Config) (sector : Sector) (movement : Vector)
    (object : MovingObject) (owidth : ℚ) (c0 c1 c2 : Constraints) (dest : Rectf)
    (h1 : collision_static cfg sector c0 movement dest object = some (c1, []))
    (hc1 : c1.has_constraints = true)
    (h2 : collision_static cfg sector c1 movement
      (apply_horizontal cfg c1 dest owidth object.uid).1 object = some (c2, []))
    (hc2 : c2.has_constraints = true) :
    horizontal_loop cfg sector movement object owidth 2 c0 dest
      = some (c2,
          (apply_horizontal cfg c2 (apply_horizontal cfg c1 dest owidth object.uid).1
            owidth object.uid).1,
          (apply_horizontal cfg c1 dest owidth object.uid).2
            ++ (apply_horizontal cfg c2 (apply_horizontal cfg c1 dest owidth object.uid).1
                owidth object.uid).2) := by
  simp [horizontal_loop, h1, hc1, h2, hc2]

/-- An iteration of the horizontal loop that finds no constraint ends the loop. -/
theorem horizontal_loop_none (cfg : Config) (sector : Sector) (movement : Vector)
    (object : MovingObject) (owidth : ℚ) (n : Nat) (c0 c1 : Constraints) (dest : Rectf)
    (h1 : collision_static cfg sector c0 movement dest object = some (c1, []))
    (hc1 : c1.has_constraints = false) :
    horizontal_loop cfg sector movement object owidth (n + 1) c0 dest
      = some (c1, dest, []) := by
  simp [horizontal_loop, h1, hc1]

/-- Moving a rectangle by the zero vector leaves it where it is. -/
theorem move_zero (r : Rectf) : r.move Vector.zero = r := by
  cases r with
  | mk p1 p2 =>
    cases p1; cases p2
    simp [Rectf.move, Vector.add, Vector.zero]

/-- A body moving vertically into a single solid tile, penetrating it less
through its top than through any other side and not within the shift-out
threshold horizontally, is put `DELTA` above the tile. -/
theorem resolve_down (cfg : Config) (sector : Sector) (object : MovingObject)
    (solids : TileMap) (tx ty : Int) (tile : Tile)
    (hD : 0 < cfg.DELTA)
    (hS : SingleSolidTile sector object solids tx ty tile)
    (hR : tile_in_range solids object.dest tx ty)
    (hI : intersects object.dest (solids.get_tile_bbox tx ty) = true)
    (hy : object.movement.y ≠ 0)
    (hg : solids.get_movement = Vector.zero)
    (h1 : cfg.SHIFT_DELTA ≤ object.dest.get_right - (solids.get_tile_bbox tx ty).get_left)
    (h2 : cfg.SHIFT_DELTA ≤ (solids.get_tile_bbox tx ty).get_right - object.dest.get_left)
    (h3 : object.dest.get_bottom - (solids.get_tile_bbox tx ty).get_top
        < (solids.get_tile_bbox tx ty).get_bottom - object.dest.get_top)
    (h4 : object.dest.get_bottom - (solids.get_tile_bbox tx ty).get_top
        < horiz_penetration object.dest (solids.get_tile_bbox tx ty)) :
    collision_static_constrains cfg sector object
      = some ({ object with dest :=
            ⟨⟨object.dest.p1.x,
              (solids.get_tile_bbox tx ty).get_top - cfg.DELTA - object.bbox.get_height⟩,
             ⟨object.dest.p2.x, (solids.get_tile_bbox tx ty).get_top - cfg.DELTA⟩⟩ },
          [Event.collision_solid object.uid { bottom := true }]) := by
  have hmv : |(⟨0, object.movement.y⟩ : Vector).y| > |(⟨0, object.movement.y⟩ : Vector).x| := by
    simp [abs_pos, hy]
  -- first vertical test: the bottom bound is the top of the tile
  have hcc : (check_collisions cfg {} ⟨0, object.movement.y⟩ object.dest
        (solids.get_tile_bbox tx ty) none solids.get_movement).1
      = { bottom := some (solids.get_tile_bbox tx ty).get_top, hit := { bottom := true } } := by
    rw [check_collisions_tile_rest cfg _ _ _ _ _ hI (fun _ => ⟨h1, h2⟩)
      (fun h => absurd hmv h)]
    unfold horiz_penetration at h4
    have hv : min (object.dest.get_bottom - (solids.get_tile_bbox tx ty).get_top)
        ((solids.get_tile_bbox tx ty).get_bottom - object.dest.get_top)
        < min (object.dest.get_right - (solids.get_tile_bbox tx ty).get_left)
          ((solids.get_tile_bbox tx ty).get_right - object.dest.get_left) := by
      rw [min_eq_left h3.le]; exact h4
    simp [tighten_smaller, hv, h3, hg, Constraints.min_bottom, Constraints.lower, Vector.add,
      Vector.zero]
  have hs1 := collision_static_single_hit cfg sector object solids tx ty tile hS
    ⟨0, object.movement.y⟩ object.dest {} hR
  rw [hcc] at hs1
  -- the clamped rectangle no longer intersects the tile
  have hdis : intersects
      ⟨⟨object.dest.p1.x,
        (solids.get_tile_bbox tx ty).get_top - cfg.DELTA - object.bbox.get_height⟩,
       ⟨object.dest.p2.x, (solids.get_tile_bbox tx ty).get_top - cfg.DELTA⟩⟩
      (solids.get_tile_bbox tx ty) = false := by
    cases hb : intersects
      ⟨⟨object.dest.p1.x,
        (solids.get_tile_bbox tx ty).get_top - cfg.DELTA - object.bbox.get_height⟩,
       ⟨object.dest.p2.x, (solids.get_tile_bbox tx ty).get_top - cfg.DELTA⟩⟩
      (solids.get_tile_bbox tx ty) with
    | false => rfl
    | true =>
      have := (intersects_iff _ _).1 hb
      simp only [Rectf.get_top] at this
      linarith [this.2.2.1]
  have hav : apply_vertical cfg
      { bottom := some (solids.get_tile_bbox tx ty).get_top, hit := { bottom := true } }
      object.dest object.bbox.get_height
      = ⟨⟨object.dest.p1.x,
          (solids.get_tile_bbox tx ty).get_top - cfg.DELTA - object.bbox.get_height⟩,
         ⟨object.dest.p2.x, (solids.get_tile_bbox tx ty).get_top - cfg.DELTA⟩⟩ := by
    simp [apply_vertical]
  have hav2 : apply_vertical cfg
      { bottom := some (solids.get_tile_bbox tx ty).get_top, hit := { bottom := true } }
      ⟨⟨object.dest.p1.x,
          (solids.get_tile_bbox tx ty).get_top - cfg.DELTA - object.bbox.get_height⟩,
         ⟨object.dest.p2.x, (solids.get_tile_bbox tx ty).get_top - cfg.DELTA⟩⟩
      object.bbox.get_height
      = ⟨⟨object.dest.p1.x,
          (solids.get_tile_bbox tx ty).get_top - cfg.DELTA - object.bbox.get_height⟩,
         ⟨object.dest.p2.x, (solids.get_tile_bbox tx ty).get_top - cfg.DELTA⟩⟩ := by
    simp [apply_vertical]
  have hV := vertical_loop_two cfg sector object.movement object object.bbox.get_height {}
    { bottom := some (solids.get_tile_bbox tx ty).get_top, hit := { bottom := true } }
    { bottom := some (solids.get_tile_bbox tx ty).get_top, hit := { bottom := true } }
    object.dest hs1 (by simp [Constraints.has_constraints])
    (by rw [hav]; exact collision_static_single_disjoint cfg sector object solids tx ty tile hS
          _ _ _ hdis)
    (by simp [Constraints.has_constraints])
  rw [hav, hav2] at hV
  have hH := horizontal_loop_none cfg sector object.movement object object.bbox.get_width 1 {} {}
    _ (collision_static_single_disjoint cfg sector object solids tx ty tile hS
          object.movement _ {} hdis) (by simp [Constraints.has_constraints])
  have hF := collision_static_single_disjoint cfg sector object solids tx ty tile hS
          object.movement _ {} hdis
  simp only [collision_static_constrains, MovingObject.get_movement, MovingObject.get_bbox, hV]
  simp [Constraints.has_constraints, move_zero, hH, hF, final_crush]

/-- A rectangle whose top is above the bottom of another one by a positive
margin, or similar on another side, does not intersect it. -/
theorem intersects_false_of (r1 r2 : Rectf)
    (h : r1.p2.x < r2.p1.x ∨ r2.p2.x < r1.p1.x ∨ r1.p2.y < r2.p1.y ∨ r2.p2.y < r1.p1.y) :
    intersects r1 r2 = false := by
  cases hb : intersects r1 r2 with
  | false => rfl
  | true =>
    obtain ⟨a, b, c, d⟩ := (intersects_iff _ _).1 hb
    rcases h with h | h | h | h <;> linarith

/-- A body moving vertically into a single solid tile, penetrating it less
through its bottom than through any other side and not within the shift-out
threshold horizontally, is put `DELTA` below the tile. -/
theorem resolve_up (cfg : Config) (sector : Sector) (object : MovingObject)
    (solids : TileMap) (tx ty : Int) (tile : Tile)
    (hD : 0 < cfg.DELTA)
    (hS : SingleSolidTile sector object solids tx ty tile)
    (hR : tile_in_range solids object.dest tx ty)
    (hI : intersects object.dest (solids.get_tile_bbox tx ty) = true)
    (hy : object.movement.y ≠ 0)
    (h1 : cfg.SHIFT_DELTA ≤ object.dest.get_right - (solids.get_tile_bbox tx ty).get_left)
    (h2 : cfg.SHIFT_DELTA ≤ (solids.get_tile_bbox tx ty).get_right - object.dest.get_left)
    (h3 : (solids.get_tile_bbox tx ty).get_bottom - object.dest.get_top
        ≤ object.dest.get_bottom - (solids.get_tile_bbox tx ty).get_top)
    (h4 : (solids.get_tile_bbox tx ty).get_bottom - object.dest.get_top
        < horiz_penetration object.dest (solids.get_tile_bbox tx ty)) :
    collision_static_constrains cfg sector object
      = some ({ object with dest :=
            ⟨⟨object.dest.p1.x, (solids.get_tile_bbox tx ty).get_bottom + cfg.DELTA⟩,
             ⟨object.dest.p2.x,
              (solids.get_tile_bbox tx ty).get_bottom + cfg.DELTA + object.bbox.get_height⟩⟩ },
          [Event.collision_solid object.uid { top := true }]) := by
  have hmv : |(⟨0, object.movement.y⟩ : Vector).y| > |(⟨0, object.movement.y⟩ : Vector).x| := by
    simp [abs_pos, hy]
  have hcc : (check_collisions cfg {} ⟨0, object.movement.y⟩ object.dest
        (solids.get_tile_bbox tx ty) none solids.get_movement).1
      = { top := some (solids.get_tile_bbox tx ty).get_bottom,
          ground_movement := Vector.zero.add solids.get_movement,
          hit := { top := true } } := by
    rw [check_collisions_tile_rest cfg _ _ _ _ _ hI (fun _ => ⟨h1, h2⟩)
      (fun h => absurd hmv h)]
    unfold horiz_penetration at h4
    have hv : min (object.dest.get_bottom - (solids.get_tile_bbox tx ty).get_top)
        ((solids.get_tile_bbox tx ty).get_bottom - object.dest.get_top)
        < min (object.dest.get_right - (solids.get_tile_bbox tx ty).get_left)
          ((solids.get_tile_bbox tx ty).get_right - object.dest.get_left) := by
      rw [min_eq_right h3]; exact h4
    simp [tighten_smaller, hv, not_lt.2 h3, Constraints.max_top, Constraints.raise]
  have hs1 := collision_static_single_hit cfg sector object solids tx ty tile hS
    ⟨0, object.movement.y⟩ object.dest {} hR
  rw [hcc] at hs1
  have hdis : intersects
      ⟨⟨object.dest.p1.x, (solids.get_tile_bbox tx ty).get_bottom + cfg.DELTA⟩,
       ⟨object.dest.p2.x,
        (solids.get_tile_bbox tx ty).get_bottom + cfg.DELTA + object.bbox.get_height⟩⟩
      (solids.get_tile_bbox tx ty) = false := by
    apply intersects_false_of
    right; right; right
    simp only [Rectf.get_bottom]
    linarith
  have hav : apply_vertical cfg
      { top := some (solids.get_tile_bbox tx ty).get_bottom,
        ground_movement := Vector.zero.add solids.get_movement, hit := { top := true } }
      object.dest object.bbox.get_height
      = ⟨⟨object.dest.p1.x, (solids.get_tile_bbox tx ty).get_bottom + cfg.DELTA⟩,
         ⟨object.dest.p2.x,
          (solids.get_tile_bbox tx ty).get_bottom + cfg.DELTA + object.bbox.get_height⟩⟩ := by
    simp [apply_vertical]
  have hav2 : apply_vertical cfg
      { top := some (solids.get_tile_bbox tx ty).get_bottom,
        ground_movement := Vector.zero.add solids.get_movement, hit := { top := true } }
      ⟨⟨object.dest.p1.x, (solids.get_tile_bbox tx ty).get_bottom + cfg.DELTA⟩,
         ⟨object.dest.p2.x,
          (solids.get_tile_bbox tx ty).get_bottom + cfg.DELTA + object.bbox.get_height⟩⟩
      object.bbox.get_height
      = ⟨⟨object.dest.p1.x, (solids.get_tile_bbox tx ty).get_bottom + cfg.DELTA⟩,
         ⟨object.dest.p2.x,
          (solids.get_tile_bbox tx ty).get_bottom + cfg.DELTA + object.bbox.get_height⟩⟩ := by
    simp [apply_vertical]
  have hV := vertical_loop_two cfg sector object.movement object object.bbox.get_height {}
    _ _ object.dest hs1 (by simp [Constraints.has_constraints])
    (by rw [hav]; exact collision_static_single_disjoint cfg sector object solids tx ty tile hS
          _ _ _ hdis)
    (by simp [Constraints.has_constraints])
  rw [hav, hav2] at hV
  have hH := horizontal_loop_none cfg sector object.movement object object.bbox.get_width 1 {} {}
    _ (collision_static_single_disjoint cfg sector object solids tx ty tile hS
          object.movement _ {} hdis) (by simp [Constraints.has_constraints])
  have hF := collision_static_single_disjoint cfg sector object solids tx ty tile hS
          object.movement _ {} hdis
  simp only [collision_static_constrains, MovingObject.get_movement, MovingObject.get_bbox, hV]
  simp [Constraints.has_constraints, hH, hF, final_crush]

/-- A body without vertical movement in a single solid tile, penetrating it
less through its left side than through any other side and not within the
shift-out threshold vertically, is put `DELTA` to the left of the tile. -/
theorem resolve_right (cfg : Config) (sector : Sector) (object : MovingObject)
    (solids : TileMap) (tx ty : Int) (tile : Tile)
    (hD : 0 < cfg.DELTA)
    (hS : SingleSolidTile sector object solids tx ty tile)
    (hR : tile_in_range solids object.dest tx ty)
    (hI : intersects object.dest (solids.get_tile_bbox tx ty) = true)
    (hy : object.movement.y = 0)
    (h1 : cfg.SHIFT_DELTA ≤ object.dest.get_bottom - (solids.get_tile_bbox tx ty).get_top)
    (h2 : cfg.SHIFT_DELTA ≤ (solids.get_tile_bbox tx ty).get_bottom - object.dest.get_top)
    (h3 : object.dest.get_right - (solids.get_tile_bbox tx ty).get_left
        < (solids.get_tile_bbox tx ty).get_right - object.dest.get_left)
    (h4 : object.dest.get_right - (solids.get_tile_bbox tx ty).get_left
        ≤ vert_penetration object.dest (solids.get_tile_bbox tx ty)) :
    collision_static_constrains cfg sector object
      = some ({ object with dest :=
            ⟨⟨(solids.get_tile_bbox tx ty).get_left - cfg.DELTA - object.bbox.get_width,
              object.dest.p1.y⟩,
             ⟨(solids.get_tile_bbox tx ty).get_left - cfg.DELTA, object.dest.p2.y⟩⟩ },
          [Event.collision_solid object.uid { right := true }]) := by
  have hmv0 : ¬ |(⟨0, object.movement.y⟩ : Vector).y| > |(⟨0, object.movement.y⟩ : Vector).x| := by
    simp [hy]
  have hmv : ¬ |object.movement.y| > |object.movement.x| := by
    simp [hy]
  have hv : ¬ min (object.dest.get_bottom - (solids.get_tile_bbox tx ty).get_top)
      ((solids.get_tile_bbox tx ty).get_bottom - object.dest.get_top)
      < min (object.dest.get_right - (solids.get_tile_bbox tx ty).get_left)
        ((solids.get_tile_bbox tx ty).get_right - object.dest.get_left) := by
    unfold vert_penetration at h4
    rw [min_eq_left h3.le]; exact not_lt.2 h4
  -- every test against the tile tightens the right bound to the left edge of the tile
  have hcc : ∀ (mv : Vector) (c : Constraints), ¬ |mv.y| > |mv.x| →
      (check_collisions cfg c mv object.dest (solids.get_tile_bbox tx ty) none
        solids.get_movement).1
      = { c with right := Constraints.lower c.right (solids.get_tile_bbox tx ty).get_left,
                 ground_movement := c.ground_movement.add solids.get_movement,
                 hit := { c.hit with right := true } } := by
    intro mv c hm
    rw [check_collisions_tile_rest cfg _ _ _ _ _ hI (fun h => absurd h hm) (fun _ => ⟨h1, h2⟩)]
    simp [tighten_smaller, hv, h3, Constraints.min_right]
  have hs1 : collision_static cfg sector {} ⟨0, object.movement.y⟩ object.dest object
      = some (({ right := some (solids.get_tile_bbox tx ty).get_left,
                 ground_movement := Vector.zero.add solids.get_movement,
                 hit := { right := true } } : Constraints), []) := by
    rw [collision_static_single_hit cfg sector object solids tx ty tile hS _ _ _ hR,
      hcc _ _ hmv0]
    rfl
  have hav : ∀ (c : Constraints), c.bottom = none → c.top = none →
      apply_vertical cfg c object.dest object.bbox.get_height = object.dest := by
    intro c hb ht
    simp [apply_vertical, hb, ht]
  have hs2 : collision_static cfg sector
      { right := some (solids.get_tile_bbox tx ty).get_left,
        ground_movement := Vector.zero.add solids.get_movement,
        hit := { right := true } } ⟨0, object.movement.y⟩ object.dest object
      = some (({ right := some (min (solids.get_tile_bbox tx ty).get_left
                    (solids.get_tile_bbox tx ty).get_left),
                 ground_movement := (Vector.zero.add solids.get_movement).add
                    solids.get_movement,
                 hit := { right := true } } : Constraints), []) := by
    rw [collision_static_single_hit cfg sector object solids tx ty tile hS _ _ _ hR,
      hcc _ _ hmv0]
    rfl
  have hV := vertical_loop_two cfg sector object.movement object object.bbox.get_height {}
    _ _ object.dest hs1 (by simp [Constraints.has_constraints])
    (by rw [hav _ rfl rfl]; exact hs2)
    (by simp [Constraints.has_constraints])
  rw [hav _ rfl rfl, hav _ rfl rfl] at hV
  -- horizontal phase
  have hs3 : collision_static cfg sector {} object.movement object.dest object
      = some (({ right := some (solids.get_tile_bbox tx ty).get_left,
                 ground_movement := Vector.zero.add solids.get_movement,
                 hit := { right := true } } : Constraints), []) := by
    rw [collision_static_single_hit cfg sector object solids tx ty tile hS _ _ _ hR,
      hcc _ _ hmv]
    rfl
  have hdis : intersects
      ⟨⟨(solids.get_tile_bbox tx ty).get_left - cfg.DELTA - object.bbox.get_width,
        object.dest.p1.y⟩,
       ⟨(solids.get_tile_bbox tx ty).get_left - cfg.DELTA, object.dest.p2.y⟩⟩
      (solids.get_tile_bbox tx ty) = false := by
    apply intersects_false_of
    left
    simp only [Rectf.get_left]
    linarith
  have hah : ∀ (d : Rectf), d.p1.y = object.dest.p1.y → d.p2.y = object.dest.p2.y →
      apply_horizontal cfg
        { right := some (solids.get_tile_bbox tx ty).get_left,
          ground_movement := Vector.zero.add solids.get_movement,
          hit := { right := true } } d object.bbox.get_width object.uid
      = (⟨⟨(solids.get_tile_bbox tx ty).get_left - cfg.DELTA - object.bbox.get_width,
            object.dest.p1.y⟩,
          ⟨(solids.get_tile_bbox tx ty).get_left - cfg.DELTA, object.dest.p2.y⟩⟩, []) := by
    intro d e1 e2
    simp [apply_horizontal, e1, e2]
  have hH := horizontal_loop_two cfg sector object.movement object object.bbox.get_width {}
    { right := some (solids.get_tile_bbox tx ty).get_left,
      ground_movement := Vector.zero.add solids.get_movement, hit := { right := true } }
    { right := some (solids.get_tile_bbox tx ty).get_left,
      ground_movement := Vector.zero.add solids.get_movement, hit := { right := true } }
    object.dest hs3 (by simp [Constraints.has_constraints])
    (by rw [hah object.dest rfl rfl]
        exact collision_static_single_disjoint cfg sector object solids tx ty tile hS
          _ _ _ hdis)
    (by simp [Constraints.has_constraints])
  rw [hah object.dest rfl rfl,
    hah ⟨⟨(solids.get_tile_bbox tx ty).get_left - cfg.DELTA - object.bbox.get_width,
            object.dest.p1.y⟩,
          ⟨(solids.get_tile_bbox tx ty).get_left - cfg.DELTA, object.dest.p2.y⟩⟩ rfl rfl] at hH
  have hF := collision_static_single_disjoint cfg sector object solids tx ty tile hS
          object.movement _ {} hdis
  simp only [collision_static_constrains, MovingObject.get_movement, MovingObject.get_bbox, hV]
  simp [Constraints.has_constraints, hH, hF, final_crush]

/-- A body without vertical movement in a single solid tile, penetrating it
less through its right side than through any other side and not within the
shift-out threshold vertically, is put `DELTA` to the right of the tile. -/
theorem resolve_left (cfg : Config) (sector : Sector) (object : MovingObject)
    (solids : TileMap) (tx ty : Int) (tile : Tile)
    (hD : 0 < cfg.DELTA)
    (hS : SingleSolidTile sector object solids tx ty tile)
    (hR : tile_in_range solids object.dest tx ty)
    (hI : intersects object.dest (solids.get_tile_bbox tx ty) = true)
    (hy : object.movement.y = 0)
    (h1 : cfg.SHIFT_DELTA ≤ object.dest.get_bottom - (solids.get_tile_bbox tx ty).get_top)
    (h2 : cfg.SHIFT_DELTA ≤ (solids.get_tile_bbox tx ty).get_bottom - object.dest.get_top)
    (h3 : (solids.get_tile_bbox tx ty).get_right - object.dest.get_left
        ≤ object.dest.get_right - (solids.get_tile_bbox tx ty).get_left)
    (h4 : (solids.get_tile_bbox tx ty).get_right - object.dest.get_left
        ≤ vert_penetration object.dest (solids.get_tile_bbox tx ty)) :
    collision_static_constrains cfg sector object
      = some ({ object with dest :=
            ⟨⟨(solids.get_tile_bbox tx ty).get_right + cfg.DELTA, object.dest.p1.y⟩,
             ⟨(solids.get_tile_bbox tx ty).get_right + cfg.DELTA + object.bbox.get_width,
              object.dest.p2.y⟩⟩ },
          [Event.collision_solid object.uid { left := true }]) := by
  have hmv0 : ¬ |(⟨0, object.movement.y⟩ : Vector).y| > |(⟨0, object.movement.y⟩ : Vector).x| := by
    simp [hy]
  have hmv : ¬ |object.movement.y| > |object.movement.x| := by
    simp [hy]
  have hv : ¬ min (object.dest.get_bottom - (solids.get_tile_bbox tx ty).get_top)
      ((solids.get_tile_bbox tx ty).get_bottom - object.dest.get_top)
      < min (object.dest.get_right - (solids.get_tile_bbox tx ty).get_left)
        ((solids.get_tile_bbox tx ty).get_right - object.dest.get_left) := by
    unfold vert_penetration at h4
    rw [min_eq_right h3]; exact not_lt.2 h4
  -- every test against the tile tightens the left bound to the right edge of the tile
  have hcc : ∀ (mv : Vector) (c : Constraints), ¬ |mv.y| > |mv.x| →
      (check_collisions cfg c mv object.dest (solids.get_tile_bbox tx ty) none
        solids.get_movement).1
      = { c with left := Constraints.raise c.left (solids.get_tile_bbox tx ty).get_right,
                 ground_movement := c.ground_movement.add solids.get_movement,
                 hit := { c.hit with left := true } } := by
    intro mv c hm
    rw [check_collisions_tile_rest cfg _ _ _ _ _ hI (fun h => absurd h hm) (fun _ => ⟨h1, h2⟩)]
    simp [tighten_smaller, hv, not_lt.2 h3, Constraints.max_left]
  have hs1 : collision_static cfg sector {} ⟨0, object.movement.y⟩ object.dest object
      = some (({ left := some (solids.get_tile_bbox tx ty).get_right,
                 ground_movement := Vector.zero.add solids.get_movement,
                 hit := { left := true } } : Constraints), []) := by
    rw [collision_static_single_hit cfg sector object solids tx ty tile hS _ _ _ hR,
      hcc _ _ hmv0]
    rfl
  have hav : ∀ (c : Constraints), c.bottom = none → c.top = none →
      apply_vertical cfg c object.dest object.bbox.get_height = object.dest := by
    intro c hb ht
    simp [apply_vertical, hb, ht]
  have hs2 : collision_static cfg sector
      { left := some (solids.get_tile_bbox tx ty).get_right,
        ground_movement := Vector.zero.add solids.get_movement,
        hit := { left := true } } ⟨0, object.movement.y⟩ object.dest object
      = some (({ left := some (max (solids.get_tile_bbox tx ty).get_right
                    (solids.get_tile_bbox tx ty).get_right),
                 ground_movement := (Vector.zero.add solids.get_movement).add
                    solids.get_movement,
                 hit := { left := true } } : Constraints), []) := by
    rw [collision_static_single_hit cfg sector object solids tx ty tile hS _ _ _ hR,
      hcc _ _ hmv0]
    rfl
  have hV := vertical_loop_two cfg sector object.movement object object.bbox.get_height {}
    _ _ object.dest hs1 (by simp [Constraints.has_constraints])
    (by rw [hav _ rfl rfl]; exact hs2)
    (by simp [Constraints.has_constraints])
  rw [hav _ rfl rfl, hav _ rfl rfl] at hV
  -- horizontal phase
  have hs3 : collision_static cfg sector {} object.movement object.dest object
      = some (({ left := some (solids.get_tile_bbox tx ty).get_right,
                 ground_movement := Vector.zero.add solids.get_movement,
                 hit := { left := true } } : Constraints), []) := by
    rw [collision_static_single_hit cfg sector object solids tx ty tile hS _ _ _ hR,
      hcc _ _ hmv]
    rfl
  have hdis : intersects
      ⟨⟨(solids.get_tile_bbox tx ty).get_right + cfg.DELTA, object.dest.p1.y⟩,
       ⟨(solids.get_tile_bbox tx ty).get_right + cfg.DELTA + object.bbox.get_width,
        object.dest.p2.y⟩⟩
      (solids.get_tile_bbox tx ty) = false := by
    apply intersects_false_of
    right; left
    simp only [Rectf.get_right]
    linarith
  have hah : ∀ (d : Rectf), d.p1.y = object.dest.p1.y → d.p2.y = object.dest.p2.y →
      apply_horizontal cfg
        { left := some (solids.get_tile_bbox tx ty).get_right,
          ground_movement := Vector.zero.add solids.get_movement,
          hit := { left := true } } d object.bbox.get_width object.uid
      = (⟨⟨(solids.get_tile_bbox tx ty).get_right + cfg.DELTA, object.dest.p1.y⟩,
          ⟨(solids.get_tile_bbox tx ty).get_right + cfg.DELTA + object.bbox.get_width,
            object.dest.p2.y⟩⟩, []) := by
    intro d e1 e2
    simp [apply_horizontal, e1, e2]
  have hH := horizontal_loop_two cfg sector object.movement object object.bbox.get_width {}
    { left := some (solids.get_tile_bbox tx ty).get_right,
      ground_movement := Vector.zero.add solids.get_movement, hit := { left := true } }
    { left := some (solids.get_tile_bbox tx ty).get_right,
      ground_movement := Vector.zero.add solids.get_movement, hit := { left := true } }
    object.dest hs3 (by simp [Constraints.has_constraints])
    (by rw [hah object.dest rfl rfl]
        exact collision_static_single_disjoint cfg sector object solids tx ty tile hS
          _ _ _ hdis)
    (by simp [Constraints.has_constraints])
  rw [hah object.dest rfl rfl,
    hah ⟨⟨(solids.get_tile_bbox tx ty).get_right + cfg.DELTA, object.dest.p1.y⟩,
          ⟨(solids.get_tile_bbox tx ty).get_right + cfg.DELTA + object.bbox.get_width,
            object.dest.p2.y⟩⟩ rfl rfl] at hH
  have hF := collision_static_single_disjoint cfg sector object solids tx ty tile hS
          object.movement _ {} hdis
  simp only [collision_static_constrains, MovingObject.get_movement, MovingObject.get_bbox, hV]
  simp [Constraints.has_constraints, hH, hF, final_crush]

/-- A body moving straight along the Y axis into a single solid tile that its
right edge penetrates by less than `SHIFT_DELTA` is shifted out to the left of
the tile; its vertical position is kept and no callback is invoked. -/
theorem resolve_shift_left (cfg : Config) (sector : Sector) (object : MovingObject)
    (solids : TileMap) (tx ty : Int) (tile : Tile)
    (hD : 0 < cfg.DELTA)
    (hS : SingleSolidTile sector object solids tx ty tile)
    (hR : tile_in_range solids object.dest tx ty)
    (hI : intersects object.dest (solids.get_tile_bbox tx ty) = true)
    (hx : object.movement.x = 0) (hy : object.movement.y ≠ 0)
    (h1 : object.dest.get_right - (solids.get_tile_bbox tx ty).get_left < cfg.SHIFT_DELTA) :
    collision_static_constrains cfg sector object
      = some ({ object with dest :=
            ⟨⟨(solids.get_tile_bbox tx ty).get_left - cfg.DELTA - object.bbox.get_width,
              object.dest.p1.y⟩,
             ⟨(solids.get_tile_bbox tx ty).get_left - cfg.DELTA, object.dest.p2.y⟩⟩ },
          []) := by
  have hmv0 : |(⟨0, object.movement.y⟩ : Vector).y| > |(⟨0, object.movement.y⟩ : Vector).x| := by
    simp [abs_pos, hy]
  have hmv : |object.movement.y| > |object.movement.x| := by
    simp [hx, abs_pos, hy]
  have hcc : ∀ (mv : Vector) (c : Constraints), |mv.y| > |mv.x| →
      (check_collisions cfg c mv object.dest (solids.get_tile_bbox tx ty) none
        solids.get_movement).1
      = c.min_right (solids.get_tile_bbox tx ty).get_left := by
    intro mv c hm
    simp only [check_collisions, hI, Bool.not_true, Bool.false_eq_true, if_false, hm, if_true, h1]
  have hs1 : collision_static cfg sector {} ⟨0, object.movement.y⟩ object.dest object
      = some (({ right := some (solids.get_tile_bbox tx ty).get_left } : Constraints), []) := by
    rw [collision_static_single_hit cfg sector object solids tx ty tile hS _ _ _ hR,
      hcc _ _ hmv0]
    rfl
  have hav : ∀ (c : Constraints), c.bottom = none → c.top = none →
      apply_vertical cfg c object.dest object.bbox.get_height = object.dest := by
    intro c hb ht
    simp [apply_vertical, hb, ht]
  have hs2 : collision_static cfg sector
      { right := some (solids.get_tile_bbox tx ty).get_left }
      ⟨0, object.movement.y⟩ object.dest object
      = some (({ right := some (min (solids.get_tile_bbox tx ty).get_left
                    (solids.get_tile_bbox tx ty).get_left) } : Constraints), []) := by
    rw [collision_static_single_hit cfg sector object solids tx ty tile hS _ _ _ hR,
      hcc _ _ hmv0]
    rfl
  have hV := vertical_loop_two cfg sector object.movement object object.bbox.get_height {}
    _ _ object.dest hs1 (by simp [Constraints.has_constraints])
    (by rw [hav _ rfl rfl]; exact hs2)
    (by simp [Constraints.has_constraints])
  rw [hav _ rfl rfl, hav _ rfl rfl] at hV
  have hs3 : collision_static cfg sector {} object.movement object.dest object
      = some (({ right := some (solids.get_tile_bbox tx ty).get_left } : Constraints), []) := by
    rw [collision_static_single_hit cfg sector object solids tx ty tile hS _ _ _ hR,
      hcc _ _ hmv]
    rfl
  have hdis : intersects
      ⟨⟨(solids.get_tile_bbox tx ty).get_left - cfg.DELTA - object.bbox.get_width,
        object.dest.p1.y⟩,
       ⟨(solids.get_tile_bbox tx ty).get_left - cfg.DELTA, object.dest.p2.y⟩⟩
      (solids.get_tile_bbox tx ty) = false := by
    apply intersects_false_of
    left
    simp only [Rectf.get_left]
    linarith
  have hah : ∀ (d : Rectf), d.p1.y = object.dest.p1.y → d.p2.y = object.dest.p2.y →
      apply_horizontal cfg
        { right := some (solids.get_tile_bbox tx ty).get_left }
        d object.bbox.get_width object.uid
      = (⟨⟨(solids.get_tile_bbox tx ty).get_left - cfg.DELTA - object.bbox.get_width,
            object.dest.p1.y⟩,
          ⟨(solids.get_tile_bbox tx ty).get_left - cfg.DELTA, object.dest.p2.y⟩⟩, []) := by
    intro d e1 e2
    simp [apply_horizontal, e1, e2]
  have hH := horizontal_loop_two cfg sector object.movement object object.bbox.get_width {}
    { right := some (solids.get_tile_bbox tx ty).get_left }
    { right := some (solids.get_tile_bbox tx ty).get_left }
    object.dest hs3 (by simp [Constraints.has_constraints])
    (by rw [hah object.dest rfl rfl]
        exact collision_static_single_disjoint cfg sector object solids tx ty tile hS
          _ _ _ hdis)
    (by simp [Constraints.has_constraints])
  rw [hah object.dest rfl rfl,
    hah ⟨⟨(solids.get_tile_bbox tx ty).get_left - cfg.DELTA - object.bbox.get_width,
            object.dest.p1.y⟩,
          ⟨(solids.get_tile_bbox tx ty).get_left - cfg.DELTA, object.dest.p2.y⟩⟩ rfl rfl] at hH
  have hF := collision_static_single_disjoint cfg sector object solids tx ty tile hS
          object.movement _ {} hdis
  simp only [collision_static_constrains, MovingObject.get_movement, MovingObject.get_bbox, hV]
  simp [Constraints.has_constraints, hH, hF, final_crush]

/-- The example layer is a single solid tile for any single body. -/
theorem exampleTile_single (o : MovingObject) :
    SingleSolidTile (tileSector o) o exampleTileMap 0 0 ⟨Tile.SOLID, 0⟩ where
  layers := rfl
  tile_at := by simp [exampleTileMap]
  solid := by decide
  not_slope := by decide
  not_unisolid := by decide
  only := by
    intro x y t h _
    by_contra hc
    simp [exampleTileMap, hc] at h
  no_static := by
    intro m hm _ _
    simp [tileSector] at hm
    rw [hm]

/-- In the example layer the cell at the origin is enumerated for every rectangle
that reaches into the open square of the tile. -/
theorem exampleTile_in_range (dest : Rectf)
    (h : dest.p1.x < 32 ∧ 0 < dest.p2.x ∧ dest.p1.y < 32 ∧ 0 < dest.p2.y) :
    tile_in_range exampleTileMap dest 0 0 := by
  obtain ⟨h1, h2, h3, h4⟩ := h
  have a1 : ⌊dest.p1.x / 32⌋ < 1 := by
    rw [Int.floor_lt]; push_cast; linarith
  have a2 : 0 < ⌈dest.p2.x / 32⌉ := by
    rw [Int.lt_ceil]; push_cast; positivity
  have a3 : ⌊dest.p1.y / 32⌋ < 1 := by
    rw [Int.floor_lt]; push_cast; linarith
  have a4 : 0 < ⌈dest.p2.y / 32⌉ := by
    rw [Int.lt_ceil]; push_cast; positivity
  simp only [tile_in_range, exampleTileMap, Rectf.get_left, Rectf.get_right, Rectf.get_top,
    Rectf.get_bottom]
  refine ⟨?_, ?_, ?_, ?_⟩
  · exact max_le le_rfl (by omega)
  · exact lt_min (by norm_num) a2
  · exact max_le le_rfl (by omega)
  · exact lt_min (by norm_num) a4

/-- The falling body after the speed clamp: movement `(0, 16)`. -/
theorem fallingBodyDest_eq :
    fallingBodyDest = { fallingBody with movement := ⟨0, 16⟩, dest := ⟨⟨8, -4⟩, ⟨24, 12⟩⟩ } := by
  simp [fallingBodyDest, compute_dest, clamp_movement, fallingBody, exampleBody, exampleConfig,
    above_sqrt1_2_max, norm_above_max, MAX_SPEED, MovingObject.get_movement,
    MovingObject.get_bbox, Rectf.move, Vector.add, Vector.scale]
  norm_num

/-- The first grazing body after the first loop of `handle_collisions`. -/
theorem grazingBodyDest_eq :
    grazingBodyDest
      = { exampleBody 1 COLGROUP_MOVING (-12) (-20) 16 16 ⟨0, 10⟩ CONTINUE with
          dest := ⟨⟨-12, -10⟩, ⟨4, 6⟩⟩ } := by
  simp [grazingBodyDest, compute_dest, clamp_movement, exampleBody, exampleConfig,
    above_sqrt1_2_max, norm_above_max, MAX_SPEED, MovingObject.get_movement,
    MovingObject.get_bbox, Rectf.move, Vector.add, Vector.scale]
  norm_num

/-- C1 (amended): a body resolved by `collision_static_constrains` against a
single solid tile (not slope, not unisolid; the only solid tile, no other static
body), whose destination intersects the tile and whose movement is strictly
along one axis, ends with its leading edge exactly `DELTA` outside the tile
boundary - provided the leading edge's penetration is the one the code resolves:
smaller than the trailing edge's and than both penetrations on the other axis,
with neither of those below `SHIFT_DELTA` (and, when landing on top, the tile
layer does not move).  The four parts are: moving down, up, right, left. -/
theorem single_tile_leading_edge (cfg : Config) (sector : Sector) (object : MovingObject)
    (solids : TileMap) (tx ty : Int) (tile : Tile)
    (hD : 0 < cfg.DELTA)
    (hS : SingleSolidTile sector object solids tx ty tile)
    (hR : tile_in_range solids object.dest tx ty)
    (hI : intersects object.dest (solids.get_tile_bbox tx ty) = true) :
    (object.movement.x = 0 → 0 < object.movement.y →
      solids.get_movement = Vector.zero →
      cfg.SHIFT_DELTA ≤ object.dest.get_right - (solids.get_tile_bbox tx ty).get_left →
      cfg.SHIFT_DELTA ≤ (solids.get_tile_bbox tx ty).get_right - object.dest.get_left →
      object.dest.get_bottom - (solids.get_tile_bbox tx ty).get_top
        < (solids.get_tile_bbox tx ty).get_bottom - object.dest.get_top →
      object.dest.get_bottom - (solids.get_tile_bbox tx ty).get_top
        < horiz_penetration object.dest (solids.get_tile_bbox tx ty) →
      ∃ o ev, collision_static_constrains cfg sector object = some (o, ev)
        ∧ o.dest.get_bottom = (solids.get_tile_bbox tx ty).get_top - cfg.DELTA)
    ∧ (object.movement.x = 0 → object.movement.y < 0 →
      cfg.SHIFT_DELTA ≤ object.dest.get_right - (solids.get_tile_bbox tx ty).get_left →
      cfg.SHIFT_DELTA ≤ (solids.get_tile_bbox tx ty).get_right - object.dest.get_left →
      (solids.get_tile_bbox tx ty).get_bottom - object.dest.get_top
        ≤ object.dest.get_bottom - (solids.get_tile_bbox tx ty).get_top →
      (solids.get_tile_bbox tx ty).get_bottom - object.dest.get_top
        < horiz_penetration object.dest (solids.get_tile_bbox tx ty) →
      ∃ o ev, collision_static_constrains cfg sector object = some (o, ev)
        ∧ o.dest.get_top = (solids.get_tile_bbox tx ty).get_bottom + cfg.DELTA)
    ∧ (object.movement.y = 0 → 0 < object.movement.x →
      cfg.SHIFT_DELTA ≤ object.dest.get_bottom - (solids.get_tile_bbox tx ty).get_top →
      cfg.SHIFT_DELTA ≤ (solids.get_tile_bbox tx ty).get_bottom - object.dest.get_top →
      object.dest.get_right - (solids.get_tile_bbox tx ty).get_left
        < (solids.get_tile_bbox tx ty).get_right - object.dest.get_left →
      object.dest.get_right - (solids.get_tile_bbox tx ty).get_left
        ≤ vert_penetration object.dest (solids.get_tile_bbox tx ty) →
      ∃ o ev, collision_static_constrains cfg sector object = some (o, ev)
        ∧ o.dest.get_right = (solids.get_tile_bbox tx ty).get_left - cfg.DELTA)
    ∧ (object.movement.y = 0 → object.movement.x < 0 →
      cfg.SHIFT_DELTA ≤ object.dest.get_bottom - (solids.get_tile_bbox tx ty).get_top →
      cfg.SHIFT_DELTA ≤ (solids.get_tile_bbox tx ty).get_bottom - object.dest.get_top →
      (solids.get_tile_bbox tx ty).get_right - object.dest.get_left
        ≤ object.dest.get_right - (solids.get_tile_bbox tx ty).get_left →
      (solids.get_tile_bbox tx ty).get_right - object.dest.get_left
        ≤ vert_penetration object.dest (solids.get_tile_bbox tx ty) →
      ∃ o ev, collision_static_constrains cfg sector object = some (o, ev)
        ∧ o.dest.get_left = (solids.get_tile_bbox tx ty).get_right + cfg.DELTA) := by
  refine ⟨?_, ?_, ?_, ?_⟩
  · intro _ hy hg h1 h2 h3 h4
    exact ⟨_, _, resolve_down cfg sector object solids tx ty tile hD hS hR hI hy.ne' hg
      h1 h2 h3 h4, rfl⟩
  · intro _ hy h1 h2 h3 h4
    exact ⟨_, _, resolve_up cfg sector object solids tx ty tile hD hS hR hI hy.ne
      h1 h2 h3 h4, rfl⟩
  · intro hy _ h1 h2 h3 h4
    exact ⟨_, _, resolve_right cfg sector object solids tx ty tile hD hS hR hI hy
      h1 h2 h3 h4, rfl⟩
  · intro hy _ h1 h2 h3 h4
    exact ⟨_, _, resolve_left cfg sector object solids tx ty tile hD hS hR hI hy
      h1 h2 h3 h4, rfl⟩

/-- C1, at the scenario of the spec: a 32x32 solid tile at the grid origin and a
16x16 body at `(8, -20)` with movement `(0, 50)`; after the speed clamp the
destination is 12 units into the tile, and the resolved bottom edge is at
`0 - DELTA`, on top of the tile and not below it. -/
theorem single_tile_leading_edge_witness :
    ∃ o ev, collision_static_constrains exampleConfig (tileSector fallingBodyDest)
        fallingBodyDest = some (o, ev)
      ∧ o.dest.get_bottom = (exampleTileMap.get_tile_bbox 0 0).get_top - exampleConfig.DELTA
      ∧ (exampleTileMap.get_tile_bbox 0 0).get_top = 0 := by
  have h := (single_tile_leading_edge exampleConfig (tileSector fallingBodyDest)
    fallingBodyDest exampleTileMap 0 0 ⟨Tile.SOLID, 0⟩ (by norm_num [exampleConfig])
    (exampleTile_single _)
    (exampleTile_in_range _ (by rw [fallingBodyDest_eq]; norm_num))
    (by rw [fallingBodyDest_eq]; norm_num [intersects, exampleTileMap])).1
    (by rw [fallingBodyDest_eq])
    (by rw [fallingBodyDest_eq]; norm_num)
    rfl
    (by rw [fallingBodyDest_eq]
        norm_num [exampleConfig, exampleTileMap, Rectf.get_right, Rectf.get_left])
    (by rw [fallingBodyDest_eq]
        norm_num [exampleConfig, exampleTileMap, Rectf.get_right, Rectf.get_left])
    (by rw [fallingBodyDest_eq]
        norm_num [exampleTileMap, Rectf.get_bottom, Rectf.get_top])
    (by rw [fallingBodyDest_eq]
        norm_num [exampleTileMap, horiz_penetration, Rectf.get_bottom, Rectf.get_top,
          Rectf.get_right, Rectf.get_left])
  obtain ⟨o, ev, h1, h2⟩ := h
  exact ⟨o, ev, h1, h2, by norm_num [exampleTileMap, Rectf.get_top]⟩

/-- C1 as stated fails: a 16x16 body at `(-12, -20)` with movement `(0, 10)`
moves strictly along Y, its destination `(-12, -10)-(4, 6)` intersects the single
solid tile `(0, 0)-(32, 32)`, yet after `collision_static_constrains` its bottom
edge is at `y = 6`, which is 6 units past the tile's top at `y = 0`, not within
`DELTA` of it: the body was shifted out sideways instead. -/
theorem single_tile_leading_edge_counterexample :
    SingleSolidTile (tileSector grazingBodyDest) grazingBodyDest exampleTileMap 0 0
        ⟨Tile.SOLID, 0⟩
      ∧ grazingBodyDest.movement = ⟨0, 10⟩
      ∧ intersects grazingBodyDest.dest (exampleTileMap.get_tile_bbox 0 0) = true
      ∧ (exampleTileMap.get_tile_bbox 0 0).get_top = 0
      ∧ ∃ o ev, collision_static_constrains exampleConfig (tileSector grazingBodyDest)
          grazingBodyDest = some (o, ev)
        ∧ o.dest.get_bottom = 6
        ∧ exampleConfig.DELTA
            < o.dest.get_bottom - (exampleTileMap.get_tile_bbox 0 0).get_top := by
  have hr := resolve_shift_left exampleConfig (tileSector grazingBodyDest)
    grazingBodyDest exampleTileMap 0 0 ⟨Tile.SOLID, 0⟩ (by norm_num [exampleConfig])
    (exampleTile_single _)
    (exampleTile_in_range _ (by rw [grazingBodyDest_eq]; norm_num))
    (by rw [grazingBodyDest_eq]; norm_num [intersects, exampleTileMap])
    (by rw [grazingBodyDest_eq]; rfl)
    (by rw [grazingBodyDest_eq]; norm_num [exampleBody])
    (by rw [grazingBodyDest_eq]
        norm_num [exampleConfig, exampleTileMap, Rectf.get_right, Rectf.get_left])
  refine ⟨exampleTile_single _, by rw [grazingBodyDest_eq]; rfl,
    by rw [grazingBodyDest_eq]; norm_num [intersects, exampleTileMap],
    by norm_num [exampleTileMap, Rectf.get_top], _, _, hr, ?_, ?_⟩
  · rw [grazingBodyDest_eq]; rfl
  · rw [grazingBodyDest_eq]
    norm_num [exampleConfig, exampleTileMap, Rectf.get_bottom, Rectf.get_top]

/-- The second grazing body after the first loop of `handle_collisions`. -/
theorem grazingBodyDest2_eq :
    grazingBodyDest2
      = { exampleBody 1 COLGROUP_MOVING (-13) (-21) 16 16 ⟨0, 12⟩ CONTINUE with
          dest := ⟨⟨-13, -9⟩, ⟨3, 7⟩⟩ } := by
  simp [grazingBodyDest2, compute_dest, clamp_movement, exampleBody, exampleConfig,
    above_sqrt1_2_max, norm_above_max, MAX_SPEED, MovingObject.get_movement,
    MovingObject.get_bbox, Rectf.move, Vector.add, Vector.scale]
  norm_num

/-- The walking body after the first loop of `handle_collisions`. -/
theorem walkingBodyDest_eq :
    walkingBodyDest
      = { exampleBody 1 COLGROUP_MOVING (-20) 8 16 16 ⟨10, 0⟩ CONTINUE with
          dest := ⟨⟨-10, 8⟩, ⟨6, 24⟩⟩ } := by
  simp [walkingBodyDest, compute_dest, clamp_movement, exampleBody, exampleConfig,
    above_sqrt1_2_max, norm_above_max, MAX_SPEED, MovingObject.get_movement,
    MovingObject.get_bbox, Rectf.move, Vector.add, Vector.scale]
  norm_num

/-- C2 (amended): a body resolved by `collision_static_constrains` against a
single solid tile (not slope, not unisolid; the only solid tile, no other static
body), whose destination intersects the tile, keeps its destination's position
on the axis across the movement - the X coordinates for a purely vertical
movement, the Y coordinates for a purely horizontal one - provided neither
penetration on that other axis is below `SHIFT_DELTA` and the penetration along
the movement axis is the one the code resolves (strictly smaller for a vertical
movement, not larger for a horizontal one; and, when landing on top, the tile
layer does not move). -/
theorem single_tile_cross_axis (cfg : Config) (sector : Sector) (object : MovingObject)
    (solids : TileMap) (tx ty : Int) (tile : Tile)
    (hD : 0 < cfg.DELTA)
    (hS : SingleSolidTile sector object solids tx ty tile)
    (hR : tile_in_range solids object.dest tx ty)
    (hI : intersects object.dest (solids.get_tile_bbox tx ty) = true) :
    (object.movement.x = 0 → object.movement.y ≠ 0 →
      cfg.SHIFT_DELTA ≤ object.dest.get_right - (solids.get_tile_bbox tx ty).get_left →
      cfg.SHIFT_DELTA ≤ (solids.get_tile_bbox tx ty).get_right - object.dest.get_left →
      vert_penetration object.dest (solids.get_tile_bbox tx ty)
        < horiz_penetration object.dest (solids.get_tile_bbox tx ty) →
      (object.dest.get_bottom - (solids.get_tile_bbox tx ty).get_top
          < (solids.get_tile_bbox tx ty).get_bottom - object.dest.get_top →
        solids.get_movement = Vector.zero) →
      ∃ o ev, collision_static_constrains cfg sector object = some (o, ev)
        ∧ o.dest.get_left = object.dest.get_left
        ∧ o.dest.get_right = object.dest.get_right)
    ∧ (object.movement.y = 0 → object.movement.x ≠ 0 →
      cfg.SHIFT_DELTA ≤ object.dest.get_bottom - (solids.get_tile_bbox tx ty).get_top →
      cfg.SHIFT_DELTA ≤ (solids.get_tile_bbox tx ty).get_bottom - object.dest.get_top →
      ¬ vert_penetration object.dest (solids.get_tile_bbox tx ty)
        < horiz_penetration object.dest (solids.get_tile_bbox tx ty) →
      ∃ o ev, collision_static_constrains cfg sector object = some (o, ev)
        ∧ o.dest.get_top = object.dest.get_top
        ∧ o.dest.get_bottom = object.dest.get_bottom) := by
  constructor
  · intro _ hy h1 h2 hv hg
    by_cases h3 : object.dest.get_bottom - (solids.get_tile_bbox tx ty).get_top
        < (solids.get_tile_bbox tx ty).get_bottom - object.dest.get_top
    · have h4 : object.dest.get_bottom - (solids.get_tile_bbox tx ty).get_top
          < horiz_penetration object.dest (solids.get_tile_bbox tx ty) := by
        have := hv
        unfold vert_penetration at this
        rwa [min_eq_left h3.le] at this
      exact ⟨_, _, resolve_down cfg sector object solids tx ty tile hD hS hR hI hy (hg h3)
        h1 h2 h3 h4, rfl, rfl⟩
    · have h3' := not_lt.1 h3
      have h4 : (solids.get_tile_bbox tx ty).get_bottom - object.dest.get_top
          < horiz_penetration object.dest (solids.get_tile_bbox tx ty) := by
        have := hv
        unfold vert_penetration at this
        rwa [min_eq_right h3'] at this
      exact ⟨_, _, resolve_up cfg sector object solids tx ty tile hD hS hR hI hy
        h1 h2 h3' h4, rfl, rfl⟩
  · intro hy _ h1 h2 hv
    have hv' := not_lt.1 hv
    by_cases h3 : object.dest.get_right - (solids.get_tile_bbox tx ty).get_left
        < (solids.get_tile_bbox tx ty).get_right - object.dest.get_left
    · have h4 : object.dest.get_right - (solids.get_tile_bbox tx ty).get_left
          ≤ vert_penetration object.dest (solids.get_tile_bbox tx ty) := by
        have := hv'
        unfold horiz_penetration at this
        rwa [min_eq_left h3.le] at this
      exact ⟨_, _, resolve_right cfg sector object solids tx ty tile hD hS hR hI hy
        h1 h2 h3 h4, rfl, rfl⟩
    · have h3' := not_lt.1 h3
      have h4 : (solids.get_tile_bbox tx ty).get_right - object.dest.get_left
          ≤ vert_penetration object.dest (solids.get_tile_bbox tx ty) := by
        have := hv'
        unfold horiz_penetration at this
        rwa [min_eq_right h3'] at this
      exact ⟨_, _, resolve_left cfg sector object solids tx ty tile hD hS hR hI hy
        h1 h2 h3' h4, rfl, rfl⟩

/-- C2, at a concrete input: a 16x16 body at `(-20, 8)` walking right by 10 into
the single tile `(0, 0)-(32, 32)` keeps its top and bottom at `y = 8` and
`y = 24`. -/
theorem single_tile_cross_axis_witness :
    ∃ o ev, collision_static_constrains exampleConfig (tileSector walkingBodyDest)
        walkingBodyDest = some (o, ev)
      ∧ o.dest.get_top = 8 ∧ o.dest.get_bottom = 24 := by
  have h := (single_tile_cross_axis exampleConfig (tileSector walkingBodyDest)
    walkingBodyDest exampleTileMap 0 0 ⟨Tile.SOLID, 0⟩ (by norm_num [exampleConfig])
    (exampleTile_single _)
    (exampleTile_in_range _ (by rw [walkingBodyDest_eq]; norm_num))
    (by rw [walkingBodyDest_eq]; norm_num [intersects, exampleTileMap])).2
    (by rw [walkingBodyDest_eq]; rfl)
    (by rw [walkingBodyDest_eq]; norm_num [exampleBody])
    (by rw [walkingBodyDest_eq]
        norm_num [exampleConfig, exampleTileMap, Rectf.get_bottom, Rectf.get_top])
    (by rw [walkingBodyDest_eq]
        norm_num [exampleConfig, exampleTileMap, Rectf.get_bottom, Rectf.get_top])
    (by rw [walkingBodyDest_eq]
        norm_num [exampleTileMap, horiz_penetration, vert_penetration, Rectf.get_bottom,
          Rectf.get_top, Rectf.get_right, Rectf.get_left])
  obtain ⟨o, ev, h1, h2, h3⟩ := h
  refine ⟨o, ev, h1, h2.trans ?_, h3.trans ?_⟩
  · rw [walkingBodyDest_eq]; rfl
  · rw [walkingBodyDest_eq]; rfl

/-- C2 as stated fails: a 16x16 body at `(-13, -21)` with the purely vertical
movement `(0, 12)` has the destination `(-13, -9)-(3, 7)`, which reaches 3 units
(less than `SHIFT_DELTA`) into the single solid tile `(0, 0)-(32, 32)`; after
`collision_static_constrains` its right edge is at `0 - DELTA` instead of
`x = 3`: the X coordinates have changed. -/
theorem single_tile_cross_axis_counterexample :
    SingleSolidTile (tileSector grazingBodyDest2) grazingBodyDest2 exampleTileMap 0 0
        ⟨Tile.SOLID, 0⟩
      ∧ grazingBodyDest2.movement = ⟨0, 12⟩
      ∧ intersects grazingBodyDest2.dest (exampleTileMap.get_tile_bbox 0 0) = true
      ∧ grazingBodyDest2.dest.get_right = 3
      ∧ ∃ o ev, collision_static_constrains exampleConfig (tileSector grazingBodyDest2)
          grazingBodyDest2 = some (o, ev)
        ∧ o.dest.get_right = -(2 / 1000)
        ∧ o.dest.get_right ≠ grazingBodyDest2.dest.get_right := by
  have hr := resolve_shift_left exampleConfig (tileSector grazingBodyDest2)
    grazingBodyDest2 exampleTileMap 0 0 ⟨Tile.SOLID, 0⟩ (by norm_num [exampleConfig])
    (exampleTile_single _)
    (exampleTile_in_range _ (by rw [grazingBodyDest2_eq]; norm_num))
    (by rw [grazingBodyDest2_eq]; norm_num [intersects, exampleTileMap])
    (by rw [grazingBodyDest2_eq]; rfl)
    (by rw [grazingBodyDest2_eq]; norm_num [exampleBody])
    (by rw [grazingBodyDest2_eq]
        norm_num [exampleConfig, exampleTileMap, Rectf.get_right, Rectf.get_left])
  refine ⟨exampleTile_single _, by rw [grazingBodyDest2_eq]; rfl,
    by rw [grazingBodyDest2_eq]; norm_num [intersects, exampleTileMap],
    by rw [grazingBodyDest2_eq]; rfl, _, _, hr, ?_, ?_⟩
  · norm_num [exampleConfig, exampleTileMap, Rectf.get_right, Rectf.get_left]
  · rw [grazingBodyDest2_eq]
    norm_num [exampleConfig, exampleTileMap, Rectf.get_right, Rectf.get_left]

/-- C8 (the code at the failing input): a body with movement `(-100, 0)` is faster
than `MAX_SPEED`, yet neither component is above `MAX_SPEED * M_SQRT1_2` (the
guard compares the signed components), so the speed clamp leaves the movement
as it is and the destination of a 16x16 body at the origin is computed 100
units away from its bounding box. -/
theorem clamp_movement_misses_negative (cfg : Config) :
    norm_above_max ⟨-100, 0⟩
      ∧ clamp_movement cfg ⟨-100, 0⟩ = ⟨-100, 0⟩
      ∧ (compute_dest cfg
          (exampleBody 1 COLGROUP_MOVING 0 0 16 16 ⟨-100, 0⟩ CONTINUE)).movement = ⟨-100, 0⟩
      ∧ (compute_dest cfg
          (exampleBody 1 COLGROUP_MOVING 0 0 16 16 ⟨-100, 0⟩ CONTINUE)).dest
          = ⟨⟨-100, 0⟩, ⟨-84, 16⟩⟩ := by
  have hc : clamp_movement cfg ⟨-100, 0⟩ = ⟨-100, 0⟩ := by
    norm_num [clamp_movement, above_sqrt1_2_max, MAX_SPEED]
  refine ⟨by norm_num [norm_above_max, MAX_SPEED], hc, ?_, ?_⟩
  · simp [compute_dest, exampleBody, MovingObject.get_movement, hc]
  · simp [compute_dest, exampleBody, MovingObject.get_movement, MovingObject.get_bbox, hc,
      Rectf.move, Vector.add]
    norm_num

/-- The speed clamp does rescale a fast movement with a large positive component. -/
theorem clamp_movement_positive (cfg : Config) :
    clamp_movement cfg ⟨100, 0⟩ = (cfg.unit ⟨100, 0⟩).scale MAX_SPEED := by
  norm_num [clamp_movement, above_sqrt1_2_max, norm_above_max, MAX_SPEED]

/-- When `handle_collisions` returns, every body of the index is committed. -/
theorem handle_collisions_committed (cfg : Config) (sector : Sector)
    (r : Sector × List Event) (h : handle_collisions cfg sector = some r) :
    ∀ o ∈ r.1.moving_objects, o.bbox = o.dest ∧ o.movement = Vector.zero := by
  unfold handle_collisions at h
  cases hp : part1 cfg sector.solid_tilemaps [] (sector.moving_objects.map (compute_dest cfg)) with
  | none => simp [hp] at h
  | some p =>
    obtain ⟨l1, ev1⟩ := p
    simp only [hp, Option.some.injEq] at h
    subst h
    intro o ho
    simp only [List.mem_map] at ho
    obtain ⟨a, _, rfl⟩ := ho
    exact ⟨rfl, rfl⟩

/-- No assertion of `check_movement_unisolid` can fail. -/
theorem check_movement_unisolid_some (movement : Vector) (tile : Tile) :
    ∃ v, check_movement_unisolid movement tile = some v := by
  unfold check_movement_unisolid
  split_ifs with h
  · exact ⟨_, rfl⟩
  · exact ⟨_, rfl⟩
  · clear h
    simp only
    generalize (if tile.getData &&& AATriangle.DIRECTION_MASK = AATriangle.SOUTHEAST then
        (movement.x, movement.y)
      else if tile.getData &&& AATriangle.DIRECTION_MASK = AATriangle.SOUTHWEST then
        (movement.x * (-1), movement.y)
      else if tile.getData &&& AATriangle.DIRECTION_MASK = AATriangle.NORTHEAST then
        (movement.x, movement.y * (-1))
      else if tile.getData &&& AATriangle.DIRECTION_MASK = AATriangle.NORTHWEST then
        (movement.x * (-1), movement.y * (-1))
      else (movement.x, movement.y)) = mv
    obtain ⟨mx, my⟩ := mv
    simp only
    by_cases h1 : mx ≥ 0 ∧ my ≥ 0
    · exact ⟨_, if_pos h1⟩
    · rw [if_neg h1]
      by_cases h2 : mx ≤ 0 ∧ my ≤ 0
      · exact ⟨_, if_pos h2⟩
      · rw [if_neg h2]
        have hx : mx ≠ 0 := by
          intro h0
          rcases le_total my 0 with h | h
          · exact h2 ⟨h0.le, h⟩
          · exact h1 ⟨h0.ge, h⟩
        have hy : my ≠ 0 := by
          intro h0
          rcases le_total mx 0 with h | h
          · exact h2 ⟨h, h0.le⟩
          · exact h1 ⟨h, h0.ge⟩
        rw [if_neg (not_not.2 hx), if_neg (not_not.2 hy)]
        by_cases h3 : mx > 0
        · have h4 : my < 0 := by
            by_contra hc
            exact h1 ⟨h3.le, not_lt.1 hc⟩
          rw [if_pos h3, if_neg (not_not.2 h4)]
          split_ifs <;> exact ⟨_, rfl⟩
        · have h5 : mx < 0 := lt_of_le_of_ne (not_lt.1 h3) hx
          have h4 : my > 0 := by
            by_contra hc
            exact h2 ⟨h5.le, not_lt.1 hc⟩
          rw [if_neg h3, if_pos h5, if_neg (not_not.2 h4)]
          split_ifs <;> exact ⟨_, rfl⟩

/-- The first switch of `check_position_unisolid` does not reach its default
branch for a slope code of the 20 shapes. -/
theorem slope_line_isSome (tile_bbox : Rectf) (data : Nat) (h : slope_code_valid data) :
    ∃ v, slope_line tile_bbox data = some v := by
  unfold slope_code_valid at h
  unfold slope_line
  simp only
  split_ifs with h1 h2 h3 h4
  · exact ⟨_, rfl⟩
  · exact ⟨_, rfl⟩
  · exact ⟨_, rfl⟩
  · exact ⟨_, rfl⟩
  · exfalso
    rcases h with h | h | h | h
    · exact h1 h
    · exact h2 h
    · exact h3 h
    · exact h4 h

/-- With a well-formed slope code, no assertion of `check_position_unisolid` can fail. -/
theorem check_position_unisolid_some (cfg : Config) (obj_bbox tile_bbox : Rectf) (tile : Tile)
    (h : tile.getAttributes &&& Tile.SLOPE ≠ 0 → slope_code_valid tile.getData) :
    ∃ v, check_position_unisolid cfg obj_bbox tile_bbox tile = some v := by
  unfold check_position_unisolid
  split_ifs with h1
  · exact ⟨_, rfl⟩
  · exact ⟨_, rfl⟩
  · obtain ⟨v, hv⟩ := slope_line_isSome tile_bbox tile.getData (h h1)
    obtain ⟨a, b, c⟩ := v
    simp only [hv]
    split_ifs <;> exact ⟨_, rfl⟩

/-- A monadic fold whose steps all succeed succeeds. -/
theorem foldlM_some {α β : Type} (f : β → α → Option β) (l : List α)
    (h : ∀ c, ∀ a ∈ l, ∃ c', f c a = some c') (c : β) : ∃ c', l.foldlM f c = some c' := by
  induction l generalizing c with
  | nil => exact ⟨c, rfl⟩
  | cons a l ih =>
    obtain ⟨c1, h1⟩ := h c a (List.mem_cons_self _ _)
    obtain ⟨c2, h2⟩ := ih (fun c b hb => h c b (List.mem_cons_of_mem _ hb)) c1
    exact ⟨c2, by rw [List.foldlM_cons, h1]; exact h2⟩

/-- In a layer without malformed unisolid slopes the loop body of
`collision_tilemap` does not assert. -/
theorem collision_tilemap_cell_some (cfg : Config) (movement : Vector) (dest : Rectf)
    (object : MovingObject) (solids : TileMap) (c : Constraints) (x y : Int)
    (hw : ∀ t, solids.get_tile x y = some t →
      t.getAttributes &&& Tile.SOLID ≠ 0 → t.getAttributes &&& Tile.UNISOLID ≠ 0 →
      t.getAttributes &&& Tile.SLOPE ≠ 0 → slope_code_valid t.getData) :
    ∃ c', collision_tilemap_cell cfg movement dest object solids c x y = some c' := by
  unfold collision_tilemap_cell
  cases ht : solids.get_tile x y with
  | none => exact ⟨_, rfl⟩
  | some t =>
    simp only
    split_ifs with h1 h2
    · exact ⟨_, rfl⟩
    · obtain ⟨v, hv⟩ := check_movement_unisolid_some movement t
      obtain ⟨w, hw'⟩ := check_position_unisolid_some cfg object.get_bbox
        (solids.get_tile_bbox x y) t (fun hs => hw t ht h1 h2 hs)
      rw [hv, hw']
      simp only
      split_ifs <;> exact ⟨_, rfl⟩
    · exact ⟨_, rfl⟩

/-- Over layers without malformed unisolid slopes `collision_tilemap` returns. -/
theorem collision_tilemap_some (cfg : Config) (solid_tilemaps : List TileMap)
    (hw : slopes_well_formed solid_tilemaps)
    (c : Constraints) (movement : Vector) (dest : Rectf) (object : MovingObject) :
    ∃ c', collision_tilemap cfg solid_tilemaps c movement dest object = some c' := by
  unfold collision_tilemap
  apply foldlM_some
  intro c solids hs
  apply foldlM_some
  intro c x _
  apply foldlM_some
  intro c y _
  exact collision_tilemap_cell_some cfg movement dest object solids c x y
    (fun t ht => hw solids hs x y t ht)

/-- Over layers without malformed unisolid slopes `collision_static` returns. -/
theorem collision_static_some (cfg : Config) (sector : Sector)
    (hw : slopes_well_formed sector.solid_tilemaps)
    (c : Constraints) (movement : Vector) (dest : Rectf) (object : MovingObject) :
    ∃ r, collision_static cfg sector c movement dest object = some r := by
  unfold collision_static
  obtain ⟨c', hc⟩ := collision_tilemap_some cfg sector.solid_tilemaps hw c movement dest object
  rw [hc]
  exact ⟨_, rfl⟩

/-- Over layers without malformed unisolid slopes the vertical loop returns. -/
theorem vertical_loop_some (cfg : Config) (sector : Sector)
    (hw : slopes_well_formed sector.solid_tilemaps)
    (movement : Vector) (object : MovingObject) (oheight : ℚ) (n : Nat) :
    ∀ (c : Constraints) (dest : Rectf),
      ∃ r, vertical_loop cfg sector movement object oheight n c dest = some r := by
  induction n with
  | zero => intro c dest; exact ⟨_, rfl⟩
  | succ n ih =>
    intro c dest
    obtain ⟨⟨c1, ev1⟩, h1⟩ := collision_static_some cfg sector hw c ⟨0, movement.y⟩ dest object
    simp only [vertical_loop, h1]
    split_ifs
    · exact ⟨_, rfl⟩
    · obtain ⟨⟨c2, d2, ev2⟩, h2⟩ := ih c1 (apply_vertical cfg c1 dest oheight)
      rw [h2]
      exact ⟨_, rfl⟩

/-- Over layers without malformed unisolid slopes the horizontal loop returns. -/
theorem horizontal_loop_some (cfg : Config) (sector : Sector)
    (hw : slopes_well_formed sector.solid_tilemaps)
    (movement : Vector) (object : MovingObject) (owidth : ℚ) (n : Nat) :
    ∀ (c : Constraints) (dest : Rectf),
      ∃ r, horizontal_loop cfg sector movement object owidth n c dest = some r := by
  induction n with
  | zero => intro c dest; exact ⟨_, rfl⟩
  | succ n ih =>
    intro c dest
    obtain ⟨⟨c1, ev1⟩, h1⟩ := collision_static_some cfg sector hw c movement dest object
    simp only [horizontal_loop, h1]
    split_ifs
    · exact ⟨_, rfl⟩
    · obtain ⟨⟨c2, d2, ev2⟩, h2⟩ := ih c1 (apply_horizontal cfg c1 dest owidth object.uid).1
      rw [h2]
      exact ⟨_, rfl⟩

/-- Over layers without malformed unisolid slopes `collision_static_constrains`
returns. -/
theorem collision_static_constrains_some (cfg : Config) (sector : Sector)
    (hw : slopes_well_formed sector.solid_tilemaps) (object : MovingObject) :
    ∃ r, collision_static_constrains cfg sector object = some r := by
  unfold collision_static_constrains
  simp only
  obtain ⟨⟨cv, d1, ev1⟩, h1⟩ := vertical_loop_some cfg sector hw object.get_movement object
    object.get_bbox.get_height 2 {} object.dest
  rw [h1]
  simp only
  obtain ⟨⟨ch, d3, ev3⟩, h2⟩ := horizontal_loop_some cfg sector hw object.get_movement object
    object.get_bbox.get_width 2 {}
    (if cv.has_constraints = true ∧ cv.hit.bottom = true then d1.move cv.ground_movement else d1)
  rw [h2]
  simp only
  obtain ⟨⟨cf, ev5⟩, h3⟩ := collision_static_some cfg sector hw {} object.get_movement d3 object
  rw [h3]
  exact ⟨_, rfl⟩

/-- Over layers without malformed unisolid slopes part 1 returns. -/
theorem part1_some (cfg : Config) (solid_tilemaps : List TileMap)
    (hw : slopes_well_formed solid_tilemaps) (todo : List MovingObject) :
    ∀ done, ∃ r, part1 cfg solid_tilemaps done todo = some r := by
  induction todo with
  | nil => intro done; exact ⟨_, rfl⟩
  | cons o rest ih =>
    intro done
    unfold part1
    split_ifs
    · exact ih _
    · obtain ⟨⟨o1, ev1⟩, h1⟩ := collision_static_constrains_some cfg
        ⟨done ++ o :: rest, solid_tilemaps⟩ hw o
      rw [h1]
      simp only
      obtain ⟨⟨l, ev2⟩, h2⟩ := ih (done ++ [o1])
      rw [h2]
      exact ⟨_, rfl⟩

/-- Over layers without malformed unisolid slopes `handle_collisions` returns:
no assertion fails. -/
theorem handle_collisions_some (cfg : Config) (sector : Sector)
    (hw : slopes_well_formed sector.solid_tilemaps) :
    ∃ r, handle_collisions cfg sector = some r := by
  unfold handle_collisions
  obtain ⟨⟨l1, ev1⟩, h1⟩ := part1_some cfg sector.solid_tilemaps hw
    (sector.moving_objects.map (compute_dest cfg)) []
  simp only [h1]
  exact ⟨_, rfl⟩

/-- On a cell that is free for the rectangle, the loop body of `collision_tilemap`
leaves the constraint set unchanged. -/
theorem cell_free (cfg : Config) (movement : Vector) (dest : Rectf) (object : MovingObject)
    (solids : TileMap) (c : Constraints) (x y : Int)
    (hf : free_of_solid_tiles cfg solids dest) (hr : tile_in_range solids dest x y) :
    collision_tilemap_cell cfg movement dest object solids c x y = some c := by
  unfold collision_tilemap_cell
  cases ht : solids.get_tile x y with
  | none => rfl
  | some t =>
    simp only
    by_cases h1 : t.getAttributes &&& Tile.SOLID = 0
    · rw [if_pos h1]
    · rw [if_neg h1]
      have hres : collision_tilemap_resolve cfg movement dest solids c t
          (solids.get_tile_bbox x y) = c := by
        unfold collision_tilemap_resolve
        rcases hf x y t hr ht h1 with ⟨hs, hi⟩ | ⟨hs, _, ha⟩
        · rw [if_neg (not_not.2 hs), check_collisions_no_overlap _ _ _ _ _ _ _ hi]
        · rw [if_pos hs]
          exact ha _ _ _
      have hvalid : t.getAttributes &&& Tile.SLOPE ≠ 0 → slope_code_valid t.getData := by
        intro hs
        rcases hf x y t hr ht h1 with ⟨hs', _⟩ | ⟨_, hv, _⟩
        · exact absurd hs' hs
        · exact hv
      rw [hres]
      split_ifs with h2
      · obtain ⟨v, hv⟩ := check_movement_unisolid_some movement t
        obtain ⟨w, hw⟩ := check_position_unisolid_some cfg object.get_bbox
          (solids.get_tile_bbox x y) t hvalid
        rw [hv, hw]
        simp only
        split_ifs <;> rfl
      · rfl

/-- Over layers that are free for the rectangle `collision_tilemap` leaves the
constraint set unchanged. -/
theorem collision_tilemap_free (cfg : Config) (solid_tilemaps : List TileMap)
    (c : Constraints) (movement : Vector) (dest : Rectf) (object : MovingObject)
    (hf : ∀ solids ∈ solid_tilemaps, free_of_solid_tiles cfg solids dest) :
    collision_tilemap cfg solid_tilemaps c movement dest object = some c := by
  unfold collision_tilemap
  apply foldlM_unchanged
  intro c solids hs
  apply foldlM_unchanged
  intro c x hx
  apply foldlM_unchanged
  intro c y hy
  rw [mem_intRange] at hx hy
  exact cell_free cfg movement dest object solids c x y (hf solids hs) ⟨hx.1, hx.2, hy.1, hy.2⟩

/-- Among bodies that are free for the rectangle the object loop of
`collision_static` changes nothing. -/
theorem static_loop_free (cfg : Config) (object : MovingObject) (movement : Vector)
    (dest : Rectf) (l : List MovingObject)
    (h : free_of_static_bodies l object.uid dest)
    (acc : Constraints × List Event) :
    l.foldl (collision_static_object cfg movement dest object) acc = acc := by
  induction l generalizing acc with
  | nil => rfl
  | cons m l ih =>
    rw [List.foldl_cons]
    have hm := h m (List.mem_cons_self _ _)
    have hstep : collision_static_object cfg movement dest object acc m = acc := by
      unfold collision_static_object
      split_ifs with h1 h2 h3
      · rfl
      · rfl
      · have hi : intersects dest m.bbox = false := by
          apply hm
          · by_contra hc; push_neg at hc; exact h1 ⟨hc.1, hc.2⟩
          · simpa using h2
          · exact h3
        simp [check_collisions_no_overlap _ _ _ _ _ _ _ hi]
      · rfl
    rw [hstep]
    exact ih (fun m hm => h m (List.mem_cons_of_mem _ hm)) acc

/-- For a rectangle that overlaps no solid `collision_static` changes nothing and
invokes no callback. -/
theorem collision_static_free (cfg : Config) (sector : Sector) (c : Constraints)
    (movement : Vector) (dest : Rectf) (object : MovingObject)
    (hf : ∀ solids ∈ sector.solid_tilemaps, free_of_solid_tiles cfg solids dest)
    (hs : free_of_static_bodies sector.moving_objects object.uid dest) :
    collision_static cfg sector c movement dest object = some (c, []) := by
  unfold collision_static
  rw [collision_tilemap_free cfg _ _ _ _ _ hf]
  simp only
  rw [static_loop_free cfg object movement dest _ hs]

/-- A body whose destination overlaps no solid comes out of
`collision_static_constrains` as it went in, and no callback is invoked. -/
theorem collision_static_constrains_free (cfg : Config) (sector : Sector)
    (object : MovingObject)
    (hf : ∀ solids ∈ sector.solid_tilemaps, free_of_solid_tiles cfg solids object.dest)
    (hs : free_of_static_bodies sector.moving_objects object.uid object.dest) :
    collision_static_constrains cfg sector object = some (object, []) := by
  have hc : ∀ mv, collision_static cfg sector {} mv object.dest object = some ({}, []) :=
    fun mv => collision_static_free cfg sector {} mv object.dest object hf hs
  have hV := vertical_loop_none cfg sector object.movement object object.bbox.get_height 1
    {} {} object.dest (hc _) (by simp [Constraints.has_constraints])
  have hH := horizontal_loop_none cfg sector object.movement object object.bbox.get_width 1
    {} {} object.dest (hc _) (by simp [Constraints.has_constraints])
  simp only [collision_static_constrains, MovingObject.get_movement, MovingObject.get_bbox, hV]
  simp [Constraints.has_constraints, hH, hc, final_crush]

/-- The result of `collision_static_constrains` differs from the body passed in
at most in the destination. -/
theorem collision_static_constrains_same (cfg : Config) (sector : Sector)
    (object o : MovingObject) (ev : List Event)
    (h : collision_static_constrains cfg sector object = some (o, ev)) :
    same_but_dest object o := by
  unfold collision_static_constrains at h
  simp only at h
  cases hv : vertical_loop cfg sector object.get_movement object object.get_bbox.get_height 2
      {} object.dest with
  | none => simp [hv] at h
  | some rv =>
    obtain ⟨cv, d1, ev1⟩ := rv
    simp only [hv] at h
    cases hh : horizontal_loop cfg sector object.get_movement object
        object.get_bbox.get_width 2 {}
        (if cv.has_constraints = true ∧ cv.hit.bottom = true then d1.move cv.ground_movement
          else d1) with
    | none => simp [hh] at h
    | some rh =>
      obtain ⟨ch, d3, ev3⟩ := rh
      simp only [hh] at h
      cases hf : collision_static cfg sector {} object.get_movement d3 object with
      | none => simp [hf] at h
      | some rf =>
        obtain ⟨cf, ev5⟩ := rf
        simp only [hf, Option.some.injEq, Prod.mk.injEq] at h
        obtain ⟨h1, _⟩ := h
        rw [← h1]
        rfl

/-- Every index is pointwise the same as itself up to destinations. -/
theorem same_but_dest_refl (l : List MovingObject) : List.Forall₂ same_but_dest l l := by
  induction l with
  | nil => exact List.Forall₂.nil
  | cons a l ih => exact List.Forall₂.cons rfl ih

/-- Pointwise related lists stay related when concatenated. -/
theorem forall₂_append {α β : Type} {R : α → β → Prop} {l1 l2 : List α} {m1 m2 : List β}
    (h1 : List.Forall₂ R l1 m1) (h2 : List.Forall₂ R l2 m2) :
    List.Forall₂ R (l1 ++ l2) (m1 ++ m2) := by
  induction h1 with
  | nil => exact h2
  | cons h _ ih => exact List.Forall₂.cons h ih

/-- Being free of static bodies does not depend on the destinations of the bodies. -/
theorem free_of_static_bodies_same (objs objs' : List MovingObject) (uid : Nat) (rect : Rectf)
    (h : List.Forall₂ same_but_dest objs objs')
    (hf : free_of_static_bodies objs uid rect) : free_of_static_bodies objs' uid rect := by
  induction h with
  | nil => intro m hm; cases hm
  | @cons a b l l' hab _ ih =>
    intro m hm
    rcases List.mem_cons.1 hm with rfl | hm
    · have ha := hf a (List.mem_cons_self _ _)
      unfold same_but_dest at hab
      rw [hab]
      exact ha
    · exact ih (fun m hm => hf m (List.mem_cons_of_mem _ hm)) m hm

/-- Part 1 of `handle_collisions` changes at most the destination of each body of
the index, keeps the bodies already visited, and returns a body whose
destination overlaps no solid exactly as it was. -/
theorem part1_spec (cfg : Config) (solid_tilemaps : List TileMap) :
    ∀ (todo done orig l : List MovingObject) (ev : List Event),
      List.Forall₂ same_but_dest orig done →
      part1 cfg solid_tilemaps done todo = some (l, ev) →
      ∃ todo', l = done ++ todo'
        ∧ List.Forall₂ (fun a b => same_but_dest a b
            ∧ ((∀ solids ∈ solid_tilemaps, free_of_solid_tiles cfg solids a.dest) →
                free_of_static_bodies (orig ++ todo) a.uid a.dest → b = a)) todo todo' := by
  intro todo
  induction todo with
  | nil =>
    intro done orig l ev _ h
    simp only [part1, Option.some.injEq, Prod.mk.injEq] at h
    exact ⟨[], by simp [h.1], List.Forall₂.nil⟩
  | cons a rest ih =>
    intro done orig l ev hd h
    unfold part1 at h
    have hassoc : orig ++ a :: rest = (orig ++ [a]) ++ rest := by simp
    by_cases he : (!static_eligible a) = true
    · rw [if_pos he] at h
      obtain ⟨todo', h1, h2⟩ := ih (done ++ [a]) (orig ++ [a]) l ev
        (forall₂_append hd (List.Forall₂.cons rfl List.Forall₂.nil)) h
      refine ⟨a :: todo', by simp [h1], List.Forall₂.cons ⟨rfl, fun _ _ => rfl⟩ ?_⟩
      rw [hassoc]; exact h2
    · rw [if_neg he] at h
      cases hc : collision_static_constrains cfg ⟨done ++ a :: rest, solid_tilemaps⟩ a with
      | none => simp [hc] at h
      | some r =>
        obtain ⟨o1, ev1⟩ := r
        simp only [hc] at h
        cases hp : part1 cfg solid_tilemaps (done ++ [o1]) rest with
        | none => simp [hp] at h
        | some r2 =>
          obtain ⟨l2, ev2⟩ := r2
          simp only [hp, Option.some.injEq, Prod.mk.injEq] at h
          have hsame := collision_static_constrains_same cfg _ a o1 ev1 hc
          obtain ⟨todo', h1, h2⟩ := ih (done ++ [o1]) (orig ++ [a]) l2 ev2
            (forall₂_append hd (List.Forall₂.cons hsame List.Forall₂.nil)) hp
          refine ⟨o1 :: todo', by rw [← h.1, h1]; simp, List.Forall₂.cons ⟨hsame, ?_⟩ ?_⟩
          · intro hft hfs
            have hfs' : free_of_static_bodies (done ++ a :: rest) a.uid a.dest :=
              free_of_static_bodies_same _ _ _ _
                (forall₂_append hd (same_but_dest_refl (a :: rest))) hfs
            have := collision_static_constrains_free cfg ⟨done ++ a :: rest, solid_tilemaps⟩ a
              hft hfs'
            rw [this] at hc
            simp only [Option.some.injEq, Prod.mk.injEq] at hc
            exact hc.1.symm
          · rw [hassoc]; exact h2

/-- An invariant of the loop state is kept by a whole `foldl`, where each step may
use that its element is in the list. -/
theorem foldl_invariant_mem {α β : Type} (P : β → Prop) (f : β → α → β) (l : List α) (b : β)
    (h0 : P b) (hs : ∀ b a, a ∈ l → P b → P (f b a)) : P (l.foldl f b) := by
  induction l generalizing b with
  | nil => exact h0
  | cons a l ih =>
    exact ih (f b a) (hs b a (List.mem_cons_self _ _) h0)
      (fun b c hc hb => hs b c (List.mem_cons_of_mem _ hc) hb)

/-- The inner loop body of part 3 leaves the pair alone when the second body is
not eligible. -/
theorem moving_pair_ineligible (cfg : Config) (a b : MovingObject)
    (h : moving_eligible b = false) : moving_pair cfg a b = (a, b, []) := by
  simp [moving_pair, h]

/-- A step of part 3 on other positions, or with an ineligible body in the second
position, keeps an ineligible body where it is. -/
theorem pair_step_keeps (cfg : Config) (k : Nat) (X : MovingObject)
    (hX : moving_eligible X = false) (i i2 : Nat) (hi : i ≠ k)
    (st : List MovingObject × List Event) (hk : st.1[k]? = some X) :
    (pair_step (moving_pair cfg) i i2 st).1[k]? = some X := by
  unfold pair_step
  cases ha : st.1[i]? with
  | none => simpa using hk
  | some a =>
    cases hb : st.1[i2]? with
    | none => simpa using hk
    | some b =>
      simp only
      by_cases h2 : i2 = k
      · subst h2
        have hbX : b = X := by rw [hk] at hb; exact (Option.some.inj hb).symm
        subst hbX
        rw [moving_pair_ineligible cfg a b hX]
        simp only
        rw [set_getElem?_self _ _ _ ha, set_getElem?_self _ _ _ hb]
        exact hk
      · rw [List.getElem?_set_ne h2, List.getElem?_set_ne hi]
        exact hk

/-- Part 3 of `handle_collisions` returns a body that is not a valid moving or
moving-static body exactly as it was. -/
theorem part3_keeps_ineligible (cfg : Config) (l : List MovingObject) (k : Nat)
    (X : MovingObject) (hk : l[k]? = some X) (hX : moving_eligible X = false) :
    (part3 cfg l).1[k]? = some X := by
  unfold part3
  apply foldl_invariant (fun st : List MovingObject × List Event => st.1[k]? = some X)
  · exact hk
  · intro st i hst
    cases ho : st.1[i]? with
    | none => simpa using hst
    | some o =>
      simp only
      by_cases he : (!moving_eligible o) = true
      · rw [if_pos he]; exact hst
      · rw [if_neg he]
        have hik : i ≠ k := by
          intro hik
          subst hik
          rw [hst] at ho
          have : o = X := (Option.some.inj ho).symm
          subst this
          simp [hX] at he
        apply foldl_invariant (fun st : List MovingObject × List Event => st.1[k]? = some X)
        · exact hst
        · intro st2 i2 hst2
          exact pair_step_keeps cfg k X hX i i2 hik st2 hst2

/-- Part 3 of `handle_collisions` changes nothing when at most one body of the
index is a valid moving or moving-static body. -/
theorem part3_alone (cfg : Config) (l : List MovingObject) (k : Nat)
    (h : ∀ j m, j ≠ k → l[j]? = some m → moving_eligible m = false) :
    (part3 cfg l).1 = l := by
  unfold part3
  apply foldl_invariant (fun st : List MovingObject × List Event => st.1 = l)
  · rfl
  · intro st i hst
    cases ho : st.1[i]? with
    | none => simpa using hst
    | some o =>
      simp only
      by_cases he : (!moving_eligible o) = true
      · rw [if_pos he]; exact hst
      · rw [if_neg he]
        have hik : i = k := by
          by_contra hik
          rw [hst] at ho
          have := h i o hik ho
          simp [this] at he
        apply foldl_invariant_mem (fun st : List MovingObject × List Event => st.1 = l)
        · exact hst
        · intro st2 i2 hi2 hst2
          have hi2k : i2 ≠ k := by
            rw [List.mem_range'] at hi2
            obtain ⟨j, _, hj⟩ := hi2
            omega
          unfold pair_step
          cases ha : st2.1[i]? with
          | none => simpa using hst2
          | some a =>
            cases hb : st2.1[i2]? with
            | none => simpa using hst2
            | some b =>
              simp only
              have hbe : moving_eligible b = false := by
                rw [hst2] at hb
                exact h i2 b hi2k hb
              rw [moving_pair_ineligible cfg a b hbe]
              simp only
              rw [set_getElem?_self _ _ _ ha, set_getElem?_self _ _ _ hb]
              exact hst2

/-- Pointwise related lists have related entries at every position. -/
theorem forall₂_getElem? {α β : Type} {R : α → β → Prop} {l : List α} {l' : List β}
    (h : List.Forall₂ R l l') :
    ∀ (k : Nat),
      (∀ a, l[k]? = some a → ∃ b, l'[k]? = some b ∧ R a b)
      ∧ (∀ b, l'[k]? = some b → ∃ a, l[k]? = some a ∧ R a b) := by
  induction h with
  | nil => intro k; simp
  | @cons a b l l' hab _ ih =>
    intro k
    cases k with
    | zero =>
      simp only [List.getElem?_cons_zero, Option.some.injEq]
      exact ⟨fun x hx => ⟨b, rfl, hx ▸ hab⟩, fun y hy => ⟨a, rfl, hy ▸ hab⟩⟩
    | succ k =>
      simp only [List.getElem?_cons_succ]
      exact ih k

/-- The filter of parts 2.5 and 3 does not look at the destination. -/
theorem moving_eligible_same (a b : MovingObject) (h : same_but_dest a b) :
    moving_eligible b = moving_eligible a := by
  unfold same_but_dest at h
  rw [h]
  rfl

/-- The speed clamp leaves a zero movement alone. -/
theorem clamp_movement_zero (cfg : Config) : clamp_movement cfg Vector.zero = Vector.zero := by
  norm_num [clamp_movement, above_sqrt1_2_max, Vector.zero]

/-- The first loop of `handle_collisions` on a body at rest: the destination is
the bounding box. -/
theorem compute_dest_at_rest (cfg : Config) (X : MovingObject)
    (hm : X.movement = Vector.zero) : (compute_dest cfg X).dest = X.bbox := by
  simp [compute_dest, MovingObject.get_movement, MovingObject.get_bbox, hm,
    clamp_movement_zero, move_zero]

/-- The first loop of `handle_collisions` keeps identity, box, group and validity. -/
theorem compute_dest_fields (cfg : Config) (m : MovingObject) :
    (compute_dest cfg m).uid = m.uid ∧ (compute_dest cfg m).bbox = m.bbox
      ∧ (compute_dest cfg m).get_group = m.get_group
      ∧ (compute_dest cfg m).is_valid = m.is_valid
      ∧ moving_eligible (compute_dest cfg m) = moving_eligible m :=
  ⟨rfl, rfl, rfl, rfl, rfl⟩

/-- A frame of `handle_collisions` on a body at rest that overlaps no solid and
takes part in no moving-vs-moving pairing. -/
theorem frame_at_rest (cfg : Config) (sector : Sector) (k : Nat) (X : MovingObject)
    (hk : sector.moving_objects[k]? = some X)
    (hm : X.movement = Vector.zero)
    (htiles : ∀ solids ∈ sector.solid_tilemaps, free_of_solid_tiles cfg solids X.bbox)
    (hstat : free_of_static_bodies sector.moving_objects X.uid X.bbox)
    (hpair : moving_eligible X = false
      ∨ ∀ j m, j ≠ k → sector.moving_objects[j]? = some m → moving_eligible m = false)
    (r : Sector × List Event) (hr : handle_collisions cfg sector = some r) :
    ∃ X', r.1.moving_objects[k]? = some X' ∧ X'.bbox = X.bbox := by
  unfold handle_collisions at hr
  cases hp : part1 cfg sector.solid_tilemaps [] (sector.moving_objects.map (compute_dest cfg)) with
  | none => simp [hp] at hr
  | some p =>
    obtain ⟨l1, ev1⟩ := p
    simp only [hp, Option.some.injEq] at hr
    subst hr
    simp only [(part2_5_spec l1).1, List.getElem?_map]
    obtain ⟨todo', h1, h2⟩ := part1_spec cfg sector.solid_tilemaps _ [] [] l1 ev1
      List.Forall₂.nil hp
    simp only [List.nil_append] at h1 h2
    subst h1
    have hk0 : (sector.moving_objects.map (compute_dest cfg))[k]? = some (compute_dest cfg X) := by
      rw [List.getElem?_map, hk]; rfl
    obtain ⟨b, hb, -, hfree⟩ := (forall₂_getElem? h2 k).1 _ hk0
    have hdest := compute_dest_at_rest cfg X hm
    have hbX : b = compute_dest cfg X := by
      apply hfree
      · rw [hdest]; exact htiles
      · rw [hdest]
        intro m' hm'
        rw [List.mem_map] at hm'
        obtain ⟨m, hmem, rfl⟩ := hm'
        exact hstat m hmem
    subst hbX
    have h3 : (part3 cfg l1).1[k]? = some (compute_dest cfg X) := by
      rcases hpair with hA | hB
      · exact part3_keeps_ineligible cfg l1 k _ hb hA
      · rw [part3_alone cfg l1 k]
        · exact hb
        · intro j m hj hmj
          obtain ⟨a, ha, hsame, -⟩ := (forall₂_getElem? h2 j).2 m hmj
          rw [List.getElem?_map] at ha
          cases ho : sector.moving_objects[j]? with
          | none => simp [ho] at ha
          | some o =>
            simp only [ho, Option.map_some', Option.some.injEq] at ha
            rw [moving_eligible_same a m hsame, ← ha]
            exact hB j o hj ho
    rw [h3]
    exact ⟨_, rfl, hdest⟩

/-- The example layer holds no unisolid slope tile. -/
theorem exampleTileMap_well_formed : slopes_well_formed [exampleTileMap] := by
  intro solids hs x y t ht _ hu
  simp only [List.mem_singleton] at hs
  subst hs
  exfalso
  by_cases hxy : x = 0 ∧ y = 0
  · simp only [exampleTileMap, hxy, and_self, if_true, Option.some.injEq] at ht
    subst ht
    exact hu (by decide)
  · simp [exampleTileMap, hxy] at ht

/-- C9: `handle_collisions` returns whenever no assertion of the unisolid slope
checks fails (no solid unisolid slope tile has a malformed slope code), and when
it returns, every body of the moving-object index, whatever its group or
validity, has its bounding box equal to its destination and its movement
vector equal to `(0, 0)`. -/
theorem handle_collisions_commit (cfg : Config) (sector : Sector) :
    (slopes_well_formed sector.solid_tilemaps → ∃ r, handle_collisions cfg sector = some r)
    ∧ ∀ r, handle_collisions cfg sector = some r →
        ∀ o ∈ r.1.moving_objects, o.bbox = o.dest ∧ o.movement = Vector.zero :=
  ⟨handle_collisions_some cfg sector, fun r h => handle_collisions_committed cfg sector r h⟩

/-- C9, at a concrete input: the frame of the falling body over the single tile
returns, with the body committed. -/
theorem handle_collisions_commit_witness :
    ∃ r, handle_collisions exampleConfig exampleSector = some r
      ∧ ∀ o ∈ r.1.moving_objects, o.bbox = o.dest ∧ o.movement = Vector.zero := by
  obtain ⟨r, hr⟩ := (handle_collisions_commit exampleConfig exampleSector).1
    exampleTileMap_well_formed
  exact ⟨r, hr, (handle_collisions_commit exampleConfig exampleSector).2 r hr⟩

/-- The first loop of `handle_collisions` leaves the first resting body as it is. -/
theorem compute_dest_overlapA :
    compute_dest exampleConfig (overlapA CONTINUE) = overlapA CONTINUE := by
  simp [compute_dest, MovingObject.get_movement, MovingObject.get_bbox, overlapA, exampleBody,
    clamp_movement_zero, move_zero]

/-- The first loop of `handle_collisions` leaves the second resting body as it is. -/
theorem compute_dest_overlapB :
    compute_dest exampleConfig (overlapB CONTINUE) = overlapB CONTINUE := by
  simp [compute_dest, MovingObject.get_movement, MovingObject.get_bbox, overlapB, exampleBody,
    clamp_movement_zero, move_zero]

/-- The overlapping pair contains no static body. -/
theorem overlap_free_static (uid : Nat) (rect : Rectf) :
    free_of_static_bodies [overlapA CONTINUE, overlapB CONTINUE] uid rect := by
  intro m hm hg _ _
  simp only [List.mem_cons, List.mem_singleton, List.not_mem_nil, or_false] at hm
  rcases hm with rfl | rfl <;> rcases hg with hg | hg <;> cases hg

/-- Part 1 leaves the overlapping pair as it is: there is no solid. -/
theorem overlap_part1 :
    part1 exampleConfig [] [] [overlapA CONTINUE, overlapB CONTINUE]
      = some ([overlapA CONTINUE, overlapB CONTINUE], []) := by
  have hA := collision_static_constrains_free exampleConfig
    ⟨[overlapA CONTINUE, overlapB CONTINUE], []⟩ (overlapA CONTINUE)
    (by intro s hs; cases hs) (overlap_free_static _ _)
  have hB := collision_static_constrains_free exampleConfig
    ⟨[overlapA CONTINUE, overlapB CONTINUE], []⟩ (overlapB CONTINUE)
    (by intro s hs; cases hs) (overlap_free_static _ _)
  have eA : static_eligible (overlapA CONTINUE) = true := by decide
  have eB : static_eligible (overlapB CONTINUE) = true := by decide
  simp [part1, eA, eB, hA, hB]

/-- Part 3 on the overlapping pair is one call of `collision_object`. -/
theorem overlap_part3 :
    (part3 exampleConfig [overlapA CONTINUE, overlapB CONTINUE]).1
      = [(collision_object exampleConfig (overlapA CONTINUE) (overlapB CONTINUE)).1,
         (collision_object exampleConfig (overlapA CONTINUE) (overlapB CONTINUE)).2.1] := by
  have eA : moving_eligible (overlapA CONTINUE) = true := by decide
  have eB : moving_eligible (overlapB CONTINUE) = true := by decide
  have eB' : moving_eligible
      (collision_object exampleConfig (overlapA CONTINUE) (overlapB CONTINUE)).2.1 = true := by
    rw [(collision_object_continue_both exampleConfig (overlapA CONTINUE) (overlapB CONTINUE)
      (by norm_num [intersects, overlapA, overlapB, exampleBody]) rfl rfl rfl rfl).2]
    decide
  simp [part3, pair_step, moving_pair, eA, eB, eB', List.range_succ, List.range']

/-- C10 as stated fails: two valid moving bodies at rest whose boxes
`(0, 0)-(32, 32)` and `(22, 0)-(54, 32)` overlap, in a sector without any tile
layer or static body (so neither overlaps a solid), both accepting the pairing
and answering CONTINUE: after one frame of `handle_collisions` the first body's
bounding box is `(-5.02, 0)-(26.98, 32)`, not the box it had before. -/
theorem zero_movement_frame_counterexample :
    overlapSector.moving_objects[0]? = some (overlapA CONTINUE)
      ∧ (overlapA CONTINUE).movement = Vector.zero
      ∧ (∀ solids ∈ overlapSector.solid_tilemaps,
          free_of_solid_tiles exampleConfig solids (overlapA CONTINUE).bbox)
      ∧ free_of_static_bodies overlapSector.moving_objects (overlapA CONTINUE).uid
          (overlapA CONTINUE).bbox
      ∧ ∃ r X', handle_collisions exampleConfig overlapSector = some r
        ∧ r.1.moving_objects[0]? = some X'
        ∧ X'.bbox = ⟨⟨-(251 / 50), 0⟩, ⟨32 - 251 / 50, 32⟩⟩
        ∧ X'.bbox ≠ (overlapA CONTINUE).bbox := by
  refine ⟨rfl, rfl, ?_, overlap_free_static _ _, ?_⟩
  · intro s hs
    cases hs
  have hcc := (collision_object_continue_both exampleConfig (overlapA CONTINUE)
    (overlapB CONTINUE) (by norm_num [intersects, overlapA, overlapB, exampleBody])
    rfl rfl rfl rfl).1
  have hn : pair_normal (overlapA CONTINUE) (overlapB CONTINUE) = ⟨10, 0⟩ := by
    norm_num [pair_normal, get_hit_normal, overlapA, overlapB, exampleBody, Rectf.get_bottom,
      Rectf.get_top, Rectf.get_left, Rectf.get_right, Vector.zero]
  have hframe : handle_collisions exampleConfig overlapSector
      = some (⟨((part3 exampleConfig [overlapA CONTINUE, overlapB CONTINUE]).1).map
            apply_movement, []⟩,
          [] ++ part2 exampleConfig [] [overlapA CONTINUE, overlapB CONTINUE]
            ++ (part2_5 [overlapA CONTINUE, overlapB CONTINUE]).2
            ++ (part3 exampleConfig (part2_5 [overlapA CONTINUE, overlapB CONTINUE]).1).2) := by
    simp only [handle_collisions, overlapSector, List.map_cons, List.map_nil,
      compute_dest_overlapA, compute_dest_overlapB, overlap_part1,
      (part2_5_spec [overlapA CONTINUE, overlapB CONTINUE]).1]
  refine ⟨_, apply_movement
    (collision_object exampleConfig (overlapA CONTINUE) (overlapB CONTINUE)).1,
    hframe, ?_, ?_, ?_⟩
  · simp only [overlap_part3, List.map_cons, List.getElem?_cons_zero]
  · simp only [apply_movement, hcc, hn]
    norm_num [overlapA, exampleBody, exampleConfig, Rectf.move, Vector.add, Vector.scale,
      Vector.neg]
  · simp only [apply_movement, hcc, hn]
    norm_num [overlapA, exampleBody, exampleConfig, Rectf.move, Vector.add, Vector.scale,
      Vector.neg]

/-! ## Horizontal crush (C11) -/

theorem squeeze_static :
    collision_static exampleConfig squeezeSector {} Vector.zero squeezedBody.dest squeezedBody
      = some ({ left := some 10, right := some 20, hit := { left := true, right := true } },
          [Event.collides 2 1 {}, Event.collides 1 2 {}, Event.collision 2 1 {},
           Event.collides 3 1 {}, Event.collides 1 3 {}, Event.collision 3 1 {}]) := by
  norm_num [collision_static, collision_tilemap, squeezeSector, squeezedBody, exampleBody,
    collision_static_object, MovingObject.get_group, MovingObject.is_valid,
    check_collisions, intersects, tighten_smaller, exampleConfig, Vector.zero, Vector.add,
    Rectf.get_left, Rectf.get_right, Rectf.get_top, Rectf.get_bottom, MovingObject.get_movement,
    Constraints.max_left, Constraints.min_right, Constraints.max_top, Constraints.min_bottom,
    Constraints.raise, Constraints.lower, show ¬ (CONTINUE = ABORT_MOVE) from by decide]

/-- The crush branch of the horizontal clamp: with both bounds finite and a span
narrower than the body by more than `SHIFT_DELTA`, the destination is returned as
it was and the one callback carries `left`, `right` and `crush`. -/
theorem apply_horizontal_crush (cfg : Config) (c : Constraints) (dest : Rectf)
    (owidth : ℚ) (uid : Nat) (l r : ℚ) (hl : c.left = some l) (hr : c.right = some r)
    (hw : (r - l) + cfg.SHIFT_DELTA < owidth) :
    apply_horizontal cfg c dest owidth uid
      = (dest, [Event.collision_solid uid { left := true, right := true, crush := true }]) := by
  unfold apply_horizontal
  rw [hl, hr]
  simp only
  rw [if_pos hw]

/-- C11: in an iteration of the horizontal phase whose constraint set has both
horizontal bounds finite and a span `right - left` narrower than the body's
width by more than `SHIFT_DELTA`, `collision_solid` is invoked with `left`,
`right` and `crush` set (and no other flag), and the destination is not
repositioned: the next iteration starts from the same rectangle. -/
theorem horizontal_crush (cfg : Config) (sector : Sector) (movement : Vector)
    (object : MovingObject) (owidth : ℚ) (n : Nat) (c0 c1 : Constraints) (dest : Rectf)
    (ev1 : List Event) (l r : ℚ)
    (hs : collision_static cfg sector c0 movement dest object = some (c1, ev1))
    (hl : c1.left = some l) (hr : c1.right = some r)
    (hw : (r - l) + cfg.SHIFT_DELTA < owidth) :
    apply_horizontal cfg c1 dest owidth object.uid
      = (dest, [Event.collision_solid object.uid
          { left := true, right := true, top := false, bottom := false, crush := true }])
    ∧ horizontal_loop cfg sector movement object owidth (n + 1) c0 dest
      = (horizontal_loop cfg sector movement object owidth n c1 dest).map
          (fun s => (s.1, s.2.1, ev1 ++ [Event.collision_solid object.uid
            { left := true, right := true, crush := true }] ++ s.2.2)) := by
  have h := apply_horizontal_crush cfg c1 dest owidth object.uid l r hl hr hw
  refine ⟨h, ?_⟩
  have hc : c1.has_constraints = true := by simp [Constraints.has_constraints, hl]
  rw [horizontal_loop, hs]
  simp only [hc, h, Bool.not_true, Bool.false_eq_true, if_false]
  cases horizontal_loop cfg sector movement object owidth n c1 dest with
  | none => rfl
  | some s => rfl

/-- C11 at the body of `squeezeSector`: two walls leave a gap of 10 for a body 32
wide, the callback carries `left`, `right`, `crush` and the destination stays. -/
theorem horizontal_crush_witness :
    apply_horizontal exampleConfig
        { left := some 10, right := some 20, hit := { left := true, right := true } }
        squeezedBody.dest 32 squeezedBody.uid
      = (squeezedBody.dest, [Event.collision_solid squeezedBody.uid
          { left := true, right := true, top := false, bottom := false, crush := true }])
    ∧ horizontal_loop exampleConfig squeezeSector Vector.zero squeezedBody 32 (0 + 1) {}
        squeezedBody.dest
      = (horizontal_loop exampleConfig squeezeSector Vector.zero squeezedBody 32 0
          { left := some 10, right := some 20, hit := { left := true, right := true } }
          squeezedBody.dest).map
          (fun s => (s.1, s.2.1,
            [Event.collides 2 1 {}, Event.collides 1 2 {}, Event.collision 2 1 {},
             Event.collides 3 1 {}, Event.collides 1 3 {}, Event.collision 3 1 {}]
            ++ [Event.collision_solid squeezedBody.uid
              { left := true, right := true, crush := true }] ++ s.2.2)) :=
  horizontal_crush exampleConfig squeezeSector Vector.zero squeezedBody 32 0 {} _
    squeezedBody.dest _ 10 20 squeeze_static rfl rfl (by norm_num [exampleConfig])

/-! ## Final crush check (C20) -/

theorem press_final_low :
    collision_static exampleConfig (pressSector (5 / 2)) {} pressedBody.get_movement
        pressedBodyResolved.dest pressedBody
      = some ({ top := some (5 / 2), bottom := some 16, ground_movement := ⟨0, 1⟩,
                hit := { top := true, bottom := true } }, pressTouches) := by
  norm_num [collision_static, collision_tilemap, pressSector, pressedBody, exampleBody,
    collision_static_object, MovingObject.get_group, MovingObject.is_valid, pressTouches,
    pressedBodyResolved,
    check_collisions, intersects, tighten_smaller, exampleConfig, Vector.zero, Vector.add,
    Rectf.get_left, Rectf.get_right, Rectf.get_top, Rectf.get_bottom, MovingObject.get_movement,
    Constraints.max_left, Constraints.min_right, Constraints.max_top, Constraints.min_bottom,
    Constraints.raise, Constraints.lower, show ¬ (CONTINUE = ABORT_MOVE) from by decide]

theorem press_frame_low :
    collision_static_constrains exampleConfig (pressSector (5 / 2)) pressedBody
      = some (pressedBodyResolved,
          pressEvents ++ pressTouches) := by
  norm_num [collision_static_constrains, vertical_loop, horizontal_loop, apply_vertical,
    apply_horizontal, final_crush, Constraints.has_constraints, Rectf.move,
    Rectf.get_width, Rectf.get_height, MovingObject.get_bbox, pressTouches, pressEvents,
    pressedBodyResolved,
    collision_static, collision_tilemap, pressSector, pressedBody, exampleBody,
    collision_static_object, MovingObject.get_group, MovingObject.is_valid,
    check_collisions, intersects, tighten_smaller, exampleConfig, Vector.zero, Vector.add,
    Rectf.get_left, Rectf.get_right, Rectf.get_top, Rectf.get_bottom, MovingObject.get_movement,
    Constraints.max_left, Constraints.min_right, Constraints.max_top, Constraints.min_bottom,
    Constraints.raise, Constraints.lower, show ¬ (CONTINUE = ABORT_MOVE) from by decide]

theorem press_frame_high :
    collision_static_constrains exampleConfig (pressSector 10) pressedBody
      = some (pressedBodyResolved,
          pressEvents ++ pressTouches
            ++ [Event.collision_solid 1 { top := true, bottom := true, crush := true }]) := by
  norm_num [collision_static_constrains, vertical_loop, horizontal_loop, apply_vertical,
    apply_horizontal, final_crush, Constraints.has_constraints, Rectf.move,
    Rectf.get_width, Rectf.get_height, MovingObject.get_bbox, pressTouches, pressEvents,
    pressedBodyResolved,
    collision_static, collision_tilemap, pressSector, pressedBody, exampleBody,
    collision_static_object, MovingObject.get_group, MovingObject.is_valid,
    check_collisions, intersects, tighten_smaller, exampleConfig, Vector.zero, Vector.add,
    Rectf.get_left, Rectf.get_right, Rectf.get_top, Rectf.get_bottom, MovingObject.get_movement,
    Constraints.max_left, Constraints.min_right, Constraints.max_top, Constraints.min_bottom,
    Constraints.raise, Constraints.lower, show ¬ (CONTINUE = ABORT_MOVE) from by decide]

/-- The final crush check invokes the callback exactly when both vertical bounds
are finite and the span is narrower than the height by more than `SHIFT_DELTA`. -/
theorem final_crush_iff (cfg : Config) (cf : Constraints) (oheight : ℚ) (uid : Nat) :
    (∀ t b, cf.top = some t → cf.bottom = some b → (b - t) + cfg.SHIFT_DELTA < oheight →
      final_crush cfg cf oheight uid
        = [Event.collision_solid uid { top := true, bottom := true, crush := true }])
    ∧ (final_crush cfg cf oheight uid ≠ [] →
        ∃ t b, cf.top = some t ∧ cf.bottom = some b ∧ (b - t) + cfg.SHIFT_DELTA < oheight) := by
  constructor
  · intro t b ht hb h
    unfold final_crush
    rw [hb, ht]
    simp only
    rw [if_pos h]
  · intro h
    unfold final_crush at h
    cases hb : cf.bottom with
    | none => rw [hb] at h; exact absurd rfl h
    | some b =>
      cases ht : cf.top with
      | none => rw [hb, ht] at h; exact absurd rfl h
      | some t =>
        rw [hb, ht] at h
        simp only at h
        by_cases hc : (b - t) + cfg.SHIFT_DELTA < oheight
        · exact ⟨t, b, rfl, rfl, hc⟩
        · rw [if_neg hc] at h; exact absurd rfl h

/-- The callbacks of `collision_static_constrains` end with those of a fresh
`collision_static` pass against the destination written back, followed by the
final crush check on the constraints of that pass. -/
theorem collision_static_constrains_final (cfg : Config) (sector : Sector)
    (object o' : MovingObject) (ev : List Event)
    (h : collision_static_constrains cfg sector object = some (o', ev)) :
    ∃ pre cf ev5,
      collision_static cfg sector {} object.get_movement o'.dest object = some (cf, ev5)
      ∧ ev = pre ++ ev5 ++ final_crush cfg cf object.get_bbox.get_height object.uid := by
  unfold collision_static_constrains at h
  simp only at h
  split at h
  · exact absurd h (by simp)
  · split at h
    · exact absurd h (by simp)
    · split at h
      · exact absurd h (by simp)
      · rename_i cf ev5 hcf
        simp only [Option.some.injEq, Prod.mk.injEq] at h
        obtain ⟨ho, hev⟩ := h
        subst ho
        exact ⟨_, cf, ev5, hcf, hev.symm⟩

/-- C20 (as amended): the callbacks of the static phase end with a pass that
re-derives the constraints from scratch against the destination written back,
followed by the final crush check; that check invokes `collision_solid` with
`top`, `bottom` and `crush` set whenever both vertical bounds of the pass are
finite and the span `bottom - top` is narrower than the body's height by more
than `SHIFT_DELTA`, and it invokes nothing in every other case. -/
theorem final_crush_check (cfg : Config) (sector : Sector) (object o' : MovingObject)
    (ev : List Event)
    (h : collision_static_constrains cfg sector object = some (o', ev)) :
    ∃ pre cf ev5,
      collision_static cfg sector {} object.get_movement o'.dest object = some (cf, ev5)
      ∧ ev = pre ++ ev5 ++ final_crush cfg cf object.get_bbox.get_height object.uid
      ∧ (∀ t b, cf.top = some t → cf.bottom = some b →
          (b - t) + cfg.SHIFT_DELTA < object.get_bbox.get_height →
          final_crush cfg cf object.get_bbox.get_height object.uid
            = [Event.collision_solid object.uid { top := true, bottom := true, crush := true }])
      ∧ (final_crush cfg cf object.get_bbox.get_height object.uid ≠ [] →
          ∃ t b, cf.top = some t ∧ cf.bottom = some b
            ∧ (b - t) + cfg.SHIFT_DELTA < object.get_bbox.get_height) := by
  obtain ⟨pre, cf, ev5, h1, h2⟩ := collision_static_constrains_final cfg sector object o' ev h
  exact ⟨pre, cf, ev5, h1, h2,
    final_crush_iff cfg cf object.get_bbox.get_height object.uid⟩

/-- C20 at `pressSector 10`: the ceiling leaves a span of 6 for a body 16 high,
and the static phase of the frame returns with the crush callback last. -/
theorem final_crush_check_witness :
    ∃ pre cf ev5,
      collision_static exampleConfig (pressSector 10) {} pressedBody.get_movement
        pressedBodyResolved.dest pressedBody = some (cf, ev5)
      ∧ pressEvents ++ pressTouches
          ++ [Event.collision_solid 1 { top := true, bottom := true, crush := true }]
        = pre ++ ev5
          ++ final_crush exampleConfig cf pressedBody.get_bbox.get_height pressedBody.uid
      ∧ (∀ t b, cf.top = some t → cf.bottom = some b →
          (b - t) + exampleConfig.SHIFT_DELTA < pressedBody.get_bbox.get_height →
          final_crush exampleConfig cf pressedBody.get_bbox.get_height pressedBody.uid
            = [Event.collision_solid pressedBody.uid
                { top := true, bottom := true, crush := true }])
      ∧ (final_crush exampleConfig cf pressedBody.get_bbox.get_height pressedBody.uid ≠ [] →
          ∃ t b, cf.top = some t ∧ cf.bottom = some b
            ∧ (b - t) + exampleConfig.SHIFT_DELTA < pressedBody.get_bbox.get_height) :=
  final_crush_check exampleConfig (pressSector 10) pressedBody pressedBodyResolved _
    press_frame_high

/-- C20 fails as stated: in `pressSector (5/2)` the final pass finds the bounds
`top = 5/2` and `bottom = 16`, a span of 27/2 for a body 16 high, and the final
crush check invokes nothing: no callback of the static phase carries `crush`. -/
theorem final_crush_check_counterexample :
    collision_static_constrains exampleConfig (pressSector (5 / 2)) pressedBody
      = some (pressedBodyResolved, pressEvents ++ pressTouches)
    ∧ collision_static exampleConfig (pressSector (5 / 2)) {} pressedBody.get_movement
        pressedBodyResolved.dest pressedBody
      = some ({ top := some (5 / 2), bottom := some 16, ground_movement := ⟨0, 1⟩,
                hit := { top := true, bottom := true } }, pressTouches)
    ∧ (16 : ℚ) - 5 / 2 < pressedBody.get_bbox.get_height
    ∧ final_crush exampleConfig
        { top := some (5 / 2), bottom := some 16, ground_movement := ⟨0, 1⟩,
          hit := { top := true, bottom := true } }
        pressedBody.get_bbox.get_height pressedBody.uid = []
    ∧ ∀ e ∈ pressEvents ++ pressTouches, ∀ uid hit,
        e = Event.collision_solid uid hit → hit.crush = false := by
  refine ⟨press_frame_low, press_final_low, ?_, ?_, ?_⟩
  · norm_num [pressedBody, exampleBody, MovingObject.get_bbox, Rectf.get_height]
  · norm_num [final_crush, pressedBody, exampleBody, MovingObject.get_bbox, Rectf.get_height,
      exampleConfig]
  · intro e he uid hit h
    subst h
    simp [pressEvents, pressTouches] at he
    obtain ⟨-, rfl⟩ := he
    rfl

/-! ## Hit flags of the paired callbacks (C19) -/

/-- Whenever `collision_object` invokes both `collision` callbacks, the second
body receives the flags of the first with the sides exchanged, in `collides` and
in `collision`. -/
theorem collision_object_mirrors (cfg : Config) (object1 object2 : MovingObject)
    (hi : intersects object1.dest object2.dest = true)
    (h1 : object1.collides object2.uid
      (get_hit_normal object1.dest object2.dest {} Vector.zero).1 = true)
    (h2 : object2.collides object1.uid
      (get_hit_normal object1.dest object2.dest {} Vector.zero).1.swapped = true) :
    (collision_object cfg object1 object2).2.2
      = [Event.collides object1.uid object2.uid
           (get_hit_normal object1.dest object2.dest {} Vector.zero).1,
         Event.collides object2.uid object1.uid
           (get_hit_normal object1.dest object2.dest {} Vector.zero).1.swapped,
         Event.collision object1.uid object2.uid
           (get_hit_normal object1.dest object2.dest {} Vector.zero).1,
         Event.collision object2.uid object1.uid
           (get_hit_normal object1.dest object2.dest {} Vector.zero).1.swapped] := by
  unfold collision_object
  simp only [hi, h1, h2, if_true, Bool.not_true, Bool.false_eq_true, if_false,
    swapped_swapped]
  split_ifs <;> rfl

/-- Whenever part 2.5 invokes both `collision` callbacks of a pair, both bodies
receive the same flags, those seen from the moving body. -/
theorem touch_pair_same_flags (moving_object moving_object_2 : MovingObject)
    (hg : moving_object_2.get_group = COLGROUP_TOUCHABLE)
    (hv : moving_object_2.is_valid = true)
    (hi : intersects moving_object.dest moving_object_2.dest = true)
    (h1 : moving_object.collides moving_object_2.uid
      (get_hit_normal moving_object.dest moving_object_2.dest {} Vector.zero).1 = true)
    (h2 : moving_object_2.collides moving_object.uid
      (get_hit_normal moving_object.dest moving_object_2.dest {} Vector.zero).1 = true) :
    (touch_pair moving_object moving_object_2).2.2
      = [Event.collides moving_object.uid moving_object_2.uid
           (get_hit_normal moving_object.dest moving_object_2.dest {} Vector.zero).1,
         Event.collides moving_object_2.uid moving_object.uid
           (get_hit_normal moving_object.dest moving_object_2.dest {} Vector.zero).1,
         Event.collision moving_object.uid moving_object_2.uid
           (get_hit_normal moving_object.dest moving_object_2.dest {} Vector.zero).1,
         Event.collision moving_object_2.uid moving_object.uid
           (get_hit_normal moving_object.dest moving_object_2.dest {} Vector.zero).1] := by
  unfold touch_pair
  simp [hg, hv, hi, h1, h2]

/-- The flags of `get_hit_normal` started from the empty set never equal their
mirror image: exactly one side is set. -/
theorem get_hit_normal_not_symmetric (r1 r2 : Rectf) :
    (get_hit_normal r1 r2 {} Vector.zero).1.swapped
      ≠ (get_hit_normal r1 r2 {} Vector.zero).1 := by
  unfold get_hit_normal
  simp only
  split_ifs <;> simp [CollisionHit.swapped]

/-- C19 fails in part 2.5: for a moving body whose right edge reaches into a
touchable body, `touch_pair` passes `right` to both bodies in `collides` and in
`collision`, although the touchable body is hit on its left side, while
`collision_object` on the same two rectangles passes `right` to the first body
and `left` to the second. -/
theorem touch_pair_not_mirrored :
    touch_pair touchingBody touchedBody
      = (touchingBody, touchedBody,
          [Event.collides 1 2 { right := true }, Event.collides 2 1 { right := true },
           Event.collision 1 2 { right := true }, Event.collision 2 1 { right := true }])
    ∧ (collision_object exampleConfig touchingBody touchedBody).2.2
      = [Event.collides 1 2 { right := true }, Event.collides 2 1 { left := true },
         Event.collision 1 2 { right := true }, Event.collision 2 1 { left := true }] := by
  constructor
  · norm_num [touch_pair, touchingBody, touchedBody, exampleBody, MovingObject.get_group,
      MovingObject.is_valid, intersects, get_hit_normal, Rectf.get_left, Rectf.get_right,
      Rectf.get_top, Rectf.get_bottom]
  · norm_num [collision_object, touchingBody, touchedBody, exampleBody,
      intersects, get_hit_normal, Rectf.get_left, Rectf.get_right,
      Rectf.get_top, Rectf.get_bottom, CollisionHit.swapped]

/-! ## Flat unisolid tiles (C14) -/

/-- The loop body of `collision_tilemap` on a solid, unisolid, non-slope tile. -/
theorem cell_flat_unisolid (cfg : Config) (movement : Vector) (dest : Rectf)
    (object : MovingObject) (solids : TileMap) (c : Constraints) (x y : Int) (tile : Tile)
    (ht : solids.get_tile x y = some tile)
    (hs : tile.getAttributes &&& Tile.SOLID ≠ 0)
    (hu : tile.getAttributes &&& Tile.UNISOLID ≠ 0)
    (hn : tile.getAttributes &&& Tile.SLOPE = 0) :
    check_movement_unisolid movement tile
      = some (if movement.y ≥ 0 then MV_SOLID else MV_NON_SOLID)
    ∧ check_position_unisolid cfg object.get_bbox (solids.get_tile_bbox x y) tile
      = some (if object.get_bbox.get_bottom ≤ (solids.get_tile_bbox x y).get_top
          then POS_SOLID else POS_NON_SOLID)
    ∧ collision_tilemap_cell cfg movement dest object solids c x y
      = some (if movement.y ≥ 0
            ∧ object.get_bbox.get_bottom ≤ (solids.get_tile_bbox x y).get_top then
          (check_collisions cfg c movement dest (solids.get_tile_bbox x y) none
            solids.get_movement).1
        else c) := by
  have h1 : check_movement_unisolid movement tile
      = some (if movement.y ≥ 0 then MV_SOLID else MV_NON_SOLID) := by
    unfold check_movement_unisolid
    rw [if_pos hn]
    split_ifs <;> rfl
  have h2 : check_position_unisolid cfg object.get_bbox (solids.get_tile_bbox x y) tile
      = some (if object.get_bbox.get_bottom ≤ (solids.get_tile_bbox x y).get_top
          then POS_SOLID else POS_NON_SOLID) := by
    unfold check_position_unisolid
    rw [if_pos hn]
    split_ifs <;> rfl
  refine ⟨h1, h2, ?_⟩
  unfold collision_tilemap_cell
  rw [ht]
  simp only
  rw [if_neg hs, if_pos hu, h1]
  simp only
  by_cases hm : movement.y ≥ 0
  · rw [if_pos hm, if_neg (by decide : ¬ MV_SOLID = 0), h2]
    simp only
    by_cases hp : object.get_bbox.get_bottom ≤ (solids.get_tile_bbox x y).get_top
    · rw [if_pos hp, if_neg (by decide : ¬ POS_SOLID = 0), if_pos ⟨hm, hp⟩]
      unfold collision_tilemap_resolve
      rw [if_neg (not_not.2 hn)]
    · rw [if_neg hp, if_pos (by decide : POS_NON_SOLID = 0), if_neg (fun h => hp h.2)]
  · rw [if_neg hm, if_pos (by decide : MV_NON_SOLID = 0), if_neg (fun h => hm h.1)]

/-- C14: in the tile pass a solid, unisolid, non-slope tile is tested by
`check_movement_unisolid`, which reports solid exactly when `movement.y >= 0`,
and then by `check_position_unisolid`, which reports solid exactly when the
bottom of the body's current box is at or above the top of the tile; the tile
reaches `check_collisions` when both report solid and is skipped, the
constraints unchanged, when either reports 0. -/
theorem unisolid_flat_tile (cfg : Config) (movement : Vector) (dest : Rectf)
    (object : MovingObject) (solids : TileMap) (c : Constraints) (x y : Int) (tile : Tile)
    (ht : solids.get_tile x y = some tile)
    (hs : tile.getAttributes &&& Tile.SOLID ≠ 0)
    (hu : tile.getAttributes &&& Tile.UNISOLID ≠ 0)
    (hn : tile.getAttributes &&& Tile.SLOPE = 0) :
    check_movement_unisolid movement tile
      = some (if movement.y ≥ 0 then MV_SOLID else MV_NON_SOLID)
    ∧ check_position_unisolid cfg object.get_bbox (solids.get_tile_bbox x y) tile
      = some (if object.get_bbox.get_bottom ≤ (solids.get_tile_bbox x y).get_top
          then POS_SOLID else POS_NON_SOLID)
    ∧ collision_tilemap_cell cfg movement dest object solids c x y
      = some (if movement.y ≥ 0
            ∧ object.get_bbox.get_bottom ≤ (solids.get_tile_bbox x y).get_top then
          (check_collisions cfg c movement dest (solids.get_tile_bbox x y) none
            solids.get_movement).1
        else c) :=
  cell_flat_unisolid cfg movement dest object solids c x y tile ht hs hu hn

/-- C14 at the falling body of the examples over a flat one-way tile. -/
theorem unisolid_flat_tile_witness :
    check_movement_unisolid fallingBodyDest.movement flatUnisolidTile
      = some (if fallingBodyDest.movement.y ≥ 0 then MV_SOLID else MV_NON_SOLID)
    ∧ check_position_unisolid exampleConfig fallingBodyDest.get_bbox
        ((singleTileMap flatUnisolidTile).get_tile_bbox 0 0) flatUnisolidTile
      = some (if fallingBodyDest.get_bbox.get_bottom
            ≤ ((singleTileMap flatUnisolidTile).get_tile_bbox 0 0).get_top
          then POS_SOLID else POS_NON_SOLID)
    ∧ collision_tilemap_cell exampleConfig fallingBodyDest.movement fallingBodyDest.dest
        fallingBodyDest (singleTileMap flatUnisolidTile) {} 0 0
      = some (if fallingBodyDest.movement.y ≥ 0
            ∧ fallingBodyDest.get_bbox.get_bottom
              ≤ ((singleTileMap flatUnisolidTile).get_tile_bbox 0 0).get_top then
          (check_collisions exampleConfig {} fallingBodyDest.movement fallingBodyDest.dest
            ((singleTileMap flatUnisolidTile).get_tile_bbox 0 0) none
            (singleTileMap flatUnisolidTile).get_movement).1
        else {}) :=
  unisolid_flat_tile exampleConfig fallingBodyDest.movement fallingBodyDest.dest
    fallingBodyDest (singleTileMap flatUnisolidTile) {} 0 0 flatUnisolidTile
    (by simp [singleTileMap]) (by decide) (by decide) (by decide)

/-! ## Slope codes -/

/-- The slope code seen by the first switch of `check_position_unisolid` is the
direction bits joined with the deformation bits. -/
theorem slope_code_split (data : Nat) :
    data &&& (AATriangle.DIRECTION_MASK ||| AATriangle.DEFORM_MASK)
      = (data &&& AATriangle.DIRECTION_MASK) ||| (data &&& AATriangle.DEFORM_MASK) :=
  Nat.and_or_distrib_left _ _ _

/-- The direction bits of a slope code are one of the four directions. -/
theorem slope_direction_cases (data : Nat) :
    data &&& AATriangle.DIRECTION_MASK = AATriangle.SOUTHWEST
    ∨ data &&& AATriangle.DIRECTION_MASK = AATriangle.NORTHEAST
    ∨ data &&& AATriangle.DIRECTION_MASK = AATriangle.SOUTHEAST
    ∨ data &&& AATriangle.DIRECTION_MASK = AATriangle.NORTHWEST := by
  have h : data &&& AATriangle.DIRECTION_MASK ≤ 3 := Nat.and_le_right
  generalize data &&& AATriangle.DIRECTION_MASK = d at h
  interval_cases d <;> decide

/-- The direction bits of the masked slope code. -/
theorem slope_code_direction (data : Nat) :
    (data &&& (AATriangle.DIRECTION_MASK ||| AATriangle.DEFORM_MASK))
        &&& AATriangle.DIRECTION_MASK
      = data &&& AATriangle.DIRECTION_MASK := by
  rw [Nat.land_assoc]; rfl

/-- The deformation bits of the masked slope code. -/
theorem slope_code_deform (data : Nat) :
    (data &&& (AATriangle.DIRECTION_MASK ||| AATriangle.DEFORM_MASK))
        &&& AATriangle.DEFORM_MASK
      = data &&& AATriangle.DEFORM_MASK := by
  rw [Nat.land_assoc]; rfl

/-- A slope code is one of the 20 shapes exactly when its deformation bits are
one of the five deformations: none, bottom, top, left, right. -/
theorem slope_code_valid_iff (data : Nat) :
    slope_code_valid data ↔
      (data &&& AATriangle.DEFORM_MASK = 0
        ∨ data &&& AATriangle.DEFORM_MASK = DEFORM_BOTTOM
        ∨ data &&& AATriangle.DEFORM_MASK = DEFORM_TOP
        ∨ data &&& AATriangle.DEFORM_MASK = DEFORM_LEFT
        ∨ data &&& AATriangle.DEFORM_MASK = DEFORM_RIGHT) := by
  unfold slope_code_valid
  rw [← slope_code_deform data]
  constructor
  · intro h
    generalize data &&& (AATriangle.DIRECTION_MASK ||| AATriangle.DEFORM_MASK) = c at h
    rcases h with (h | h | h | h | h | h) | (h | h | h | h | h | h) | (h | h | h | h)
      | (h | h | h | h) <;> subst h <;> decide
  · intro h
    rw [slope_code_deform] at h
    rw [slope_code_split]
    generalize data &&& AATriangle.DEFORM_MASK = f at h
    have hd := slope_direction_cases data
    generalize data &&& AATriangle.DIRECTION_MASK = d at hd
    rcases hd with hd | hd | hd | hd <;> subst hd <;>
      rcases h with h | h | h | h | h <;> subst h <;> decide

/-! ## Malformed slope codes (C16) -/

/-- The first switch of `check_position_unisolid` reaches its default branch for
every slope code outside the 20 shapes. -/
theorem slope_line_none (tile_bbox : Rectf) (data : Nat) (h : ¬ slope_code_valid data) :
    slope_line tile_bbox data = none := by
  unfold slope_code_valid at h
  unfold slope_line
  simp only
  split_ifs with h1 h2 h3 h4
  · exact absurd (Or.inl h1) h
  · exact absurd (Or.inr (Or.inl h2)) h
  · exact absurd (Or.inr (Or.inr (Or.inl h3))) h
  · exact absurd (Or.inr (Or.inr (Or.inr h4))) h
  · rfl

/-- On a slope tile with a code outside the 20 shapes `check_position_unisolid`
fails its assertion, for every body position. -/
theorem check_position_unisolid_none (cfg : Config) (obj_bbox tile_bbox : Rectf) (tile : Tile)
    (hsl : tile.getAttributes &&& Tile.SLOPE ≠ 0) (h : ¬ slope_code_valid tile.getData) :
    check_position_unisolid cfg obj_bbox tile_bbox tile = none := by
  unfold check_position_unisolid
  rw [if_neg hsl]
  simp only [slope_line_none tile_bbox tile.getData h]

/-- The loop body of `collision_tilemap` on a solid unisolid slope tile with a
code outside the 20 shapes: skipped when the movement test reports 0, a failed
assertion otherwise. -/
theorem cell_malformed (cfg : Config) (movement : Vector) (dest : Rectf)
    (object : MovingObject) (solids : TileMap) (c : Constraints) (x y : Int) (tile : Tile)
    (ht : solids.get_tile x y = some tile)
    (hs : tile.getAttributes &&& Tile.SOLID ≠ 0)
    (hu : tile.getAttributes &&& Tile.UNISOLID ≠ 0)
    (hsl : tile.getAttributes &&& Tile.SLOPE ≠ 0)
    (h : ¬ slope_code_valid tile.getData) :
    collision_tilemap_cell cfg movement dest object solids c x y
      = if check_movement_unisolid movement tile = some 0 then some c else none := by
  obtain ⟨v, hv⟩ := check_movement_unisolid_some movement tile
  unfold collision_tilemap_cell
  rw [ht]
  simp only
  rw [if_neg hs, if_pos hu, hv]
  simp only
  by_cases h0 : v = 0
  · rw [if_pos h0, if_pos (by rw [h0])]
  · rw [if_neg h0, if_neg (by intro h1; exact h0 (Option.some.inj h1)),
      check_position_unisolid_none cfg _ _ tile hsl h]

/-- On a slope code outside the 20 shapes `check_movement_unisolid` answers as
for the same direction without deformation: the tangent stays 1. -/
theorem check_movement_unisolid_malformed (movement : Vector) (tile : Tile)
    (h : ¬ slope_code_valid tile.getData) :
    check_movement_unisolid movement tile
      = check_movement_unisolid movement
          ⟨tile.attributes, tile.data &&& AATriangle.DIRECTION_MASK⟩ := by
  rw [slope_code_valid_iff] at h
  have hd2 : (tile.data &&& AATriangle.DIRECTION_MASK) &&& AATriangle.DIRECTION_MASK
      = tile.data &&& AATriangle.DIRECTION_MASK := by
    rw [Nat.land_assoc]; rfl
  have hf2 : (tile.data &&& AATriangle.DIRECTION_MASK) &&& AATriangle.DEFORM_MASK = 0 := by
    rw [Nat.land_assoc]
    exact Nat.and_zero _
  have ha : ¬ (tile.getData &&& AATriangle.DEFORM_MASK = DEFORM_BOTTOM
      ∨ tile.getData &&& AATriangle.DEFORM_MASK = DEFORM_TOP) :=
    fun hc => h (hc.elim (fun e => Or.inr (Or.inl e)) (fun e => Or.inr (Or.inr (Or.inl e))))
  have hb : ¬ (tile.getData &&& AATriangle.DEFORM_MASK = DEFORM_LEFT
      ∨ tile.getData &&& AATriangle.DEFORM_MASK = DEFORM_RIGHT) :=
    fun hc => h (hc.elim (fun e => Or.inr (Or.inr (Or.inr (Or.inl e))))
      (fun e => Or.inr (Or.inr (Or.inr (Or.inr e)))))
  have hc : ¬ ((0 : Nat) = DEFORM_BOTTOM ∨ (0 : Nat) = DEFORM_TOP) := by decide
  have hd : ¬ ((0 : Nat) = DEFORM_LEFT ∨ (0 : Nat) = DEFORM_RIGHT) := by decide
  unfold check_movement_unisolid
  simp only [Tile.getData, Tile.getAttributes] at ha hb ⊢
  simp only [hd2, hf2, if_neg ha, if_neg hb, if_neg hc, if_neg hd]

/-- C16 (as amended): when the tile pass examines a solid unisolid slope tile
whose deformation bits are none of the five variants, `check_movement_unisolid`
does not assert and answers as for the same direction without deformation; if
it reports the tile non-solid for the movement the tile is skipped, the
constraints unchanged, without any assertion; if it reports the tile solid, the
assertion of `check_position_unisolid` fails, which it does for every body
position. -/
theorem malformed_slope_code (cfg : Config) (movement : Vector) (dest : Rectf)
    (object : MovingObject) (solids : TileMap) (c : Constraints) (x y : Int) (tile : Tile)
    (ht : solids.get_tile x y = some tile)
    (hs : tile.getAttributes &&& Tile.SOLID ≠ 0)
    (hu : tile.getAttributes &&& Tile.UNISOLID ≠ 0)
    (hsl : tile.getAttributes &&& Tile.SLOPE ≠ 0)
    (hbad : tile.getData &&& AATriangle.DEFORM_MASK ≠ 0
      ∧ tile.getData &&& AATriangle.DEFORM_MASK ≠ DEFORM_BOTTOM
      ∧ tile.getData &&& AATriangle.DEFORM_MASK ≠ DEFORM_TOP
      ∧ tile.getData &&& AATriangle.DEFORM_MASK ≠ DEFORM_LEFT
      ∧ tile.getData &&& AATriangle.DEFORM_MASK ≠ DEFORM_RIGHT) :
    (∃ v, check_movement_unisolid movement tile = some v)
    ∧ check_movement_unisolid movement tile
      = check_movement_unisolid movement
          ⟨tile.attributes, tile.data &&& AATriangle.DIRECTION_MASK⟩
    ∧ (∀ obj_bbox tile_bbox, check_position_unisolid cfg obj_bbox tile_bbox tile = none)
    ∧ collision_tilemap_cell cfg movement dest object solids c x y
      = (if check_movement_unisolid movement tile = some MV_NON_SOLID then some c
         else none) := by
  have h : ¬ slope_code_valid tile.getData := by
    rw [slope_code_valid_iff]
    obtain ⟨h0, h1, h2, h3, h4⟩ := hbad
    rintro (e | e | e | e | e)
    · exact h0 e
    · exact h1 e
    · exact h2 e
    · exact h3 e
    · exact h4 e
  exact ⟨check_movement_unisolid_some movement tile,
    check_movement_unisolid_malformed movement tile h,
    fun obj_bbox tile_bbox => check_position_unisolid_none cfg obj_bbox tile_bbox tile hsl h,
    cell_malformed cfg movement dest object solids c x y tile ht hs hu hsl h⟩

/-- C16 at the malformed tile of the examples under a body that moves down and
to the right. -/
theorem malformed_slope_code_witness :
    (∃ v, check_movement_unisolid ⟨1, 1⟩ malformedSlopeTile = some v)
    ∧ check_movement_unisolid ⟨1, 1⟩ malformedSlopeTile
      = check_movement_unisolid ⟨1, 1⟩
          ⟨malformedSlopeTile.attributes,
            malformedSlopeTile.data &&& AATriangle.DIRECTION_MASK⟩
    ∧ (∀ obj_bbox tile_bbox,
        check_position_unisolid exampleConfig obj_bbox tile_bbox malformedSlopeTile = none)
    ∧ collision_tilemap_cell exampleConfig ⟨1, 1⟩ (coveringBody ⟨1, 1⟩).dest
        (coveringBody ⟨1, 1⟩) (singleTileMap malformedSlopeTile) {} 0 0
      = (if check_movement_unisolid ⟨1, 1⟩ malformedSlopeTile = some MV_NON_SOLID
         then some {} else none) :=
  malformed_slope_code exampleConfig ⟨1, 1⟩ (coveringBody ⟨1, 1⟩).dest
    (coveringBody ⟨1, 1⟩) (singleTileMap malformedSlopeTile) {} 0 0 malformedSlopeTile
    (by simp [singleTileMap]) (by decide) (by decide) (by decide) (by decide)

/-- The movement test on the malformed tile: non-solid for a movement up and to
the left, solid for a movement down and to the right. -/
theorem malformed_movement_values :
    check_movement_unisolid ⟨-1, -1⟩ malformedSlopeTile = some MV_NON_SOLID
    ∧ check_movement_unisolid ⟨1, 1⟩ malformedSlopeTile = some MV_SOLID := by
  have hsl : ¬ (malformedSlopeTile.getAttributes &&& Tile.SLOPE = 0) := by decide
  have hd : malformedSlopeTile.getData &&& AATriangle.DIRECTION_MASK = AATriangle.SOUTHEAST := by
    decide
  constructor
  · unfold check_movement_unisolid
    rw [if_neg hsl]
    simp only [hd, if_true]
    norm_num
  · unfold check_movement_unisolid
    rw [if_neg hsl]
    simp only [hd, if_true]
    norm_num

/-- The tile pass over the one cell of `singleTileMap` for the body that covers
it is the loop body at that cell. -/
theorem collision_tilemap_covering (cfg : Config) (tile : Tile) (movement mov : Vector)
    (c : Constraints) :
    collision_tilemap cfg [singleTileMap tile] c movement (coveringBody mov).dest
        (coveringBody mov)
      = collision_tilemap_cell cfg movement (coveringBody mov).dest (coveringBody mov)
          (singleTileMap tile) c 0 0 := by
  have hr : intRange 0 1 = [0] := by decide
  simp only [collision_tilemap, singleTileMap, exampleTileMap, coveringBody, exampleBody,
    Rectf.get_left, Rectf.get_right, Rectf.get_top, Rectf.get_bottom, List.foldlM_cons,
    List.foldlM_nil]
  norm_num [hr]

/-- C16 fails as stated: the body of the examples covers the malformed tile, so
the tile pass examines it, and moves up and to the left; the pass returns with
the constraints unchanged and no assertion fails.  With the movement down and to
the right the assertion fails. -/
theorem malformed_slope_code_counterexample :
    malformedSlopeTile.getAttributes &&& Tile.SOLID ≠ 0
    ∧ malformedSlopeTile.getAttributes &&& Tile.UNISOLID ≠ 0
    ∧ malformedSlopeTile.getAttributes &&& Tile.SLOPE ≠ 0
    ∧ ¬ slope_code_valid malformedSlopeTile.getData
    ∧ tile_in_range (singleTileMap malformedSlopeTile) (coveringBody ⟨-1, -1⟩).dest 0 0
    ∧ collision_tilemap exampleConfig [singleTileMap malformedSlopeTile] {} ⟨-1, -1⟩
        (coveringBody ⟨-1, -1⟩).dest (coveringBody ⟨-1, -1⟩) = some {}
    ∧ collision_tilemap exampleConfig [singleTileMap malformedSlopeTile] {} ⟨1, 1⟩
        (coveringBody ⟨1, 1⟩).dest (coveringBody ⟨1, 1⟩) = none := by
  have hbad : ¬ slope_code_valid malformedSlopeTile.getData := by
    rw [slope_code_valid_iff]; decide
  refine ⟨by decide, by decide, by decide, hbad, ?_, ?_, ?_⟩
  · norm_num [tile_in_range, singleTileMap, exampleTileMap, coveringBody, exampleBody,
      Rectf.get_left, Rectf.get_right, Rectf.get_top, Rectf.get_bottom]
  · rw [collision_tilemap_covering,
      cell_malformed exampleConfig _ _ _ _ _ 0 0 malformedSlopeTile (by simp [singleTileMap])
        (by decide) (by decide) (by decide) hbad,
      malformed_movement_values.1]
    rfl
  · rw [collision_tilemap_covering,
      cell_malformed exampleConfig _ _ _ _ _ 0 0 malformedSlopeTile (by simp [singleTileMap])
        (by decide) (by decide) (by decide) hbad,
      malformed_movement_values.2]
    rfl

/-! ## Position test on unisolid slopes (C15) -/

/-- The value of `is_above_line`: non-zero exactly for a point on or above the
line. -/
theorem is_above_line_ne_zero (l_x l_y m p_x p_y : ℚ) :
    is_above_line l_x l_y m p_x p_y ≠ 0 ↔ on_or_above l_x l_y m ⟨p_x, p_y⟩ := by
  unfold is_above_line on_or_above
  simp only
  split_ifs with h1 h2
  · simp [h1.symm.le]
  · simp [h2.le]
  · simp only [ne_eq, not_true_eq_false, false_iff, not_le]
    exact lt_of_le_of_ne (not_lt.1 h2) h1

/-- The value of `is_below_line`: non-zero exactly for a point strictly below the
line. -/
theorem is_below_line_ne_zero (l_x l_y m p_x p_y : ℚ) :
    is_below_line l_x l_y m p_x p_y ≠ 0 ↔ ¬ on_or_above l_x l_y m ⟨p_x, p_y⟩ := by
  rw [← is_above_line_ne_zero]
  unfold is_below_line
  split_ifs with h <;> simp [h]

/-- On a slope tile `check_position_unisolid` tests one point, the probe, against
the surface line: a south-facing slope is solid exactly when the probe is on or
above the line, a north-facing one exactly when the probe is strictly below. -/
theorem check_position_unisolid_slope (cfg : Config) (obj_bbox tile_bbox : Rectf)
    (tile : Tile) (tile_x tile_y gradient0 : ℚ)
    (hsl : tile.getAttributes &&& Tile.SLOPE ≠ 0)
    (hl : slope_line tile_bbox tile.getData = some (tile_x, tile_y, gradient0)) :
    check_position_unisolid cfg obj_bbox tile_bbox tile
      = some (if tile.getData &&& AATriangle.DIRECTION_MASK = AATriangle.SOUTHWEST
            ∨ tile.getData &&& AATriangle.DIRECTION_MASK = AATriangle.SOUTHEAST then
          (if on_or_above tile_x tile_y (slope_gradient tile.getData gradient0)
              (slope_probe cfg obj_bbox tile.getData) then POS_SOLID else POS_NON_SOLID)
        else
          (if on_or_above tile_x tile_y (slope_gradient tile.getData gradient0)
              (slope_probe cfg obj_bbox tile.getData) then POS_NON_SOLID else POS_SOLID)) := by
  unfold check_position_unisolid
  rw [if_neg hsl]
  simp only [hl, is_below_line_ne_zero, is_above_line_ne_zero]
  unfold slope_gradient slope_probe
  simp only
  by_cases h0 : tile.getData &&& AATriangle.DEFORM_MASK = 0
  · simp only [if_pos h0]
    split_ifs <;> rfl
  · simp only [if_neg h0]
    by_cases h1 : tile.getData &&& AATriangle.DEFORM_MASK = DEFORM_BOTTOM
        ∨ tile.getData &&& AATriangle.DEFORM_MASK = DEFORM_TOP
    · simp only [if_pos h1]
      split_ifs <;> rfl
    · simp only [if_neg h1]
      by_cases h2 : tile.getData &&& AATriangle.DEFORM_MASK = DEFORM_LEFT
          ∨ tile.getData &&& AATriangle.DEFORM_MASK = DEFORM_RIGHT
      · simp only [if_pos h2]
        split_ifs <;> rfl
      · simp only [if_neg h2]
        split_ifs <;> rfl

/-- The position test on a `SOUTHEAST` slope without deformation: the surface
line runs through the upper right corner of the tile with gradient `-1`, the
probe is the lower right corner of the body moved up and left by
`SHIFT_DELTA / sqrt 2` each. -/
theorem check_position_unisolid_southeast (cfg : Config) (obj_bbox tile_bbox : Rectf)
    (tile : Tile) (hsl : tile.getAttributes &&& Tile.SLOPE ≠ 0)
    (hc : tile.getData &&& (AATriangle.DIRECTION_MASK ||| AATriangle.DEFORM_MASK)
      = AATriangle.SOUTHEAST) :
    check_position_unisolid cfg obj_bbox tile_bbox tile
      = some (if obj_bbox.get_right + obj_bbox.get_bottom
            - 2 * (cfg.SHIFT_DELTA * ONE_OVER_SQRT2)
            ≤ tile_bbox.get_right + tile_bbox.get_top
          then POS_SOLID else POS_NON_SOLID) := by
  have hd : tile.getData &&& AATriangle.DIRECTION_MASK = AATriangle.SOUTHEAST := by
    rw [← slope_code_direction, hc]; rfl
  have hf : tile.getData &&& AATriangle.DEFORM_MASK = 0 := by
    rw [← slope_code_deform, hc]; rfl
  have hl : slope_line tile_bbox tile.getData
      = some (tile_bbox.get_right, tile_bbox.get_top, -1) := by
    unfold slope_line
    simp only [hc]
    rw [if_neg (by decide), if_pos (by decide)]
  rw [check_position_unisolid_slope cfg obj_bbox tile_bbox tile _ _ _ hsl hl,
    if_pos (Or.inr hd)]
  have hp : slope_probe cfg obj_bbox tile.getData
      = ⟨obj_bbox.get_right + 1 * cfg.SHIFT_DELTA * (-1) * ONE_OVER_SQRT2,
         obj_bbox.get_bottom + 1 * cfg.SHIFT_DELTA * (-1) * ONE_OVER_SQRT2⟩ := by
    unfold slope_probe slope_corner
    simp only [hf, hd, if_true]
    rfl
  have hg : slope_gradient tile.getData (-1) = -1 := by
    unfold slope_gradient
    simp only [hf, if_true]
  rw [hp, hg]
  unfold on_or_above
  simp only
  congr 1
  apply if_congr _ rfl rfl
  constructor <;> intro h <;> linarith

/-- C15 (as amended): on a slope tile with one of the 20 codes
`check_position_unisolid` tests one probe point against the surface line, the
corner of the body chosen by the direction and displaced by the gradient-aware
`SHIFT_DELTA`: a south-facing slope is reported solid exactly when the probe is
on or above the line, a north-facing one exactly when the probe is strictly
below it.  For a `SOUTHEAST` slope without deformation the slope is solid
exactly when `right + bottom - 2 * SHIFT_DELTA / sqrt 2` of the body is at most
`right + top` of the tile; so with `SHIFT_DELTA >= 0` every body entirely on or
above the line is reported solid, and a body entirely below the line is reported
non-solid provided its width plus height is at least `2 * SHIFT_DELTA / sqrt 2`. -/
theorem slope_position_check (cfg : Config) (obj_bbox tile_bbox : Rectf) (tile : Tile)
    (hsl : tile.getAttributes &&& Tile.SLOPE ≠ 0) :
    (slope_code_valid tile.getData →
      ∃ tile_x tile_y gradient0,
        slope_line tile_bbox tile.getData = some (tile_x, tile_y, gradient0)
        ∧ check_position_unisolid cfg obj_bbox tile_bbox tile
          = some (if tile.getData &&& AATriangle.DIRECTION_MASK = AATriangle.SOUTHWEST
                ∨ tile.getData &&& AATriangle.DIRECTION_MASK = AATriangle.SOUTHEAST then
              (if on_or_above tile_x tile_y (slope_gradient tile.getData gradient0)
                  (slope_probe cfg obj_bbox tile.getData) then POS_SOLID else POS_NON_SOLID)
            else
              (if on_or_above tile_x tile_y (slope_gradient tile.getData gradient0)
                  (slope_probe cfg obj_bbox tile.getData) then POS_NON_SOLID
               else POS_SOLID)))
    ∧ (tile.getData &&& (AATriangle.DIRECTION_MASK ||| AATriangle.DEFORM_MASK)
          = AATriangle.SOUTHEAST →
        slope_line tile_bbox tile.getData
          = some (tile_bbox.get_right, tile_bbox.get_top, -1)
        ∧ check_position_unisolid cfg obj_bbox tile_bbox tile
          = some (if obj_bbox.get_right + obj_bbox.get_bottom
                - 2 * (cfg.SHIFT_DELTA * ONE_OVER_SQRT2)
                ≤ tile_bbox.get_right + tile_bbox.get_top
              then POS_SOLID else POS_NON_SOLID)
        ∧ (0 ≤ cfg.SHIFT_DELTA →
            bbox_above tile_bbox.get_right tile_bbox.get_top (-1) obj_bbox →
            check_position_unisolid cfg obj_bbox tile_bbox tile = some POS_SOLID)
        ∧ (bbox_below tile_bbox.get_right tile_bbox.get_top (-1) obj_bbox →
            2 * (cfg.SHIFT_DELTA * ONE_OVER_SQRT2)
              ≤ obj_bbox.get_width + obj_bbox.get_height →
            check_position_unisolid cfg obj_bbox tile_bbox tile = some POS_NON_SOLID)) := by
  constructor
  · intro hv
    obtain ⟨⟨tile_x, tile_y, gradient0⟩, hl⟩ := slope_line_isSome tile_bbox tile.getData hv
    exact ⟨tile_x, tile_y, gradient0, hl,
      check_position_unisolid_slope cfg obj_bbox tile_bbox tile _ _ _ hsl hl⟩
  · intro hc
    have he := check_position_unisolid_southeast cfg obj_bbox tile_bbox tile hsl hc
    have hpos : (0 : ℚ) < ONE_OVER_SQRT2 := by norm_num [ONE_OVER_SQRT2]
    refine ⟨?_, he, ?_, ?_⟩
    · unfold slope_line
      simp only [hc]
      rw [if_neg (by decide), if_pos (by decide)]
    · intro h0 ha
      rw [he, if_pos]
      have h4 := ha.2.2.2
      unfold on_or_above at h4
      simp only [Rectf.get_right, Rectf.get_bottom, Rectf.get_top] at h4 ⊢
      nlinarith [mul_nonneg h0 hpos.le]
    · intro hb hw
      rw [he, if_neg]
      have h1 := hb.1
      unfold on_or_above at h1
      simp only [Rectf.get_right, Rectf.get_bottom, Rectf.get_top, Rectf.get_width,
        Rectf.get_height] at h1 hw ⊢
      linarith

/-- C15 at the `SOUTHEAST` tile of the examples and a body 16x16 above it. -/
theorem slope_position_check_witness :
    (slope_code_valid southeastSlopeTile.getData →
      ∃ tile_x tile_y gradient0,
        slope_line originTileBox southeastSlopeTile.getData
          = some (tile_x, tile_y, gradient0)
        ∧ check_position_unisolid exampleConfig ⟨⟨0, -16⟩, ⟨16, 0⟩⟩ originTileBox
            southeastSlopeTile
          = some (if southeastSlopeTile.getData &&& AATriangle.DIRECTION_MASK
                  = AATriangle.SOUTHWEST
                ∨ southeastSlopeTile.getData &&& AATriangle.DIRECTION_MASK
                  = AATriangle.SOUTHEAST then
              (if on_or_above tile_x tile_y
                  (slope_gradient southeastSlopeTile.getData gradient0)
                  (slope_probe exampleConfig ⟨⟨0, -16⟩, ⟨16, 0⟩⟩ southeastSlopeTile.getData)
               then POS_SOLID else POS_NON_SOLID)
            else
              (if on_or_above tile_x tile_y
                  (slope_gradient southeastSlopeTile.getData gradient0)
                  (slope_probe exampleConfig ⟨⟨0, -16⟩, ⟨16, 0⟩⟩ southeastSlopeTile.getData)
               then POS_NON_SOLID else POS_SOLID)))
    ∧ (southeastSlopeTile.getData &&& (AATriangle.DIRECTION_MASK ||| AATriangle.DEFORM_MASK)
          = AATriangle.SOUTHEAST →
        slope_line originTileBox southeastSlopeTile.getData
          = some (originTileBox.get_right, originTileBox.get_top, -1)
        ∧ check_position_unisolid exampleConfig ⟨⟨0, -16⟩, ⟨16, 0⟩⟩ originTileBox
            southeastSlopeTile
          = some (if (⟨⟨0, -16⟩, ⟨16, 0⟩⟩ : Rectf).get_right
                + (⟨⟨0, -16⟩, ⟨16, 0⟩⟩ : Rectf).get_bottom
                - 2 * (exampleConfig.SHIFT_DELTA * ONE_OVER_SQRT2)
                ≤ originTileBox.get_right + originTileBox.get_top
              then POS_SOLID else POS_NON_SOLID)
        ∧ (0 ≤ exampleConfig.SHIFT_DELTA →
            bbox_above originTileBox.get_right originTileBox.get_top (-1)
              ⟨⟨0, -16⟩, ⟨16, 0⟩⟩ →
            check_position_unisolid exampleConfig ⟨⟨0, -16⟩, ⟨16, 0⟩⟩ originTileBox
              southeastSlopeTile = some POS_SOLID)
        ∧ (bbox_below originTileBox.get_right originTileBox.get_top (-1)
              ⟨⟨0, -16⟩, ⟨16, 0⟩⟩ →
            2 * (exampleConfig.SHIFT_DELTA * ONE_OVER_SQRT2)
              ≤ (⟨⟨0, -16⟩, ⟨16, 0⟩⟩ : Rectf).get_width
                + (⟨⟨0, -16⟩, ⟨16, 0⟩⟩ : Rectf).get_height →
            check_position_unisolid exampleConfig ⟨⟨0, -16⟩, ⟨16, 0⟩⟩ originTileBox
              southeastSlopeTile = some POS_NON_SOLID)) :=
  slope_position_check exampleConfig ⟨⟨0, -16⟩, ⟨16, 0⟩⟩ originTileBox southeastSlopeTile
    (by decide)

/-- C15 fails as stated: a body 1x1 at `(20, 13)` lies entirely below the surface
line `y = 32 - x` of the `SOUTHEAST` tile at the origin, and with
`SHIFT_DELTA = 7` the tile is reported solid for it. -/
theorem slope_position_check_counterexample :
    southeastSlopeTile.getData &&& (AATriangle.DIRECTION_MASK ||| AATriangle.DEFORM_MASK)
      = AATriangle.SOUTHEAST
    ∧ slope_line originTileBox southeastSlopeTile.getData = some (32, 0, -1)
    ∧ bbox_below 32 0 (-1) ⟨⟨20, 13⟩, ⟨21, 14⟩⟩
    ∧ check_position_unisolid exampleConfig ⟨⟨20, 13⟩, ⟨21, 14⟩⟩ originTileBox
        southeastSlopeTile = some POS_SOLID := by
  have hc : southeastSlopeTile.getData
      &&& (AATriangle.DIRECTION_MASK ||| AATriangle.DEFORM_MASK) = AATriangle.SOUTHEAST := by
    decide
  refine ⟨hc, ?_, ?_, ?_⟩
  · unfold slope_line
    simp only [hc]
    rw [if_neg (by decide), if_pos (by decide)]
    rfl
  · norm_num [bbox_below, on_or_above]
  · rw [check_position_unisolid_southeast exampleConfig _ _ _ (by decide) hc, if_pos]
    norm_num [Rectf.get_right, Rectf.get_bottom, Rectf.get_top, originTileBox, exampleConfig,
      ONE_OVER_SQRT2]

/-! ## Tile-attribute pass (C17) -/

/-- A fold that joins a mask for every present tile is the fold of `|||` over the
masks of the present tiles. -/
theorem foldl_or_filterMap {α : Type} (g : α → Option Tile) (h : Tile → Nat) (l : List α)
    (r : Nat) :
    l.foldl (fun result y =>
        match g y with
        | none => result
        | some tile => result ||| h tile) r
      = (l.filterMap (fun y => (g y).map h)).foldl (fun a b => a ||| b) r := by
  induction l generalizing r with
  | nil => rfl
  | cons a l ih =>
    rw [List.foldl_cons, ih]
    cases hg : g a with
    | none => simp [List.filterMap_cons, hg]
    | some t => simp [List.filterMap_cons, hg]

/-- A fold over the concatenated lists is the nested fold. -/
theorem foldl_flatMap_nested {α β γ : Type} (f : α → List β) (op : γ → β → γ) (l : List α)
    (b : γ) :
    (l.flatMap f).foldl op b = l.foldl (fun b a => (f a).foldl op b) b := by
  induction l generalizing b with
  | nil => rfl
  | cons a l ih => simp [List.flatMap_cons, List.foldl_append, ih]

/-- The value of `collision_tile_attributes` is the bitwise OR of the contributed
masks. -/
theorem collision_tile_attributes_eq (cfg : Config) (solid_tilemaps : List TileMap)
    (dest : Rectf) :
    collision_tile_attributes cfg solid_tilemaps dest
      = (tile_contributions cfg solid_tilemaps dest).foldl (fun a b => a ||| b) 0 := by
  unfold collision_tile_attributes tile_contributions
  rw [foldl_flatMap_nested]
  have hd : (⟨⟨dest.p1.x, dest.p1.y⟩, ⟨dest.p2.x, dest.p2.y⟩⟩ : Rectf) = dest := rfl
  have hd1 : (⟨dest.p1.x, dest.p1.y⟩ : Vector) = dest.p1 := rfl
  simp only [hd, hd1]
  congr 1
  funext result solids
  rw [foldl_flatMap_nested]
  congr 1
  funext result x
  unfold column_contributions
  simp only [List.foldl_append, foldl_or_filterMap]

/-- A bitwise OR reaches a power of two exactly when one of its operands does. -/
theorem two_pow_le_or (k a b : Nat) : 2 ^ k ≤ a ||| b ↔ 2 ^ k ≤ a ∨ 2 ^ k ≤ b := by
  constructor
  · intro h
    by_contra hc
    rw [not_or, not_le, not_le] at hc
    exact absurd (Nat.or_lt_two_pow hc.1 hc.2) (not_lt.2 h)
  · intro h
    by_contra hc
    rw [not_le] at hc
    have hb : ∀ i, i ≥ k → (a ||| b).testBit i = false := fun i hi =>
      Nat.testBit_lt_two_pow (lt_of_lt_of_le hc (Nat.pow_le_pow_right (by decide) hi))
    have ha : a < 2 ^ k := Nat.lt_pow_two_of_testBit a (fun i hi => by
      have := hb i hi
      rw [Nat.testBit_or, Bool.or_eq_false_iff] at this
      exact this.1)
    have hb' : b < 2 ^ k := Nat.lt_pow_two_of_testBit b (fun i hi => by
      have := hb i hi
      rw [Nat.testBit_or, Bool.or_eq_false_iff] at this
      exact this.2)
    rcases h with h | h
    · exact absurd ha (not_lt.2 h)
    · exact absurd hb' (not_lt.2 h)

/-- The OR of a list of masks reaches a power of two exactly when the start value
or one of the masks does. -/
theorem two_pow_le_foldl_or (k : Nat) (l : List Nat) (r : Nat) :
    2 ^ k ≤ l.foldl (fun a b => a ||| b) r ↔ 2 ^ k ≤ r ∨ ∃ m ∈ l, 2 ^ k ≤ m := by
  induction l generalizing r with
  | nil => simp
  | cons a l ih =>
    rw [List.foldl_cons, ih, two_pow_le_or]
    simp only [List.mem_cons, exists_eq_or_imp]
    tauto

/-- A mask reaches a power of two exactly when it carries a bit at or above it. -/
theorem two_pow_le_iff_testBit (k m : Nat) :
    2 ^ k ≤ m ↔ ∃ i, 2 ^ k ≤ 2 ^ i ∧ m.testBit i = true := by
  constructor
  · intro h
    by_contra hc
    push_neg at hc
    have : m < 2 ^ k := Nat.lt_pow_two_of_testBit m (fun i hi => by
      have := hc i (Nat.pow_le_pow_right (by decide) hi)
      simpa using this)
    exact absurd this (not_lt.2 h)
  · rintro ⟨i, hi, hb⟩
    exact le_trans hi (Nat.testBit_implies_ge hb)

/-- Part 2 invokes, body by body in index order, at most one `collision_tile`:
for an eligible body whose tile-attribute value reaches
`FIRST_INTERESTING_FLAG`, with that value. -/
theorem part2_flatMap (cfg : Config) (solid_tilemaps : List TileMap)
    (moving_objects : List MovingObject) :
    part2 cfg solid_tilemaps moving_objects
      = moving_objects.flatMap (fun o =>
          if static_eligible o = true
              ∧ Tile.FIRST_INTERESTING_FLAG
                ≤ collision_tile_attributes cfg solid_tilemaps o.dest then
            [Event.collision_tile o.uid (collision_tile_attributes cfg solid_tilemaps o.dest)]
          else []) := by
  unfold part2
  suffices h : ∀ (l : List MovingObject) (acc : List Event),
      l.foldl (fun ev moving_object =>
        if (!static_eligible moving_object) = true then ev
        else
          if collision_tile_attributes cfg solid_tilemaps moving_object.dest
              ≥ Tile.FIRST_INTERESTING_FLAG then
            ev ++ [Event.collision_tile moving_object.uid
              (collision_tile_attributes cfg solid_tilemaps moving_object.dest)]
          else ev) acc
      = acc ++ l.flatMap (fun o =>
          if static_eligible o = true
              ∧ Tile.FIRST_INTERESTING_FLAG
                ≤ collision_tile_attributes cfg solid_tilemaps o.dest then
            [Event.collision_tile o.uid (collision_tile_attributes cfg solid_tilemaps o.dest)]
          else []) by
    simpa using h moving_objects []
  intro l
  induction l with
  | nil => intro acc; simp
  | cons a l ih =>
    intro acc
    rw [List.foldl_cons, ih, List.flatMap_cons]
    by_cases he : static_eligible a = true
    · by_cases hf : Tile.FIRST_INTERESTING_FLAG
          ≤ collision_tile_attributes cfg solid_tilemaps a.dest
      · simp [he, hf]
      · simp [he, hf]
    · simp [he]

/-- C17: part 2 of `handle_collisions` goes through the bodies once and invokes
`collision_tile` at most once for each, never once per tile: exactly for an
eligible valid body whose tile-attribute value is at least
`FIRST_INTERESTING_FLAG`, with that value as the argument.  The value is the
bitwise OR of the contributed masks: the attribute masks of the tiles of all
solid layers that the destination overlaps and the `ICE` bit of the tiles in the
further rows reached by extending it downward by `SHIFT_DELTA`.  It is at least
`FIRST_INTERESTING_FLAG` exactly when a contributed mask carries a bit at or
above that flag. -/
theorem tile_attribute_pass (cfg : Config) (solid_tilemaps : List TileMap)
    (moving_objects : List MovingObject) :
    part2 cfg solid_tilemaps moving_objects
      = moving_objects.flatMap (fun o =>
          if static_eligible o = true
              ∧ Tile.FIRST_INTERESTING_FLAG
                ≤ collision_tile_attributes cfg solid_tilemaps o.dest then
            [Event.collision_tile o.uid (collision_tile_attributes cfg solid_tilemaps o.dest)]
          else [])
    ∧ (∀ dest, collision_tile_attributes cfg solid_tilemaps dest
        = (tile_contributions cfg solid_tilemaps dest).foldl (fun a b => a ||| b) 0)
    ∧ (∀ dest, Tile.FIRST_INTERESTING_FLAG ≤ collision_tile_attributes cfg solid_tilemaps dest
        ↔ ∃ m ∈ tile_contributions cfg solid_tilemaps dest,
            ∃ i, Tile.FIRST_INTERESTING_FLAG ≤ 2 ^ i ∧ m.testBit i = true) := by
  refine ⟨part2_flatMap cfg solid_tilemaps moving_objects,
    collision_tile_attributes_eq cfg solid_tilemaps, ?_⟩
  intro dest
  have hF : Tile.FIRST_INTERESTING_FLAG = 2 ^ 8 := by decide
  rw [collision_tile_attributes_eq, hF, two_pow_le_foldl_or]
  constructor
  · rintro (h | ⟨m, hm, h⟩)
    · exact absurd h (by decide)
    · exact ⟨m, hm, (two_pow_le_iff_testBit 8 m).1 h⟩
  · rintro ⟨m, hm, h⟩
    exact Or.inr ⟨m, hm, (two_pow_le_iff_testBit 8 m).2 h⟩

/-- The pass at the body that covers an ice tile: one callback with the `ICE`
bit. -/
theorem tile_attribute_pass_example :
    part2 exampleConfig [singleTileMap iceTile] [coveringBody Vector.zero]
      = [Event.collision_tile 1 Tile.ICE] := by
  have hr : intRange 0 1 = [0] := by decide
  have hr2 : intRange 1 1 = [] := by decide
  have hc : ⌈((32 : ℚ) + 7) / 32⌉ = 2 := by
    rw [Int.ceil_eq_iff]; norm_num
  have ha : collision_tile_attributes exampleConfig [singleTileMap iceTile]
      (coveringBody Vector.zero).dest = Tile.ICE := by
    simp only [collision_tile_attributes, singleTileMap, exampleTileMap, coveringBody,
      exampleBody, exampleConfig, Rectf.get_left, Rectf.get_right, Rectf.get_top,
      Rectf.get_bottom, List.foldl_cons, List.foldl_nil]
    norm_num [hr, hr2, hc, iceTile, Tile.getAttributes]
  rw [part2_flatMap]
  simp only [List.flatMap_cons, List.flatMap_nil, ha, List.append_nil]
  rw [if_pos ⟨by decide, by decide⟩]
  rfl

/-! ## Free-rectangle queries (C18) -/

/-- The rectangle is free of tiles exactly when no enumerated cell of a solid
layer blocks. -/
theorem is_free_of_tiles_iff (cfg : Config) (sector : Sector) (rect : Rectf)
    (ignoreUnisolid : Bool) :
    is_free_of_tiles cfg sector rect ignoreUnisolid = true ↔
      ∀ solids ∈ sector.solid_tilemaps, ∀ x y, tile_in_range solids rect x y →
        tile_blocks cfg solids rect ignoreUnisolid x y = false := by
  unfold is_free_of_tiles tile_in_range
  simp only [List.all_eq_true, mem_intRange, Bool.not_eq_true']
  constructor
  · intro h solids hs x y hr
    exact h solids hs x ⟨hr.1, hr.2.1⟩ y ⟨hr.2.2.1, hr.2.2.2⟩
  · intro h solids hs x hx y hy
    exact h solids hs x y ⟨hx.1, hx.2, hy.1, hy.2⟩

/-- C18: `is_free_of_movingstatics` returns `true` exactly when
`is_free_of_tiles` holds for the rectangle and no valid body other than the
ignored one whose group is moving, moving-static or static has a box
intersecting it; `is_free_of_statics` returns `true` exactly when
`is_free_of_tiles` holds with the same unisolid flag and no valid static body
other than the ignored one intersects the rectangle.  Both are total and return
a truth value; neither result changes when the ignored body and the invalid
bodies are taken out of the index. -/
theorem free_queries_exact (cfg : Config) (sector : Sector) (rect : Rectf)
    (ignore_object : Option Nat) (ignoreUnisolid : Bool) :
    (is_free_of_movingstatics cfg sector rect ignore_object = true ↔
      is_free_of_tiles cfg sector rect ignoreUnisolid_default = true
      ∧ ∀ o ∈ sector.moving_objects, some o.uid ≠ ignore_object → o.is_valid = true →
          (o.get_group = COLGROUP_MOVING ∨ o.get_group = COLGROUP_MOVING_STATIC
            ∨ o.get_group = COLGROUP_STATIC) →
          intersects rect o.get_bbox = false)
    ∧ (is_free_of_statics cfg sector rect ignore_object ignoreUnisolid = true ↔
      is_free_of_tiles cfg sector rect ignoreUnisolid = true
      ∧ ∀ o ∈ sector.moving_objects, some o.uid ≠ ignore_object → o.is_valid = true →
          o.get_group = COLGROUP_STATIC → intersects rect o.get_bbox = false)
    ∧ is_free_of_movingstatics cfg (drop_ignored sector ignore_object)
        rect ignore_object
      = is_free_of_movingstatics cfg sector rect ignore_object
    ∧ is_free_of_statics cfg (drop_ignored sector ignore_object)
        rect ignore_object ignoreUnisolid
      = is_free_of_statics cfg sector rect ignore_object ignoreUnisolid := by
  have hm : (is_free_of_movingstatics cfg sector rect ignore_object = true ↔
      is_free_of_tiles cfg sector rect ignoreUnisolid_default = true
      ∧ ∀ o ∈ sector.moving_objects, some o.uid ≠ ignore_object → o.is_valid = true →
          (o.get_group = COLGROUP_MOVING ∨ o.get_group = COLGROUP_MOVING_STATIC
            ∨ o.get_group = COLGROUP_STATIC) →
          intersects rect o.get_bbox = false) := by
    unfold is_free_of_movingstatics
    by_cases ht : is_free_of_tiles cfg sector rect ignoreUnisolid_default = true
    · simp only [ht, Bool.not_true, Bool.false_eq_true, if_false, List.all_eq_true, true_and]
      constructor
      · intro h o ho hu hv hg
        have := h o ho
        rw [if_neg hu, if_neg (by simp [hv]), if_pos hg] at this
        simpa using this
      · intro h o ho
        by_cases hu : some o.uid = ignore_object
        · rw [if_pos hu]
        · rw [if_neg hu]
          by_cases hv : o.is_valid = true
          · rw [if_neg (by simp [hv])]
            split_ifs with hg
            · simp [h o ho hu hv hg]
            · rfl
          · rw [if_pos (by simpa using hv)]
    · simp [ht]
  have hs : (is_free_of_statics cfg sector rect ignore_object ignoreUnisolid = true ↔
      is_free_of_tiles cfg sector rect ignoreUnisolid = true
      ∧ ∀ o ∈ sector.moving_objects, some o.uid ≠ ignore_object → o.is_valid = true →
          o.get_group = COLGROUP_STATIC → intersects rect o.get_bbox = false) := by
    unfold is_free_of_statics
    by_cases ht : is_free_of_tiles cfg sector rect ignoreUnisolid = true
    · simp only [ht, Bool.not_true, Bool.false_eq_true, if_false, List.all_eq_true, true_and]
      constructor
      · intro h o ho hu hv hg
        have := h o ho
        rw [if_neg hu, if_neg (by simp [hv]), if_pos hg] at this
        simpa using this
      · intro h o ho
        by_cases hu : some o.uid = ignore_object
        · rw [if_pos hu]
        · rw [if_neg hu]
          by_cases hv : o.is_valid = true
          · rw [if_neg (by simp [hv])]
            split_ifs with hg
            · simp [h o ho hu hv hg]
            · rfl
          · rw [if_pos (by simpa using hv)]
    · simp [ht]
  refine ⟨hm, hs, ?_, ?_⟩
  · have ht : is_free_of_tiles cfg (drop_ignored sector ignore_object)
        rect ignoreUnisolid_default
        = is_free_of_tiles cfg sector rect ignoreUnisolid_default := rfl
    unfold is_free_of_movingstatics
    rw [ht]
    unfold drop_ignored
    split_ifs
    · rfl
    · rw [Bool.eq_iff_iff]
      simp only [List.all_eq_true, List.mem_filter, Bool.and_eq_true, decide_eq_true_eq]
      constructor
      · intro h o ho
        by_cases hu : some o.uid = ignore_object
        · rw [if_pos hu]
        · by_cases hv : o.is_valid = true
          · exact h o ⟨ho, hv, hu⟩
          · rw [if_neg hu, if_pos (by simpa using hv)]
      · intro h o ho
        exact h o ho.1
  · have ht : is_free_of_tiles cfg (drop_ignored sector ignore_object)
        rect ignoreUnisolid
        = is_free_of_tiles cfg sector rect ignoreUnisolid := rfl
    unfold is_free_of_statics
    rw [ht]
    unfold drop_ignored
    split_ifs
    · rfl
    · rw [Bool.eq_iff_iff]
      simp only [List.all_eq_true, List.mem_filter, Bool.and_eq_true, decide_eq_true_eq]
      constructor
      · intro h o ho
        by_cases hu : some o.uid = ignore_object
        · rw [if_pos hu]
        · by_cases hv : o.is_valid = true
          · exact h o ⟨ho, hv, hu⟩
          · rw [if_neg hu, if_pos (by simpa using hv)]
      · intro h o ho
        exact h o ho.1

/-! ## Object registry: the commit (C12) -/

/-- A conditional step that keeps the store and the lists keeps them. -/
theorem same_lists_ite (c : Prop) [Decidable c] (a b s : SectorObjects)
    (ha : a.same_lists b) (hb : b.same_lists s) :
    (if c then a else b).same_lists s := by
  unfold SectorObjects.same_lists at *
  split_ifs
  · exact ⟨ha.1.trans hb.1, ha.2.1.trans hb.2.1, ha.2.2.trans hb.2.2⟩
  · exact hb

/-- The hook `before_object_remove` of the sector leaves the store and the two
object lists as they are. -/
theorem sector_before_object_remove_lists (s : SectorObjects) (object : Nat) :
    (s.before_object_remove object).objects = s.objects
    ∧ (s.before_object_remove object).gameobjects = s.gameobjects
    ∧ (s.before_object_remove object).gameobjects_new = s.gameobjects_new := by
  unfold SectorObjects.before_object_remove
  exact same_lists_ite _ _ _ _ ⟨rfl, rfl, rfl⟩
    (same_lists_ite _ _ _ _ ⟨rfl, rfl, rfl⟩
      (same_lists_ite _ _ _ _ ⟨rfl, rfl, rfl⟩ ⟨rfl, rfl, rfl⟩))

/-- The typed indices of the sector are filled without a change of the store and
the two object lists. -/
theorem sector_index_object_lists (s : SectorObjects) (object : Nat) :
    (s.index_object object).same_lists s := by
  unfold SectorObjects.index_object
  exact same_lists_ite _ _ _ _ ⟨rfl, rfl, rfl⟩
    (same_lists_ite _ _ _ _ ⟨rfl, rfl, rfl⟩
      (same_lists_ite _ _ _ _ ⟨rfl, rfl, rfl⟩
        (same_lists_ite _ _ _ _ ⟨rfl, rfl, rfl⟩ ⟨rfl, rfl, rfl⟩)))

/-- The hook `before_object_add` of the sector leaves the store and the two
object lists as they are. -/
theorem sector_before_object_add_lists (s : SectorObjects) (object : Nat) :
    (s.before_object_add object).1.objects = s.objects
    ∧ (s.before_object_add object).1.gameobjects = s.gameobjects
    ∧ (s.before_object_add object).1.gameobjects_new = s.gameobjects_new := by
  have h := sector_index_object_lists s object
  have h2 : ((s.index_object object).claim_slots object).1.same_lists
      (s.index_object object) := by
    unfold SectorObjects.claim_slots
    simp only
    split_ifs <;> exact ⟨rfl, rfl, rfl⟩
  unfold SectorObjects.before_object_add
  exact ⟨h2.1.trans h.1, h2.2.1.trans h.2.1, h2.2.2.trans h.2.2⟩

/-- The cleanup loop of the sector keeps the valid objects, in order. -/
theorem sector_cleanup_spec (l : List Nat) (s : SectorObjects) :
    (s.cleanup l).2 = l.filter (fun p => (s.objects p).is_valid)
    ∧ (s.cleanup l).1.objects = s.objects
    ∧ (s.cleanup l).1.gameobjects_new = s.gameobjects_new := by
  induction l generalizing s with
  | nil => exact ⟨rfl, rfl, rfl⟩
  | cons a l ih =>
    unfold SectorObjects.cleanup
    by_cases hv : (s.objects a).is_valid = true
    · rw [if_pos hv]
      obtain ⟨h1, h2, h3⟩ := ih s
      refine ⟨?_, h2, h3⟩
      simp only [List.filter_cons, hv, if_true, h1]
    · rw [if_neg hv]
      obtain ⟨h1, h2, h3⟩ := ih (s.before_object_remove a)
      obtain ⟨g1, g2, g3⟩ := sector_before_object_remove_lists s a
      rw [g1] at h1 h2
      rw [g3] at h3
      refine ⟨?_, h2, h3⟩
      simp only [List.filter_cons, hv, h1]
      rfl

/-- The add loop of the sector appends every pending object, in order. -/
theorem sector_add_loop_spec (l : List Nat) (s : SectorObjects) :
    (l.foldl (fun (s : SectorObjects) object =>
        { (s.before_object_add object).1 with
          gameobjects := (s.before_object_add object).1.gameobjects ++ [object] }) s).gameobjects
      = s.gameobjects ++ l
    ∧ (l.foldl (fun (s : SectorObjects) object =>
        { (s.before_object_add object).1 with
          gameobjects := (s.before_object_add object).1.gameobjects ++ [object] }) s).objects
      = s.objects := by
  induction l generalizing s with
  | nil => simp
  | cons a l ih =>
    rw [List.foldl_cons]
    obtain ⟨h1, h2⟩ := ih { (s.before_object_add a).1 with
      gameobjects := (s.before_object_add a).1.gameobjects ++ [a] }
    obtain ⟨g1, g2, g3⟩ := sector_before_object_add_lists s a
    rw [h1, h2]
    simp only [g1, g2, List.append_assoc, List.singleton_append, and_self]

/-- The commit of the sector registry: the valid active objects in order, then
every pending object in order; the pending list is empty afterwards. -/
theorem sector_update_game_objects_spec (s : SectorObjects) :
    s.update_game_objects.gameobjects
      = s.gameobjects.filter (fun p => (s.objects p).is_valid) ++ s.gameobjects_new
    ∧ s.update_game_objects.gameobjects_new = []
    ∧ s.update_game_objects.objects = s.objects := by
  obtain ⟨c1, c2, c3⟩ := sector_cleanup_spec s.gameobjects s
  obtain ⟨a1, a2⟩ := sector_add_loop_spec (s.cleanup s.gameobjects).1.gameobjects_new
    { (s.cleanup s.gameobjects).1 with gameobjects := (s.cleanup s.gameobjects).2 }
  have b1 : (s.cleanup s.gameobjects).2 ++ (s.cleanup s.gameobjects).1.gameobjects_new
      = s.gameobjects.filter (fun p => (s.objects p).is_valid) ++ s.gameobjects_new := by
    rw [c3, c1]
  exact ⟨a1.trans b1, rfl, a2.trans c2⟩

/-- The bookkeeping `this_before_object_remove` leaves the store, the state of the
derived class and the two object lists as they are. -/
theorem this_before_object_remove_lists {σ : Type} (m : GameObjectManager σ) (object : Nat) :
    (m.this_before_object_remove object).objects = m.objects
    ∧ (m.this_before_object_remove object).derived = m.derived
    ∧ (m.this_before_object_remove object).m_gameobjects = m.m_gameobjects
    ∧ (m.this_before_object_remove object).m_gameobjects_new = m.m_gameobjects_new := by
  unfold GameObjectManager.this_before_object_remove
  simp only
  split_ifs <;> exact ⟨rfl, rfl, rfl, rfl⟩

/-- The cleanup of the manager keeps the valid objects, in order. -/
theorem manager_cleanup_spec {σ : Type} (hooks : ManagerHooks σ) (l : List Nat)
    (m : GameObjectManager σ) :
    (GameObjectManager.cleanup hooks m l).2 = l.filter (fun p => (m.objects p).is_valid)
    ∧ (GameObjectManager.cleanup hooks m l).1.objects = m.objects
    ∧ (GameObjectManager.cleanup hooks m l).1.m_gameobjects_new = m.m_gameobjects_new := by
  induction l generalizing m with
  | nil => exact ⟨rfl, rfl, rfl⟩
  | cons a l ih =>
    unfold GameObjectManager.cleanup
    obtain ⟨g1, _, _, g4⟩ := this_before_object_remove_lists m a
    by_cases hv : (m.objects a).is_valid = true
    · rw [if_neg (by simp [hv])]
      obtain ⟨h1, h2, h3⟩ := ih m
      refine ⟨?_, h2, h3⟩
      simp only [List.filter_cons, hv, if_true, h1]
    · rw [if_pos (by simpa using hv)]
      simp only
      obtain ⟨h1, h2, h3⟩ := ih
        { m.this_before_object_remove a with
          derived := hooks.before_object_remove (m.this_before_object_remove a).derived a
            ((m.this_before_object_remove a).objects a) }
      refine ⟨?_, h2.trans g1, h3.trans g4⟩
      rw [h1]
      simp only [List.filter_cons, hv, g1]
      rfl

/-- One step of the add loop of the manager on an object with a UID: the object
is appended if the hook accepts it, and dropped otherwise. -/
theorem add_pending_spec {σ : Type} (hooks : ManagerHooks σ) (m : GameObjectManager σ)
    (object : Nat) (hu : (m.objects object).m_uid ≠ 0) :
    ∃ m', GameObjectManager.add_pending hooks m object = some m'
      ∧ m'.objects = m.objects
      ∧ m'.derived = (hooks.before_object_add m.derived object (m.objects object)).1
      ∧ m'.m_gameobjects = m.m_gameobjects
          ++ (if (hooks.before_object_add m.derived object (m.objects object)).2 = true
              then [object] else [])
      ∧ m'.m_gameobjects_new = m.m_gameobjects_new := by
  unfold GameObjectManager.add_pending
  simp only
  by_cases ha : (hooks.before_object_add m.derived object (m.objects object)).2 = true
  · rw [if_pos ha, if_pos ha]
    unfold GameObjectManager.this_before_object_add
    simp only [if_neg hu]
    split_ifs <;> exact ⟨_, rfl, rfl, rfl, rfl, rfl⟩
  · rw [if_neg ha, if_neg ha]
    exact ⟨_, rfl, rfl, rfl, (List.append_nil _).symm, rfl⟩

/-- The accepted objects of a list with a first object. -/
theorem accepted_cons {σ : Type} (hooks : ManagerHooks σ) (objects : ObjectStore) (d : σ)
    (object : Nat) (rest : List Nat) :
    accepted hooks objects d (object :: rest)
      = if (hooks.before_object_add d object (objects object)).2 = true then
          object :: accepted hooks objects
            (hooks.before_object_add d object (objects object)).1 rest
        else accepted hooks objects (hooks.before_object_add d object (objects object)).1 rest :=
  rfl

/-- The add loop of the manager on objects with UIDs appends the accepted
objects, in order. -/
theorem add_loop_spec {σ : Type} (hooks : ManagerHooks σ) (l : List Nat)
    (m : GameObjectManager σ) (hu : ∀ p ∈ l, (m.objects p).m_uid ≠ 0) :
    ∃ m', l.foldlM (GameObjectManager.add_pending hooks) m = some m'
      ∧ m'.objects = m.objects
      ∧ m'.m_gameobjects = m.m_gameobjects ++ accepted hooks m.objects m.derived l
      ∧ m'.m_gameobjects_new = m.m_gameobjects_new := by
  induction l generalizing m with
  | nil => exact ⟨m, rfl, rfl, (List.append_nil _).symm, rfl⟩
  | cons a l ih =>
    obtain ⟨m1, h1, o1, d1, g1, n1⟩ :=
      add_pending_spec hooks m a (hu a (List.mem_cons_self _ _))
    obtain ⟨m2, h2, o2, g2, n2⟩ := ih m1 (fun p hp => by
      rw [o1]; exact hu p (List.mem_cons_of_mem _ hp))
    refine ⟨m2, ?_, o2.trans o1, ?_, n2.trans n1⟩
    · rw [List.foldlM_cons, h1]; exact h2
    · rw [g2, g1, o1, d1, accepted_cons]
      split_ifs <;> simp

/-- The commit of the manager on pending objects with UIDs: the valid active
objects in order, then the accepted pending objects in order; the pending list
is empty afterwards and no object is written. -/
theorem manager_update_game_objects_spec {σ : Type} (hooks : ManagerHooks σ)
    (m : GameObjectManager σ) (hu : ∀ p ∈ m.m_gameobjects_new, (m.objects p).m_uid ≠ 0) :
    ∃ m', m.update_game_objects hooks = some m'
      ∧ m'.m_gameobjects
        = m.m_gameobjects.filter (fun p => (m.objects p).is_valid)
          ++ accepted hooks m.objects
              (GameObjectManager.cleanup hooks m m.m_gameobjects).1.derived m.m_gameobjects_new
      ∧ m'.m_gameobjects_new = []
      ∧ m'.objects = m.objects := by
  obtain ⟨c1, c2, c3⟩ := manager_cleanup_spec hooks m.m_gameobjects m
  obtain ⟨m1, h1, o1, g1, _⟩ := add_loop_spec hooks
    (GameObjectManager.cleanup hooks m m.m_gameobjects).1.m_gameobjects_new
    { (GameObjectManager.cleanup hooks m m.m_gameobjects).1 with
      m_gameobjects := (GameObjectManager.cleanup hooks m m.m_gameobjects).2 }
    (fun p hp => by
      rw [c3] at hp
      exact (congrArg (fun (s : ObjectStore) => (s p).m_uid) c2).trans_ne (hu p hp))
  unfold GameObjectManager.update_game_objects
  simp only [h1]
  refine ⟨_, rfl, ?_, rfl, o1.trans c2⟩
  have b1 : m1.m_gameobjects = (GameObjectManager.cleanup hooks m m.m_gameobjects).2
      ++ accepted hooks (GameObjectManager.cleanup hooks m m.m_gameobjects).1.objects
          (GameObjectManager.cleanup hooks m m.m_gameobjects).1.derived
          (GameObjectManager.cleanup hooks m m.m_gameobjects).1.m_gameobjects_new := g1
  rw [c1, c2, c3] at b1
  exact b1

/-- If the hook accepts every object, every pending object is accepted. -/
theorem accepted_all {σ : Type} (hooks : ManagerHooks σ) (objects : ObjectStore)
    (h : ∀ d p o, (hooks.before_object_add d p o).2 = true) (l : List Nat) (d : σ) :
    accepted hooks objects d l = l := by
  induction l generalizing d with
  | nil => rfl
  | cons a l ih =>
    rw [accepted_cons, if_pos (h _ _ _), ih]

/-- The accepted objects are pending objects, in their order. -/
theorem accepted_sublist {σ : Type} (hooks : ManagerHooks σ) (objects : ObjectStore)
    (l : List Nat) (d : σ) : (accepted hooks objects d l).Sublist l := by
  induction l generalizing d with
  | nil => exact List.Sublist.slnil
  | cons a l ih =>
    rw [accepted_cons]
    split_ifs
    · exact (ih _).cons₂ a
    · exact (ih _).cons a


/-- Three calls of `add_object` on the empty manager over a store of fresh
objects give `threeAdded`. -/
theorem three_added {σ : Type} (d : σ) (objects : ObjectStore)
    (h : ∀ p, (objects p).m_uid = 0) :
    (((emptyManager d objects).add_object 1).bind (fun m => m.add_object 2)).bind
        (fun m => m.add_object 3)
      = some (threeAdded d objects) := by
  simp [GameObjectManager.add_object, emptyManager, threeAdded, h, UIDGenerator.next,
    ObjectStore.set_uid]

/-- Three calls of `add_object` on the empty sector registry give
`sectorThreeAdded`. -/
theorem sector_three_added (objects : ObjectStore) :
    (((emptySectorObjects objects).add_object 1).bind (fun s => s.add_object 2)).bind
        (fun s => s.add_object 3)
      = some (sectorThreeAdded objects) := by
  simp [SectorObjects.add_object, emptySectorObjects, sectorThreeAdded]

/-- The pending objects of `threeAdded` have UIDs. -/
theorem three_added_uids {σ : Type} (d : σ) (objects : ObjectStore) :
    ∀ p ∈ (threeAdded d objects).m_gameobjects_new,
      ((threeAdded d objects).objects p).m_uid ≠ 0 := by
  intro p hp
  simp only [threeAdded, List.mem_cons, List.mem_singleton, List.not_mem_nil, or_false] at hp
  rcases hp with rfl | rfl | rfl <;> simp [threeAdded, ObjectStore.set_uid]

/-- C12 (as amended): `update_game_objects` leaves the active list equal to the
previously active objects that are still valid, in their previous relative
order, followed by pending objects in registration order, and leaves the pending
list empty.  `Sector::update_game_objects` appends every pending object, whatever
its hook answers.  `GameObjectManager::update_game_objects`, run on pending
objects that carry the UID given by `add_object`, appends the pending objects
that the hook `before_object_add` accepts, and drops the others; it appends
every pending object if the hook accepts every object. -/
theorem update_game_objects_commit {σ : Type} (hooks : ManagerHooks σ)
    (m : GameObjectManager σ) (s : SectorObjects)
    (hu : ∀ p ∈ m.m_gameobjects_new, (m.objects p).m_uid ≠ 0) :
    (s.update_game_objects.gameobjects
        = s.gameobjects.filter (fun p => (s.objects p).is_valid) ++ s.gameobjects_new
      ∧ s.update_game_objects.gameobjects_new = [])
    ∧ ∃ m', m.update_game_objects hooks = some m'
        ∧ m'.m_gameobjects
          = m.m_gameobjects.filter (fun p => (m.objects p).is_valid)
            ++ accepted hooks m.objects
                (GameObjectManager.cleanup hooks m m.m_gameobjects).1.derived
                m.m_gameobjects_new
        ∧ (accepted hooks m.objects
              (GameObjectManager.cleanup hooks m m.m_gameobjects).1.derived
              m.m_gameobjects_new).Sublist m.m_gameobjects_new
        ∧ ((∀ d p o, (hooks.before_object_add d p o).2 = true) →
            m'.m_gameobjects
              = m.m_gameobjects.filter (fun p => (m.objects p).is_valid)
                ++ m.m_gameobjects_new)
        ∧ m'.m_gameobjects_new = [] := by
  obtain ⟨s1, s2, _⟩ := sector_update_game_objects_spec s
  obtain ⟨m', h1, h2, h3, _⟩ := manager_update_game_objects_spec hooks m hu
  refine ⟨⟨s1, s2⟩, m', h1, h2, accepted_sublist hooks _ _ _, ?_, h3⟩
  intro ha
  rw [h2, accepted_all hooks m.objects ha]

/-- C12 at the registries with the objects 1, 2, 3 pending and hooks that accept
every object. -/
theorem update_game_objects_commit_witness :
    (∀ p ∈ (threeAdded () freshStore).m_gameobjects_new,
      ((threeAdded () freshStore).objects p).m_uid ≠ 0)
    ∧ ((sectorThreeAdded freshStore).update_game_objects.gameobjects
        = (sectorThreeAdded freshStore).gameobjects.filter
            (fun p => ((sectorThreeAdded freshStore).objects p).is_valid)
          ++ (sectorThreeAdded freshStore).gameobjects_new
      ∧ (sectorThreeAdded freshStore).update_game_objects.gameobjects_new = [])
    ∧ ∃ m', (threeAdded () freshStore).update_game_objects acceptAll = some m'
        ∧ m'.m_gameobjects
          = (threeAdded () freshStore).m_gameobjects.filter
              (fun p => ((threeAdded () freshStore).objects p).is_valid)
            ++ accepted acceptAll (threeAdded () freshStore).objects
                (GameObjectManager.cleanup acceptAll (threeAdded () freshStore)
                  (threeAdded () freshStore).m_gameobjects).1.derived
                (threeAdded () freshStore).m_gameobjects_new
        ∧ (accepted acceptAll (threeAdded () freshStore).objects
              (GameObjectManager.cleanup acceptAll (threeAdded () freshStore)
                (threeAdded () freshStore).m_gameobjects).1.derived
              (threeAdded () freshStore).m_gameobjects_new).Sublist
            (threeAdded () freshStore).m_gameobjects_new
        ∧ ((∀ d p o, (acceptAll.before_object_add d p o).2 = true) →
            m'.m_gameobjects
              = (threeAdded () freshStore).m_gameobjects.filter
                  (fun p => ((threeAdded () freshStore).objects p).is_valid)
                ++ (threeAdded () freshStore).m_gameobjects_new)
        ∧ m'.m_gameobjects_new = [] :=
  ⟨three_added_uids () freshStore,
    update_game_objects_commit acceptAll (threeAdded () freshStore)
      (sectorThreeAdded freshStore) (three_added_uids () freshStore)⟩

/-- The scenario of the registry: after three calls of `add_object` and a commit
the active list is `[1, 2, 3]`; after `remove_me` of the object 2 and a second
commit it is `[1, 3]`. -/
theorem commit_scenario :
    (((emptyManager () freshStore).add_object 1).bind (fun m => m.add_object 2)).bind
        (fun m => m.add_object 3)
      = some (threeAdded () freshStore)
    ∧ ∃ m1 m2, (threeAdded () freshStore).update_game_objects acceptAll = some m1
        ∧ m1.m_gameobjects = [1, 2, 3] ∧ m1.m_gameobjects_new = []
        ∧ (m1.remove_me 2).update_game_objects acceptAll = some m2
        ∧ m2.m_gameobjects = [1, 3] ∧ m2.m_gameobjects_new = [] := by
  refine ⟨three_added () freshStore (fun _ => rfl), ?_⟩
  obtain ⟨m1, h1, g1, n1, o1⟩ := manager_update_game_objects_spec acceptAll
    (threeAdded () freshStore) (three_added_uids () freshStore)
  have ha : ∀ d p o, (acceptAll.before_object_add d p o).2 = true := fun _ _ _ => rfl
  rw [accepted_all acceptAll _ ha] at g1
  have g1' : m1.m_gameobjects = [1, 2, 3] := g1
  obtain ⟨m2, h2, g2, n2, _⟩ := manager_update_game_objects_spec acceptAll (m1.remove_me 2)
    (fun p hp => by
      have : (m1.remove_me 2).m_gameobjects_new = [] := n1
      rw [this] at hp
      exact absurd hp (List.not_mem_nil p))
  refine ⟨m1, m2, h1, g1', n1, h2, ?_, n2⟩
  rw [g2, accepted_all acceptAll _ ha]
  have e1 : (m1.remove_me 2).m_gameobjects = [1, 2, 3] := g1'
  have e2 : (m1.remove_me 2).m_gameobjects_new = [] := n1
  have e3 : (m1.remove_me 2).objects = (threeAdded () freshStore).objects.remove_me 2 := by
    show m1.objects.remove_me 2 = _
    rw [o1]
  rw [e1, e2, e3]
  simp [threeAdded, ObjectStore.remove_me, ObjectStore.set_uid, freshStore, plainObject,
    GameObject.remove_me, GameObject.is_valid, List.filter_cons]

/-- C12 fails as stated for `GameObjectManager::update_game_objects`: three
players are pending, registered by `add_object`; the hook accepts the first and
refuses the others as `Sector::before_object_add` does; after the commit the
active list is `[1]` and the pending list is empty, the objects 2 and 3 are in
neither.  `Sector::update_game_objects` on the same pending list ends with the
active list `[1, 2, 3]`. -/
theorem update_game_objects_commit_counterexample :
    (((emptyManager (none : Option Nat) playerStore).add_object 1).bind
        (fun m => m.add_object 2)).bind (fun m => m.add_object 3)
      = some playersPending
    ∧ playersPending.m_gameobjects = []
    ∧ playersPending.m_gameobjects_new = [1, 2, 3]
    ∧ (playersPending.update_game_objects singlePlayer).map
        (fun m => (m.m_gameobjects, m.m_gameobjects_new)) = some ([1], [])
    ∧ (sectorThreeAdded playerStore).update_game_objects.gameobjects = [1, 2, 3] := by
  refine ⟨three_added none playerStore (fun _ => rfl), rfl, rfl, ?_, ?_⟩
  · obtain ⟨m1, h1, g1, n1, _⟩ := manager_update_game_objects_spec singlePlayer
      playersPending (three_added_uids none playerStore)
    rw [h1, Option.map_some', g1, n1]
    simp [playersPending, threeAdded, GameObjectManager.cleanup, accepted_cons, accepted,
      singlePlayer, playerStore, plainObject, ObjectStore.set_uid]
  · rw [(sector_update_game_objects_spec _).1]
    rfl

/-! ## Object registry: deferred registration and removal (C13) -/

/-- The teardown `clear_objects` on pending objects with UIDs returns with both
lists empty. -/
theorem clear_objects_spec {σ : Type} (hooks : ManagerHooks σ) (m : GameObjectManager σ)
    (hu : ∀ p ∈ m.m_gameobjects_new, (m.objects p).m_uid ≠ 0) :
    ∃ m1, m.clear_objects hooks = some m1 ∧ m1.m_gameobjects = []
      ∧ m1.m_gameobjects_new = [] := by
  obtain ⟨m', h1, _, n1, _⟩ := manager_update_game_objects_spec hooks m hu
  unfold GameObjectManager.clear_objects
  rw [h1]
  exact ⟨_, rfl, rfl, n1⟩

/-- C13 (as amended): `add_object` on an object that is in neither list (and, in
the manager, has no UID yet) leaves the active list as it is and appends the
object to the end of the pending list; `remove_me` on any object, registered or
not, clears the validity flag of that one object and changes neither list and no
other object; apart from `update_game_objects` the active list is changed by
`clear_objects` of the manager, which commits and then empties it. -/
theorem registration_deferred {σ : Type} (hooks : ManagerHooks σ) (m : GameObjectManager σ)
    (s : SectorObjects) (object : Nat)
    (h1 : object ∉ s.gameobjects) (h2 : object ∉ s.gameobjects_new)
    (h3 : (m.objects object).m_uid = 0)
    (h4 : object ∉ m.m_gameobjects) (h5 : object ∉ m.m_gameobjects_new)
    (hu : ∀ p ∈ m.m_gameobjects_new, (m.objects p).m_uid ≠ 0) :
    (∃ s', s.add_object object = some s' ∧ s'.gameobjects = s.gameobjects
      ∧ s'.gameobjects_new = s.gameobjects_new ++ [object])
    ∧ (∃ m', m.add_object object = some m' ∧ m'.m_gameobjects = m.m_gameobjects
      ∧ m'.m_gameobjects_new = m.m_gameobjects_new ++ [object])
    ∧ (∀ removed : Nat,
      (s.remove_me removed).gameobjects = s.gameobjects
      ∧ (s.remove_me removed).gameobjects_new = s.gameobjects_new
      ∧ ((s.remove_me removed).objects removed).is_valid = false
      ∧ (s.remove_me removed).objects removed
        = { s.objects removed with m_wants_to_die := true }
      ∧ ∀ p, p ≠ removed → (s.remove_me removed).objects p = s.objects p)
    ∧ (∀ removed : Nat,
      (m.remove_me removed).m_gameobjects = m.m_gameobjects
      ∧ (m.remove_me removed).m_gameobjects_new = m.m_gameobjects_new
      ∧ ((m.remove_me removed).objects removed).is_valid = false
      ∧ (m.remove_me removed).objects removed
        = { m.objects removed with m_wants_to_die := true }
      ∧ ∀ p, p ≠ removed → (m.remove_me removed).objects p = m.objects p)
    ∧ ∃ m1, m.clear_objects hooks = some m1 ∧ m1.m_gameobjects = []
      ∧ m1.m_gameobjects_new = [] := by
  refine ⟨?_, ?_, fun removed => ⟨rfl, rfl, ?_, ?_, ?_⟩,
    fun removed => ⟨rfl, rfl, ?_, ?_, ?_⟩, clear_objects_spec hooks m hu⟩
  · unfold SectorObjects.add_object
    rw [if_neg h1, if_neg h2]
    exact ⟨_, rfl, rfl, rfl⟩
  · unfold GameObjectManager.add_object
    rw [if_neg (not_not.2 h3)]
    simp only
    rw [if_neg h4, if_neg h5]
    exact ⟨_, rfl, rfl, rfl⟩
  · simp [SectorObjects.remove_me, ObjectStore.remove_me, GameObject.remove_me,
      GameObject.is_valid]
  · simp [SectorObjects.remove_me, ObjectStore.remove_me, GameObject.remove_me]
  · intro p hp
    simp [SectorObjects.remove_me, ObjectStore.remove_me, hp]
  · simp [GameObjectManager.remove_me, ObjectStore.remove_me, GameObject.remove_me,
      GameObject.is_valid]
  · simp [GameObjectManager.remove_me, ObjectStore.remove_me, GameObject.remove_me]
  · intro p hp
    simp [GameObjectManager.remove_me, ObjectStore.remove_me, hp]

/-- C13 at registries in which the object 1 is active and valid: a new object 4
is appended to the pending list, and `remove_me` on the active object 1 clears
its validity flag and leaves it in the active list. -/
theorem registration_deferred_witness :
    (∃ s', sectorOneActive.add_object 4 = some s'
      ∧ s'.gameobjects = sectorOneActive.gameobjects
      ∧ s'.gameobjects_new = sectorOneActive.gameobjects_new ++ [4])
    ∧ (∃ m', oneActive.add_object 4 = some m'
      ∧ m'.m_gameobjects = oneActive.m_gameobjects
      ∧ m'.m_gameobjects_new = oneActive.m_gameobjects_new ++ [4])
    ∧ (1 ∈ sectorOneActive.gameobjects
      ∧ (sectorOneActive.objects 1).is_valid = true
      ∧ (sectorOneActive.remove_me 1).gameobjects = sectorOneActive.gameobjects
      ∧ (sectorOneActive.remove_me 1).gameobjects_new = sectorOneActive.gameobjects_new
      ∧ ((sectorOneActive.remove_me 1).objects 1).is_valid = false
      ∧ (sectorOneActive.remove_me 1).objects 1
        = { sectorOneActive.objects 1 with m_wants_to_die := true }
      ∧ ∀ p, p ≠ 1 → (sectorOneActive.remove_me 1).objects p = sectorOneActive.objects p)
    ∧ (1 ∈ oneActive.m_gameobjects
      ∧ (oneActive.objects 1).is_valid = true
      ∧ (oneActive.remove_me 1).m_gameobjects = oneActive.m_gameobjects
      ∧ (oneActive.remove_me 1).m_gameobjects_new = oneActive.m_gameobjects_new
      ∧ ((oneActive.remove_me 1).objects 1).is_valid = false
      ∧ (oneActive.remove_me 1).objects 1
        = { oneActive.objects 1 with m_wants_to_die := true }
      ∧ ∀ p, p ≠ 1 → (oneActive.remove_me 1).objects p = oneActive.objects p)
    ∧ ∃ m1, oneActive.clear_objects acceptAll = some m1
      ∧ m1.m_gameobjects = [] ∧ m1.m_gameobjects_new = [] :=
  have h := registration_deferred acceptAll oneActive sectorOneActive 4
    (by simp [sectorOneActive, emptySectorObjects])
    (by simp [sectorOneActive, emptySectorObjects])
    (by simp [oneActive, ObjectStore.set_uid, freshStore, plainObject])
    (by simp [oneActive]) (by simp [oneActive])
    (fun p hp => absurd hp (List.not_mem_nil p))
  ⟨h.1, h.2.1,
    ⟨List.mem_singleton.2 rfl, rfl, h.2.2.1 1⟩,
    ⟨List.mem_singleton.2 rfl, rfl, h.2.2.2.1 1⟩, h.2.2.2.2⟩

/-- C13 fails as stated: in `oneActive` the object 1 is valid and active and
nothing is pending; `update_game_objects` returns with the active list `[1]`,
and `clear_objects`, after that call of `update_game_objects` inside it, empties
the active list. -/
theorem registration_deferred_counterexample :
    (oneActive.objects 1).is_valid = true
    ∧ oneActive.m_gameobjects = [1]
    ∧ (oneActive.update_game_objects acceptAll).map (fun m => m.m_gameobjects) = some [1]
    ∧ (oneActive.clear_objects acceptAll).map (fun m => m.m_gameobjects) = some [] := by
  have hu : ∀ p ∈ oneActive.m_gameobjects_new, (oneActive.objects p).m_uid ≠ 0 :=
    fun p hp => absurd hp (List.not_mem_nil p)
  obtain ⟨m1, h1, g1, _, _⟩ := manager_update_game_objects_spec acceptAll oneActive hu
  obtain ⟨m2, h2, g2, _⟩ := clear_objects_spec acceptAll oneActive hu
  refine ⟨rfl, rfl, ?_, ?_⟩
  · rw [h1, Option.map_some', g1]
    simp [oneActive, accepted, ObjectStore.set_uid, freshStore, plainObject,
      GameObject.is_valid]
  · rw [h2, Option.map_some', g2]

/-! ## The end of `check_collisions` (C21, C24) -/

/-- A call of `check_collisions` on intersecting rectangles that both bodies
accept, that is not aborted and to which no shift-out applies reaches the last
block with the ground movement updated. -/
theorem check_collisions_rest (cfg : Config) (c : Constraints) (mv : Vector)
    (r1 r2 : Rectf) (objs : Option (MovingObject × MovingObject)) (g : Vector)
    (hi : intersects r1 r2 = true) (ha : pair_accepts objs) (hc : other_continues objs)
    (hs : ¬ shift_out_applies cfg mv r1 r2) :
    (check_collisions cfg c mv r1 r2 objs g).1
      = tighten_smaller (with_ground_movement c objs g) r2
          (r1.get_bottom - r2.get_top) (r2.get_bottom - r1.get_top)
          (r1.get_right - r2.get_left) (r2.get_right - r1.get_left) := by
  unfold shift_out_applies at hs
  unfold check_collisions
  rw [if_neg (by simp [hi])]
  cases objs with
  | none =>
    simp only [Bool.false_eq_true, if_false, with_ground_movement]
    by_cases hm : |mv.y| > |mv.x|
    · rw [if_pos hm, not_or] at hs
      rw [if_pos hm, if_neg hs.1, if_neg hs.2]
    · rw [if_neg hm, not_or] at hs
      rw [if_neg hm, if_neg hs.1, if_neg hs.2]
  | some p =>
    obtain ⟨object, other⟩ := p
    obtain ⟨ha1, ha2⟩ := ha
    have hc' : other.collision object.uid {} ≠ ABORT_MOVE := hc
    simp only [ha1, ha2, Bool.not_true, Bool.false_eq_true, if_false, with_ground_movement,
      if_neg hc']
    by_cases hm : |mv.y| > |mv.x|
    · rw [if_pos hm, not_or] at hs
      rw [if_pos hm, if_neg hs.1, if_neg hs.2]
    · rw [if_neg hm, not_or] at hs
      rw [if_neg hm, if_neg hs.1, if_neg hs.2]

/-- The last block of `check_collisions` leaves the ground movement as it is. -/
theorem tighten_smaller_ground_movement (c : Constraints) (r2 : Rectf)
    (itop ibottom ileft iright : ℚ) :
    (tighten_smaller c r2 itop ibottom ileft iright).ground_movement = c.ground_movement := by
  unfold tighten_smaller
  simp only
  split_ifs <;> rfl

/-- The ground-movement lines of `check_collisions` leave bounds and flags as they
are. -/
theorem with_ground_movement_fields (c : Constraints)
    (objs : Option (MovingObject × MovingObject)) (g : Vector) :
    (with_ground_movement c objs g).left = c.left
    ∧ (with_ground_movement c objs g).right = c.right
    ∧ (with_ground_movement c objs g).top = c.top
    ∧ (with_ground_movement c objs g).bottom = c.bottom
    ∧ (with_ground_movement c objs g).hit = c.hit := by
  unfold with_ground_movement
  cases objs with
  | none => exact ⟨rfl, rfl, rfl, rfl, rfl⟩
  | some p =>
    obtain ⟨object, other⟩ := p
    simp only
    split_ifs <;> exact ⟨rfl, rfl, rfl, rfl, rfl⟩

/-- The four outcomes of the last block of `check_collisions`. -/
theorem tighten_smaller_cases (c : Constraints) (r2 : Rectf)
    (itop ibottom ileft iright : ℚ) :
    (min itop ibottom < min ileft iright → itop < ibottom →
      tighten_smaller c r2 itop ibottom ileft iright
        = { c with bottom := Constraints.lower c.bottom r2.get_top
                   hit := { c.hit with bottom := true } })
    ∧ (min itop ibottom < min ileft iright → ¬ itop < ibottom →
      tighten_smaller c r2 itop ibottom ileft iright
        = { c with top := Constraints.raise c.top r2.get_bottom
                   hit := { c.hit with top := true } })
    ∧ (¬ min itop ibottom < min ileft iright → ileft < iright →
      tighten_smaller c r2 itop ibottom ileft iright
        = { c with right := Constraints.lower c.right r2.get_left
                   hit := { c.hit with right := true } })
    ∧ (¬ min itop ibottom < min ileft iright → ¬ ileft < iright →
      tighten_smaller c r2 itop ibottom ileft iright
        = { c with left := Constraints.raise c.left r2.get_right
                   hit := { c.hit with left := true } }) := by
  unfold tighten_smaller
  refine ⟨fun h1 h2 => ?_, fun h1 h2 => ?_, fun h1 h2 => ?_, fun h1 h2 => ?_⟩
  · simp only [if_pos h1, if_pos h2]; rfl
  · simp only [if_pos h1, if_neg h2]; rfl
  · simp only [if_neg h1, if_pos h2]; rfl
  · simp only [if_neg h1, if_neg h2]; rfl

/-- C21 (as amended): for intersecting rectangles that both bodies (if any)
accept in `collides`, with no shift-out and no `ABORT_MOVE` of the other body,
`check_collisions` tightens one bound, with the facing edge of the solid
rectangle, on the axis of the smaller penetration - `min(itop, ibottom)` against
`min(ileft, iright)`, horizontal when they are equal - and sets the matching hit
flag: `bottom` with the top edge, `top` with the bottom edge, `right` with the
left edge or `left` with the right edge.  The other three bounds and the other
hit flags are unchanged.  Tightening with an edge is `min(bound, edge)` for
`right` and `bottom` and `max(bound, edge)` for `left` and `top`. -/
theorem check_collisions_tightens (cfg : Config) (c : Constraints) (mv : Vector)
    (r1 r2 : Rectf) (objs : Option (MovingObject × MovingObject)) (g : Vector)
    (hi : intersects r1 r2 = true) (ha : pair_accepts objs) (hc : other_continues objs)
    (hs : ¬ shift_out_applies cfg mv r1 r2) :
    (vert_penetration r1 r2 < horiz_penetration r1 r2 →
      r1.get_bottom - r2.get_top < r2.get_bottom - r1.get_top →
      (check_collisions cfg c mv r1 r2 objs g).1.bottom
          = Constraints.lower c.bottom r2.get_top
        ∧ (check_collisions cfg c mv r1 r2 objs g).1.top = c.top
        ∧ (check_collisions cfg c mv r1 r2 objs g).1.left = c.left
        ∧ (check_collisions cfg c mv r1 r2 objs g).1.right = c.right
        ∧ (check_collisions cfg c mv r1 r2 objs g).1.hit = { c.hit with bottom := true })
    ∧ (vert_penetration r1 r2 < horiz_penetration r1 r2 →
      ¬ r1.get_bottom - r2.get_top < r2.get_bottom - r1.get_top →
      (check_collisions cfg c mv r1 r2 objs g).1.top
          = Constraints.raise c.top r2.get_bottom
        ∧ (check_collisions cfg c mv r1 r2 objs g).1.bottom = c.bottom
        ∧ (check_collisions cfg c mv r1 r2 objs g).1.left = c.left
        ∧ (check_collisions cfg c mv r1 r2 objs g).1.right = c.right
        ∧ (check_collisions cfg c mv r1 r2 objs g).1.hit = { c.hit with top := true })
    ∧ (¬ vert_penetration r1 r2 < horiz_penetration r1 r2 →
      r1.get_right - r2.get_left < r2.get_right - r1.get_left →
      (check_collisions cfg c mv r1 r2 objs g).1.right
          = Constraints.lower c.right r2.get_left
        ∧ (check_collisions cfg c mv r1 r2 objs g).1.left = c.left
        ∧ (check_collisions cfg c mv r1 r2 objs g).1.top = c.top
        ∧ (check_collisions cfg c mv r1 r2 objs g).1.bottom = c.bottom
        ∧ (check_collisions cfg c mv r1 r2 objs g).1.hit = { c.hit with right := true })
    ∧ (¬ vert_penetration r1 r2 < horiz_penetration r1 r2 →
      ¬ r1.get_right - r2.get_left < r2.get_right - r1.get_left →
      (check_collisions cfg c mv r1 r2 objs g).1.left
          = Constraints.raise c.left r2.get_right
        ∧ (check_collisions cfg c mv r1 r2 objs g).1.right = c.right
        ∧ (check_collisions cfg c mv r1 r2 objs g).1.top = c.top
        ∧ (check_collisions cfg c mv r1 r2 objs g).1.bottom = c.bottom
        ∧ (check_collisions cfg c mv r1 r2 objs g).1.hit = { c.hit with left := true }) := by
  obtain ⟨f1, f2, f3, f4, f5⟩ := with_ground_movement_fields c objs g
  obtain ⟨t1, t2, t3, t4⟩ := tighten_smaller_cases (with_ground_movement c objs g) r2
    (r1.get_bottom - r2.get_top) (r2.get_bottom - r1.get_top)
    (r1.get_right - r2.get_left) (r2.get_right - r1.get_left)
  rw [check_collisions_rest cfg c mv r1 r2 objs g hi ha hc hs]
  unfold vert_penetration horiz_penetration
  refine ⟨fun h1 h2 => ?_, fun h1 h2 => ?_, fun h1 h2 => ?_, fun h1 h2 => ?_⟩
  · rw [t1 h1 h2]
    exact ⟨by rw [f4], f3, f1, f2, by rw [f5]⟩
  · rw [t2 h1 h2]
    exact ⟨by rw [f3], f4, f1, f2, by rw [f5]⟩
  · rw [t3 h1 h2]
    exact ⟨by rw [f2], f1, f3, f4, by rw [f5]⟩
  · rw [t4 h1 h2]
    exact ⟨by rw [f1], f2, f3, f4, by rw [f5]⟩

/-- C21 at the falling body of the examples on a platform: the smaller
penetration is the vertical one, 12 against 24. -/
theorem check_collisions_tightens_witness :
    (vert_penetration landingRect originTileBox < horiz_penetration landingRect originTileBox →
      landingRect.get_bottom - originTileBox.get_top
        < originTileBox.get_bottom - landingRect.get_top →
      (check_collisions exampleConfig {} ⟨0, 16⟩ landingRect originTileBox carrierPair
          Vector.zero).1.bottom
          = Constraints.lower ({} : Constraints).bottom originTileBox.get_top
        ∧ (check_collisions exampleConfig {} ⟨0, 16⟩ landingRect originTileBox carrierPair
          Vector.zero).1.top = ({} : Constraints).top
        ∧ (check_collisions exampleConfig {} ⟨0, 16⟩ landingRect originTileBox carrierPair
          Vector.zero).1.left = ({} : Constraints).left
        ∧ (check_collisions exampleConfig {} ⟨0, 16⟩ landingRect originTileBox carrierPair
          Vector.zero).1.right = ({} : Constraints).right
        ∧ (check_collisions exampleConfig {} ⟨0, 16⟩ landingRect originTileBox carrierPair
          Vector.zero).1.hit = { ({} : Constraints).hit with bottom := true })
    ∧ (vert_penetration landingRect originTileBox < horiz_penetration landingRect originTileBox →
      ¬ landingRect.get_bottom - originTileBox.get_top
        < originTileBox.get_bottom - landingRect.get_top →
      (check_collisions exampleConfig {} ⟨0, 16⟩ landingRect originTileBox carrierPair
          Vector.zero).1.top
          = Constraints.raise ({} : Constraints).top originTileBox.get_bottom
        ∧ (check_collisions exampleConfig {} ⟨0, 16⟩ landingRect originTileBox carrierPair
          Vector.zero).1.bottom = ({} : Constraints).bottom
        ∧ (check_collisions exampleConfig {} ⟨0, 16⟩ landingRect originTileBox carrierPair
          Vector.zero).1.left = ({} : Constraints).left
        ∧ (check_collisions exampleConfig {} ⟨0, 16⟩ landingRect originTileBox carrierPair
          Vector.zero).1.right = ({} : Constraints).right
        ∧ (check_collisions exampleConfig {} ⟨0, 16⟩ landingRect originTileBox carrierPair
          Vector.zero).1.hit = { ({} : Constraints).hit with top := true })
    ∧ (¬ vert_penetration landingRect originTileBox
          < horiz_penetration landingRect originTileBox →
      landingRect.get_right - originTileBox.get_left
        < originTileBox.get_right - landingRect.get_left →
      (check_collisions exampleConfig {} ⟨0, 16⟩ landingRect originTileBox carrierPair
          Vector.zero).1.right
          = Constraints.lower ({} : Constraints).right originTileBox.get_left
        ∧ (check_collisions exampleConfig {} ⟨0, 16⟩ landingRect originTileBox carrierPair
          Vector.zero).1.left = ({} : Constraints).left
        ∧ (check_collisions exampleConfig {} ⟨0, 16⟩ landingRect originTileBox carrierPair
          Vector.zero).1.top = ({} : Constraints).top
        ∧ (check_collisions exampleConfig {} ⟨0, 16⟩ landingRect originTileBox carrierPair
          Vector.zero).1.bottom = ({} : Constraints).bottom
        ∧ (check_collisions exampleConfig {} ⟨0, 16⟩ landingRect originTileBox carrierPair
          Vector.zero).1.hit = { ({} : Constraints).hit with right := true })
    ∧ (¬ vert_penetration landingRect originTileBox
          < horiz_penetration landingRect originTileBox →
      ¬ landingRect.get_right - originTileBox.get_left
        < originTileBox.get_right - landingRect.get_left →
      (check_collisions exampleConfig {} ⟨0, 16⟩ landingRect originTileBox carrierPair
          Vector.zero).1.left
          = Constraints.raise ({} : Constraints).left originTileBox.get_right
        ∧ (check_collisions exampleConfig {} ⟨0, 16⟩ landingRect originTileBox carrierPair
          Vector.zero).1.right = ({} : Constraints).right
        ∧ (check_collisions exampleConfig {} ⟨0, 16⟩ landingRect originTileBox carrierPair
          Vector.zero).1.top = ({} : Constraints).top
        ∧ (check_collisions exampleConfig {} ⟨0, 16⟩ landingRect originTileBox carrierPair
          Vector.zero).1.bottom = ({} : Constraints).bottom
        ∧ (check_collisions exampleConfig {} ⟨0, 16⟩ landingRect originTileBox carrierPair
          Vector.zero).1.hit = { ({} : Constraints).hit with left := true }) :=
  check_collisions_tightens exampleConfig {} ⟨0, 16⟩ landingRect originTileBox carrierPair
    Vector.zero (by decide) ⟨rfl, rfl⟩
    (by simp [other_continues, carrierPair, exampleBody])
    (by norm_num [shift_out_applies, landingRect, originTileBox, exampleConfig,
      Rectf.get_left, Rectf.get_right, Rectf.get_top, Rectf.get_bottom])

/-- The call of `check_collisions` with the refusing body on the platform returns
the constraint set as it was, after the two `collides` queries. -/
theorem check_collisions_vetoed (c : Constraints) :
    check_collisions exampleConfig c ⟨0, 16⟩ landingRect originTileBox vetoingPair Vector.zero
      = (c, [Event.collides 2 1 {}, Event.collides 1 2 {}]) := by
  have hi : intersects landingRect originTileBox = true := by decide
  unfold check_collisions
  rw [if_neg (by simp [hi])]
  rfl


/-- C21 fails as stated: the body on the platform intersects it, no shift-out
applies, the platform accepts the pairing and answers `CONTINUE`, but the body
itself refuses the pairing in `collides`, and `check_collisions` returns without
a bound and without a hit flag. -/
theorem check_collisions_tightens_counterexample :
    intersects landingRect originTileBox = true
    ∧ ¬ shift_out_applies exampleConfig ⟨0, 16⟩ landingRect originTileBox
    ∧ carrierBody.collides vetoingBody.uid {} = true
    ∧ carrierBody.collision vetoingBody.uid {} = CONTINUE
    ∧ vetoingBody.collides carrierBody.uid {} = false
    ∧ (check_collisions exampleConfig {} ⟨0, 16⟩ landingRect originTileBox vetoingPair
        Vector.zero).1 = {} := by
  refine ⟨by decide, ?_, rfl, rfl, rfl, ?_⟩
  · norm_num [shift_out_applies, landingRect, originTileBox, exampleConfig,
      Rectf.get_left, Rectf.get_right, Rectf.get_top, Rectf.get_bottom]
  · rw [check_collisions_vetoed]

/-! ## Shift-out (C22) -/

/-- The shift-out block of `check_collisions` (sector.cpp 902-925), case by case. -/
theorem check_collisions_shift_out_cases (cfg : Config) (c : Constraints) (mv : Vector)
    (r1 r2 : Rectf) (objs : Option (MovingObject × MovingObject)) (g : Vector)
    (hi : intersects r1 r2 = true) (ha : pair_accepts objs) :
    (|mv.y| > |mv.x| → r1.get_right - r2.get_left < cfg.SHIFT_DELTA →
      check_collisions cfg c mv r1 r2 objs g
        = ({ c with right := Constraints.lower c.right r2.get_left }, collides_events objs))
    ∧ (|mv.y| > |mv.x| → ¬ r1.get_right - r2.get_left < cfg.SHIFT_DELTA →
      r2.get_right - r1.get_left < cfg.SHIFT_DELTA →
      check_collisions cfg c mv r1 r2 objs g
        = ({ c with left := Constraints.raise c.left r2.get_right }, collides_events objs))
    ∧ (¬ |mv.y| > |mv.x| → r1.get_bottom - r2.get_top < cfg.SHIFT_DELTA →
      check_collisions cfg c mv r1 r2 objs g
        = ({ c with bottom := Constraints.lower c.bottom r2.get_top }, collides_events objs))
    ∧ (¬ |mv.y| > |mv.x| → ¬ r1.get_bottom - r2.get_top < cfg.SHIFT_DELTA →
      r2.get_bottom - r1.get_top < cfg.SHIFT_DELTA →
      check_collisions cfg c mv r1 r2 objs g
        = ({ c with top := Constraints.raise c.top r2.get_bottom }, collides_events objs)) := by
  unfold check_collisions
  rw [if_neg (by simp [hi])]
  cases objs with
  | none =>
    simp only [Bool.false_eq_true, if_false, collides_events]
    refine ⟨fun h1 h2 => ?_, fun h1 h2 h3 => ?_, fun h1 h2 => ?_, fun h1 h2 h3 => ?_⟩
    · rw [if_pos h1, if_pos h2]; rfl
    · rw [if_pos h1, if_neg h2, if_pos h3]; rfl
    · rw [if_neg h1, if_pos h2]; rfl
    · rw [if_neg h1, if_neg h2, if_pos h3]; rfl
  | some p =>
    obtain ⟨object, other⟩ := p
    obtain ⟨ha1, ha2⟩ := ha
    simp only [ha1, ha2, Bool.not_true, Bool.false_eq_true, if_false, collides_events]
    refine ⟨fun h1 h2 => ?_, fun h1 h2 h3 => ?_, fun h1 h2 => ?_, fun h1 h2 h3 => ?_⟩
    · rw [if_pos h1, if_pos h2]; rfl
    · rw [if_pos h1, if_neg h2, if_pos h3]; rfl
    · rw [if_neg h1, if_pos h2]; rfl
    · rw [if_neg h1, if_neg h2, if_pos h3]; rfl

/-- C22: for intersecting rectangles accepted by both bodies, when `|dy| > |dx|`
and the left penetration is below `SHIFT_DELTA`, `check_collisions` returns after
`min_right` with the left edge of the solid rectangle; when the left one is not
but the right penetration is below `SHIFT_DELTA`, after `max_left` with the right
edge.  When `|dy| > |dx|` does not hold, the same with the top penetration and
`min_bottom` with the top edge, else the bottom penetration and `max_top` with
the bottom edge.  In each case one bound is tightened and nothing else of the
constraint set changes: no hit flag, no bound of the other axis, not the ground
movement; the callbacks are the two `collides` queries, `collision` is not
invoked. -/
theorem check_collisions_shift_out (cfg : Config) (c : Constraints) (mv : Vector)
    (r1 r2 : Rectf) (objs : Option (MovingObject × MovingObject)) (g : Vector)
    (hi : intersects r1 r2 = true) (ha : pair_accepts objs) :
    (|mv.y| > |mv.x| → r1.get_right - r2.get_left < cfg.SHIFT_DELTA →
      check_collisions cfg c mv r1 r2 objs g
        = ({ c with right := Constraints.lower c.right r2.get_left }, collides_events objs))
    ∧ (|mv.y| > |mv.x| → ¬ r1.get_right - r2.get_left < cfg.SHIFT_DELTA →
      r2.get_right - r1.get_left < cfg.SHIFT_DELTA →
      check_collisions cfg c mv r1 r2 objs g
        = ({ c with left := Constraints.raise c.left r2.get_right }, collides_events objs))
    ∧ (¬ |mv.y| > |mv.x| → r1.get_bottom - r2.get_top < cfg.SHIFT_DELTA →
      check_collisions cfg c mv r1 r2 objs g
        = ({ c with bottom := Constraints.lower c.bottom r2.get_top }, collides_events objs))
    ∧ (¬ |mv.y| > |mv.x| → ¬ r1.get_bottom - r2.get_top < cfg.SHIFT_DELTA →
      r2.get_bottom - r1.get_top < cfg.SHIFT_DELTA →
      check_collisions cfg c mv r1 r2 objs g
        = ({ c with top := Constraints.raise c.top r2.get_bottom }, collides_events objs)) :=
  check_collisions_shift_out_cases cfg c mv r1 r2 objs g hi ha

/-- C22 at a body falling past the left edge of a platform: the left penetration
is 4, below `SHIFT_DELTA = 7`. -/
theorem check_collisions_shift_out_witness :
    (|(⟨0, 10⟩ : Vector).y| > |(⟨0, 10⟩ : Vector).x| →
      grazingRect.get_right - originTileBox.get_left < exampleConfig.SHIFT_DELTA →
      check_collisions exampleConfig {} ⟨0, 10⟩ grazingRect originTileBox carrierPair
          Vector.zero
        = ({ ({} : Constraints) with
              right := Constraints.lower ({} : Constraints).right originTileBox.get_left },
            collides_events carrierPair))
    ∧ (|(⟨0, 10⟩ : Vector).y| > |(⟨0, 10⟩ : Vector).x| →
      ¬ grazingRect.get_right - originTileBox.get_left < exampleConfig.SHIFT_DELTA →
      originTileBox.get_right - grazingRect.get_left < exampleConfig.SHIFT_DELTA →
      check_collisions exampleConfig {} ⟨0, 10⟩ grazingRect originTileBox carrierPair
          Vector.zero
        = ({ ({} : Constraints) with
              left := Constraints.raise ({} : Constraints).left originTileBox.get_right },
            collides_events carrierPair))
    ∧ (¬ |(⟨0, 10⟩ : Vector).y| > |(⟨0, 10⟩ : Vector).x| →
      grazingRect.get_bottom - originTileBox.get_top < exampleConfig.SHIFT_DELTA →
      check_collisions exampleConfig {} ⟨0, 10⟩ grazingRect originTileBox carrierPair
          Vector.zero
        = ({ ({} : Constraints) with
              bottom := Constraints.lower ({} : Constraints).bottom originTileBox.get_top },
            collides_events carrierPair))
    ∧ (¬ |(⟨0, 10⟩ : Vector).y| > |(⟨0, 10⟩ : Vector).x| →
      ¬ grazingRect.get_bottom - originTileBox.get_top < exampleConfig.SHIFT_DELTA →
      originTileBox.get_bottom - grazingRect.get_top < exampleConfig.SHIFT_DELTA →
      check_collisions exampleConfig {} ⟨0, 10⟩ grazingRect originTileBox carrierPair
          Vector.zero
        = ({ ({} : Constraints) with
              top := Constraints.raise ({} : Constraints).top originTileBox.get_bottom },
            collides_events carrierPair)) :=
  check_collisions_shift_out exampleConfig {} ⟨0, 10⟩ grazingRect originTileBox carrierPair
    Vector.zero (by decide) ⟨rfl, rfl⟩

/-- The shift-out at the body falling past the left edge: the right bound becomes
the left edge of the platform, 0, and nothing else is set. -/
theorem check_collisions_shift_out_example :
    check_collisions exampleConfig {} ⟨0, 10⟩ grazingRect originTileBox carrierPair Vector.zero
      = ({ right := some 0 },
         [Event.collides 2 1 {}, Event.collides 1 2 {}]) := by
  rw [(check_collisions_shift_out_cases exampleConfig {} ⟨0, 10⟩ grazingRect originTileBox
    carrierPair Vector.zero (by decide) ⟨rfl, rfl⟩).1
    (by norm_num) (by norm_num [grazingRect, originTileBox, exampleConfig, Rectf.get_right,
      Rectf.get_left])]
  rfl

/-! ## Ground movement (C24) -/

/-- C24 (as amended): for intersecting rectangles, with no shift-out, when both
bodies accept the pairing in `collides` and the other body does not answer
`ABORT_MOVE` and has a non-zero movement vector,
`check_collisions` leaves the ground movement of the constraint set equal to the
movement vector of that body, whatever the constraint set and the additional
ground movement passed in. -/
theorem check_collisions_ground_movement (cfg : Config) (c : Constraints) (mv : Vector)
    (r1 r2 : Rectf) (object other : MovingObject) (g : Vector)
    (hi : intersects r1 r2 = true) (ha : pair_accepts (some (object, other)))
    (hc : other_continues (some (object, other)))
    (hs : ¬ shift_out_applies cfg mv r1 r2)
    (hm : other.get_movement ≠ Vector.zero) :
    (check_collisions cfg c mv r1 r2 (some (object, other)) g).1.ground_movement
      = other.get_movement := by
  rw [check_collisions_rest cfg c mv r1 r2 _ g hi ha hc hs, tighten_smaller_ground_movement]
  simp only [with_ground_movement, if_pos hm]

/-- C24 at the falling body on the platform that moves by `(3, 0)`, with a ground
movement `(5, 5)` accumulated before. -/
theorem check_collisions_ground_movement_witness :
    (check_collisions exampleConfig { ground_movement := ⟨5, 5⟩ } ⟨0, 16⟩ landingRect
        originTileBox
        (some (exampleBody 1 COLGROUP_MOVING 8 (-4) 16 16 ⟨0, 16⟩ CONTINUE,
               exampleBody 2 COLGROUP_MOVING_STATIC 0 0 32 32 ⟨3, 0⟩ CONTINUE))
        Vector.zero).1.ground_movement
      = (exampleBody 2 COLGROUP_MOVING_STATIC 0 0 32 32 ⟨3, 0⟩ CONTINUE).get_movement :=
  check_collisions_ground_movement exampleConfig { ground_movement := ⟨5, 5⟩ } ⟨0, 16⟩
    landingRect originTileBox _ _ Vector.zero (by decide) ⟨rfl, rfl⟩
    (by simp [other_continues, exampleBody])
    (by norm_num [shift_out_applies, landingRect, originTileBox, exampleConfig,
      Rectf.get_left, Rectf.get_right, Rectf.get_top, Rectf.get_bottom])
    (by simp [exampleBody, MovingObject.get_movement, Vector.zero])

/-- C24 fails as stated: the body on the platform intersects it, no shift-out
applies, the platform accepts the pairing, answers `CONTINUE` and moves by
`(3, 0)`, but the body itself refuses the pairing in `collides`, and the ground
movement of the constraint set stays `(5, 5)`. -/
theorem check_collisions_ground_movement_counterexample :
    intersects landingRect originTileBox = true
    ∧ ¬ shift_out_applies exampleConfig ⟨0, 16⟩ landingRect originTileBox
    ∧ carrierBody.collides vetoingBody.uid {} = true
    ∧ carrierBody.collision vetoingBody.uid {} ≠ ABORT_MOVE
    ∧ carrierBody.get_movement = ⟨3, 0⟩
    ∧ carrierBody.get_movement ≠ Vector.zero
    ∧ vetoingBody.collides carrierBody.uid {} = false
    ∧ (check_collisions exampleConfig { ground_movement := ⟨5, 5⟩ } ⟨0, 16⟩ landingRect
        originTileBox vetoingPair Vector.zero).1.ground_movement = ⟨5, 5⟩
    ∧ (check_collisions exampleConfig { ground_movement := ⟨5, 5⟩ } ⟨0, 16⟩ landingRect
        originTileBox vetoingPair Vector.zero).1.ground_movement
      ≠ carrierBody.get_movement := by
  have hm : carrierBody.get_movement = ⟨3, 0⟩ := rfl
  refine ⟨by decide, ?_, rfl, ?_, hm, ?_, rfl, ?_, ?_⟩
  · norm_num [shift_out_applies, landingRect, originTileBox, exampleConfig,
      Rectf.get_left, Rectf.get_right, Rectf.get_top, Rectf.get_bottom]
  · exact fun h => HitResponse.noConfusion h
  · rw [hm]; simp [Vector.zero]
  · rw [check_collisions_vetoed]
  · rw [check_collisions_vetoed, hm]
    simp

/-! ## Constraints only tighten (C23) -/

/-- A lower bound is not below itself. -/
theorem lower_bound_le_refl (b : Option ℚ) : lower_bound_le b b := by
  cases b with
  | none => trivial
  | some a => exact le_refl a

/-- An upper bound is not above itself. -/
theorem upper_bound_ge_refl (b : Option ℚ) : upper_bound_ge b b := by
  cases b with
  | none => trivial
  | some a => exact le_refl a

/-- Raising a lower bound does not lower it. -/
theorem lower_bound_le_raise (b : Option ℚ) (v : ℚ) :
    lower_bound_le b (Constraints.raise b v) := by
  cases b with
  | none => trivial
  | some a => exact le_max_left a v

/-- Lowering an upper bound does not raise it. -/
theorem upper_bound_ge_lower (b : Option ℚ) (v : ℚ) :
    upper_bound_ge b (Constraints.lower b v) := by
  cases b with
  | none => trivial
  | some a => exact min_le_left a v

/-- Every flag is kept by the flags themselves. -/
theorem flags_kept_refl (h : CollisionHit) : flags_kept h h :=
  ⟨id, id, id, id, id⟩

/-- A constraint set is a tightening of itself, whatever the ground movement. -/
theorem tightened_same (c c' : Constraints) (h1 : c'.left = c.left) (h2 : c'.right = c.right)
    (h3 : c'.top = c.top) (h4 : c'.bottom = c.bottom) (h5 : c'.hit = c.hit) :
    tightened c c' := by
  unfold tightened
  rw [h1, h2, h3, h4, h5]
  exact ⟨lower_bound_le_refl _, lower_bound_le_refl _, upper_bound_ge_refl _,
    upper_bound_ge_refl _, flags_kept_refl _⟩

/-- The method `min_right` tightens. -/
theorem tightened_min_right (c : Constraints) (v : ℚ) : tightened c (c.min_right v) :=
  ⟨lower_bound_le_refl _, lower_bound_le_refl _, upper_bound_ge_lower _ v,
    upper_bound_ge_refl _, flags_kept_refl _⟩

/-- The method `max_left` tightens. -/
theorem tightened_max_left (c : Constraints) (v : ℚ) : tightened c (c.max_left v) :=
  ⟨lower_bound_le_raise _ v, lower_bound_le_refl _, upper_bound_ge_refl _,
    upper_bound_ge_refl _, flags_kept_refl _⟩

/-- The method `min_bottom` tightens. -/
theorem tightened_min_bottom (c : Constraints) (v : ℚ) : tightened c (c.min_bottom v) :=
  ⟨lower_bound_le_refl _, lower_bound_le_refl _, upper_bound_ge_refl _,
    upper_bound_ge_lower _ v, flags_kept_refl _⟩

/-- The method `max_top` tightens. -/
theorem tightened_max_top (c : Constraints) (v : ℚ) : tightened c (c.max_top v) :=
  ⟨lower_bound_le_refl _, lower_bound_le_raise _ v, upper_bound_ge_refl _,
    upper_bound_ge_refl _, flags_kept_refl _⟩

/-- The last block of `check_collisions` tightens the set it starts from, seen
from any set with the same bounds and flags. -/
theorem tightened_tighten_smaller (c c2 : Constraints) (r2 : Rectf)
    (itop ibottom ileft iright : ℚ)
    (h1 : c2.left = c.left) (h2 : c2.right = c.right) (h3 : c2.top = c.top)
    (h4 : c2.bottom = c.bottom) (h5 : c2.hit = c.hit) :
    tightened c (tighten_smaller c2 r2 itop ibottom ileft iright) := by
  unfold tighten_smaller tightened
  simp only
  split_ifs
  · refine ⟨?_, ?_, ?_, ?_, ?_⟩
    · rw [← h1]; exact lower_bound_le_refl _
    · rw [← h3]; exact lower_bound_le_refl _
    · rw [← h2]; exact upper_bound_ge_refl _
    · rw [← h4]; exact upper_bound_ge_lower _ _
    · rw [← h5]; exact ⟨id, id, id, fun _ => rfl, id⟩
  · refine ⟨?_, ?_, ?_, ?_, ?_⟩
    · rw [← h1]; exact lower_bound_le_refl _
    · rw [← h3]; exact lower_bound_le_raise _ _
    · rw [← h2]; exact upper_bound_ge_refl _
    · rw [← h4]; exact upper_bound_ge_refl _
    · rw [← h5]; exact ⟨id, id, fun _ => rfl, id, id⟩
  · refine ⟨?_, ?_, ?_, ?_, ?_⟩
    · rw [← h1]; exact lower_bound_le_refl _
    · rw [← h3]; exact lower_bound_le_refl _
    · rw [← h2]; exact upper_bound_ge_lower _ _
    · rw [← h4]; exact upper_bound_ge_refl _
    · rw [← h5]; exact ⟨id, fun _ => rfl, id, id, id⟩
  · refine ⟨?_, ?_, ?_, ?_, ?_⟩
    · rw [← h1]; exact lower_bound_le_raise _ _
    · rw [← h3]; exact lower_bound_le_refl _
    · rw [← h2]; exact upper_bound_ge_refl _
    · rw [← h4]; exact upper_bound_ge_refl _
    · rw [← h5]; exact ⟨fun _ => rfl, id, id, id, id⟩

/-- Every call of `check_collisions` tightens. -/
theorem check_collisions_tightened (cfg : Config) (c : Constraints) (mv : Vector)
    (r1 r2 : Rectf) (objs : Option (MovingObject × MovingObject)) (g : Vector) :
    tightened c (check_collisions cfg c mv r1 r2 objs g).1 := by
  unfold check_collisions
  cases objs with
  | none =>
    simp only [Bool.false_eq_true, if_false]
    split_ifs
    · exact tightened_same c c rfl rfl rfl rfl rfl
    · exact tightened_min_right c _
    · exact tightened_max_left c _
    · exact tightened_tighten_smaller c _ r2 _ _ _ _ rfl rfl rfl rfl rfl
    · exact tightened_min_bottom c _
    · exact tightened_max_top c _
    · exact tightened_tighten_smaller c _ r2 _ _ _ _ rfl rfl rfl rfl rfl
  | some p =>
    obtain ⟨object, other⟩ := p
    simp only
    split_ifs
    all_goals first
      | exact tightened_same c _ rfl rfl rfl rfl rfl
      | exact tightened_min_right c _
      | exact tightened_max_left c _
      | exact tightened_min_bottom c _
      | exact tightened_max_top c _
      | exact tightened_tighten_smaller c _ r2 _ _ _ _ rfl rfl rfl rfl rfl

/-- C23: a freshly constructed constraint set has all four bounds at their
infinity, `has_constraints` is false and no flag is set; and every call of
`check_collisions` leaves `left` and `top` at least at their previous values,
`right` and `bottom` at most at their previous values, and every hit flag that
was set still set. -/
theorem constraints_only_tighten (cfg : Config) (c : Constraints) (mv : Vector)
    (r1 r2 : Rectf) (objs : Option (MovingObject × MovingObject)) (g : Vector) :
    (({} : Constraints).left = none ∧ ({} : Constraints).right = none
      ∧ ({} : Constraints).top = none ∧ ({} : Constraints).bottom = none
      ∧ ({} : Constraints).has_constraints = false
      ∧ ({} : Constraints).hit = ⟨false, false, false, false, false⟩)
    ∧ lower_bound_le c.left (check_collisions cfg c mv r1 r2 objs g).1.left
    ∧ lower_bound_le c.top (check_collisions cfg c mv r1 r2 objs g).1.top
    ∧ upper_bound_ge c.right (check_collisions cfg c mv r1 r2 objs g).1.right
    ∧ upper_bound_ge c.bottom (check_collisions cfg c mv r1 r2 objs g).1.bottom
    ∧ flags_kept c.hit (check_collisions cfg c mv r1 r2 objs g).1.hit :=
  ⟨⟨rfl, rfl, rfl, rfl, rfl, rfl⟩, check_collisions_tightened cfg c mv r1 r2 objs g⟩

/-! ## The epsilon of the 50/50 split (C26) -/

/-- The penetration on the side that `get_hit_normal` reports is the smaller of
the vertical and the horizontal penetration. -/
theorem side_penetration_eq_min (r1 r2 : Rectf) :
    side_penetration (get_hit_normal r1 r2 {} Vector.zero).1 r1 r2
      = min (vert_penetration r1 r2) (horiz_penetration r1 r2) := by
  rcases get_hit_normal_cases r1 r2 with ⟨h, hv, hs⟩ | ⟨h, hv, hs⟩ | ⟨h, hv, hs⟩ | ⟨h, hv, hs⟩
  · rw [h, min_eq_left hv.le]
    unfold vert_penetration
    rw [min_eq_left hs.le]
    simp [side_penetration]
  · rw [h, min_eq_left hv.le]
    unfold vert_penetration
    rw [min_eq_right (not_lt.1 hs)]
    simp [side_penetration]
  · rw [h, min_eq_right (not_lt.1 hv)]
    unfold horiz_penetration
    rw [min_eq_left hs.le]
    simp [side_penetration]
  · rw [h, min_eq_right (not_lt.1 hv)]
    unfold horiz_penetration
    rw [min_eq_right (not_lt.1 hs)]
    simp [side_penetration]

/-- Moving the rectangles apart by `(1/2 + d) * n` each leaves, on the side that
was hit, the penetration `-2 * d * p`. -/
theorem side_penetration_move_both (d : ℚ) (r1 r2 : Rectf) :
    side_penetration (get_hit_normal r1 r2 {} Vector.zero).1
        (r1.move (((get_hit_normal r1 r2 {} Vector.zero).2).scale (1 / 2 + d)).neg)
        (r2.move (((get_hit_normal r1 r2 {} Vector.zero).2).scale (1 / 2 + d)))
      = -2 * d * side_penetration (get_hit_normal r1 r2 {} Vector.zero).1 r1 r2 := by
  rcases get_hit_normal_cases r1 r2 with ⟨h, -, -⟩ | ⟨h, -, -⟩ | ⟨h, -, -⟩ | ⟨h, -, -⟩ <;>
    rw [h] <;>
    simp [side_penetration, Rectf.move, Vector.add, Vector.scale, Vector.neg,
      Rectf.get_bottom, Rectf.get_top, Rectf.get_left, Rectf.get_right] <;> ring

/-- Rectangles with a negative penetration on the side that was hit do not
intersect. -/
theorem intersects_false_of_side (r1 r2 r1' r2' : Rectf)
    (h : side_penetration (get_hit_normal r1 r2 {} Vector.zero).1 r1' r2' < 0) :
    intersects r1' r2' = false := by
  rcases get_hit_normal_cases r1 r2 with ⟨e, -, -⟩ | ⟨e, -, -⟩ | ⟨e, -, -⟩ | ⟨e, -, -⟩ <;>
    rw [e] at h <;>
    simp only [side_penetration, Rectf.get_bottom, Rectf.get_top, Rectf.get_left,
      Rectf.get_right, Bool.false_eq_true, if_false, if_true] at h <;>
    unfold intersects <;> split_ifs with h1 h2 <;> first
      | rfl
      | (exfalso; push_neg at h1 h2; linarith [h1.1, h1.2, h2.1, h2.2])

/-- C26: for intersecting destinations with a strictly positive smaller
penetration `p`, when both bodies accept and both answer CONTINUE and
`DELTA > 0`, the penetration of the two destinations on the side that was hit is
`-2 * DELTA * p` after `collision_object`, so it is negative and the two
destinations do not intersect any more. -/
theorem continue_split_separates (cfg : Config) (o1 o2 : MovingObject)
    (hi : intersects o1.dest o2.dest = true)
    (hc1 : o1.collides o2.uid (pair_hit o1 o2) = true)
    (hc2 : o2.collides o1.uid (pair_hit o1 o2).swapped = true)
    (hr1 : o1.collision o2.uid (pair_hit o1 o2) = CONTINUE)
    (hr2 : o2.collision o1.uid (pair_hit o1 o2).swapped = CONTINUE)
    (hd : 0 < cfg.DELTA)
    (hp : 0 < min (vert_penetration o1.dest o2.dest) (horiz_penetration o1.dest o2.dest)) :
    side_penetration (pair_hit o1 o2) (collision_object cfg o1 o2).1.dest
        (collision_object cfg o1 o2).2.1.dest
      = -2 * cfg.DELTA
          * min (vert_penetration o1.dest o2.dest) (horiz_penetration o1.dest o2.dest)
    ∧ side_penetration (pair_hit o1 o2) (collision_object cfg o1 o2).1.dest
        (collision_object cfg o1 o2).2.1.dest < 0
    ∧ intersects (collision_object cfg o1 o2).1.dest (collision_object cfg o1 o2).2.1.dest
      = false := by
  obtain ⟨e1, e2⟩ := collision_object_continue_both cfg o1 o2 hi hc1 hc2 hr1 hr2
  have h1 : side_penetration (pair_hit o1 o2) (collision_object cfg o1 o2).1.dest
      (collision_object cfg o1 o2).2.1.dest
      = -2 * cfg.DELTA
          * min (vert_penetration o1.dest o2.dest) (horiz_penetration o1.dest o2.dest) := by
    rw [e1, e2, ← side_penetration_eq_min]
    exact side_penetration_move_both cfg.DELTA o1.dest o2.dest
  have h2 : side_penetration (pair_hit o1 o2) (collision_object cfg o1 o2).1.dest
      (collision_object cfg o1 o2).2.1.dest < 0 := by
    rw [h1]
    nlinarith [mul_pos hd hp]
  exact ⟨h1, h2, intersects_false_of_side o1.dest o2.dest _ _ h2⟩

/-- C26 at the two bodies of the examples that overlap by 10 along X: the
penetration left is `-2 * 0.002 * 10`. -/
theorem continue_split_separates_witness :
    side_penetration (pair_hit (overlapA CONTINUE) (overlapB CONTINUE))
        (collision_object exampleConfig (overlapA CONTINUE) (overlapB CONTINUE)).1.dest
        (collision_object exampleConfig (overlapA CONTINUE) (overlapB CONTINUE)).2.1.dest
      = -2 * exampleConfig.DELTA
          * min (vert_penetration (overlapA CONTINUE).dest (overlapB CONTINUE).dest)
              (horiz_penetration (overlapA CONTINUE).dest (overlapB CONTINUE).dest)
    ∧ side_penetration (pair_hit (overlapA CONTINUE) (overlapB CONTINUE))
        (collision_object exampleConfig (overlapA CONTINUE) (overlapB CONTINUE)).1.dest
        (collision_object exampleConfig (overlapA CONTINUE) (overlapB CONTINUE)).2.1.dest < 0
    ∧ intersects
        (collision_object exampleConfig (overlapA CONTINUE) (overlapB CONTINUE)).1.dest
        (collision_object exampleConfig (overlapA CONTINUE) (overlapB CONTINUE)).2.1.dest
      = false :=
  continue_split_separates exampleConfig (overlapA CONTINUE) (overlapB CONTINUE)
    (by norm_num [intersects, overlapA, overlapB, exampleBody]) rfl rfl rfl rfl
    (by norm_num [exampleConfig])
    (by norm_num [vert_penetration, horiz_penetration, overlapA, overlapB, exampleBody,
      Rectf.get_bottom, Rectf.get_top, Rectf.get_left, Rectf.get_right])

/-! ## The movement test as a half-plane test (C28) -/

/-- The quadrant and tangent analysis on the mirrored components equals the
half-plane test, for a positive tangent. -/
theorem quadrants_eq_half_plane (mx my t : ℚ) (ht : 0 < t) :
    (if mx ≥ 0 ∧ my ≥ 0 then some MV_SOLID
      else if mx ≤ 0 ∧ my ≤ 0 then some MV_NON_SOLID
      else if ¬ (mx ≠ 0) then none
      else if ¬ (my ≠ 0) then none
      else
        if mx > 0 then
          if ¬ (my < 0) then none
          else if (-1) * my / mx ≤ t then some MV_SOLID else some MV_NON_SOLID
        else if mx < 0 then
          if ¬ (my > 0) then none
          else if (-1) * my / mx ≥ t then some MV_SOLID else some MV_NON_SOLID
        else none)
      = some (if t * mx + my ≥ 0 then MV_SOLID else MV_NON_SOLID) := by
  by_cases h1 : mx ≥ 0 ∧ my ≥ 0
  · rw [if_pos h1, if_pos (by nlinarith [mul_nonneg ht.le h1.1, h1.2])]
  · rw [if_neg h1]
    by_cases h2 : mx ≤ 0 ∧ my ≤ 0
    · rw [if_pos h2, if_neg]
      intro hc
      apply h1
      have hx : t * mx ≤ 0 := mul_nonpos_of_nonneg_of_nonpos ht.le h2.1
      have hy : my = 0 := le_antisymm h2.2 (by linarith)
      have hx0 : t * mx = 0 := le_antisymm hx (by linarith)
      have hmx : mx = 0 := by
        rcases mul_eq_zero.1 hx0 with h | h
        · exact absurd h ht.ne'
        · exact h
      exact ⟨hmx.ge, hy.ge⟩
    · rw [if_neg h2]
      have hx : mx ≠ 0 := by
        intro h0
        rcases le_total my 0 with h | h
        · exact h2 ⟨h0.le, h⟩
        · exact h1 ⟨h0.ge, h⟩
      have hy : my ≠ 0 := by
        intro h0
        rcases le_total mx 0 with h | h
        · exact h2 ⟨h, h0.le⟩
        · exact h1 ⟨h, h0.ge⟩
      rw [if_neg (not_not.2 hx), if_neg (not_not.2 hy)]
      by_cases h3 : mx > 0
      · have h4 : my < 0 := by
          by_contra hc
          exact h1 ⟨h3.le, not_lt.1 hc⟩
        rw [if_pos h3, if_neg (not_not.2 h4)]
        have e : (-1) * my / mx ≤ t ↔ t * mx + my ≥ 0 := by
          rw [div_le_iff₀ h3]
          constructor <;> intro h <;> linarith
        by_cases h5 : t * mx + my ≥ 0
        · rw [if_pos (e.2 h5), if_pos h5]
        · rw [if_neg (fun h => h5 (e.1 h)), if_neg h5]
      · have h5 : mx < 0 := lt_of_le_of_ne (not_lt.1 h3) hx
        have h4 : my > 0 := by
          by_contra hc
          exact h2 ⟨h5.le, not_lt.1 hc⟩
        rw [if_neg h3, if_pos h5, if_neg (not_not.2 h4)]
        have e : (-1) * my / mx ≥ t ↔ t * mx + my ≥ 0 := by
          rw [ge_iff_le, le_div_iff_of_neg h5]
          constructor <;> intro h <;> linarith
        by_cases h6 : t * mx + my ≥ 0
        · rw [if_pos (e.2 h6), if_pos h6]
        · rw [if_neg (fun h => h6 (e.1 h)), if_neg h6]

/-- The tangent of the half-plane test is positive. -/
theorem slope_tangent_pos (slope_info : Nat) : 0 < slope_tangent slope_info := by
  unfold slope_tangent
  split_ifs <;> norm_num

/-- The switch on the direction of `check_movement_unisolid` computes the mirrored
movement. -/
theorem direction_switch_eq (movement : Vector) (slope_info : Nat) :
    (if slope_info &&& AATriangle.DIRECTION_MASK = AATriangle.SOUTHEAST then
        (movement.x, movement.y)
      else if slope_info &&& AATriangle.DIRECTION_MASK = AATriangle.SOUTHWEST then
        (movement.x * (-1), movement.y)
      else if slope_info &&& AATriangle.DIRECTION_MASK = AATriangle.NORTHEAST then
        (movement.x, movement.y * (-1))
      else if slope_info &&& AATriangle.DIRECTION_MASK = AATriangle.NORTHWEST then
        (movement.x * (-1), movement.y * (-1))
      else (movement.x, movement.y))
      = ((mirrored_movement movement slope_info).x, (mirrored_movement movement slope_info).y) := by
  unfold mirrored_movement
  rcases slope_direction_cases slope_info with h | h | h | h <;> rw [h] <;>
    simp [AATriangle.SOUTHWEST, AATriangle.NORTHEAST, AATriangle.SOUTHEAST,
      AATriangle.NORTHWEST]

/-- On a slope tile `check_movement_unisolid` is the half-plane test. -/
theorem check_movement_unisolid_eq (movement : Vector) (tile : Tile)
    (hsl : tile.getAttributes &&& Tile.SLOPE ≠ 0) :
    check_movement_unisolid movement tile = some (movement_half_plane movement tile) := by
  have hq := quadrants_eq_half_plane (mirrored_movement movement tile.getData).x
    (mirrored_movement movement tile.getData).y (slope_tangent tile.getData)
    (slope_tangent_pos tile.getData)
  unfold check_movement_unisolid
  rw [if_neg hsl]
  simp only [direction_switch_eq]
  unfold movement_half_plane
  rw [← hq]
  rfl

/-- C28: on every slope tile and for every movement vector, the quadrant and
tangent analysis of `check_movement_unisolid` returns the value of the single
half-plane test: solid exactly when `t * mx' + my' >= 0`, with `mx'` the `x`
component negated for `SOUTHWEST` and `NORTHWEST`, `my'` the `y` component
negated for `NORTHEAST` and `NORTHWEST`, and `t` the tangent 0.5, 2 or 1. -/
theorem movement_test_half_plane (movement : Vector) (tile : Tile)
    (hsl : tile.getAttributes &&& Tile.SLOPE ≠ 0) :
    check_movement_unisolid movement tile = some (movement_half_plane movement tile)
    ∧ (check_movement_unisolid movement tile = some MV_SOLID ↔
        slope_tangent tile.getData * (mirrored_movement movement tile.getData).x
          + (mirrored_movement movement tile.getData).y ≥ 0)
    ∧ (check_movement_unisolid movement tile = some MV_NON_SOLID ↔
        slope_tangent tile.getData * (mirrored_movement movement tile.getData).x
          + (mirrored_movement movement tile.getData).y < 0) := by
  have h := check_movement_unisolid_eq movement tile hsl
  refine ⟨h, ?_, ?_⟩
  · rw [h]
    unfold movement_half_plane
    split_ifs with hc
    · exact ⟨fun _ => hc, fun _ => rfl⟩
    · exact ⟨fun e => absurd (Option.some.inj e) (by decide), fun e => absurd e hc⟩
  · rw [h]
    unfold movement_half_plane
    split_ifs with hc
    · exact ⟨fun e => absurd (Option.some.inj e) (by decide),
        fun e => absurd hc (not_le.2 e)⟩
    · exact ⟨fun _ => not_le.1 hc, fun _ => rfl⟩

/-- C28 at a `SOUTHWEST` slope with the left deformation and the movement
`(3, -5)`: `2 * (-3) + (-5) < 0`, not solid. -/
theorem movement_test_half_plane_witness :
    check_movement_unisolid ⟨3, -5⟩
        ⟨Tile.SOLID ||| Tile.UNISOLID ||| Tile.SLOPE, AATriangle.SOUTHWEST ||| DEFORM_LEFT⟩
      = some (movement_half_plane ⟨3, -5⟩
          ⟨Tile.SOLID ||| Tile.UNISOLID ||| Tile.SLOPE, AATriangle.SOUTHWEST ||| DEFORM_LEFT⟩)
    ∧ (check_movement_unisolid ⟨3, -5⟩
        ⟨Tile.SOLID ||| Tile.UNISOLID ||| Tile.SLOPE, AATriangle.SOUTHWEST ||| DEFORM_LEFT⟩
      = some MV_SOLID ↔
        slope_tangent (Tile.getData
            ⟨Tile.SOLID ||| Tile.UNISOLID ||| Tile.SLOPE, AATriangle.SOUTHWEST ||| DEFORM_LEFT⟩)
          * (mirrored_movement ⟨3, -5⟩ (Tile.getData
            ⟨Tile.SOLID ||| Tile.UNISOLID ||| Tile.SLOPE,
              AATriangle.SOUTHWEST ||| DEFORM_LEFT⟩)).x
          + (mirrored_movement ⟨3, -5⟩ (Tile.getData
            ⟨Tile.SOLID ||| Tile.UNISOLID ||| Tile.SLOPE,
              AATriangle.SOUTHWEST ||| DEFORM_LEFT⟩)).y ≥ 0)
    ∧ (check_movement_unisolid ⟨3, -5⟩
        ⟨Tile.SOLID ||| Tile.UNISOLID ||| Tile.SLOPE, AATriangle.SOUTHWEST ||| DEFORM_LEFT⟩
      = some MV_NON_SOLID ↔
        slope_tangent (Tile.getData
            ⟨Tile.SOLID ||| Tile.UNISOLID ||| Tile.SLOPE, AATriangle.SOUTHWEST ||| DEFORM_LEFT⟩)
          * (mirrored_movement ⟨3, -5⟩ (Tile.getData
            ⟨Tile.SOLID ||| Tile.UNISOLID ||| Tile.SLOPE,
              AATriangle.SOUTHWEST ||| DEFORM_LEFT⟩)).x
          + (mirrored_movement ⟨3, -5⟩ (Tile.getData
            ⟨Tile.SOLID ||| Tile.UNISOLID ||| Tile.SLOPE,
              AATriangle.SOUTHWEST ||| DEFORM_LEFT⟩)).y < 0) :=
  movement_test_half_plane ⟨3, -5⟩
    ⟨Tile.SOLID ||| Tile.UNISOLID ||| Tile.SLOPE, AATriangle.SOUTHWEST ||| DEFORM_LEFT⟩
    (by decide)

/-! ## The unisolid checks on the 20 shapes (C27) -/

/-- The value of `check_position_unisolid`, when it returns, is 0 or 1. -/
theorem check_position_unisolid_values (cfg : Config) (obj_bbox tile_bbox : Rectf) (tile : Tile)
    (v : Int) (h : check_position_unisolid cfg obj_bbox tile_bbox tile = some v) :
    v = POS_NON_SOLID ∨ v = POS_SOLID := by
  unfold check_position_unisolid at h
  split_ifs at h with h1 h2
  · exact Or.inr (Option.some.inj h).symm
  · exact Or.inl (Option.some.inj h).symm
  · cases hl : slope_line tile_bbox tile.getData with
    | none => simp only [hl] at h; exact absurd h (by simp)
    | some l =>
      obtain ⟨a, b, c⟩ := l
      simp only [hl] at h
      split_ifs at h <;> first
        | exact Or.inr (Option.some.inj h).symm
        | exact Or.inl (Option.some.inj h).symm

/-- The value of `check_movement_unisolid` is 0 or 1. -/
theorem check_movement_unisolid_values (movement : Vector) (tile : Tile) :
    check_movement_unisolid movement tile = some MV_NON_SOLID
      ∨ check_movement_unisolid movement tile = some MV_SOLID := by
  by_cases hsl : tile.getAttributes &&& Tile.SLOPE = 0
  · unfold check_movement_unisolid
    rw [if_pos hsl]
    split_ifs
    · exact Or.inr rfl
    · exact Or.inl rfl
  · rw [check_movement_unisolid_eq movement tile hsl]
    unfold movement_half_plane
    split_ifs
    · exact Or.inr rfl
    · exact Or.inl rfl

/-- C27: on a tile whose slope code has one of the five deformations (the
direction bits always select one of the four directions), no assertion of the two
unisolid checks fails, for every movement vector and every pair of rectangles:
`check_movement_unisolid` returns 0 or 1, `check_position_unisolid` returns 0 or
1, and the first switch of `check_position_unisolid` does not reach its default
branch. -/
theorem unisolid_checks_total (cfg : Config) (movement : Vector) (obj_bbox tile_bbox : Rectf)
    (tile : Tile)
    (hdef : tile.getData &&& AATriangle.DEFORM_MASK = 0
      ∨ tile.getData &&& AATriangle.DEFORM_MASK = DEFORM_BOTTOM
      ∨ tile.getData &&& AATriangle.DEFORM_MASK = DEFORM_TOP
      ∨ tile.getData &&& AATriangle.DEFORM_MASK = DEFORM_LEFT
      ∨ tile.getData &&& AATriangle.DEFORM_MASK = DEFORM_RIGHT) :
    (check_movement_unisolid movement tile = some MV_NON_SOLID
      ∨ check_movement_unisolid movement tile = some MV_SOLID)
    ∧ (check_position_unisolid cfg obj_bbox tile_bbox tile = some POS_NON_SOLID
      ∨ check_position_unisolid cfg obj_bbox tile_bbox tile = some POS_SOLID)
    ∧ (∃ tile_x tile_y gradient,
        slope_line tile_bbox tile.getData = some (tile_x, tile_y, gradient)) := by
  have hv : slope_code_valid tile.getData := (slope_code_valid_iff _).2 hdef
  refine ⟨check_movement_unisolid_values movement tile, ?_, ?_⟩
  · obtain ⟨v, h⟩ := check_position_unisolid_some cfg obj_bbox tile_bbox tile (fun _ => hv)
    rcases check_position_unisolid_values cfg obj_bbox tile_bbox tile v h with e | e
    · exact Or.inl (by rw [h, e])
    · exact Or.inr (by rw [h, e])
  · obtain ⟨⟨a, b, c⟩, h⟩ := slope_line_isSome tile_bbox tile.getData hv
    exact ⟨a, b, c, h⟩

/-- C27 at a `NORTHEAST` slope with the bottom deformation. -/
theorem unisolid_checks_total_witness :
    (check_movement_unisolid ⟨-2, 7⟩
        ⟨Tile.SOLID ||| Tile.UNISOLID ||| Tile.SLOPE, AATriangle.NORTHEAST ||| DEFORM_BOTTOM⟩
        = some MV_NON_SOLID
      ∨ check_movement_unisolid ⟨-2, 7⟩
        ⟨Tile.SOLID ||| Tile.UNISOLID ||| Tile.SLOPE, AATriangle.NORTHEAST ||| DEFORM_BOTTOM⟩
        = some MV_SOLID)
    ∧ (check_position_unisolid exampleConfig landingRect originTileBox
        ⟨Tile.SOLID ||| Tile.UNISOLID ||| Tile.SLOPE, AATriangle.NORTHEAST ||| DEFORM_BOTTOM⟩
        = some POS_NON_SOLID
      ∨ check_position_unisolid exampleConfig landingRect originTileBox
        ⟨Tile.SOLID ||| Tile.UNISOLID ||| Tile.SLOPE, AATriangle.NORTHEAST ||| DEFORM_BOTTOM⟩
        = some POS_SOLID)
    ∧ (∃ tile_x tile_y gradient,
        slope_line originTileBox (Tile.getData
          ⟨Tile.SOLID ||| Tile.UNISOLID ||| Tile.SLOPE, AATriangle.NORTHEAST ||| DEFORM_BOTTOM⟩)
          = some (tile_x, tile_y, gradient)) :=
  unisolid_checks_total exampleConfig ⟨-2, 7⟩ landingRect originTileBox
    ⟨Tile.SOLID ||| Tile.UNISOLID ||| Tile.SLOPE, AATriangle.NORTHEAST ||| DEFORM_BOTTOM⟩
    (by decide)

/-! ## Resolution translates, it does not resize (C29) -/

/-- A translation keeps width and height. -/
theorem move_size (r : Rectf) (v : Vector) (w h : ℚ) (hs : has_size r w h) :
    has_size (r.move v) w h := by
  obtain ⟨h1, h2⟩ := hs
  unfold has_size Rectf.get_width Rectf.get_height at *
  simp only [Rectf.move, Vector.add]
  constructor <;> linarith

/-- The vertical clamp keeps the width and gives the height `oheight`. -/
theorem apply_vertical_size (cfg : Config) (c : Constraints) (dest : Rectf) (w oheight : ℚ)
    (hs : has_size dest w oheight) : has_size (apply_vertical cfg c dest oheight) w oheight := by
  obtain ⟨h1, h2⟩ := hs
  unfold apply_vertical
  cases c.bottom with
  | some b =>
    simp only [has_size, Rectf.get_width, Rectf.get_height] at *
    exact ⟨h1, by ring⟩
  | none =>
    cases c.top with
    | some t =>
      simp only [has_size, Rectf.get_width, Rectf.get_height] at *
      exact ⟨h1, by ring⟩
    | none => exact ⟨h1, h2⟩

/-- The horizontal clamp keeps the height and gives the width `owidth`. -/
theorem apply_horizontal_size (cfg : Config) (c : Constraints) (dest : Rectf) (owidth h : ℚ)
    (uid : Nat) (hs : has_size dest owidth h) :
    has_size (apply_horizontal cfg c dest owidth uid).1 owidth h := by
  obtain ⟨h1, h2⟩ := hs
  unfold apply_horizontal
  cases c.left with
  | none =>
    cases c.right with
    | none => exact ⟨h1, h2⟩
    | some r =>
      simp only [has_size, Rectf.get_width, Rectf.get_height] at *
      exact ⟨by ring, h2⟩
  | some l =>
    cases c.right with
    | none =>
      simp only [has_size, Rectf.get_width, Rectf.get_height] at *
      exact ⟨by ring, h2⟩
    | some r =>
      simp only
      split_ifs
      · exact ⟨h1, h2⟩
      · simp only [has_size, Rectf.get_width, Rectf.get_height] at *
        exact ⟨by ring, h2⟩

/-- The vertical loop keeps the size of the destination. -/
theorem vertical_loop_size (cfg : Config) (sector : Sector) (movement : Vector)
    (object : MovingObject) (w oheight : ℚ) :
    ∀ (n : Nat) (c : Constraints) (dest : Rectf) (r : Constraints × Rectf × List Event),
      has_size dest w oheight →
      vertical_loop cfg sector movement object oheight n c dest = some r →
      has_size r.2.1 w oheight := by
  intro n
  induction n with
  | zero =>
    intro c dest r hs h
    simp only [vertical_loop, Option.some.injEq] at h
    subst h
    exact hs
  | succ n ih =>
    intro c dest r hs h
    unfold vertical_loop at h
    cases h1 : collision_static cfg sector c ⟨0, movement.y⟩ dest object with
    | none => simp [h1] at h
    | some p =>
      obtain ⟨c1, ev1⟩ := p
      simp only [h1] at h
      split_ifs at h
      · simp only [Option.some.injEq] at h
        subst h
        exact hs
      · cases h2 : vertical_loop cfg sector movement object oheight n c1
            (apply_vertical cfg c1 dest oheight) with
        | none => simp [h2] at h
        | some q =>
          obtain ⟨c2, d2, ev2⟩ := q
          simp only [h2, Option.some.injEq] at h
          subst h
          exact ih c1 _ (c2, d2, ev2) (apply_vertical_size cfg c1 dest w oheight hs) h2

/-- The horizontal loop keeps the size of the destination. -/
theorem horizontal_loop_size (cfg : Config) (sector : Sector) (movement : Vector)
    (object : MovingObject) (owidth h : ℚ) :
    ∀ (n : Nat) (c : Constraints) (dest : Rectf) (r : Constraints × Rectf × List Event),
      has_size dest owidth h →
      horizontal_loop cfg sector movement object owidth n c dest = some r →
      has_size r.2.1 owidth h := by
  intro n
  induction n with
  | zero =>
    intro c dest r hs hl
    simp only [horizontal_loop, Option.some.injEq] at hl
    subst hl
    exact hs
  | succ n ih =>
    intro c dest r hs hl
    unfold horizontal_loop at hl
    cases h1 : collision_static cfg sector c movement dest object with
    | none => simp [h1] at hl
    | some p =>
      obtain ⟨c1, ev1⟩ := p
      simp only [h1] at hl
      split_ifs at hl
      · simp only [Option.some.injEq] at hl
        subst hl
        exact hs
      · cases h2 : horizontal_loop cfg sector movement object owidth n c1
            (apply_horizontal cfg c1 dest owidth object.uid).1 with
        | none => simp [h2] at hl
        | some q =>
          obtain ⟨c2, d2, ev2⟩ := q
          simp only [h2, Option.some.injEq] at hl
          subst hl
          exact ih c1 _ (c2, d2, ev2)
            (apply_horizontal_size cfg c1 dest owidth h object.uid hs) h2

/-- The static phase returns a destination of the size of the bounding box, if it
was given one. -/
theorem collision_static_constrains_size (cfg : Config) (sector : Sector)
    (object o : MovingObject) (ev : List Event)
    (hs : has_size object.dest object.get_bbox.get_width object.get_bbox.get_height)
    (h : collision_static_constrains cfg sector object = some (o, ev)) :
    has_size o.dest object.get_bbox.get_width object.get_bbox.get_height := by
  unfold collision_static_constrains at h
  simp only at h
  cases hv : vertical_loop cfg sector object.get_movement object object.get_bbox.get_height 2
      {} object.dest with
  | none => simp [hv] at h
  | some rv =>
    obtain ⟨cv, d1, ev1⟩ := rv
    have s1 := vertical_loop_size cfg sector object.get_movement object
      object.get_bbox.get_width object.get_bbox.get_height 2 {} object.dest _ hs hv
    simp only [hv] at h
    have s2 : has_size (if cv.has_constraints = true ∧ cv.hit.bottom = true then
        d1.move cv.ground_movement else d1)
        object.get_bbox.get_width object.get_bbox.get_height := by
      split_ifs
      · exact move_size _ _ _ _ s1
      · exact s1
    cases hh : horizontal_loop cfg sector object.get_movement object
        object.get_bbox.get_width 2 {}
        (if cv.has_constraints = true ∧ cv.hit.bottom = true then d1.move cv.ground_movement
          else d1) with
    | none => simp [hh] at h
    | some rh =>
      obtain ⟨ch, d3, ev3⟩ := rh
      have s3 := horizontal_loop_size cfg sector object.get_movement object
        object.get_bbox.get_width object.get_bbox.get_height 2 {} _ _ s2 hh
      simp only [hh] at h
      cases hf : collision_static cfg sector {} object.get_movement d3 object with
      | none => simp [hf] at h
      | some rf =>
        obtain ⟨cf, ev5⟩ := rf
        simp only [hf, Option.some.injEq, Prod.mk.injEq] at h
        obtain ⟨ho, -⟩ := h
        subst ho
        exact s3


/-- Part 1 relates every body of the index to its state afterwards by any
relation that is reflexive and holds across `collision_static_constrains`. -/
theorem part1_rel (cfg : Config) (solid_tilemaps : List TileMap)
    (R : MovingObject → MovingObject → Prop) (hrefl : ∀ a, R a a)
    (hstep : ∀ sector object o ev,
      collision_static_constrains cfg sector object = some (o, ev) → R object o) :
    ∀ (todo done l : List MovingObject) (ev : List Event),
      part1 cfg solid_tilemaps done todo = some (l, ev) →
      ∃ todo', l = done ++ todo' ∧ List.Forall₂ R todo todo' := by
  intro todo
  induction todo with
  | nil =>
    intro done l ev h
    simp only [part1, Option.some.injEq, Prod.mk.injEq] at h
    exact ⟨[], by simp [h.1], List.Forall₂.nil⟩
  | cons a rest ih =>
    intro done l ev h
    unfold part1 at h
    by_cases he : (!static_eligible a) = true
    · rw [if_pos he] at h
      obtain ⟨todo', h1, h2⟩ := ih (done ++ [a]) l ev h
      exact ⟨a :: todo', by simp [h1], List.Forall₂.cons (hrefl a) h2⟩
    · rw [if_neg he] at h
      cases hc : collision_static_constrains cfg ⟨done ++ a :: rest, solid_tilemaps⟩ a with
      | none => simp [hc] at h
      | some r =>
        obtain ⟨o1, ev1⟩ := r
        simp only [hc] at h
        cases hp : part1 cfg solid_tilemaps (done ++ [o1]) rest with
        | none => simp [hp] at h
        | some r2 =>
          obtain ⟨l2, ev2⟩ := r2
          simp only [hp, Option.some.injEq, Prod.mk.injEq] at h
          obtain ⟨todo', h1, h2⟩ := ih (done ++ [o1]) l2 ev2 hp
          exact ⟨o1 :: todo', by rw [← h.1, h1]; simp,
            List.Forall₂.cons (hstep _ a o1 ev1 hc) h2⟩

/-- Writing at a position an element related to the one of the other list keeps
the lists pointwise related. -/
theorem forall₂_set {α β : Type} {R : α → β → Prop} {l : List α} {m : List β}
    (h : List.Forall₂ R l m) (i : Nat) (x : β) (hx : ∀ a, l[i]? = some a → R a x) :
    List.Forall₂ R l (m.set i x) := by
  induction h generalizing i with
  | nil => exact List.Forall₂.nil
  | @cons a b l m hab _ ih =>
    cases i with
    | zero => exact List.Forall₂.cons (hx a (by simp)) ‹_›
    | succ i =>
      exact List.Forall₂.cons hab (ih i (fun a' ha' => hx a' (by simpa using ha')))

/-- A body is a translation of itself. -/
theorem translated_refl (a : MovingObject) : translated a a := ⟨rfl, rfl, rfl⟩

/-- Translations compose. -/
theorem translated_trans (a b c : MovingObject) (h1 : translated a b) (h2 : translated b c) :
    translated a c := by
  obtain ⟨b1, w1, e1⟩ := h1
  obtain ⟨b2, w2, e2⟩ := h2
  exact ⟨b2.trans b1, w2.trans w1, e2.trans e1⟩

/-- Changing the destination to one of the same size is a translation. -/
theorem translated_move (a : MovingObject) (v : Vector) :
    translated a { a with dest := a.dest.move v } :=
  ⟨rfl, move_size a.dest v _ _ ⟨rfl, rfl⟩⟩

/-- The body-vs-body resolver translates both destinations and leaves both
bounding boxes. -/
theorem collision_object_translated (cfg : Config) (o1 o2 : MovingObject) :
    translated o1 (collision_object cfg o1 o2).1
    ∧ translated o2 (collision_object cfg o1 o2).2.1 := by
  unfold collision_object
  simp only
  split_ifs <;>
    first
    | exact ⟨translated_refl _, translated_refl _⟩
    | exact ⟨translated_move _ _, translated_move _ _⟩
    | exact ⟨translated_move _ _, translated_refl _⟩
    | exact ⟨translated_refl _, translated_move _ _⟩

/-- The inner loop body of part 3 translates. -/
theorem moving_pair_translated (cfg : Config) (a b : MovingObject) :
    translated a (moving_pair cfg a b).1 ∧ translated b (moving_pair cfg a b).2.1 := by
  unfold moving_pair
  split_ifs
  · exact ⟨translated_refl _, translated_refl _⟩
  · exact collision_object_translated cfg a b

/-- A step of part 3 keeps every body a translation of the body it was. -/
theorem pair_step_translated (cfg : Config) (l : List MovingObject) (i i2 : Nat)
    (st : List MovingObject × List Event) (h : List.Forall₂ translated l st.1) :
    List.Forall₂ translated l (pair_step (moving_pair cfg) i i2 st).1 := by
  unfold pair_step
  cases ha : st.1[i]? with
  | none => simpa using h
  | some a =>
    cases hb : st.1[i2]? with
    | none => simpa using h
    | some b =>
      simp only
      obtain ⟨t1, t2⟩ := moving_pair_translated cfg a b
      apply forall₂_set (forall₂_set h i _ _) i2
      · intro a0 h0
        obtain ⟨b', hb', hr⟩ := (forall₂_getElem? h i2).1 a0 h0
        rw [hb] at hb'
        rw [← Option.some.inj hb'] at hr
        exact translated_trans _ _ _ hr t2
      · intro a0 h0
        obtain ⟨a', ha', hr⟩ := (forall₂_getElem? h i).1 a0 h0
        rw [ha] at ha'
        rw [← Option.some.inj ha'] at hr
        exact translated_trans _ _ _ hr t1

/-- Part 3 returns every body as a translation of the body it was. -/
theorem part3_translated (cfg : Config) (l : List MovingObject) :
    List.Forall₂ translated l (part3 cfg l).1 := by
  unfold part3
  apply foldl_invariant (fun st : List MovingObject × List Event =>
    List.Forall₂ translated l st.1)
  · exact List.forall₂_same.2 (fun a _ => translated_refl a)
  · intro st i hst
    cases ho : st.1[i]? with
    | none => simpa using hst
    | some o =>
      simp only
      split_ifs
      · exact hst
      · apply foldl_invariant (fun st : List MovingObject × List Event =>
          List.Forall₂ translated l st.1)
        · exact hst
        · intro st2 i2 hst2
          exact pair_step_translated cfg l i i2 st2 hst2


/-- Pointwise relations compose along a middle list. -/
theorem forall₂_comp {α β γ : Type} {R : α → β → Prop} {S : β → γ → Prop} {T : α → γ → Prop}
    (hT : ∀ a b c, R a b → S b c → T a c) {l : List α} {m : List β} {n : List γ}
    (h1 : List.Forall₂ R l m) (h2 : List.Forall₂ S m n) : List.Forall₂ T l n := by
  induction h1 generalizing n with
  | nil => cases h2; exact List.Forall₂.nil
  | cons hab _ ih =>
    cases h2 with
    | cons hbc h2' => exact List.Forall₂.cons (hT _ _ _ hab hbc) (ih h2')

/-- When `handle_collisions` returns, every body has the width and height it had
before the frame. -/
theorem handle_collisions_sizes (cfg : Config) (sector : Sector) (r : Sector × List Event)
    (h : handle_collisions cfg sector = some r) :
    List.Forall₂ (fun a b => has_size b.bbox a.bbox.get_width a.bbox.get_height)
      sector.moving_objects r.1.moving_objects := by
  unfold handle_collisions at h
  cases hp : part1 cfg sector.solid_tilemaps [] (sector.moving_objects.map (compute_dest cfg)) with
  | none => simp [hp] at h
  | some p =>
    obtain ⟨l1, ev1⟩ := p
    simp only [hp, Option.some.injEq] at h
    subst h
    -- the first loop
    have h0 : List.Forall₂ (fun a b => b.bbox = a.bbox
        ∧ has_size b.dest a.bbox.get_width a.bbox.get_height)
        sector.moving_objects (sector.moving_objects.map (compute_dest cfg)) := by
      rw [List.forall₂_map_right_iff]
      exact List.forall₂_same.2 (fun a _ =>
        ⟨rfl, move_size a.bbox _ _ _ ⟨rfl, rfl⟩⟩)
    -- part 1
    obtain ⟨todo', e1, f1⟩ := part1_rel cfg sector.solid_tilemaps
      (fun a b => b.bbox = a.bbox
        ∧ (has_size a.dest a.bbox.get_width a.bbox.get_height →
            has_size b.dest a.bbox.get_width a.bbox.get_height))
      (fun a => ⟨rfl, id⟩)
      (fun sec object o ev hc => by
        have hsame := collision_static_constrains_same cfg sec object o ev hc
        have hb : o.bbox = object.bbox := by rw [hsame]
        exact ⟨hb, fun hs => collision_static_constrains_size cfg sec object o ev hs hc⟩)
      _ [] l1 ev1 hp
    rw [List.nil_append] at e1
    rw [← e1] at f1
    have h1 : List.Forall₂ (fun a b => b.bbox = a.bbox
        ∧ has_size b.dest a.bbox.get_width a.bbox.get_height)
        sector.moving_objects l1 :=
      forall₂_comp (fun a b c hab hbc => ⟨hbc.1.trans hab.1, by
        have := hbc.2 (by rw [hab.1]; exact hab.2)
        rw [hab.1] at this
        exact this⟩) h0 f1
    -- part 2.5 and part 3
    have h3 := part3_translated cfg (part2_5 l1).1
    rw [(part2_5_spec l1).1] at h3
    have h4 : List.Forall₂ (fun a b => b.bbox = a.bbox
        ∧ has_size b.dest a.bbox.get_width a.bbox.get_height)
        sector.moving_objects (part3 cfg l1).1 :=
      forall₂_comp (fun a b c hab hbc => ⟨hbc.1.trans hab.1, by
        obtain ⟨w, hh⟩ := hbc.2
        exact ⟨w.trans hab.2.1, hh.trans hab.2.2⟩⟩) h1 h3
    -- apply object movement
    show List.Forall₂ _ sector.moving_objects
      ((part3 cfg (part2_5 l1).1).1.map apply_movement)
    rw [(part2_5_spec l1).1, List.forall₂_map_right_iff]
    exact h4.imp (fun a b hab => hab.2)


/-- C29: resolution translates the destination rectangles and does not resize
them.  The vertical clamp, the ground-movement move and the horizontal clamp or
centring of `collision_static_constrains` keep the width and the height of a
destination that has the size of the bounding box, so the static phase returns a
destination of that size; `collision_object` translates both destinations.
`handle_collisions` returns over layers without malformed unisolid slopes, and
whenever it returns every body of the index has a bounding box of the width and
height it had before the frame. -/
theorem resolution_keeps_size (cfg : Config) (sector : Sector) :
    (slopes_well_formed sector.solid_tilemaps → ∃ r, handle_collisions cfg sector = some r)
    ∧ (∀ r, handle_collisions cfg sector = some r →
        List.Forall₂ (fun a b => has_size b.bbox a.bbox.get_width a.bbox.get_height)
          sector.moving_objects r.1.moving_objects)
    ∧ (∀ c dest w oheight, has_size dest w oheight →
        has_size (apply_vertical cfg c dest oheight) w oheight)
    ∧ (∀ (dest : Rectf) v w h, has_size dest w h → has_size (dest.move v) w h)
    ∧ (∀ c dest owidth h uid, has_size dest owidth h →
        has_size (apply_horizontal cfg c dest owidth uid).1 owidth h)
    ∧ (∀ sec object o ev,
        has_size object.dest object.get_bbox.get_width object.get_bbox.get_height →
        collision_static_constrains cfg sec object = some (o, ev) →
        o.bbox = object.bbox
          ∧ has_size o.dest object.get_bbox.get_width object.get_bbox.get_height)
    ∧ (∀ o1 o2, translated o1 (collision_object cfg o1 o2).1
        ∧ translated o2 (collision_object cfg o1 o2).2.1) := by
  refine ⟨handle_collisions_some cfg sector, handle_collisions_sizes cfg sector,
    fun c dest w oheight hs => apply_vertical_size cfg c dest w oheight hs,
    fun dest v w h hs => move_size dest v w h hs,
    fun c dest owidth h uid hs => apply_horizontal_size cfg c dest owidth h uid hs,
    ?_, collision_object_translated cfg⟩
  intro sec object o ev hs hc
  have hsame := collision_static_constrains_same cfg sec object o ev hc
  exact ⟨by rw [hsame], collision_static_constrains_size cfg sec object o ev hs hc⟩

/-- C29 at the frame of the body between the ceiling and the sinking platform: the
frame returns and the three bodies keep their sizes. -/
theorem resolution_keeps_size_witness :
    ∃ r, handle_collisions exampleConfig (pressSector 10) = some r
      ∧ List.Forall₂ (fun a b => has_size b.bbox a.bbox.get_width a.bbox.get_height)
          (pressSector 10).moving_objects r.1.moving_objects := by
  obtain ⟨r, hr⟩ := (resolution_keeps_size exampleConfig (pressSector 10)).1
    (fun solids hs => absurd hs (List.not_mem_nil solids))
  exact ⟨r, hr, (resolution_keeps_size exampleConfig (pressSector 10)).2.1 r hr⟩

/-! ## The pairs of the moving-vs-moving pass (C25) -/

/-- A fold over the selected elements is the fold that skips the others. -/
theorem foldl_filter_eq {α β : Type} (p : α → Bool) (g : β → α → β) (l : List α) (b : β) :
    (l.filter p).foldl g b = l.foldl (fun b a => if p a = true then g b a else b) b := by
  induction l generalizing b with
  | nil => rfl
  | cons a l ih =>
    by_cases h : p a = true
    · simp only [List.filter_cons, h, if_true, List.foldl_cons, ih]
    · simp only [List.filter_cons, h, if_false, List.foldl_cons, ih, Bool.false_eq_true]

/-- Two folds agree if their steps agree on the states of an invariant that the
steps keep. -/
theorem foldl_congr_invariant {α β : Type} (P : β → Prop) (f g : β → α → β) (l : List α)
    (b : β) (h0 : P b) (hs : ∀ b a, P b → f b a = g b a ∧ P (f b a)) :
    l.foldl f b = l.foldl g b ∧ P (l.foldl f b) := by
  induction l generalizing b with
  | nil => exact ⟨rfl, h0⟩
  | cons a l ih =>
    obtain ⟨e, p⟩ := hs b a h0
    rw [List.foldl_cons, List.foldl_cons, ← e]
    exact ih (f b a) p

/-- `collision_object` changes neither group nor validity of the two bodies. -/
theorem collision_object_eligible (cfg : Config) (a b : MovingObject) :
    moving_eligible (collision_object cfg a b).1 = moving_eligible a
    ∧ moving_eligible (collision_object cfg a b).2.1 = moving_eligible b := by
  unfold collision_object
  simp only
  split_ifs <;> exact ⟨rfl, rfl⟩

/-- Lists of bodies that agree in eligibility position by position agree in
`eligible_at`. -/
theorem eligible_at_eq {l m : List MovingObject}
    (h : List.Forall₂ (fun a b => moving_eligible b = moving_eligible a) l m) (k : Nat) :
    eligible_at m k = eligible_at l k := by
  unfold eligible_at
  cases hm : m[k]? with
  | none =>
    cases hl : l[k]? with
    | none => rfl
    | some a =>
      obtain ⟨b, hb, -⟩ := (forall₂_getElem? h k).1 a hl
      rw [hm] at hb
      exact absurd hb (by simp)
  | some b =>
    obtain ⟨a, ha, hab⟩ := (forall₂_getElem? h k).2 b hm
    rw [ha]
    exact hab

/-- A call of `collision_object` through the index keeps the eligibility at every
position. -/
theorem call_collision_object_eligible (cfg : Config) (l : List MovingObject) (i i2 : Nat)
    (st : List MovingObject × List Event)
    (h : List.Forall₂ (fun a b => moving_eligible b = moving_eligible a) l st.1) :
    List.Forall₂ (fun a b => moving_eligible b = moving_eligible a) l
      (pair_step (collision_object cfg) i i2 st).1 := by
  unfold pair_step
  cases ha : st.1[i]? with
  | none => simpa using h
  | some a =>
    cases hb : st.1[i2]? with
    | none => simpa using h
    | some b =>
      simp only
      obtain ⟨t1, t2⟩ := collision_object_eligible cfg a b
      apply forall₂_set (forall₂_set h i _ _) i2
      · intro a0 h0
        obtain ⟨b', hb', hr⟩ := (forall₂_getElem? h i2).1 a0 h0
        rw [hb] at hb'
        rw [← Option.some.inj hb'] at hr
        exact t2.trans hr
      · intro a0 h0
        obtain ⟨a', ha', hr⟩ := (forall₂_getElem? h i).1 a0 h0
        rw [ha] at ha'
        rw [← Option.some.inj ha'] at hr
        exact t1.trans hr

/-- The inner loop body of part 3 calls `collision_object` when the second body is
eligible and does nothing otherwise. -/
theorem pair_step_moving_pair (cfg : Config) (i i2 : Nat)
    (st : List MovingObject × List Event) :
    pair_step (moving_pair cfg) i i2 st
      = if eligible_at st.1 i2 = true then pair_step (collision_object cfg) i i2 st else st := by
  unfold pair_step eligible_at
  cases ha : st.1[i]? with
  | none => simp
  | some a =>
    cases hb : st.1[i2]? with
    | none => simp
    | some b =>
      simp only
      by_cases he : moving_eligible b = true
      · rw [if_pos he]
        simp [moving_pair, he]
      · rw [if_neg he]
        rw [moving_pair_ineligible cfg a b (by simpa using he)]
        simp only [List.append_nil]
        rw [set_getElem?_self st.1 i a ha, set_getElem?_self st.1 i2 b hb]


/-- Part 3 is the sequence of the calls of `collision_object` on the pairs of
`moving_pairs`, in their order. -/
theorem part3_eq_calls (cfg : Config) (l : List MovingObject) :
    part3 cfg l = (moving_pairs l).foldl (call_collision_object cfg) (l, []) := by
  unfold part3 moving_pairs
  rw [foldl_flatMap_nested]
  refine (foldl_congr_invariant
    (fun st : List MovingObject × List Event =>
      List.Forall₂ (fun a b => moving_eligible b = moving_eligible a) l st.1)
    _ _ (List.range l.length) (l, []) (List.forall₂_same.2 (fun a _ => rfl)) ?_).1
  intro st i hst
  have hi : eligible_at st.1 i = eligible_at l i := eligible_at_eq hst i
  -- the inner loop, for any state of the invariant
  have inner : ∀ (r : List Nat) (st2 : List MovingObject × List Event),
      List.Forall₂ (fun a b => moving_eligible b = moving_eligible a) l st2.1 →
      r.foldl (fun st i2 => pair_step (moving_pair cfg) i i2 st) st2
        = ((r.filter (eligible_at l)).map (fun i2 => (i, i2))).foldl
            (call_collision_object cfg) st2
      ∧ List.Forall₂ (fun a b => moving_eligible b = moving_eligible a) l
          (r.foldl (fun st i2 => pair_step (moving_pair cfg) i i2 st) st2).1 := by
    intro r st2 h2
    rw [List.foldl_map, foldl_filter_eq]
    apply foldl_congr_invariant
      (fun st : List MovingObject × List Event =>
        List.Forall₂ (fun a b => moving_eligible b = moving_eligible a) l st.1)
    · exact h2
    · intro st3 i2 h3
      rw [pair_step_moving_pair, eligible_at_eq h3 i2]
      refine ⟨rfl, ?_⟩
      split_ifs
      · exact call_collision_object_eligible cfg l i i2 st3 h3
      · exact h3
  unfold eligible_at at hi
  cases ho : st.1[i]? with
  | none =>
    rw [ho] at hi
    simp only
    have hl : eligible_at l i = false := by unfold eligible_at; exact hi.symm
    rw [hl]
    exact ⟨rfl, hst⟩
  | some o =>
    rw [ho] at hi
    simp only
    by_cases he : moving_eligible o = true
    · have hl : eligible_at l i = true := by unfold eligible_at; rw [← hi]; exact he
      rw [if_neg (by simp [he]), hl, if_pos rfl]
      exact inner _ st hst
    · have hl : eligible_at l i = false := by
        unfold eligible_at; rw [← hi]; simpa using he
      rw [if_pos (by simpa using he), hl]
      exact ⟨rfl, hst⟩

/-- The pairs of the pass are the pairs of positions `i < i2` of the index whose
bodies are both eligible. -/
theorem mem_moving_pairs (l : List MovingObject) (i i2 : Nat) :
    (i, i2) ∈ moving_pairs l ↔
      i < i2 ∧ i2 < l.length ∧ eligible_at l i = true ∧ eligible_at l i2 = true := by
  unfold moving_pairs
  simp only [List.mem_flatMap, List.mem_range]
  constructor
  · rintro ⟨k, hk, hm⟩
    split_ifs at hm with he
    · simp only [List.mem_map, List.mem_filter, List.mem_range', Prod.mk.injEq] at hm
      obtain ⟨j, ⟨⟨n, hn, hj⟩, hej⟩, rfl, rfl⟩ := hm
      subst hj
      exact ⟨by omega, by omega, he, hej⟩
    · exact absurd hm (List.not_mem_nil _)
  · rintro ⟨h1, h2, h3, h4⟩
    refine ⟨i, by omega, ?_⟩
    rw [if_pos h3]
    simp only [List.mem_map, List.mem_filter, List.mem_range', Prod.mk.injEq]
    exact ⟨i2, ⟨⟨i2 - (i + 1), by omega, by omega⟩, h4⟩, trivial, rfl⟩

/-- No pair of the pass is listed twice. -/
theorem moving_pairs_nodup (l : List MovingObject) : (moving_pairs l).Nodup := by
  unfold moving_pairs
  rw [List.nodup_flatMap]
  constructor
  · intro i _
    split_ifs
    · apply List.Nodup.map
      · intro a b hab
        exact (Prod.mk.inj hab).2
      · exact (List.nodup_range' _ _).filter _
    · exact List.nodup_nil
  · apply List.Pairwise.imp_of_mem _ (List.nodup_range l.length)
    intro i j _ _ hij
    intro p hp1 hp2
    beta_reduce at hp1 hp2
    have e1 : p.1 = i := by
      split_ifs at hp1
      · simp only [List.mem_map] at hp1
        obtain ⟨_, _, rfl⟩ := hp1
        rfl
      · exact absurd hp1 (List.not_mem_nil _)
    have e2 : p.1 = j := by
      split_ifs at hp2
      · simp only [List.mem_map] at hp2
        obtain ⟨_, _, rfl⟩ := hp2
        rfl
      · exact absurd hp2 (List.not_mem_nil _)
    exact hij (e1.symm.trans e2)


/-- C25: the moving-vs-moving pass of `handle_collisions` is exactly the sequence
of calls `collision_object(first, second)` on the pairs of `moving_pairs`: a pair
of positions of the moving-object list is called if and only if the first
position is strictly before the second and both bodies are valid with a group
moving or moving-static; the earlier body is the first argument, no pair is
called twice, and no body is paired with itself. -/
theorem moving_pass_pairs (cfg : Config) (l : List MovingObject) :
    part3 cfg l = (moving_pairs l).foldl (call_collision_object cfg) (l, [])
    ∧ (moving_pairs l).Nodup
    ∧ (∀ i i2 : Nat, (i, i2) ∈ moving_pairs l ↔
        i < i2 ∧ ∃ a b, l[i]? = some a ∧ l[i2]? = some b
          ∧ moving_eligible a = true ∧ moving_eligible b = true)
    ∧ (∀ i i2 : Nat, (i, i2) ∈ moving_pairs l → (i2, i) ∉ moving_pairs l) := by
  have hmem : ∀ i i2 : Nat, (i, i2) ∈ moving_pairs l ↔
      i < i2 ∧ ∃ a b, l[i]? = some a ∧ l[i2]? = some b
        ∧ moving_eligible a = true ∧ moving_eligible b = true := by
    intro i i2
    rw [mem_moving_pairs]
    unfold eligible_at
    constructor
    · rintro ⟨h1, h2, h3, h4⟩
      have hi : i < l.length := by omega
      rw [List.getElem?_eq_getElem hi] at h3
      rw [List.getElem?_eq_getElem h2] at h4
      exact ⟨h1, l[i], l[i2], List.getElem?_eq_getElem hi,
        List.getElem?_eq_getElem h2, h3, h4⟩
    · rintro ⟨h1, a, b, ha, hb, ea, eb⟩
      have h2 : i2 < l.length := by
        by_contra hn
        rw [List.getElem?_eq_none (by omega)] at hb
        exact Option.noConfusion hb
      rw [ha, hb]
      exact ⟨h1, h2, ea, eb⟩
  refine ⟨part3_eq_calls cfg l, moving_pairs_nodup l, hmem, ?_⟩
  intro i i2 h1 h2
  have a := ((hmem i i2).1 h1).1
  have b := ((hmem i2 i).1 h2).1
  omega


/-! ## The lookup maps of the manager (C30) -/

/-- C30 fails at `clear_objects`: from the empty manager, registering the object
1 of the name `tux` and calling `clear_objects` returns with the active list
empty while `m_objects_by_uid` still maps the UID 1 and `m_objects_by_name` the
name `tux` to the object 1, so neither map agrees with the active list; the
removal of the same object through `remove_me` and `update_game_objects` erases
both entries. -/
theorem clear_objects_keeps_index :
    (∃ m, (emptyManager () namedStore).calls acceptAll registerAndClear = some m
      ∧ m.m_gameobjects = []
      ∧ m.m_objects_by_uid 1 = some 1
      ∧ m.m_objects_by_name "tux" = some 1
      ∧ ¬ by_uid_agrees m ∧ ¬ by_name_agrees m)
    ∧ ∃ m, (emptyManager () namedStore).calls acceptAll registerAndRemove = some m
      ∧ m.m_gameobjects = []
      ∧ m.m_objects_by_uid 1 = none
      ∧ m.m_objects_by_name "tux" = none := by
  refine ⟨⟨_, rfl, rfl, rfl, rfl, ?_, ?_⟩, ⟨_, rfl, rfl, rfl, rfl⟩⟩
  · intro h
    exact absurd ((h 1 1).1 rfl).1 (List.not_mem_nil 1)
  · intro h
    exact absurd ((h "tux").2 1 rfl).1 (List.not_mem_nil 1)

/-- The name entry is erased with the first object of a name: from the empty
manager, registering the objects 1 and 2, both of the name `tux`, and removing
the object 1 leaves the object 2 active and valid without an entry for its
name. -/
theorem shared_name_erased :
    ∃ m, (emptyManager () namedStore).calls acceptAll registerTwoRemoveOne = some m
      ∧ m.m_gameobjects = [2]
      ∧ (m.objects 2).m_name = "tux"
      ∧ (m.objects 2).is_valid = true
      ∧ m.m_objects_by_uid 2 = some 2
      ∧ m.m_objects_by_name "tux" = none
      ∧ ¬ by_name_agrees m := by
  refine ⟨_, rfl, rfl, rfl, rfl, rfl, rfl, ?_⟩
  intro h
  have h1 := ((h "tux").1).2 ⟨by decide, 2, List.mem_singleton.2 rfl, rfl⟩
  exact absurd h1 (by decide)


/-! ## The lookup maps without `clear_objects` and without shared names -/

/-- The maps after `this_before_object_remove`. -/
theorem this_before_object_remove_maps {σ : Type} (m : GameObjectManager σ) (object : Nat) :
    (∀ u, (m.this_before_object_remove object).m_objects_by_uid u
        = if u = (m.objects object).m_uid then none else m.m_objects_by_uid u)
    ∧ (∀ n, (m.this_before_object_remove object).m_objects_by_name n
        = if (m.objects object).m_name ≠ "" ∧ n = (m.objects object).m_name then none
          else m.m_objects_by_name n)
    ∧ (m.this_before_object_remove object).m_uid_generator = m.m_uid_generator := by
  unfold GameObjectManager.this_before_object_remove
  simp only
  by_cases hn : (m.objects object).m_name = ""
  · rw [if_neg (not_not.2 hn)]
    refine ⟨fun u => rfl, fun n => ?_, rfl⟩
    rw [if_neg (fun h => h.1 hn)]
  · rw [if_pos hn]
    refine ⟨fun u => rfl, fun n => ?_, rfl⟩
    by_cases e : n = (m.objects object).m_name
    · rw [if_pos ⟨hn, e⟩]; simp only [e, if_true]
    · rw [if_neg (fun h => e h.2)]; simp only [e, if_false]

/-- The maps after the cleanup of the manager: the entries of the dropped objects
are erased. -/
theorem manager_cleanup_maps {σ : Type} (hooks : ManagerHooks σ) (l : List Nat)
    (m : GameObjectManager σ) :
    (∀ u, (GameObjectManager.cleanup hooks m l).1.m_objects_by_uid u
        = if (∃ p ∈ l, (m.objects p).is_valid = false ∧ (m.objects p).m_uid = u) then none
          else m.m_objects_by_uid u)
    ∧ (∀ n, (GameObjectManager.cleanup hooks m l).1.m_objects_by_name n
        = if (∃ p ∈ l, (m.objects p).is_valid = false ∧ (m.objects p).m_name ≠ ""
              ∧ (m.objects p).m_name = n) then none
          else m.m_objects_by_name n)
    ∧ (GameObjectManager.cleanup hooks m l).1.m_uid_generator = m.m_uid_generator := by
  classical
  induction l generalizing m with
  | nil =>
    refine ⟨fun u => ?_, fun n => ?_, rfl⟩
    · rw [if_neg (by simp)]; rfl
    · rw [if_neg (by simp)]; rfl
  | cons a l ih =>
    unfold GameObjectManager.cleanup
    obtain ⟨g1, _, _, _⟩ := this_before_object_remove_lists m a
    obtain ⟨r1, r2, r3⟩ := this_before_object_remove_maps m a
    by_cases hv : (m.objects a).is_valid = true
    · rw [if_neg (by simp [hv])]
      obtain ⟨h1, h2, h3⟩ := ih m
      refine ⟨fun u => ?_, fun n => ?_, h3⟩
      · rw [h1 u]
        simp only [List.mem_cons, exists_eq_or_imp, hv, Bool.true_eq_false, false_and, false_or]
      · rw [h2 n]
        simp only [List.mem_cons, exists_eq_or_imp, hv, Bool.true_eq_false, false_and, false_or]
    · have hv' : (m.objects a).is_valid = false := by simpa using hv
      rw [if_pos (by simp [hv'])]
      simp only
      obtain ⟨h1, h2, h3⟩ := ih
        { m.this_before_object_remove a with
          derived := hooks.before_object_remove (m.this_before_object_remove a).derived a
            ((m.this_before_object_remove a).objects a) }
      refine ⟨fun u => ?_, fun n => ?_, h3.trans r3⟩
      · rw [h1 u]
        simp only [g1, r1 u, List.mem_cons, exists_eq_or_imp, hv', true_and]
        by_cases e : (m.objects a).m_uid = u
        · simp [e]
        · simp [e, Ne.symm e]
      · rw [h2 n]
        simp only [g1, r2 n, List.mem_cons, exists_eq_or_imp, hv', true_and]
        by_cases e : (m.objects a).m_name = n
        · by_cases e0 : (m.objects a).m_name = ""
          · have : n = "" := e ▸ e0
            simp [e0, this]
          · simp [e, e0, e ▸ e0]
        · simp [e, Ne.symm e]


/-- The state of `update_game_objects` after its first block is consistent if
the state before was. -/
theorem consistent_of_cleanup_fields {σ : Type} (m m1 : GameObjectManager σ)
    (o1 : m1.objects = m.objects)
    (a1 : m1.m_gameobjects = m.m_gameobjects.filter (fun p => (m.objects p).is_valid))
    (n1 : m1.m_gameobjects_new = m.m_gameobjects_new)
    (g1 : m1.m_uid_generator = m.m_uid_generator)
    (u1 : ∀ u, m1.m_objects_by_uid u
        = if (∃ p ∈ m.m_gameobjects, (m.objects p).is_valid = false ∧ (m.objects p).m_uid = u)
          then none else m.m_objects_by_uid u)
    (nm1 : ∀ n, m1.m_objects_by_name n
        = if (∃ p ∈ m.m_gameobjects, (m.objects p).is_valid = false ∧ (m.objects p).m_name ≠ ""
              ∧ (m.objects p).m_name = n) then none
          else m.m_objects_by_name n)
    (h : registry_consistent m) : registry_consistent m1 := by
  classical
  obtain ⟨hU, hN, ⟨hZ, hI⟩, hD⟩ := h
  have sub : ∀ p, p ∈ m1.m_gameobjects ++ m1.m_gameobjects_new →
      p ∈ m.m_gameobjects ++ m.m_gameobjects_new := by
    intro p hp
    rw [a1, n1] at hp
    rcases List.mem_append.1 hp with h | h
    · exact List.mem_append_left _ (List.mem_filter.1 h).1
    · exact List.mem_append_right _ h
  refine ⟨?_, ?_, ⟨?_, ?_⟩, ?_⟩
  · intro u p
    rw [u1 u, a1, o1]
    by_cases hex : ∃ q ∈ m.m_gameobjects, (m.objects q).is_valid = false ∧ (m.objects q).m_uid = u
    · rw [if_pos hex]
      constructor
      · intro h; exact Option.noConfusion h
      · rintro ⟨hp, hpu⟩
        obtain ⟨q, hq, hqv, hqu⟩ := hex
        obtain ⟨hpm, hpv⟩ := List.mem_filter.1 hp
        have e : p = q := hI p (List.mem_append_left _ hpm) q (List.mem_append_left _ hq)
          (hpu.trans hqu.symm)
        subst e
        simp only [hqv] at hpv
        exact Bool.noConfusion hpv
    · rw [if_neg hex, hU u p]
      constructor
      · rintro ⟨hp, hpu⟩
        refine ⟨List.mem_filter.2 ⟨hp, ?_⟩, hpu⟩
        by_contra hv
        exact hex ⟨p, hp, by simpa using hv, hpu⟩
      · rintro ⟨hp, hpu⟩
        exact ⟨(List.mem_filter.1 hp).1, hpu⟩
  · intro n
    rw [nm1 n, a1, o1]
    by_cases hex : ∃ q ∈ m.m_gameobjects, (m.objects q).is_valid = false
        ∧ (m.objects q).m_name ≠ "" ∧ (m.objects q).m_name = n
    · rw [if_pos hex]
      obtain ⟨q, hq, hqv, hq0, hqn⟩ := hex
      refine ⟨⟨fun h => Bool.noConfusion h, ?_⟩, fun p h => Option.noConfusion h⟩
      rintro ⟨_, p, hp, hpn⟩
      obtain ⟨hpm, hpv⟩ := List.mem_filter.1 hp
      have e : q = p := hD q p (hqn.trans hpn.symm) hq0
      subst e
      simp only [hqv] at hpv
      exact Bool.noConfusion hpv
    · rw [if_neg hex]
      obtain ⟨hN1, hN2⟩ := hN n
      refine ⟨?_, ?_⟩
      · rw [hN1]
        constructor
        · rintro ⟨h0, p, hp, hpn⟩
          refine ⟨h0, p, List.mem_filter.2 ⟨hp, ?_⟩, hpn⟩
          by_contra hv
          exact hex ⟨p, hp, by simpa using hv, hpn ▸ h0, hpn⟩
        · rintro ⟨h0, p, hp, hpn⟩
          exact ⟨h0, p, (List.mem_filter.1 hp).1, hpn⟩
      · intro p hp
        obtain ⟨hpm, hpn⟩ := hN2 p hp
        refine ⟨List.mem_filter.2 ⟨hpm, ?_⟩, hpn⟩
        by_contra hv
        have h0 : n ≠ "" := ((hN1.1 (by rw [hp]; rfl))).1
        exact hex ⟨p, hpm, by simpa using hv, hpn ▸ h0, hpn⟩
  · intro p hp
    rw [o1, g1]
    exact hZ p (sub p hp)
  · intro p hp q hq
    rw [o1]
    exact hI p (sub p hp) q (sub q hq)
  · rw [o1]; exact hD


/-- One step of the add loop of the manager on an object with a UID, with the
maps: an accepted object is entered under its UID and, if it has a name, under
its name. -/
theorem add_pending_maps {σ : Type} (hooks : ManagerHooks σ) (m : GameObjectManager σ)
    (object : Nat) (hu : (m.objects object).m_uid ≠ 0) :
    ∃ m', GameObjectManager.add_pending hooks m object = some m'
      ∧ m'.objects = m.objects
      ∧ m'.m_gameobjects = m.m_gameobjects
          ++ (if (hooks.before_object_add m.derived object (m.objects object)).2 = true
              then [object] else [])
      ∧ m'.m_gameobjects_new = m.m_gameobjects_new
      ∧ m'.m_uid_generator = m.m_uid_generator
      ∧ (∀ u, m'.m_objects_by_uid u
          = if (hooks.before_object_add m.derived object (m.objects object)).2 = true
              ∧ u = (m.objects object).m_uid then some object
            else m.m_objects_by_uid u)
      ∧ (∀ n, m'.m_objects_by_name n
          = if (hooks.before_object_add m.derived object (m.objects object)).2 = true
              ∧ (m.objects object).m_name ≠ "" ∧ n = (m.objects object).m_name
            then some object
            else m.m_objects_by_name n) := by
  unfold GameObjectManager.add_pending
  simp only
  by_cases ha : (hooks.before_object_add m.derived object (m.objects object)).2 = true
  · rw [if_pos ha, if_pos ha]
    unfold GameObjectManager.this_before_object_add
    simp only [if_neg hu]
    by_cases hn : (m.objects object).m_name = ""
    · rw [if_neg (not_not.2 hn)]
      refine ⟨_, rfl, rfl, rfl, rfl, rfl, fun u => ?_, fun n => ?_⟩
      · by_cases e : u = (m.objects object).m_uid
        · rw [if_pos ⟨ha, e⟩]; simp only [e, if_true]
        · rw [if_neg (fun h => e h.2)]; simp only [e, if_false]
      · rw [if_neg (fun h => h.2.1 hn)]
    · rw [if_pos hn]
      refine ⟨_, rfl, rfl, rfl, rfl, rfl, fun u => ?_, fun n => ?_⟩
      · by_cases e : u = (m.objects object).m_uid
        · rw [if_pos ⟨ha, e⟩]; simp only [e, if_true]
        · rw [if_neg (fun h => e h.2)]; simp only [e, if_false]
      · by_cases e : n = (m.objects object).m_name
        · rw [if_pos ⟨ha, hn, e⟩]; simp only [e, if_true]
        · rw [if_neg (fun h => e h.2.2)]; simp only [e, if_false]
  · rw [if_neg ha, if_neg ha]
    refine ⟨_, rfl, rfl, (List.append_nil _).symm, rfl, rfl, fun u => ?_, fun n => ?_⟩
    · rw [if_neg (fun h => ha h.1)]
    · rw [if_neg (fun h => ha h.1)]

/-- One step of the add loop on a pending object keeps the registry
consistent. -/
theorem add_pending_consistent {σ : Type} (hooks : ManagerHooks σ) (m : GameObjectManager σ)
    (object : Nat) (hp : object ∈ m.m_gameobjects_new) (h : registry_consistent m) :
    ∃ m', GameObjectManager.add_pending hooks m object = some m'
      ∧ registry_consistent m' ∧ m'.m_gameobjects_new = m.m_gameobjects_new := by
  obtain ⟨hU, hN, ⟨hZ, hI⟩, hD⟩ := h
  have hpm : object ∈ m.m_gameobjects ++ m.m_gameobjects_new := List.mem_append_right _ hp
  obtain ⟨m1, e1, o1, a1, n1, g1, u1, nm1⟩ := add_pending_maps hooks m object (hZ object hpm).1
  refine ⟨m1, e1, ?_, n1⟩
  have sub : ∀ p, p ∈ m1.m_gameobjects ++ m1.m_gameobjects_new →
      p ∈ m.m_gameobjects ++ m.m_gameobjects_new := by
    intro p hq
    rw [a1, n1] at hq
    rcases List.mem_append.1 hq with h | h
    · rcases List.mem_append.1 h with h | h
      · exact List.mem_append_left _ h
      · split_ifs at h
        · rw [List.mem_singleton.1 h]; exact hpm
        · exact absurd h (List.not_mem_nil _)
    · exact List.mem_append_right _ h
  refine ⟨?_, ?_, ⟨?_, ?_⟩, ?_⟩
  · intro u p
    rw [u1 u, a1, o1]
    by_cases ha : (hooks.before_object_add m.derived object (m.objects object)).2 = true
    · rw [if_pos ha]
      by_cases e : u = (m.objects object).m_uid
      · rw [if_pos ⟨ha, e⟩]
        constructor
        · intro h
          have : object = p := Option.some.inj h
          subst this
          exact ⟨List.mem_append_right _ (List.mem_singleton.2 rfl), e.symm⟩
        · rintro ⟨hq, hqu⟩
          rcases List.mem_append.1 hq with h | h
          · rw [hI p (List.mem_append_left _ h) object hpm (hqu.trans e)]
          · rw [List.mem_singleton.1 h]
      · rw [if_neg (fun h => e h.2), hU u p]
        constructor
        · rintro ⟨hq, hqu⟩
          exact ⟨List.mem_append_left _ hq, hqu⟩
        · rintro ⟨hq, hqu⟩
          rcases List.mem_append.1 hq with h | h
          · exact ⟨h, hqu⟩
          · rw [List.mem_singleton.1 h] at hqu
            exact absurd hqu.symm e
    · rw [if_neg ha, if_neg (fun h => ha h.1), List.append_nil]
      exact hU u p
  · intro n
    rw [nm1 n, a1, o1]
    obtain ⟨hN1, hN2⟩ := hN n
    by_cases ha : (hooks.before_object_add m.derived object (m.objects object)).2 = true
    · rw [if_pos ha]
      by_cases e : (m.objects object).m_name ≠ "" ∧ n = (m.objects object).m_name
      · rw [if_pos ⟨ha, e⟩]
        refine ⟨⟨fun _ => ⟨e.2 ▸ e.1, object,
          List.mem_append_right _ (List.mem_singleton.2 rfl), e.2.symm⟩, fun _ => rfl⟩, ?_⟩
        intro p h
        have : object = p := Option.some.inj h
        subst this
        exact ⟨List.mem_append_right _ (List.mem_singleton.2 rfl), e.2.symm⟩
      · rw [if_neg (fun h => e h.2)]
        refine ⟨?_, ?_⟩
        · rw [hN1]
          constructor
          · rintro ⟨h0, p, hq, hqn⟩
            exact ⟨h0, p, List.mem_append_left _ hq, hqn⟩
          · rintro ⟨h0, p, hq, hqn⟩
            rcases List.mem_append.1 hq with h | h
            · exact ⟨h0, p, h, hqn⟩
            · rw [List.mem_singleton.1 h] at hqn
              exact absurd ⟨hqn ▸ h0, hqn.symm⟩ e
        · intro p h
          obtain ⟨hq, hqn⟩ := hN2 p h
          exact ⟨List.mem_append_left _ hq, hqn⟩
    · rw [if_neg ha, if_neg (fun h => ha h.1), List.append_nil]
      exact ⟨hN1, hN2⟩
  · intro p hq
    rw [o1, g1]
    exact hZ p (sub p hq)
  · intro p hq q hq2
    rw [o1]
    exact hI p (sub p hq) q (sub q hq2)
  · rw [o1]; exact hD


/-- The add loop over pending objects keeps the registry consistent. -/
theorem add_loop_consistent {σ : Type} (hooks : ManagerHooks σ) (l : List Nat)
    (m : GameObjectManager σ) (hl : ∀ p ∈ l, p ∈ m.m_gameobjects_new)
    (h : registry_consistent m) :
    ∃ m', l.foldlM (GameObjectManager.add_pending hooks) m = some m'
      ∧ registry_consistent m' ∧ m'.m_gameobjects_new = m.m_gameobjects_new := by
  induction l generalizing m with
  | nil => exact ⟨m, rfl, h, rfl⟩
  | cons a l ih =>
    obtain ⟨m1, e1, c1, n1⟩ :=
      add_pending_consistent hooks m a (hl a (List.mem_cons_self _ _)) h
    obtain ⟨m2, e2, c2, n2⟩ := ih m1 (fun p hp => by
      rw [n1]; exact hl p (List.mem_cons_of_mem _ hp)) c1
    refine ⟨m2, ?_, c2, n2.trans n1⟩
    rw [List.foldlM_cons, e1]
    exact e2

/-- Emptying the pending list and writing the list of solid tile layers keeps the
registry consistent. -/
theorem consistent_of_same_active {σ : Type} (m m1 : GameObjectManager σ)
    (o1 : m1.objects = m.objects) (a1 : m1.m_gameobjects = m.m_gameobjects)
    (n1 : m1.m_gameobjects_new = [])
    (g1 : m1.m_uid_generator = m.m_uid_generator)
    (u1 : m1.m_objects_by_uid = m.m_objects_by_uid)
    (nm1 : m1.m_objects_by_name = m.m_objects_by_name)
    (h : registry_consistent m) : registry_consistent m1 := by
  obtain ⟨hU, hN, ⟨hZ, hI⟩, hD⟩ := h
  have sub : ∀ p, p ∈ m1.m_gameobjects ++ m1.m_gameobjects_new →
      p ∈ m.m_gameobjects ++ m.m_gameobjects_new := by
    intro p hp
    rw [a1, n1, List.append_nil] at hp
    exact List.mem_append_left _ hp
  refine ⟨?_, ?_, ⟨?_, ?_⟩, ?_⟩
  · intro u p
    rw [u1, a1, o1]
    exact hU u p
  · intro n
    rw [nm1, a1, o1]
    exact hN n
  · intro p hp
    rw [o1, g1]
    exact hZ p (sub p hp)
  · intro p hp q hq
    rw [o1]
    exact hI p (sub p hp) q (sub q hq)
  · rw [o1]; exact hD

/-- The method `update_game_objects` returns on a consistent registry and leaves
it consistent. -/
theorem update_game_objects_consistent {σ : Type} (hooks : ManagerHooks σ)
    (m : GameObjectManager σ) (h : registry_consistent m) :
    ∃ m', m.update_game_objects hooks = some m' ∧ registry_consistent m' := by
  obtain ⟨c1, c2, c3⟩ := manager_cleanup_spec hooks m.m_gameobjects m
  obtain ⟨k1, k2, k3⟩ := manager_cleanup_maps hooks m.m_gameobjects m
  have hc : registry_consistent
      { (GameObjectManager.cleanup hooks m m.m_gameobjects).1 with
        m_gameobjects := (GameObjectManager.cleanup hooks m m.m_gameobjects).2 } :=
    consistent_of_cleanup_fields m _ c2 c1 c3 k3 k1 k2 h
  obtain ⟨m1, e1, h1, _⟩ := add_loop_consistent hooks
    (GameObjectManager.cleanup hooks m m.m_gameobjects).1.m_gameobjects_new
    { (GameObjectManager.cleanup hooks m m.m_gameobjects).1 with
      m_gameobjects := (GameObjectManager.cleanup hooks m m.m_gameobjects).2 }
    (fun p hp => hp) hc
  unfold GameObjectManager.update_game_objects
  simp only [e1]
  exact ⟨_, rfl, consistent_of_same_active m1 _ rfl rfl rfl rfl rfl rfl h1⟩

/-- The method `add_object`, when its assertions hold, leaves a consistent
registry consistent. -/
theorem add_object_consistent {σ : Type} (m m' : GameObjectManager σ) (object : Nat)
    (h : registry_consistent m) (e : m.add_object object = some m') :
    registry_consistent m' := by
  obtain ⟨hU, hN, ⟨hZ, hI⟩, hD⟩ := h
  unfold GameObjectManager.add_object at e
  by_cases h0 : (m.objects object).m_uid = 0
  · rw [if_neg (not_not.2 h0)] at e
    simp only at e
    by_cases h1 : object ∈ m.m_gameobjects
    · rw [if_pos h1] at e; exact Option.noConfusion e
    · rw [if_neg h1] at e
      by_cases h2 : object ∈ m.m_gameobjects_new
      · rw [if_pos h2] at e; exact Option.noConfusion e
      · rw [if_neg h2] at e
        have e' := Option.some.inj e
        subst e'
        have hne : ∀ p, p ∈ m.m_gameobjects ++ m.m_gameobjects_new → p ≠ object := by
          intro p hp hpo
          subst hpo
          rcases List.mem_append.1 hp with h | h
          · exact h1 h
          · exact h2 h
        have same : ∀ p, p ≠ object →
            (m.objects.set_uid object (UIDGenerator.next m.m_uid_generator).2) p
              = m.objects p := by
          intro p hp
          unfold ObjectStore.set_uid
          rw [if_neg hp]
        have name : ∀ p,
            ((m.objects.set_uid object (UIDGenerator.next m.m_uid_generator).2) p).m_name
              = (m.objects p).m_name := by
          intro p
          unfold ObjectStore.set_uid
          split_ifs with hp
          · rfl
          · rfl
        have uid : ((m.objects.set_uid object (UIDGenerator.next m.m_uid_generator).2)
            object).m_uid = m.m_uid_generator + 1 := by
          unfold ObjectStore.set_uid UIDGenerator.next
          rw [if_pos rfl]
        have mem : ∀ p, p ∈ m.m_gameobjects ++ (m.m_gameobjects_new ++ [object]) →
            p ∈ m.m_gameobjects ++ m.m_gameobjects_new ∨ p = object := by
          intro p hp
          rcases List.mem_append.1 hp with h | h
          · exact Or.inl (List.mem_append_left _ h)
          · rcases List.mem_append.1 h with h | h
            · exact Or.inl (List.mem_append_right _ h)
            · exact Or.inr (List.mem_singleton.1 h)
        refine ⟨?_, ?_, ⟨?_, ?_⟩, ?_⟩
        · intro u p
          show m.m_objects_by_uid u = some p ↔ p ∈ m.m_gameobjects
            ∧ ((m.objects.set_uid object (UIDGenerator.next m.m_uid_generator).2) p).m_uid = u
          rw [hU u p]
          constructor
          · rintro ⟨hp, hpu⟩
            rw [same p (hne p (List.mem_append_left _ hp))]
            exact ⟨hp, hpu⟩
          · rintro ⟨hp, hpu⟩
            rw [same p (hne p (List.mem_append_left _ hp))] at hpu
            exact ⟨hp, hpu⟩
        · intro n
          show ((m.m_objects_by_name n).isSome ↔ n ≠ "" ∧ ∃ p ∈ m.m_gameobjects,
              ((m.objects.set_uid object (UIDGenerator.next m.m_uid_generator).2) p).m_name = n)
            ∧ ∀ p, m.m_objects_by_name n = some p → p ∈ m.m_gameobjects
              ∧ ((m.objects.set_uid object (UIDGenerator.next m.m_uid_generator).2) p).m_name
                = n
          simp only [name]
          exact hN n
        · intro p hp
          show ((m.objects.set_uid object (UIDGenerator.next m.m_uid_generator).2) p).m_uid ≠ 0
            ∧ ((m.objects.set_uid object (UIDGenerator.next m.m_uid_generator).2) p).m_uid
              ≤ (UIDGenerator.next m.m_uid_generator).1
          rcases mem p hp with h | h
          · rw [same p (hne p h)]
            exact ⟨(hZ p h).1, Nat.le_succ_of_le (hZ p h).2⟩
          · subst h
            rw [uid]
            exact ⟨Nat.succ_ne_zero _, Nat.le_refl _⟩
        · intro p hp q hq
          show ((m.objects.set_uid object (UIDGenerator.next m.m_uid_generator).2) p).m_uid
            = ((m.objects.set_uid object (UIDGenerator.next m.m_uid_generator).2) q).m_uid →
            p = q
          rcases mem p hp with h | h <;> rcases mem q hq with k | k
          · rw [same p (hne p h), same q (hne q k)]
            exact hI p h q k
          · subst k
            rw [same p (hne p h), uid]
            intro e
            have := (hZ p h).2
            omega
          · subst h
            rw [same q (hne q k), uid]
            intro e
            have := (hZ q k).2
            omega
          · intro _
            rw [h, k]
        · intro p q
          show ((m.objects.set_uid object (UIDGenerator.next m.m_uid_generator).2) p).m_name
            = ((m.objects.set_uid object (UIDGenerator.next m.m_uid_generator).2) q).m_name →
            ((m.objects.set_uid object (UIDGenerator.next m.m_uid_generator).2) p).m_name ≠ "" →
            p = q
          rw [name p, name q]
          exact hD p q
  · rw [if_pos h0] at e
    exact Option.noConfusion e

/-- The statement `remove_me` leaves a consistent registry consistent. -/
theorem remove_me_consistent {σ : Type} (m : GameObjectManager σ) (object : Nat)
    (h : registry_consistent m) : registry_consistent (m.remove_me object) := by
  obtain ⟨hU, hN, ⟨hZ, hI⟩, hD⟩ := h
  have uid : ∀ p, ((m.objects.remove_me object) p).m_uid = (m.objects p).m_uid := by
    intro p
    unfold ObjectStore.remove_me GameObject.remove_me
    split_ifs <;> rfl
  have name : ∀ p, ((m.objects.remove_me object) p).m_name = (m.objects p).m_name := by
    intro p
    unfold ObjectStore.remove_me GameObject.remove_me
    split_ifs <;> rfl
  refine ⟨?_, ?_, ⟨?_, ?_⟩, ?_⟩
  · intro u p
    show m.m_objects_by_uid u = some p ↔ p ∈ m.m_gameobjects
      ∧ ((m.objects.remove_me object) p).m_uid = u
    rw [uid]
    exact hU u p
  · intro n
    show ((m.m_objects_by_name n).isSome ↔ n ≠ "" ∧ ∃ p ∈ m.m_gameobjects,
        ((m.objects.remove_me object) p).m_name = n)
      ∧ ∀ p, m.m_objects_by_name n = some p → p ∈ m.m_gameobjects
        ∧ ((m.objects.remove_me object) p).m_name = n
    simp only [name]
    exact hN n
  · intro p hp
    show ((m.objects.remove_me object) p).m_uid ≠ 0
      ∧ ((m.objects.remove_me object) p).m_uid ≤ m.m_uid_generator
    rw [uid]
    exact hZ p hp
  · intro p hp q hq
    show ((m.objects.remove_me object) p).m_uid = ((m.objects.remove_me object) q).m_uid →
      p = q
    rw [uid, uid]
    exact hI p hp q hq
  · intro p q
    show ((m.objects.remove_me object) p).m_name = ((m.objects.remove_me object) q).m_name →
      ((m.objects.remove_me object) p).m_name ≠ "" → p = q
    rw [name, name]
    exact hD p q

/-- The empty manager over a store without shared names is consistent. -/
theorem emptyManager_consistent {σ : Type} (d : σ) (objects : ObjectStore)
    (hD : distinct_names objects) : registry_consistent (emptyManager d objects) := by
  refine ⟨?_, ?_, ⟨?_, ?_⟩, hD⟩
  · intro u p
    constructor
    · intro h; exact Option.noConfusion h
    · intro h; exact absurd h.1 (List.not_mem_nil p)
  · intro n
    refine ⟨⟨fun h => Bool.noConfusion h, ?_⟩, fun p h => Option.noConfusion h⟩
    rintro ⟨_, p, hp, _⟩
    exact absurd hp (List.not_mem_nil p)
  · intro p hp
    exact absurd hp (List.not_mem_nil p)
  · intro p hp
    exact absurd hp (List.not_mem_nil p)

/-- Every sequence of calls without `clear_objects` whose assertions hold leaves
a consistent registry consistent: in particular both lookup maps agree with the
active list afterwards. -/
theorem calls_consistent {σ : Type} (hooks : ManagerHooks σ) (l : List ManagerCall)
    (m m' : GameObjectManager σ) (hl : ∀ c ∈ l, c ≠ ManagerCall.clear_objects)
    (h : registry_consistent m) (e : m.calls hooks l = some m') :
    registry_consistent m' := by
  unfold GameObjectManager.calls at e
  induction l generalizing m with
  | nil =>
    have := Option.some.inj e
    subst this
    exact h
  | cons c l ih =>
    rw [List.foldlM_cons] at e
    cases h1 : GameObjectManager.call hooks m c with
    | none => rw [h1] at e; exact Option.noConfusion e
    | some m1 =>
      rw [h1] at e
      refine ih m1 (fun c hc => hl c (List.mem_cons_of_mem _ hc)) ?_ e
      cases c with
      | add_object object => exact add_object_consistent m m1 object h h1
      | remove_me object =>
        have := Option.some.inj h1
        subst this
        exact remove_me_consistent m object h
      | update_game_objects =>
        obtain ⟨m2, e2, c2⟩ := update_game_objects_consistent hooks m h
        have e3 : m.update_game_objects hooks = some m1 := h1
        rw [e2] at e3
        have := Option.some.inj e3
        subst this
        exact c2
      | clear_objects => exact absurd rfl (hl _ (List.mem_cons_self _ _))


/-- From the empty manager over a store without shared names, after every
sequence of `add_object`, `remove_me` and `update_game_objects` whose assertions
hold, `m_objects_by_uid` and `m_objects_by_name` agree with the active list. -/
theorem lookup_maps_agree {σ : Type} (hooks : ManagerHooks σ) (d : σ) (objects : ObjectStore)
    (l : List ManagerCall) (m' : GameObjectManager σ)
    (hD : distinct_names objects) (hl : ∀ c ∈ l, c ≠ ManagerCall.clear_objects)
    (e : (emptyManager d objects).calls hooks l = some m') :
    by_uid_agrees m' ∧ by_name_agrees m' :=
  have h := calls_consistent hooks l (emptyManager d objects) m' hl
    (emptyManager_consistent d objects hD) e
  ⟨h.1, h.2.1⟩

/-- The maps agree with the active list after the object 1 of `freshStore` was
registered and removed through `remove_me`. -/
theorem lookup_maps_agree_example :
    ∃ m, (emptyManager () freshStore).calls acceptAll registerAndRemove = some m
      ∧ by_uid_agrees m ∧ by_name_agrees m :=
  ⟨_, rfl, lookup_maps_agree acceptAll () freshStore registerAndRemove _
    (fun _ _ _ h0 => absurd rfl h0)
    (fun c hc => by
      simp only [registerAndRemove, List.mem_cons, List.mem_singleton, List.not_mem_nil,
        or_false] at hc
      rcases hc with h | h | h | h <;> rw [h] <;> exact ManagerCall.noConfusion)
    rfl⟩


/-! ## A resting body that no moving body meets (C10) -/

/-- A call of the pass that does not involve the position `k`, or that finds the
two destinations apart, leaves the body at position `k` as it is. -/
theorem call_collision_object_keeps (cfg : Config) (k : Nat)
    (st : List MovingObject × List Event) (p : Nat × Nat)
    (h : ((decide (p.1 = k) || decide (p.2 = k)) && pair_meets st p) = false) :
    (call_collision_object cfg st p).1[k]? = st.1[k]? := by
  unfold call_collision_object pair_step
  cases ha : st.1[p.1]? with
  | none => rfl
  | some a =>
    cases hb : st.1[p.2]? with
    | none => rfl
    | some b =>
      simp only
      by_cases hk : p.1 = k ∨ p.2 = k
      · have hm : pair_meets st p = false := by
          rcases hk with hk | hk <;> simpa [hk] using h
        have hi : intersects a.dest b.dest = false := by
          unfold pair_meets at hm
          rw [ha, hb] at hm
          exact hm
        have hc : collision_object cfg a b = (a, b, []) := by
          unfold collision_object
          simp [hi]
        rw [hc]
        simp only
        rw [set_getElem?_self _ _ _ ha, set_getElem?_self _ _ _ hb]
      · push_neg at hk
        rw [List.getElem?_set_ne hk.2, List.getElem?_set_ne hk.1]

/-- The flagged pass makes the calls of the pass, and if the flag is down at the
end it was down at the start and the body at position `k` is as it was. -/
theorem met_fold_spec (cfg : Config) (k : Nat) (ps : List (Nat × Nat)) :
    ∀ (st : List MovingObject × List Event) (b : Bool),
      (ps.foldl (met_step cfg k) (st, b)).1 = ps.foldl (call_collision_object cfg) st
      ∧ ((ps.foldl (met_step cfg k) (st, b)).2 = false →
          b = false ∧ (ps.foldl (call_collision_object cfg) st).1[k]? = st.1[k]?) := by
  induction ps with
  | nil => intro st b; exact ⟨rfl, fun h => ⟨h, rfl⟩⟩
  | cons p ps ih =>
    intro st b
    simp only [List.foldl_cons]
    obtain ⟨h1, h2⟩ := ih (call_collision_object cfg st p)
      (b || ((decide (p.1 = k) || decide (p.2 = k)) && pair_meets st p))
    refine ⟨h1, fun h => ?_⟩
    obtain ⟨hb, hk⟩ := h2 h
    rw [Bool.or_eq_false_iff] at hb
    exact ⟨hb.1, hk.trans (call_collision_object_keeps cfg k st p hb.2)⟩

/-- Part 3 of `handle_collisions` returns a body that no call of the pass finds
intersecting the other body of the pair exactly as it was. -/
theorem part3_keeps_unmet (cfg : Config) (l : List MovingObject) (k : Nat)
    (h : met_in_pass cfg k l = false) : (part3 cfg l).1[k]? = l[k]? := by
  rw [part3_eq_calls]
  exact ((met_fold_spec cfg k (moving_pairs l) (l, []) false).2 h).2

/-- A frame of `handle_collisions` on a body at rest that overlaps no solid and
that no call of the moving-vs-moving pass finds intersecting another body. -/
theorem frame_at_rest_unmet (cfg : Config) (sector : Sector) (k : Nat) (X : MovingObject)
    (hk : sector.moving_objects[k]? = some X)
    (hm : X.movement = Vector.zero)
    (htiles : ∀ solids ∈ sector.solid_tilemaps, free_of_solid_tiles cfg solids X.bbox)
    (hstat : free_of_static_bodies sector.moving_objects X.uid X.bbox)
    (hpair : met_in_frame cfg sector k = false)
    (r : Sector × List Event) (hr : handle_collisions cfg sector = some r) :
    ∃ X', r.1.moving_objects[k]? = some X' ∧ X'.bbox = X.bbox := by
  unfold handle_collisions at hr
  unfold met_in_frame at hpair
  cases hp : part1 cfg sector.solid_tilemaps [] (sector.moving_objects.map (compute_dest cfg)) with
  | none => simp [hp] at hr
  | some p =>
    obtain ⟨l1, ev1⟩ := p
    simp only [hp, Option.some.injEq] at hr
    simp only [hp, (part2_5_spec l1).1] at hpair
    subst hr
    simp only [(part2_5_spec l1).1, List.getElem?_map]
    obtain ⟨todo', h1, h2⟩ := part1_spec cfg sector.solid_tilemaps _ [] [] l1 ev1
      List.Forall₂.nil hp
    simp only [List.nil_append] at h1 h2
    subst h1
    have hk0 : (sector.moving_objects.map (compute_dest cfg))[k]? = some (compute_dest cfg X) := by
      rw [List.getElem?_map, hk]; rfl
    obtain ⟨b, hb, -, hfree⟩ := (forall₂_getElem? h2 k).1 _ hk0
    have hdest := compute_dest_at_rest cfg X hm
    have hbX : b = compute_dest cfg X := by
      apply hfree
      · rw [hdest]; exact htiles
      · rw [hdest]
        intro m' hm'
        rw [List.mem_map] at hm'
        obtain ⟨m, hmem, rfl⟩ := hm'
        exact hstat m hmem
    subst hbX
    rw [part3_keeps_unmet cfg _ k hpair, hb]
    exact ⟨_, rfl, hdest⟩


/-- C10 (as amended): a body with a zero movement vector whose rectangle overlaps
no solid (no solid tile of any layer, no valid static or moving-static body) and
whose destination no call of `collision_object` in the moving-vs-moving pass
finds intersecting the destination of the other body of the pair has, after one
frame of `handle_collisions`, the bounding box it had before; and the frame
returns whenever no assertion of the unisolid slope checks fails. -/
theorem zero_movement_frame (cfg : Config) (sector : Sector) (k : Nat) (X : MovingObject)
    (hk : sector.moving_objects[k]? = some X)
    (hm : X.movement = Vector.zero)
    (htiles : ∀ solids ∈ sector.solid_tilemaps, free_of_solid_tiles cfg solids X.bbox)
    (hstat : free_of_static_bodies sector.moving_objects X.uid X.bbox)
    (hpair : met_in_frame cfg sector k = false) :
    (slopes_well_formed sector.solid_tilemaps → ∃ r, handle_collisions cfg sector = some r)
    ∧ ∀ r, handle_collisions cfg sector = some r →
        ∃ X', r.1.moving_objects[k]? = some X' ∧ X'.bbox = X.bbox :=
  ⟨handle_collisions_some cfg sector,
    fun r hr => frame_at_rest_unmet cfg sector k X hk hm htiles hstat hpair r hr⟩

/-- The first loop of `handle_collisions` leaves the far body as it is. -/
theorem compute_dest_farBody : compute_dest exampleConfig farBody = farBody := by
  simp [compute_dest, MovingObject.get_movement, MovingObject.get_bbox, farBody, exampleBody,
    clamp_movement_zero, move_zero]

/-- The two bodies far apart contain no static body. -/
theorem apart_free_static (uid : Nat) (rect : Rectf) :
    free_of_static_bodies [overlapA CONTINUE, farBody] uid rect := by
  intro m hm hg _ _
  simp only [List.mem_cons, List.mem_singleton, List.not_mem_nil, or_false] at hm
  rcases hm with rfl | rfl <;> rcases hg with hg | hg <;> cases hg

/-- Part 1 leaves the two bodies far apart as they are: there is no solid. -/
theorem apart_part1 :
    part1 exampleConfig [] [] [overlapA CONTINUE, farBody]
      = some ([overlapA CONTINUE, farBody], []) := by
  have hA := collision_static_constrains_free exampleConfig
    ⟨[overlapA CONTINUE, farBody], []⟩ (overlapA CONTINUE)
    (by intro s hs; cases hs) (apart_free_static _ _)
  have hB := collision_static_constrains_free exampleConfig
    ⟨[overlapA CONTINUE, farBody], []⟩ farBody
    (by intro s hs; cases hs) (apart_free_static _ _)
  have eA : static_eligible (overlapA CONTINUE) = true := by decide
  have eB : static_eligible farBody = true := by decide
  simp [part1, eA, eB, hA, hB]

/-- In the sector of the two bodies far apart the pass makes one call, on the
pair of the two bodies, and finds their destinations apart. -/
theorem apart_unmet : met_in_frame exampleConfig apartSector 0 = false := by
  have hp : moving_pairs [overlapA CONTINUE, farBody] = [(0, 1)] := by decide
  have hi : intersects (overlapA CONTINUE).dest farBody.dest = false := by
    norm_num [intersects, overlapA, farBody, exampleBody]
  simp only [met_in_frame, apartSector, List.map_cons, List.map_nil, compute_dest_overlapA,
    compute_dest_farBody, apart_part1, (part2_5_spec [overlapA CONTINUE, farBody]).1,
    met_in_pass, hp, List.foldl_cons, List.foldl_nil, met_step, pair_meets,
    List.getElem?_cons_zero, List.getElem?_cons_succ, hi]
  rfl

/-- C10, at a concrete input: two valid moving bodies at rest, `(0, 0)-(32, 32)`
and `(100, 100)-(116, 116)`, in a sector without solids; the pass tests the pair
and finds the destinations apart, and the first body keeps its bounding box over
a frame. -/
theorem zero_movement_frame_witness :
    moving_eligible (overlapA CONTINUE) = true ∧ moving_eligible farBody = true
    ∧ ∃ r, handle_collisions exampleConfig apartSector = some r
      ∧ ∃ X', r.1.moving_objects[0]? = some X' ∧ X'.bbox = ⟨⟨0, 0⟩, ⟨32, 32⟩⟩ := by
  have h := zero_movement_frame exampleConfig apartSector 0 (overlapA CONTINUE) rfl rfl
    (by intro s hs; cases hs) (apart_free_static _ _) apart_unmet
  obtain ⟨r, hr⟩ := h.1 (fun solids hs => absurd hs (List.not_mem_nil solids))
  obtain ⟨X', h1, h2⟩ := h.2 r hr
  refine ⟨by decide, by decide, r, hr, X', h1, h2.trans ?_⟩
  norm_num [overlapA, exampleBody]


/-- The flag stays down over calls none of which involves the position `k`. -/
theorem met_fold_uninvolved (cfg : Config) (k : Nat) (ps : List (Nat × Nat))
    (h : ∀ p ∈ ps, p.1 ≠ k ∧ p.2 ≠ k) :
    ∀ st : List MovingObject × List Event,
      (ps.foldl (met_step cfg k) (st, false)).2 = false := by
  induction ps with
  | nil => intro st; rfl
  | cons p ps ih =>
    intro st
    obtain ⟨h1, h2⟩ := h p (List.mem_cons_self _ _)
    have e : met_step cfg k (st, false) p = (call_collision_object cfg st p, false) := by
      simp [met_step, h1, h2]
    rw [List.foldl_cons, e]
    exact ih (fun q hq => h q (List.mem_cons_of_mem _ hq)) _

/-- A body that is not a valid moving or moving-static body, or that is the only
such body of the index, is met by no call of the pass. -/
theorem met_in_pass_unpaired (cfg : Config) (l : List MovingObject) (k : Nat)
    (h : eligible_at l k = false ∨ ∀ j, j ≠ k → eligible_at l j = false) :
    met_in_pass cfg k l = false := by
  unfold met_in_pass
  apply met_fold_uninvolved
  intro p hp
  obtain ⟨i, i2⟩ := p
  obtain ⟨hlt, _, e1, e2⟩ := (mem_moving_pairs l i i2).1 hp
  rcases h with h | h
  · constructor
    · intro hk; subst hk; rw [h] at e1; exact Bool.noConfusion e1
    · intro hk; subst hk; rw [h] at e2; exact Bool.noConfusion e2
  · exfalso
    by_cases hi : i = k
    · have : i2 ≠ k := by omega
      rw [h i2 this] at e2
      exact Bool.noConfusion e2
    · rw [h i hi] at e1
      exact Bool.noConfusion e1

/-- In a frame, a body that is not a valid moving or moving-static body, or that
is the only such body of the index, is met by no call of the pass. -/
theorem met_in_frame_unpaired (cfg : Config) (sector : Sector) (k : Nat) (X : MovingObject)
    (hk : sector.moving_objects[k]? = some X)
    (hpair : moving_eligible X = false
      ∨ ∀ j m, j ≠ k → sector.moving_objects[j]? = some m → moving_eligible m = false) :
    met_in_frame cfg sector k = false := by
  unfold met_in_frame
  cases hp : part1 cfg sector.solid_tilemaps [] (sector.moving_objects.map (compute_dest cfg)) with
  | none => rfl
  | some p =>
    obtain ⟨l1, ev1⟩ := p
    simp only [(part2_5_spec l1).1]
    obtain ⟨todo', h1, h2⟩ := part1_spec cfg sector.solid_tilemaps _ [] [] l1 ev1
      List.Forall₂.nil hp
    simp only [List.nil_append] at h1 h2
    subst h1
    have he : ∀ j m, sector.moving_objects[j]? = some m → moving_eligible m = false →
        eligible_at l1 j = false := by
      intro j m hj hm
      have hj0 : (sector.moving_objects.map (compute_dest cfg))[j]?
          = some (compute_dest cfg m) := by
        rw [List.getElem?_map, hj]; rfl
      obtain ⟨b, hb, hsame, -⟩ := (forall₂_getElem? h2 j).1 _ hj0
      unfold eligible_at
      rw [hb]
      simp only
      rw [moving_eligible_same _ b hsame]
      exact (compute_dest_fields cfg m).2.2.2.2.trans hm
    apply met_in_pass_unpaired
    rcases hpair with hA | hB
    · exact Or.inl (he k X hk hA)
    · right
      intro j hj
      cases ho : sector.moving_objects[j]? with
      | none =>
        unfold eligible_at
        have hlen : l1.length = sector.moving_objects.length := by
          rw [← h2.length_eq, List.length_map]
        rw [List.getElem?_eq_none (by
          rw [hlen]
          exact (List.getElem?_eq_none_iff.1 ho))]
      | some o => exact he j o ho (hB j o hj ho)

/-- The call of the pass on the overlapping pair finds the destinations
intersecting: the frame of the two overlapping bodies is not one of the amended
claim. -/
theorem overlap_met : met_in_frame exampleConfig overlapSector 0 = true := by
  have hp : moving_pairs [overlapA CONTINUE, overlapB CONTINUE] = [(0, 1)] := by decide
  have hi : intersects (overlapA CONTINUE).dest (overlapB CONTINUE).dest = true := by
    norm_num [intersects, overlapA, overlapB, exampleBody]
  simp only [met_in_frame, overlapSector, List.map_cons, List.map_nil, compute_dest_overlapA,
    compute_dest_overlapB, overlap_part1,
    (part2_5_spec [overlapA CONTINUE, overlapB CONTINUE]).1,
    met_in_pass, hp, List.foldl_cons, List.foldl_nil, met_step, pair_meets,
    List.getElem?_cons_zero, List.getElem?_cons_succ, hi]
  rfl


/-- The first loop of `handle_collisions` leaves the neighbour as it is. -/
theorem compute_dest_neighbourBody :
    compute_dest exampleConfig neighbourBody = neighbourBody := by
  simp [compute_dest, MovingObject.get_movement, MovingObject.get_bbox, neighbourBody,
    exampleBody, clamp_movement_zero, move_zero]

/-- The three bodies of `chainSector` contain no static body. -/
theorem chain_free_static (uid : Nat) (rect : Rectf) :
    free_of_static_bodies [overlapA CONTINUE, overlapB CONTINUE, neighbourBody] uid rect := by
  intro m hm hg _ _
  simp only [List.mem_cons, List.mem_singleton, List.not_mem_nil, or_false] at hm
  rcases hm with rfl | rfl | rfl <;> rcases hg with hg | hg <;> cases hg

/-- Part 1 leaves the three bodies as they are: there is no solid. -/
theorem chain_part1 :
    part1 exampleConfig [] [] [overlapA CONTINUE, overlapB CONTINUE, neighbourBody]
      = some ([overlapA CONTINUE, overlapB CONTINUE, neighbourBody], []) := by
  have hA := collision_static_constrains_free exampleConfig
    ⟨[overlapA CONTINUE, overlapB CONTINUE, neighbourBody], []⟩ (overlapA CONTINUE)
    (by intro s hs; cases hs) (chain_free_static _ _)
  have hB := collision_static_constrains_free exampleConfig
    ⟨[overlapA CONTINUE, overlapB CONTINUE, neighbourBody], []⟩ (overlapB CONTINUE)
    (by intro s hs; cases hs) (chain_free_static _ _)
  have hC := collision_static_constrains_free exampleConfig
    ⟨[overlapA CONTINUE, overlapB CONTINUE, neighbourBody], []⟩ neighbourBody
    (by intro s hs; cases hs) (chain_free_static _ _)
  have eA : static_eligible (overlapA CONTINUE) = true := by decide
  have eB : static_eligible (overlapB CONTINUE) = true := by decide
  have eC : static_eligible neighbourBody = true := by decide
  simp [part1, eA, eB, eC, hA, hB, hC]

/-- Part 3 on the three bodies: the first call pushes the first body 5.02 units
to the left, into the neighbour, and the second call pushes the neighbour. -/
theorem chain_part3 :
    ((part3 exampleConfig [overlapA CONTINUE, overlapB CONTINUE, neighbourBody]).1[2]?).map
        (fun o => o.dest)
      = some ⟨⟨-(887901 / 25000), 0⟩, ⟨-(87901 / 25000), 32⟩⟩ := by
  have hp : moving_pairs [overlapA CONTINUE, overlapB CONTINUE, neighbourBody]
      = [(0, 1), (0, 2), (1, 2)] := by decide
  rw [part3_eq_calls, hp]
  norm_num [call_collision_object, pair_step, collision_object, get_hit_normal, intersects,
    overlapA, overlapB, neighbourBody, exampleBody, exampleConfig, Rectf.get_bottom,
    Rectf.get_top, Rectf.get_left, Rectf.get_right, Rectf.move, Vector.add, Vector.scale,
    Vector.neg, Vector.zero, CollisionHit.swapped]

/-- A resting body that overlaps no solid and no other body at the start of the
frame can still be met during the pass: in `chainSector` the neighbour
`(-34, 0)-(-2, 32)` intersects neither of the two other bodies, the first call
of the pass pushes the first body into it, the second call finds the two
destinations intersecting, and the neighbour ends the frame with another
bounding box. -/
theorem pushed_into_neighbour :
    chainSector.moving_objects[2]? = some neighbourBody
    ∧ neighbourBody.movement = Vector.zero
    ∧ intersects neighbourBody.bbox (overlapA CONTINUE).bbox = false
    ∧ intersects neighbourBody.bbox (overlapB CONTINUE).bbox = false
    ∧ met_in_frame exampleConfig chainSector 2 = true
    ∧ ∃ r X', handle_collisions exampleConfig chainSector = some r
      ∧ r.1.moving_objects[2]? = some X'
      ∧ X'.bbox = ⟨⟨-(887901 / 25000), 0⟩, ⟨-(87901 / 25000), 32⟩⟩
      ∧ X'.bbox ≠ neighbourBody.bbox := by
  have hframe : handle_collisions exampleConfig chainSector
      = some (⟨((part3 exampleConfig
              [overlapA CONTINUE, overlapB CONTINUE, neighbourBody]).1).map apply_movement, []⟩,
          [] ++ part2 exampleConfig [] [overlapA CONTINUE, overlapB CONTINUE, neighbourBody]
            ++ (part2_5 [overlapA CONTINUE, overlapB CONTINUE, neighbourBody]).2
            ++ (part3 exampleConfig
                (part2_5 [overlapA CONTINUE, overlapB CONTINUE, neighbourBody]).1).2) := by
    simp only [handle_collisions, chainSector, List.map_cons, List.map_nil,
      compute_dest_overlapA, compute_dest_overlapB, compute_dest_neighbourBody, chain_part1,
      (part2_5_spec [overlapA CONTINUE, overlapB CONTINUE, neighbourBody]).1]
  have h3 := chain_part3
  cases ho : (part3 exampleConfig [overlapA CONTINUE, overlapB CONTINUE, neighbourBody]).1[2]? with
  | none => rw [ho] at h3; exact Option.noConfusion h3
  | some o =>
    rw [ho, Option.map_some', Option.some.injEq] at h3
    refine ⟨rfl, rfl, ?_, ?_, ?_, _, apply_movement o, hframe, ?_, ?_, ?_⟩
    · norm_num [intersects, neighbourBody, overlapA, exampleBody]
    · norm_num [intersects, neighbourBody, overlapB, exampleBody]
    · by_contra hn
      have hn' : met_in_frame exampleConfig chainSector 2 = false := by simpa using hn
      have hu : met_in_pass exampleConfig 2
          [overlapA CONTINUE, overlapB CONTINUE, neighbourBody] = false := by
        simpa only [met_in_frame, chainSector, List.map_cons, List.map_nil,
          compute_dest_overlapA, compute_dest_overlapB, compute_dest_neighbourBody,
          chain_part1, (part2_5_spec [overlapA CONTINUE, overlapB CONTINUE, neighbourBody]).1]
          using hn'
      have hk := part3_keeps_unmet exampleConfig _ 2 hu
      rw [ho] at hk
      have : o = neighbourBody := Option.some.inj hk
      rw [this] at h3
      norm_num [neighbourBody, exampleBody] at h3
    · simp only [List.getElem?_map, ho, Option.map_some']
    · simp only [apply_movement]
      exact h3
    · simp only [apply_movement, h3]
      norm_num [neighbourBody, exampleBody]

end SuperTux
